import Mathlib

/-!
# snapraid scrub engine: shallow embedding of `scrub.c`

The two functions of `scrub.c`, `state_scrub_process` and `state_scrub`, are
translated to pure Lean functions over an explicit state.

* Catalog state (`snapraid_state`): the info array, the per-disk blocks with
  their stored hashes, options, `need_write`.
* Locals of `state_scrub_process` (`Proc`): counters, rehash staging buffers,
  stripe buffers, and the trace of every call made to an outside collaborator
  and of every line printed.
* Collaborators whose code lives in other files (`elem.h`, `handle.c`,
  `parity.c`, `raid.c`, `util.c`) are parameters: pure helpers in `Helpers`,
  answers of I/O calls in `World`, indexed by the call site (stripe `i`,
  disk slot `j`).  Each `(i, j)` is reached at most once in a run, so this
  indexing loses no generality.

Integer model: `block_off_t` and `unsigned` values are `Nat`, with an explicit
`% 2 ^ 32` at the two decrements that can pass below zero (`countlimit - 1`,
`--autosavemissing`), at the increments of the `unsigned` counters `error` and
`silent_error`, and in the quotient of line 121; `time_t` and `int` are `Int`.
A hash (`unsigned char [HASH_SIZE]`)
is one value of type `hash_t`: `memcmp` over `HASH_SIZE` bytes is equality and
`memcpy` is assignment.  An info word (`snapraid_info`) is a `Nat`.
-/

namespace Scrub

abbrev hash_t := Nat
abbrev bytes := List Nat

/-- Range of `block_off_t` (a 32-bit unsigned integer). -/
def U32 : Nat := 2 ^ 32

/-- Pointwise update of a map: `upd f a v` is `f` with `f a := v`. -/
def upd {β : Type} (f : Nat → β) (a : Nat) (v : β) : Nat → β :=
  fun k => if k = a then v else f k

/-- Pure helpers defined outside `scrub.c`, taken as parameters: the info-word
accessors of `elem.h`, the hash primitive and the parity codec. -/
structure Helpers where
  info_get_time : Nat → Int
  info_get_bad : Nat → Bool
  info_get_rehash : Nat → Bool
  info_set_bad : Nat → Nat
  info_make : Int → Int → Int → Nat
  /-- Value `memhash(kind, seed, out, data, size)` writes to `out`. -/
  memhash : Nat → Nat → bytes → hash_t
  /-- Buffers after `raid_gen(level, buffer, diskmax, block_size)`. -/
  raid_gen : Nat → (Nat → bytes) → Nat → Nat → (Nat → bytes)

/-- Live file attributes found in `handle[j].st` after `handle_open`. -/
structure stat_t where
  st_size : Int
  st_mtime : Int
  st_nsec : Int
  st_ino : Nat
deriving DecidableEq

/-- Answers of the I/O collaborators, by call site. -/
structure World where
  /-- Identity of `handle[j].file` when stripe `i` reaches disk `j`. -/
  handle_file : Nat → Nat → Option Nat
  /-- Result of `handle_close(&handle[j])` inside stripe `i`. -/
  handle_close : Nat → Nat → Int
  /-- Result of `handle_open(&handle[j], ...)` inside stripe `i`. -/
  handle_open : Nat → Nat → Int
  /-- Content of `handle[j].st` after that open. -/
  handle_st : Nat → Nat → stat_t
  /-- Result of `handle_read` and the content it leaves in `buffer[j]`. -/
  handle_read : Nat → Nat → Int × bytes
  /-- Result of `parity_read(parity, i, ...)` and the buffer content. -/
  parity_read : Nat → Int × bytes
  /-- Result of `parity_read(qarity, i, ...)` and the buffer content. -/
  qarity_read : Nat → Int × bytes
  /-- Result of `state_progress(state, i, countpos, ...)`: true asks to stop. -/
  state_progress : Nat → Nat → Bool
  /-- Result of `handle_close(&handle[j])` in the cleanup loop. -/
  handle_close_end : Nat → Int
  /-- Content of the freshly allocated rehash buffers. -/
  rehandle0 : Nat → hash_t
  /-- Content of the freshly allocated stripe buffers. -/
  buffer0 : Nat → bytes
  /-- Result of `parity_size(state)`. -/
  parity_size : Nat
  parity_open : Int
  qarity_open : Int
  parity_close : Int
  qarity_close : Int

/-- File record of the catalog (`struct snapraid_file`), with pointer identity `id`. -/
structure snapraid_file where
  id : Nat
  size : Int
  mtime_sec : Int
  mtime_nsec : Int
  inode : Nat
deriving DecidableEq

/-- Block record of the catalog: `file` is `block_file_get` (`none` when
`block_has_file` is false), `has_hash` is `block_has_hash`, `hash` is the
storage `block->hash`. -/
structure snapraid_block where
  file : Option snapraid_file
  has_hash : Bool
  hash : hash_t
deriving DecidableEq

structure snapraid_option where
  force_scrub_even : Bool
  force_scrub : Nat
  expect_recoverable : Bool
  skip_sequential : Bool
deriving DecidableEq

/-- The part of `struct snapraid_state` read or written by scrub.  `diskmax` and
`disk` are what `handle_map` returns (`disk j` tells whether `handle[j].disk`
is non-null); `block j i` is `disk_block_get(handle[j].disk, i)`. -/
structure snapraid_state where
  infoarr : Nat → Nat
  level : Nat
  block_size : Nat
  autosave : Nat
  hash : Nat
  hashseed : Nat
  prevhash : Nat
  prevhashseed : Nat
  opt : snapraid_option
  need_write : Bool
  diskmax : Nat
  disk : Nat → Bool
  block : Nat → Nat → snapraid_block

/-- Rehash staging slot `struct snapraid_rehash`; `block` points to the catalog
block at (disk slot, index). -/
structure snapraid_rehash where
  hash : hash_t
  block : Option (Nat × Nat)
deriving DecidableEq

/-- Calls to collaborators and printed lines, in program order. -/
inductive Event where
  | call_handle_close (i : Nat) (j : Nat)
  | call_handle_open (i : Nat) (j : Nat)
  | call_handle_read (i : Nat) (j : Nat)
  | call_memhash (i : Nat) (j : Nat) (kind : Nat)
  | call_parity_read (i : Nat)
  | call_qarity_read (i : Nat)
  | call_raid_gen (i : Nat)
  | log_open_error (i : Nat) (j : Nat)
  | log_read_error (i : Nat) (j : Nat)
  | log_data_error (i : Nat) (j : Nat)
  | log_parity_read_error (i : Nat)
  | log_qarity_read_error (i : Nat)
  | log_parity_data_error (i : Nat)
  | log_qarity_data_error (i : Nat)
  | print_stopping (i : Nat)
  | progress_begin (blockstart blockmax countmax : Nat)
  | progress (i : Nat) (countpos countmax : Nat) (countsize : Int)
  | progress_end (countpos countmax : Nat) (countsize : Int)
  | autosave (i : Nat)
  | print_errors (n : Nat)
  | print_silent_errors (n : Nat)
  | print_no_error
  | danger_close (j : Nat)
deriving DecidableEq

/-- Stripe an event belongs to, if any. -/
def Event.stripe : Event → Option Nat
  | .call_handle_close i _ => some i
  | .call_handle_open i _ => some i
  | .call_handle_read i _ => some i
  | .call_memhash i _ _ => some i
  | .call_parity_read i => some i
  | .call_qarity_read i => some i
  | .call_raid_gen i => some i
  | .log_open_error i _ => some i
  | .log_read_error i _ => some i
  | .log_data_error i _ => some i
  | .log_parity_read_error i => some i
  | .log_qarity_read_error i => some i
  | .log_parity_data_error i => some i
  | .log_qarity_data_error i => some i
  | .print_stopping i => some i
  | .progress i _ _ _ => some i
  | .autosave i => some i
  | _ => none

/-- Is the event an `error:<i>:...` line of the structured log? -/
def Event.is_error_log : Event → Bool
  | .log_open_error _ _ => true
  | .log_read_error _ _ => true
  | .log_data_error _ _ => true
  | .log_parity_read_error _ => true
  | .log_qarity_read_error _ => true
  | .log_parity_data_error _ => true
  | .log_qarity_data_error _ => true
  | _ => false

/-- Stripe handed to `state_progress`, for a progress call. -/
def Event.visit_index : Event → Option Nat
  | .progress i _ _ _ => some i
  | _ => none

/-- Stripes handed to `state_progress`, i.e. the stripes visited, in order. -/
def visited (es : List Event) : List Nat :=
  es.filterMap Event.visit_index

/-- Locals of `state_scrub_process` together with the catalog it mutates. -/
structure Proc where
  state : snapraid_state
  rehandle : Nat → snapraid_rehash
  buffer : Nat → bytes
  countsize : Int
  countpos : Nat
  countmax : Nat
  recountmax : Nat
  autosavedone : Nat
  autosavelimit : Nat
  autosavemissing : Nat
  error : Nat
  silent_error : Nat
  trace : List Event

/-- Per-stripe flags of the processing loop. -/
structure Locals where
  error_on_this_block : Bool
  silent_error_on_this_block : Bool
  block_is_unsynched : Bool

/-- How a loop body ends: falls through or `continue` (`next`), `break`, or
`goto bail`. -/
inductive Flow where
  | next
  | brk
  | bail
deriving DecidableEq

/-! ## `state_scrub_process`, counting pass (lines 79-116) -/

/-- Body of the counting loop for index `i`; returns the new `countmax`. -/
def count_iter (x : Helpers) (state : snapraid_state) (timelimit : Int)
    (countlimit : Nat) (i : Nat) (countmax : Nat) : Nat :=
  let info := state.infoarr i
  if info = 0 then countmax
  else if !x.info_get_bad info then
    let blocktime := x.info_get_time info
    if blocktime > timelimit then countmax
    else if state.opt.force_scrub_even && i % 2 != 0 then countmax
    else if countmax ≥ countlimit then countmax
    else countmax + 1
  else countmax + 1

/-- Counting loop: `n` indices remain, starting at `i`. -/
def count_loop (x : Helpers) (state : snapraid_state) (timelimit : Int)
    (countlimit : Nat) : Nat → Nat → Nat → Nat
  | 0, _, countmax => countmax
  | n + 1, i, countmax =>
    count_loop x state timelimit countlimit n (i + 1)
      (count_iter x state timelimit countlimit i countmax)

/-! ## `state_scrub_process`, processing pass (lines 125-399) -/

/-- Append events to the trace. -/
def Proc.emit (p : Proc) (es : List Event) : Proc :=
  { p with trace := p.trace ++ es }

/-- The statement `++error` on the `unsigned error` of line 58. -/
def Proc.incr_error (p : Proc) : Proc :=
  { p with error := (p.error + 1) % U32 }

/-- The statement `++silent_error` on the `unsigned silent_error` of line 59. -/
def Proc.incr_silent_error (p : Proc) : Proc :=
  { p with silent_error := (p.silent_error + 1) % U32 }

/-- The statement `countsize += read_size`. -/
def Proc.add_countsize (p : Proc) (n : Int) : Proc :=
  { p with countsize := p.countsize + n }

/-- Overwrite the content of `buffer[k]`. -/
def Proc.set_buffer (p : Proc) (k : Nat) (v : bytes) : Proc :=
  { p with buffer := upd p.buffer k v }

/-- Overwrite the staging slot `rehandle[j]`. -/
def Proc.set_rehandle (p : Proc) (j : Nat) (r : snapraid_rehash) : Proc :=
  { p with rehandle := upd p.rehandle j r }

/-- The call `info_set(&state->infoarr, i, v)`. -/
def Proc.info_set (p : Proc) (i : Nat) (v : Nat) : Proc :=
  { p with state := { p.state with infoarr := upd p.state.infoarr i v } }

/-- Hash comparison of lines 269-284 for the block of disk `j`: `hash` is the
hash computed from the bytes read. -/
def hash_compare (i : Nat) (j : Nat) (block : snapraid_block) (hash : hash_t)
    (file_is_unsynched : Bool) (pl : Proc × Locals) : Proc × Locals :=
  if block.has_hash && decide (hash ≠ block.hash) then
    let p := pl.1.incr_error.emit [.log_data_error i j]
    if file_is_unsynched then
      (p, { pl.2 with error_on_this_block := true })
    else
      (p.incr_silent_error, { pl.2 with silent_error_on_this_block := true })
  else pl

/-- Hashing of the bytes read from disk `j` (lines 256-284): `read_size` bytes
of `buffer[j]` are hashed, staged when `rehash` is set, and compared. -/
def disk_hash (x : Helpers) (i : Nat) (rehash : Bool) (j : Nat) (block : snapraid_block)
    (file_is_unsynched : Bool) (read_size : Int) (pl : Proc × Locals) : Proc × Locals :=
  let p := pl.1.add_countsize read_size
  let data := (p.buffer j).take read_size.toNat
  if rehash then
    let hash := x.memhash p.state.prevhash p.state.prevhashseed data
    let p := p.emit [.call_memhash i j p.state.prevhash]
    let p := p.set_rehandle j
      { hash := x.memhash p.state.hash p.state.hashseed data, block := some (j, i) }
    let p := p.emit [.call_memhash i j p.state.hash]
    hash_compare i j block hash file_is_unsynched (p, pl.2)
  else
    let hash := x.memhash p.state.hash p.state.hashseed data
    let p := p.emit [.call_memhash i j p.state.hash]
    hash_compare i j block hash file_is_unsynched (p, pl.2)

/-- Does the live `stat` of the opened file differ from the catalog record
(the test of lines 234-238)? -/
def file_changed (st : stat_t) (file : snapraid_file) : Bool :=
  decide (st.st_size ≠ file.size) || decide (st.st_mtime ≠ file.mtime_sec)
    || decide (st.st_nsec ≠ file.mtime_nsec) || decide (st.st_ino ≠ file.inode)

/-- Body of the per-disk loop for disk slot `j` of stripe `i` (lines 185-285).
`rehash` is `info_get_rehash(info)` of the stripe.  `Flow.bail` is the
`goto bail` after a failed `handle_close`. -/
def disk_iter (x : Helpers) (w : World) (i : Nat) (rehash : Bool) (j : Nat)
    (pl : Proc × Locals) : Flow × (Proc × Locals) :=
  let l := pl.2
  -- rehandle[j].block = 0
  let p := pl.1.set_rehandle j { hash := (pl.1.rehandle j).hash, block := none }
  if !p.state.disk j then
    -- memset(buffer[j], 0, block_size); continue
    (.next, (p.set_buffer j (List.replicate p.state.block_size 0), l))
  else
    let block := p.state.block j i
    match block.file with
    | none =>
      (.next, (p.set_buffer j (List.replicate p.state.block_size 0), l))
    | some file =>
      if w.handle_file i j ≠ some file.id ∧ w.handle_close i j = -1 then
        (.bail, ((p.emit [.call_handle_close i j]).incr_error.emit [.print_stopping i], l))
      else
        let p := p.emit (if w.handle_file i j ≠ some file.id then [.call_handle_close i j] else [])
        let p := p.emit [.call_handle_open i j]
        if w.handle_open i j = -1 then
          (.next, (p.incr_error.emit [.log_open_error i j], { l with error_on_this_block := true }))
        else
          let file_is_unsynched := file_changed (w.handle_st i j) file
          let l := if file_is_unsynched then { l with block_is_unsynched := true } else l
          let read_size := (w.handle_read i j).1
          let p := (p.set_buffer j (w.handle_read i j).2).emit [.call_handle_read i j]
          if read_size = -1 then
            (.next, (p.incr_error.emit [.log_read_error i j], { l with error_on_this_block := true }))
          else
            (.next, disk_hash x i rehash j block file_is_unsynched read_size (p, l))

/-- The loop `for (j = 0; j < diskmax; ++j)` of lines 185-285: `n` slots remain,
starting at `j`. -/
def disk_loop (x : Helpers) (w : World) (i : Nat) (rehash : Bool) :
    Nat → Nat → Proc × Locals → Flow × (Proc × Locals)
  | 0, _, pl => (.next, pl)
  | n + 1, j, pl =>
    match disk_iter x w i rehash j pl with
    | (.next, pl1) => disk_loop x w i rehash n (j + 1) pl1
    | r => r

/-- A parity read (lines 302-308 for P, 312-318 for Q): the data lands in
`buffer[b]`; on failure the error is logged and counted. -/
def parity_fetch (b : Nat) (r : Int × bytes) (call : Event) (ev : Event) (pl : Proc × Locals) :
    Proc × Locals :=
  let p := (pl.1.set_buffer b r.2).emit [call]
  if r.1 = -1 then
    (p.incr_error.emit [ev], { pl.2 with error_on_this_block := true })
  else (p, pl.2)

/-- One parity comparison (lines 325-336 for P, 338-349 for Q): `differs` is the
result of `buffer_parity && memcmp(...) != 0`, `ev` the line logged. -/
def parity_compare (differs : Bool) (ev : Event) (pl : Proc × Locals) : Proc × Locals :=
  if differs then
    let p := pl.1.incr_error.emit [ev]
    if pl.2.block_is_unsynched then
      (p, { pl.2 with error_on_this_block := true })
    else
      (p.incr_silent_error, { pl.2 with silent_error_on_this_block := true })
  else pl

/-- The test `ptr && memcmp(buffer[k], ptr, block_size) != 0`, where `ptr` is the
buffer index `b` or a null pointer (`none`). -/
def parity_differs (p : Proc) (k : Nat) (ptr : Option Nat) : Bool :=
  match ptr with
  | none => false
  | some b => decide ((p.buffer k).take p.state.block_size ≠ (p.buffer b).take p.state.block_size)

/-- The stripe after the parity reads and `raid_gen` (lines 289-322), with the
two pointers to the parity read from disk: buffer indices, `none` for a null
pointer. -/
structure ParityLoad where
  pl : Proc × Locals
  buffer_parity : Option Nat
  buffer_qarity : Option Nat

/-- Lines 289-322 of the parity check: choose the buffers, read P, read Q when
`level >= 2`, compute the parity of the data buffers. -/
def parity_load (x : Helpers) (w : World) (i : Nat) (pl : Proc × Locals) : ParityLoad :=
  let diskmax := pl.1.state.diskmax
  let level := pl.1.state.level
  let block_size := pl.1.state.block_size
  let buffer_parity : Nat := if level = 1 then diskmax + 1 else diskmax + 2
  let buffer_qarity : Option Nat := if level = 1 then none else some (diskmax + 3)
  -- read the parity
  let pl := parity_fetch buffer_parity (w.parity_read i) (.call_parity_read i)
    (.log_parity_read_error i) pl
  -- read the qarity
  let pl :=
    if level ≥ 2 then
      parity_fetch (buffer_qarity.getD 0) (w.qarity_read i) (.call_qarity_read i)
        (.log_qarity_read_error i) pl
    else pl
  -- compute the parity
  { pl := (({ pl.1 with buffer := x.raid_gen level pl.1.buffer diskmax block_size } : Proc).emit
      [.call_raid_gen i], pl.2)
    buffer_parity := if (w.parity_read i).1 = -1 then none else some buffer_parity
    buffer_qarity := if level ≥ 2 ∧ (w.qarity_read i).1 = -1 then none else buffer_qarity }

/-- Lines 324-350 of the parity check: compare the computed P, and Q when
`level >= 2`, with what was read. -/
def parity_verdict (i : Nat) (q : ParityLoad) : Proc × Locals :=
  let diskmax := q.pl.1.state.diskmax
  let pl := parity_compare (parity_differs q.pl.1 diskmax q.buffer_parity)
    (.log_parity_data_error i) q.pl
  if q.pl.1.state.level ≥ 2 then
    parity_compare (parity_differs q.pl.1 (diskmax + 1) q.buffer_qarity)
      (.log_qarity_data_error i) pl
  else pl

/-- The parity check of lines 287-351, made only when no error was found in
the data. -/
def parity_check (x : Helpers) (w : World) (i : Nat) (pl : Proc × Locals) :
    Proc × Locals :=
  if !pl.2.error_on_this_block && !pl.2.silent_error_on_this_block then
    parity_verdict i (parity_load x w i pl)
  else pl

/-- The statement `memcpy(block->hash, h, HASH_SIZE)` for the catalog block of disk
slot `d` at index `k`. -/
def Proc.hash_set (p : Proc) (d : Nat) (k : Nat) (h : hash_t) : Proc :=
  { p with state := { p.state with
      block := upd p.state.block d (upd (p.state.block d) k { (p.state.block d k) with hash := h }) } }

/-- The commit loop of lines 363-366: copy every staged hash into its block. -/
def rehash_commit : Nat → Nat → Proc → Proc
  | 0, _, p => p
  | n + 1, j, p =>
    rehash_commit n (j + 1)
      (match (p.rehandle j).block with
        | some (d, k) => p.hash_set d k (p.rehandle j).hash
        | none => p)

/-- Outcome bookkeeping of lines 353-372 for stripe `i` whose info word on
entry was `info`. -/
def outcome (x : Helpers) (now : Int) (i : Nat) (info : Nat)
    (rehash : Bool) (pl : Proc × Locals) : Proc :=
  if pl.2.silent_error_on_this_block then
    pl.1.info_set i (x.info_set_bad info)
  else if pl.2.error_on_this_block then
    pl.1
  else
    (if rehash then rehash_commit pl.1.state.diskmax 0 pl.1 else pl.1).info_set i
      (x.info_make now 0 0)

/-- Data and parity verification of a visited stripe (lines 174-351): the
flags are reset, every disk is read and hashed, then parity is checked. -/
def verify (x : Helpers) (w : World) (i : Nat) (rehash : Bool) (p : Proc) :
    Flow × (Proc × Locals) :=
  let l : Locals :=
    { error_on_this_block := false, silent_error_on_this_block := false,
      block_is_unsynched := false }
  match disk_loop x w i rehash p.state.diskmax 0 (p, l) with
  | (.next, pl) => (.next, parity_check x w i pl)
  | r => r

/-- What follows the bookkeeping (lines 374-398): dirty flag, count, progress
callback (may `break`), autosave. -/
def finish_stripe (w : World) (i : Nat) (p : Proc) : Flow × Proc :=
  let p := { p with state := { p.state with need_write := true } }
  let p := { p with countpos := p.countpos + 1 }
  let p := p.emit [.progress i p.countpos p.countmax p.countsize]
  if w.state_progress i p.countpos then
    (.brk, p)
  else if p.state.autosave ≠ 0 ∧ p.autosavedone ≥ p.autosavelimit
      ∧ p.autosavemissing ≥ p.autosavelimit then
    (.next, { p with autosavedone := 0 }.emit [.autosave i])
  else
    (.next, p)

/-- The counters bumped when a stripe is selected (lines 168-172):
`++recountmax; ++autosavedone; --autosavemissing`. -/
def Proc.count_visit (p : Proc) : Proc :=
  { p with
    recountmax := p.recountmax + 1
    autosavedone := p.autosavedone + 1
    autosavemissing := (p.autosavemissing + U32 - 1) % U32 }

/-- A selected stripe (lines 168-398). -/
def visit (x : Helpers) (w : World) (now : Int) (i : Nat) (info : Nat)
    (p : Proc) : Flow × Proc :=
  let rehash := x.info_get_rehash info
  match verify x w i rehash p.count_visit with
  | (.next, pl) => finish_stripe w i (outcome x now i info rehash pl)
  | (f, pl) => (f, pl.1)

/-- Body of the processing loop for index `i` (lines 129-399). -/
def process_iter (x : Helpers) (w : World) (now : Int) (timelimit : Int)
    (countlimit : Nat) (i : Nat) (p : Proc) : Flow × Proc :=
  let info := p.state.infoarr i
  if info = 0 then (.next, p)
  else if !x.info_get_bad info then
    let blocktime := x.info_get_time info
    if blocktime > timelimit then (.next, p)
    else if p.state.opt.force_scrub_even && i % 2 != 0 then (.next, p)
    else if p.recountmax ≥ countlimit then (.next, p)
    else visit x w now i info p
  else visit x w now i info p

/-- Processing loop: `n` indices remain, starting at `i`. -/
def process_loop (x : Helpers) (w : World) (now : Int) (timelimit : Int)
    (countlimit : Nat) : Nat → Nat → Proc → Flow × Proc
  | 0, _, p => (.next, p)
  | n + 1, i, p =>
    match process_iter x w now timelimit countlimit i p with
    | (.next, p1) => process_loop x w now timelimit countlimit n (i + 1) p1
    | r => r

/-- Summary printed after the loop (lines 401-410). -/
def summary (p : Proc) : Proc :=
  let p := p.emit [.progress_end p.countpos p.countmax p.countsize]
  p.emit
    (if p.error ≠ 0 ∨ p.silent_error ≠ 0 then
      [.print_errors p.error, .print_silent_errors p.silent_error]
    else if p.countpos ≠ 0 then [.print_no_error]
    else [])

/-- Cleanup loop at `bail:` (lines 413-420). -/
def close_loop (w : World) : Nat → Nat → Proc → Proc
  | 0, _, p => p
  | n + 1, j, p =>
    close_loop w n (j + 1)
      (if w.handle_close_end j = -1 then p.incr_error.emit [.danger_close j] else p)

/-- Result of `state_scrub_process`: the return value, the way the processing
loop ended, and the final locals and catalog. -/
structure ProcessResult where
  ret : Int
  flow : Flow
  final : Proc

/-- The quotient of line 121, `state->autosave / (diskmax * state->block_size)`,
as stored in the `block_off_t autosavelimit` of line 55: the product of the two
32-bit unsigned values is taken modulo `2 ^ 32`, and the quotient is cut to 32
bits by the assignment.  When the divisor is 0 the division is undefined in C:
there is no result. -/
def autosave_limit (state : snapraid_state) : Option Nat :=
  let divisor := (state.diskmax * state.block_size) % U32
  if divisor = 0 then none
  else some ((state.autosave / divisor) % U32)

/-- Locals on entry to the processing loop (lines 62-128); `autosavelimit` is
the quotient line 121 stores. -/
def process_init (x : Helpers) (w : World) (state : snapraid_state)
    (blockstart blockmax : Nat) (timelimit : Int) (countlimit : Nat)
    (autosavelimit : Nat) : Proc :=
  let countmax := count_loop x state timelimit countlimit (blockmax - blockstart) blockstart 0
  { state := state
    rehandle := fun j => { hash := w.rehandle0 j, block := none }
    buffer := w.buffer0
    countsize := 0
    countpos := 0
    countmax := countmax
    recountmax := 0
    autosavedone := 0
    autosavelimit := autosavelimit
    autosavemissing := countmax
    error := 0
    silent_error := 0
    trace := [.progress_begin blockstart blockmax countmax] }

/-- The function `state_scrub_process` once line 121 has stored `autosavelimit`:
processing loop, summary, cleanup and return value (lines 125-435). -/
def process_run (x : Helpers) (w : World) (state : snapraid_state)
    (blockstart blockmax : Nat) (timelimit : Int) (countlimit : Nat)
    (now : Int) (autosavelimit : Nat) : ProcessResult :=
  let p0 := process_init x w state blockstart blockmax timelimit countlimit autosavelimit
  let r := process_loop x w now timelimit countlimit (blockmax - blockstart) blockstart p0
  let p1 := if r.1 = .bail then r.2 else summary r.2
  let p2 := close_loop w p1.state.diskmax 0 p1
  let ret : Int :=
    if p2.state.opt.expect_recoverable then (if p2.error = 0 then -1 else 0)
    else (if p2.error ≠ 0 then -1 else 0)
  { ret := ret, flow := r.1, final := p2 }

/-- The function `state_scrub_process` of `scrub.c`: no result when line 121
divides by zero. -/
def state_scrub_process (x : Helpers) (w : World) (state : snapraid_state)
    (blockstart blockmax : Nat) (timelimit : Int) (countlimit : Nat)
    (now : Int) : Option ProcessResult :=
  match autosave_limit state with
  | none => none
  | some autosavelimit =>
    some (process_run x w state blockstart blockmax timelimit countlimit now autosavelimit)

/-! ## `state_scrub` (lines 437-565) -/

/-- Ways `state_scrub` stops without a return value: the three
`exit(EXIT_FAILURE)`, the read of `infomap[index]` outside the `count` copied
words, and the division by zero of line 121 in `state_scrub_process`. -/
inductive Fatal where
  | empty_array
  | index_out_of_bounds (index count : Nat)
  | parity_open
  | qarity_open
  | division_by_zero
deriving DecidableEq

/-- The quota and recency floor chosen from the options (lines 461-475). -/
def option_limits (state : snapraid_state) (blockmax : Nat) (now : Int) :
    Nat × Int :=
  if state.opt.force_scrub_even then (blockmax, now)
  else if state.opt.force_scrub ≠ 0 then (state.opt.force_scrub, now)
  else (blockmax / 12, now - 10 * 24 * 3600)

/-- The temp vector `infomap` after the copy loop of lines 483-492: the
non-zero info words of indices `0 .. blockmax - 1`, in index order. -/
def infomap (state : snapraid_state) (blockmax : Nat) : List Nat :=
  ((List.range blockmax).map state.infoarr).filter (fun info => info ≠ 0)

/-- Modelled from the spec: `qsort(infomap, count, sizeof(snapraid_info),
info_time_compare)`; the comparator `info_time_compare` is not in `scrub.c`
and is described as "ascending sort by time".  Any order of ties gives the same
time at every position. -/
def qsort_by_time (x : Helpers) (l : List Nat) : List Nat :=
  l.insertionSort (fun a b => x.info_get_time a ≤ x.info_get_time b)

/-- The pair `(timelimit, countlimit)` computed by lines 461-511. -/
def scrub_limits (x : Helpers) (state : snapraid_state) (blockmax : Nat) (now : Int) :
    Except Fatal (Int × Nat) :=
  let countlimit := (option_limits state blockmax now).1
  let recentlimit := (option_limits state blockmax now).2
  let count := (infomap state blockmax).length
  if count = 0 then .error .empty_array
  else
    let sorted := qsort_by_time x (infomap state blockmax)
    let countlimit := if countlimit > count then count else countlimit
    -- infomap[countlimit - 1], the index computed in 32-bit unsigned arithmetic
    let index := (countlimit + U32 - 1) % U32
    match sorted.get? index with
    | none => .error (.index_out_of_bounds index count)
    | some info =>
      let timelimit := x.info_get_time info
      let timelimit := if timelimit > recentlimit then recentlimit else timelimit
      .ok (timelimit, countlimit)

/-- The function `state_scrub` of `scrub.c`; `now` is the value of `time(0)`.
Returns its return value and the result of `state_scrub_process`. -/
def state_scrub (x : Helpers) (w : World) (state : snapraid_state) (now : Int) :
    Except Fatal (Int × ProcessResult) :=
  let blockmax := w.parity_size
  match scrub_limits x state blockmax now with
  | .error e => .error e
  | .ok (timelimit, countlimit) =>
    if w.parity_open = -1 then .error .parity_open
    else if state.level ≥ 2 ∧ w.qarity_open = -1 then .error .qarity_open
    else
      match state_scrub_process x w state 0 blockmax timelimit countlimit now with
      | none => .error .division_by_zero
      | some r =>
        let error : Nat :=
          (if r.ret = -1 then 1 else 0) + (if w.parity_close = -1 then 1 else 0)
            + (if state.level ≥ 2 ∧ w.qarity_close = -1 then 1 else 0)
        .ok (if error ≠ 0 then -1 else 0, r)

/-! ## The info-word interface -/

/-- Modelled from the spec: what the specification says of the info-word
helpers of `elem.h` (absent from the sources): a word exposes `time`, `bad` and
`rehash`; `info_make(time, bad, rehash)` builds the word with these fields
(times are seconds since the epoch, so non-negative); `info_set_bad` sets `bad`
and keeps time and `rehash`. -/
structure InfoLaws (x : Helpers) : Prop where
  time_make : ∀ (t : Int) (e r : Int), 0 ≤ t → x.info_get_time (x.info_make t e r) = t
  bad_make : ∀ (t : Int) (e r : Int), x.info_get_bad (x.info_make t e r) = decide (e ≠ 0)
  rehash_make : ∀ (t : Int) (e r : Int), x.info_get_rehash (x.info_make t e r) = decide (r ≠ 0)
  time_set_bad : ∀ info, x.info_get_time (x.info_set_bad info) = x.info_get_time info
  rehash_set_bad : ∀ info, x.info_get_rehash (x.info_set_bad info) = x.info_get_rehash info
  bad_set_bad : ∀ info, x.info_get_bad (x.info_set_bad info) = true

/-- Example helpers, used only to evaluate the model on concrete arrays: the info
word is `4 * time + 2 * rehash + bad`, the hash of a buffer is the sum of its
bytes plus the function kind and the seed, and the parity written to
`buffer[diskmax]` is the byte-wise sum of the data buffers modulo 256.  They
satisfy `InfoLaws` (`demo_helpers_laws`). -/
def demo_helpers : Helpers where
  info_get_time := fun info => ((info / 4 : Nat) : Int)
  info_get_bad := fun info => info % 2 == 1
  info_get_rehash := fun info => (info / 2) % 2 == 1
  info_set_bad := fun info => if info % 2 = 1 then info else info + 1
  info_make := fun t e r => 4 * t.toNat + (if r ≠ 0 then 2 else 0) + (if e ≠ 0 then 1 else 0)
  memhash := fun kind seed data => kind + seed + data.sum
  raid_gen := fun _ buffer diskmax block_size =>
    upd buffer diskmax
      ((List.range block_size).map
        (fun k => ((List.range diskmax).map (fun d => (buffer d).getD k 0)).sum % 256))

/-! ## A small array used to evaluate the model

Two data disks, four stripes of four bytes, one parity level.  Stripe 0 is old,
stripe 1 is recent but marked bad, stripe 2 is unused, stripe 3 is old and
waits for a rehash.  Every file is in sync, every read succeeds, every stored
hash and the parity match. -/

/-- The file every block of the example belongs to. -/
def demo_file (j : Nat) : snapraid_file :=
  { id := j, size := 3, mtime_sec := 7, mtime_nsec := 0, inode := 11 + j }

/-- The example catalog. -/
def demo_state : snapraid_state where
  infoarr := fun i => if i = 0 then 40 else if i = 1 then 201 else if i = 3 then 82 else 0
  level := 1
  block_size := 4
  autosave := 0
  hash := 1
  hashseed := 0
  prevhash := 2
  prevhashseed := 0
  opt := { force_scrub_even := false, force_scrub := 4, expect_recoverable := false,
           skip_sequential := false }
  need_write := false
  diskmax := 2
  disk := fun j => decide (j < 2)
  block := fun j i =>
    { file := some (demo_file j), has_hash := true, hash := if i = 3 then 8 else 7 }

/-- The example answers of the disks: all calls succeed. -/
def demo_world : World where
  handle_file := fun _ _ => none
  handle_close := fun _ _ => 0
  handle_open := fun _ _ => 0
  handle_st := fun _ j => { st_size := 3, st_mtime := 7, st_nsec := 0, st_ino := 11 + j }
  handle_read := fun _ _ => (3, [1, 2, 3, 0])
  parity_read := fun _ => (4, [2, 4, 6, 0])
  qarity_read := fun _ => (4, [0, 0, 0, 0])
  state_progress := fun _ _ => false
  handle_close_end := fun _ => 0
  rehandle0 := fun _ => 0
  buffer0 := fun _ => [0, 0, 0, 0]
  parity_size := 4
  parity_open := 0
  qarity_open := 0
  parity_close := 0
  qarity_close := 0

/-- The example disks after one byte of disk 1 was flipped in stripe 3, the file
attributes still those of the catalog (silent corruption). -/
def demo_world_corrupt : World :=
  { demo_world with
    handle_read := fun i j => if i = 3 ∧ j = 1 then (3, [9, 2, 3, 0]) else (3, [1, 2, 3, 0]) }

/-- The same flipped byte, the file of disk 1 now with another mtime than the
catalog records (unsynched file). -/
def demo_world_unsynched : World :=
  { demo_world_corrupt with
    handle_st := fun _ j =>
      { st_size := 3, st_mtime := if j = 1 then 8 else 7, st_nsec := 0, st_ino := 11 + j } }

/-- The array of the first end-to-end scenario of the specification: two disks,
four stripes, one parity level, every stripe used and last verified 30 days
before `now = 3000000`, no option given. -/
def scenario1_state : snapraid_state :=
  { demo_state with
    infoarr := fun i => if i < 4 then demo_helpers.info_make (3000000 - 30 * 24 * 3600) 0 0 else 0
    opt := { force_scrub_even := false, force_scrub := 0, expect_recoverable := false,
             skip_sequential := false }
    block := fun j _ => { file := some (demo_file j), has_hash := true, hash := 7 } }

/-- Locals on entry to the processing loop of the example, for a run over the
whole array with `timelimit = 30` and `countlimit = 4`. -/
def demo_proc : Proc :=
  process_init demo_helpers demo_world demo_state 0 4 30 4 0

/-! ## Predicates used in the proofs -/

/-- Events that come with a `++error`: the error lines of the log, the stop
after a failed close, and a failed close in the cleanup loop. -/
def Event.counts_error : Event → Bool
  | .print_stopping _ => true
  | .danger_close _ => true
  | e => e.is_error_log

/-- Events that report a failed `handle_close`: the stop inside the loop and the
failed closes of the cleanup loop. -/
def Event.is_stop : Event → Bool
  | .print_stopping _ => true
  | .danger_close _ => true
  | _ => false

/-- What verification of stripe `i` (per-disk loop and parity check) may change
between `pl` and `pl1`: buffers and staging slots freely, the trace by events of
stripe `i` other than progress calls, the counters `error` and `silent_error`
by one modulo `2 ^ 32` with each event that counts an error, and the flags from
false to true, each raise of a flag with such an event. -/
structure VFrame (i : Nat) (pl pl1 : Proc × Locals) : Prop where
  state : pl1.1.state = pl.1.state
  countpos : pl1.1.countpos = pl.1.countpos
  countmax : pl1.1.countmax = pl.1.countmax
  recountmax : pl1.1.recountmax = pl.1.recountmax
  autosavedone : pl1.1.autosavedone = pl.1.autosavedone
  autosavelimit : pl1.1.autosavelimit = pl.1.autosavelimit
  autosavemissing : pl1.1.autosavemissing = pl.1.autosavemissing
  pre : pl.1.trace <+: pl1.1.trace
  others : pl1.1.trace.filter (fun e => decide (e.stripe ≠ some i))
    = pl.1.trace.filter (fun e => decide (e.stripe ≠ some i))
  visited : visited pl1.1.trace = visited pl.1.trace
  errors : (pl1.1.error + pl.1.trace.countP Event.counts_error) % U32
    = (pl.1.error + pl1.1.trace.countP Event.counts_error) % U32
  error_lt : pl.1.error < U32 → pl1.1.error < U32
  silent_lt : pl.1.silent_error < U32 → pl1.1.silent_error < U32
  keep : pl1.1.trace.countP Event.counts_error = pl.1.trace.countP Event.counts_error →
    pl1.1.error = pl.1.error ∧ pl1.1.silent_error = pl.1.silent_error
  eflag : pl1.2.error_on_this_block = true →
    pl.2.error_on_this_block = true
      ∨ pl.1.trace.countP Event.counts_error < pl1.1.trace.countP Event.counts_error
  sflag : pl1.2.silent_error_on_this_block = true →
    pl.2.silent_error_on_this_block = true
      ∨ pl.1.trace.countP Event.counts_error < pl1.1.trace.countP Event.counts_error
  eflag_mono : pl.2.error_on_this_block = true → pl1.2.error_on_this_block = true
  sflag_mono : pl.2.silent_error_on_this_block = true → pl1.2.silent_error_on_this_block = true
  uflag_mono : pl.2.block_is_unsynched = true → pl1.2.block_is_unsynched = true

/-- The live attributes of an opened file equal the catalog values: size, mtime
seconds, mtime nanoseconds and inode. -/
def in_sync (st : stat_t) (file : snapraid_file) : Prop :=
  st.st_size = file.size ∧ st.st_mtime = file.mtime_sec ∧ st.st_nsec = file.mtime_nsec
    ∧ st.st_ino = file.inode

instance (st : stat_t) (file : snapraid_file) : Decidable (in_sync st file) := by
  unfold in_sync
  infer_instance

/-- Disk slot `j` of stripe `i` has a block with a file, and `handle_open`
succeeded on it with attributes that differ from the catalog. -/
def opened_changed (w : World) (state : snapraid_state) (i j : Nat) : Prop :=
  state.disk j = true ∧ ∃ file, (state.block j i).file = some file
    ∧ w.handle_open i j ≠ -1 ∧ ¬ in_sync (w.handle_st i j) file

/-- The selection test both passes apply to index `i` (lines 85-113 and
138-166), as one boolean: `count` is the number of stripes selected so far. -/
def selects (x : Helpers) (state : snapraid_state) (timelimit : Int)
    (countlimit : Nat) (i : Nat) (count : Nat) : Bool :=
  decide (state.infoarr i ≠ 0)
    && (x.info_get_bad (state.infoarr i)
      || (decide (x.info_get_time (state.infoarr i) ≤ timelimit)
        && !(state.opt.force_scrub_even && i % 2 != 0)
        && decide (count < countlimit)))

/-- The indices selected among `i, ..., i + n - 1`, in order, when `count`
stripes were selected before. -/
def select_list (x : Helpers) (state : snapraid_state) (timelimit : Int)
    (countlimit : Nat) : Nat → Nat → Nat → List Nat
  | 0, _, _ => []
  | n + 1, i, count =>
    if selects x state timelimit countlimit i count then
      i :: select_list x state timelimit countlimit n (i + 1) (count + 1)
    else select_list x state timelimit countlimit n (i + 1) count

/-- What the processing of the stripes in `S` may change between `p` and `p1`:
info words and stored hashes at indices in `S`, the error counters by one modulo
`2 ^ 32` with each event that counts an error, the trace by events of stripes in
`S`.  Options, geometry, file references of blocks and the
values computed before the loop stay. -/
structure IFrame (S : Nat → Prop) (p p1 : Proc) : Prop where
  level : p1.state.level = p.state.level
  block_size : p1.state.block_size = p.state.block_size
  autosave : p1.state.autosave = p.state.autosave
  hash : p1.state.hash = p.state.hash
  hashseed : p1.state.hashseed = p.state.hashseed
  prevhash : p1.state.prevhash = p.state.prevhash
  prevhashseed : p1.state.prevhashseed = p.state.prevhashseed
  opt : p1.state.opt = p.state.opt
  diskmax : p1.state.diskmax = p.state.diskmax
  disk : p1.state.disk = p.state.disk
  infoarr : ∀ k, ¬ S k → p1.state.infoarr k = p.state.infoarr k
  block : ∀ d k, ¬ S k → p1.state.block d k = p.state.block d k
  block_file : ∀ d k, (p1.state.block d k).file = (p.state.block d k).file
  block_has_hash : ∀ d k, (p1.state.block d k).has_hash = (p.state.block d k).has_hash
  need_write : p.state.need_write = true → p1.state.need_write = true
  countmax : p1.countmax = p.countmax
  autosavelimit : p1.autosavelimit = p.autosavelimit
  pre : p.trace <+: p1.trace
  events : ∀ e, e ∈ p1.trace → e ∈ p.trace ∨ ∀ k, e.stripe = some k → S k
  errors : (p1.error + p.trace.countP Event.counts_error) % U32
    = (p.error + p1.trace.countP Event.counts_error) % U32
  error_lt : p.error < U32 → p1.error < U32
  silent_lt : p.silent_error < U32 → p1.silent_error < U32
  keep : p1.trace.countP Event.counts_error = p.trace.countP Event.counts_error →
    p1.error = p.error ∧ p1.silent_error = p.silent_error
  recountmax_le : p.recountmax ≤ p1.recountmax
  countpos_le : p.countpos ≤ p1.countpos

/-! ## Further example arrays -/

/-- An array with a tie at the time limit: stripes 0 and 1 were last verified at
time 5, stripe 2 at time 3, stripe 3 is unused; `force_scrub = 2`.  Every block
verifies clean on the example disks. -/
def ties_state : snapraid_state :=
  { demo_state with
    infoarr := fun i => if i = 0 then 20 else if i = 1 then 20 else if i = 2 then 12 else 0
    opt := { force_scrub_even := false, force_scrub := 2, expect_recoverable := false,
             skip_sequential := false }
    block := fun j _ => { file := some (demo_file j), has_hash := true, hash := 7 } }

/-- The example catalog with no stripe marked bad: times 10, 50 and 20, stripe 3
waiting for a rehash, `force_scrub = 4`. -/
def good_state : snapraid_state :=
  { demo_state with
    infoarr := fun i => if i = 0 then 40 else if i = 1 then 200 else if i = 3 then 82 else 0 }

/-- The example disks with the flipped byte of disk 1 in stripe 3 and a parity
file that cannot be read. -/
def demo_world_noparity : World :=
  { demo_world_corrupt with parity_read := fun _ => (-1, []) }

/-- The example catalog with `autosave` of 8 bytes: one stripe of two disks of four
bytes. -/
def autosave_state : snapraid_state :=
  { demo_state with autosave := 8 }

/-- The example catalog with `autosave` of 1 byte, less than one stripe. -/
def autosave_small_state : snapraid_state :=
  { demo_state with autosave := 1 }

/-- An array of twelve stripes, all used and last verified at time 10, with no
option given: the default quota is `12 / 12 = 1` stripe. -/
def twelve_state : snapraid_state :=
  { demo_state with
    infoarr := fun i => if i < 12 then 40 else 0
    opt := { force_scrub_even := false, force_scrub := 0, expect_recoverable := false,
             skip_sequential := false }
    block := fun j _ => { file := some (demo_file j), has_hash := true, hash := 7 } }

/-- The example disks with parity files of twelve blocks. -/
def twelve_world : World :=
  { demo_world with parity_size := 12 }

/-- The catalog a run of `state_scrub` leaves, the catalog on entry when the run
stops before scrubbing. -/
def state_after (x : Helpers) (w : World) (state : snapraid_state) (now : Int) :
    snapraid_state :=
  match state_scrub x w state now with
  | .ok (_, r) => r.final.state
  | .error _ => state

/-- The stripes a run of `state_scrub` visits, none when the run stops before
scrubbing. -/
def visited_by (x : Helpers) (w : World) (state : snapraid_state) (now : Int) : List Nat :=
  match state_scrub x w state now with
  | .ok (_, r) => visited r.final.trace
  | .error _ => []

/-! ## Event kinds, autosave count and data mismatches -/

/-- Events of the per-disk loop of a stripe (lines 185-285). -/
def Event.is_data : Event → Bool
  | .call_handle_close _ _ => true
  | .call_handle_open _ _ => true
  | .call_handle_read _ _ => true
  | .call_memhash _ _ _ => true
  | .log_open_error _ _ => true
  | .log_read_error _ _ => true
  | .log_data_error _ _ => true
  | .print_stopping _ => true
  | _ => false

/-- Events of the parity check of a stripe (lines 287-351). -/
def Event.is_parity : Event → Bool
  | .call_parity_read _ => true
  | .call_qarity_read _ => true
  | .call_raid_gen _ => true
  | .log_parity_read_error _ => true
  | .log_qarity_read_error _ => true
  | .log_parity_data_error _ => true
  | .log_qarity_data_error _ => true
  | _ => false

/-- Is the event a call of `state_write` made by the autosave? -/
def Event.is_save : Event → Bool
  | .autosave _ => true
  | _ => false

/-- The count of stripes since the last autosave, after one more event. -/
def save_step (n : Nat) : Event → Nat
  | .autosave _ => 0
  | .progress _ _ _ _ => n + 1
  | _ => n

/-- Number of stripes handed to `state_progress` since the last autosave, or
since the start when no autosave was made. -/
def since_save (es : List Event) : Nat :=
  es.foldl save_step 0

/-- The block of disk slot `j` at index `i` belongs to `file`, is opened and read,
has a stored hash, and the hash computed from the bytes read (previous function
under `rehash`, current one otherwise) differs from the stored one. -/
def data_mismatch (x : Helpers) (w : World) (state : snapraid_state) (i : Nat)
    (rehash : Bool) (j : Nat) (file : snapraid_file) : Prop :=
  state.disk j = true ∧ (state.block j i).file = some file
    ∧ w.handle_open i j ≠ -1 ∧ (w.handle_read i j).1 ≠ -1
    ∧ (state.block j i).has_hash = true
    ∧ (if rehash then x.memhash state.prevhash state.prevhashseed
          ((w.handle_read i j).2.take (w.handle_read i j).1.toNat)
        else x.memhash state.hash state.hashseed
          ((w.handle_read i j).2.take (w.handle_read i j).1.toNat))
      ≠ (state.block j i).hash

instance (x : Helpers) (w : World) (state : snapraid_state) (i : Nat) (rehash : Bool) (j : Nat)
    (file : snapraid_file) : Decidable (data_mismatch x w state i rehash j file) := by
  unfold data_mismatch
  infer_instance

/-! ## Stripes in order -/

/-- Modelled from the spec: the contract of `raid_gen` (`raid.c`, absent from the
sources) for `level` parity levels, "reads buffers [0..diskmax) and writes computed
parity into [diskmax..diskmax+level)": the parity written depends only on the
data buffers, and the buffers from `diskmax + level` on are left alone. -/
structure RaidLaws (x : Helpers) (level : Nat) : Prop where
  reads : ∀ (b b1 : Nat → bytes) (diskmax block_size : Nat),
    (∀ j, j < diskmax → b j = b1 j) → ∀ k, diskmax ≤ k → k < diskmax + level →
      x.raid_gen level b diskmax block_size k = x.raid_gen level b1 diskmax block_size k
  writes : ∀ (b : Nat → bytes) (diskmax block_size k : Nat), diskmax + level ≤ k →
    x.raid_gen level b diskmax block_size k = b k

/-- The data buffers of stripe `i` after the per-disk loop: the bytes read for a
block with a file, zeros for an absent disk or block. -/
def stripe_data (w : World) (state : snapraid_state) (i : Nat) : Nat → bytes :=
  fun j =>
    if state.disk j = true ∧ (state.block j i).file ≠ none then (w.handle_read i j).2
    else List.replicate state.block_size 0

/-- The block of disk slot `j` at index `i`, when it has a file, is in order: the
file opens, its attributes are those of the catalog, the read succeeds and a
stored hash equals the hash of the bytes read, under the previous hash function
when `rehash` is set and under the current one otherwise. -/
def disk_sound (x : Helpers) (w : World) (state : snapraid_state) (i : Nat) (rehash : Bool)
    (j : Nat) : Prop :=
  state.disk j = true → ∀ file, (state.block j i).file = some file →
    w.handle_open i j ≠ -1 ∧ in_sync (w.handle_st i j) file ∧ (w.handle_read i j).1 ≠ -1
    ∧ ((state.block j i).has_hash = true →
        (if rehash then x.memhash state.prevhash state.prevhashseed
            ((w.handle_read i j).2.take (w.handle_read i j).1.toNat)
          else x.memhash state.hash state.hashseed
            ((w.handle_read i j).2.take (w.handle_read i j).1.toNat))
        = (state.block j i).hash)

/-- Stripe `i` is in order: every data block is (`disk_sound`), the parity reads
succeed and the parity on disk is the parity of the data. -/
def stripe_sound (x : Helpers) (w : World) (state : snapraid_state) (i : Nat) (rehash : Bool) :
    Prop :=
  (∀ j, j < state.diskmax → disk_sound x w state i rehash j)
  ∧ (w.parity_read i).1 ≠ -1
  ∧ (x.raid_gen state.level (stripe_data w state i) state.diskmax state.block_size
        state.diskmax).take state.block_size
      = (w.parity_read i).2.take state.block_size
  ∧ (state.level ≥ 2 → (w.qarity_read i).1 ≠ -1
      ∧ (x.raid_gen state.level (stripe_data w state i) state.diskmax state.block_size
            (state.diskmax + 1)).take state.block_size
          = (w.qarity_read i).2.take state.block_size)

/-- The example catalog when every used stripe waits for a rehash: the stored
hashes are those of the previous hash function. -/
def rehash_state : snapraid_state :=
  { demo_state with
    infoarr := fun i => if i = 0 then 42 else if i = 1 then 202 else if i = 3 then 82 else 0
    block := fun j _ => { file := some (demo_file j), has_hash := true, hash := 8 } }

/-- Two catalogs with the same geometry, hash functions and options. -/
def same_setup (s1 s2 : snapraid_state) : Prop :=
  s1.level = s2.level ∧ s1.block_size = s2.block_size ∧ s1.hash = s2.hash
    ∧ s1.hashseed = s2.hashseed ∧ s1.prevhash = s2.prevhash
    ∧ s1.prevhashseed = s2.prevhashseed ∧ s1.opt = s2.opt ∧ s1.diskmax = s2.diskmax
    ∧ s1.disk = s2.disk

/-! ## Failures and mismatches of a stripe, read off the disks and the catalog -/

/-- The hash scrub computes for the block of disk slot `j` at index `i`: the hash of
the bytes read, under the previous function when `rehash` is set and under the
current one otherwise. -/
def read_hash (x : Helpers) (w : World) (state : snapraid_state) (i : Nat) (rehash : Bool)
    (j : Nat) : hash_t :=
  if rehash then x.memhash state.prevhash state.prevhashseed
      ((w.handle_read i j).2.take (w.handle_read i j).1.toNat)
  else x.memhash state.hash state.hashseed
      ((w.handle_read i j).2.take (w.handle_read i j).1.toNat)

/-- Open failure: disk slot `j` has a block with a file at index `i` and
`handle_open` fails on it. -/
def open_failure (w : World) (state : snapraid_state) (i j : Nat) : Bool :=
  state.disk j && (state.block j i).file.isSome && decide (w.handle_open i j = -1)

/-- Read failure: the file of the block opens and `handle_read` fails. -/
def read_failure (w : World) (state : snapraid_state) (i j : Nat) : Bool :=
  state.disk j && (state.block j i).file.isSome && decide (w.handle_open i j ≠ -1)
    && decide ((w.handle_read i j).1 = -1)

/-- Data mismatch: the file of the block opens and is read, the block has a stored
hash, and the hash of the bytes read differs from it. -/
def hash_mismatch (x : Helpers) (w : World) (state : snapraid_state) (i : Nat) (rehash : Bool)
    (j : Nat) : Bool :=
  state.disk j && (state.block j i).file.isSome && decide (w.handle_open i j ≠ -1)
    && decide ((w.handle_read i j).1 ≠ -1) && (state.block j i).has_hash
    && decide (read_hash x w state i rehash j ≠ (state.block j i).hash)

/-- The live attributes of the file of the block equal the catalog values. -/
def file_in_sync (w : World) (state : snapraid_state) (i j : Nat) : Bool :=
  match (state.block j i).file with
  | some file => decide (in_sync (w.handle_st i j) file)
  | none => true

/-- The block of disk slot `j` gives an error in stripe `i`: an open failure, a
read failure or a data mismatch. -/
def disk_error (x : Helpers) (w : World) (state : snapraid_state) (i : Nat) (rehash : Bool)
    (j : Nat) : Bool :=
  open_failure w state i j || read_failure w state i j || hash_mismatch x w state i rehash j

/-- The block of disk slot `j` gives a silent error in stripe `i`: a data mismatch
on a file whose attributes are those of the catalog. -/
def disk_silent (x : Helpers) (w : World) (state : snapraid_state) (i : Nat) (rehash : Bool)
    (j : Nat) : Bool :=
  hash_mismatch x w state i rehash j && file_in_sync w state i j

/-- Some data file opened in stripe `i` differs from the catalog. -/
def stripe_unsynched (w : World) (state : snapraid_state) (i : Nat) : Bool :=
  (List.range state.diskmax).any (fun j =>
    state.disk j && (state.block j i).file.isSome && decide (w.handle_open i j ≠ -1)
      && !file_in_sync w state i j)

/-- The first `block_size` bytes of the parity `raid_gen` computes into
`buffer[k]` from the data of stripe `i`: `k = diskmax` for P, `diskmax + 1` for Q. -/
def parity_computed (x : Helpers) (w : World) (state : snapraid_state) (i k : Nat) : bytes :=
  (x.raid_gen state.level (stripe_data w state i) state.diskmax state.block_size k).take
    state.block_size

/-- The read of the P parity of stripe `i` fails. -/
def parity_read_failure (w : World) (i : Nat) : Bool :=
  decide ((w.parity_read i).1 = -1)

/-- With two parity levels, the read of the Q parity of stripe `i` fails. -/
def qarity_read_failure (w : World) (state : snapraid_state) (i : Nat) : Bool :=
  decide (state.level ≥ 2) && decide ((w.qarity_read i).1 = -1)

/-- P mismatch: the P parity of stripe `i` is read and differs from the parity of
the data. -/
def parity_mismatch (x : Helpers) (w : World) (state : snapraid_state) (i : Nat) : Bool :=
  decide ((w.parity_read i).1 ≠ -1)
    && decide (parity_computed x w state i state.diskmax
        ≠ (w.parity_read i).2.take state.block_size)

/-- Q mismatch: with two parity levels, the Q parity of stripe `i` is read and
differs from the Q parity of the data. -/
def qarity_mismatch (x : Helpers) (w : World) (state : snapraid_state) (i : Nat) : Bool :=
  decide (state.level ≥ 2) && decide ((w.qarity_read i).1 ≠ -1)
    && decide (parity_computed x w state i (state.diskmax + 1)
        ≠ (w.qarity_read i).2.take state.block_size)

/-- Number of data blocks of stripe `i` that give an error. -/
def data_errors (x : Helpers) (w : World) (state : snapraid_state) (i : Nat) (rehash : Bool) :
    Nat :=
  (List.range state.diskmax).countP (disk_error x w state i rehash)

/-- Number of data blocks of stripe `i` that give a silent error. -/
def data_silent (x : Helpers) (w : World) (state : snapraid_state) (i : Nat) (rehash : Bool) :
    Nat :=
  (List.range state.diskmax).countP (disk_silent x w state i rehash)

/-- Number of parity mismatches of stripe `i` (P and Q). -/
def parity_mismatches (x : Helpers) (w : World) (state : snapraid_state) (i : Nat) : Nat :=
  (parity_mismatch x w state i).toNat + (qarity_mismatch x w state i).toNat

/-- Number of parity errors of stripe `i`: failed reads and mismatches of P and Q. -/
def parity_errors (x : Helpers) (w : World) (state : snapraid_state) (i : Nat) : Nat :=
  (parity_read_failure w i).toNat + (qarity_read_failure w state i).toNat
    + parity_mismatches x w state i

/-- Number of errors of stripe `i`: the errors of its data blocks, and when there
is none the errors of its parity. -/
def stripe_errors (x : Helpers) (w : World) (state : snapraid_state) (i : Nat) (rehash : Bool) :
    Nat :=
  if data_errors x w state i rehash = 0 then parity_errors x w state i
  else data_errors x w state i rehash

/-- Number of silent errors of stripe `i`: the data mismatches on files in sync,
and when no data block gives an error the parity mismatches, provided no opened
file differs from the catalog. -/
def stripe_silent (x : Helpers) (w : World) (state : snapraid_state) (i : Nat) (rehash : Bool) :
    Nat :=
  if data_errors x w state i rehash = 0 then
    (if stripe_unsynched w state i then 0 else parity_mismatches x w state i)
  else data_silent x w state i rehash

/-- Number of `handle_close` calls of the cleanup loop that fail. -/
def close_failures (w : World) (diskmax : Nat) : Nat :=
  (List.range diskmax).countP (fun j => decide (w.handle_close_end j = -1))

/-- The failed close that stops the scrub inside stripe `i` at disk slot `j`: the
handle holds another file than the one of the block and `handle_close` fails. -/
def close_failure (w : World) (state : snapraid_state) (i j : Nat) : Bool :=
  state.disk j
    && (match (state.block j i).file with
        | some file => decide (w.handle_file i j ≠ some file.id ∧ w.handle_close i j = -1)
        | none => false)

/-! ## Example disks with failures -/

/-- The example disks when the parity file holds a wrong byte in every stripe: the
data is intact and in sync. -/
def demo_world_badparity : World :=
  { demo_world with parity_read := fun _ => (4, [2, 4, 7, 0]) }

/-- The same wrong parity, the file of disk 1 with another mtime than the catalog
records while its content is unchanged. -/
def demo_world_badparity_unsynched : World :=
  { demo_world_badparity with
    handle_st := fun _ j =>
      { st_size := 3, st_mtime := if j = 1 then 8 else 7, st_nsec := 0, st_ino := 11 + j } }

/-- The example disks with the flipped byte of disk 1 in stripe 3, the file in
sync, and the file of disk 0 failing to open in that stripe. -/
def demo_world_mixed : World :=
  { demo_world_corrupt with handle_open := fun i j => if i = 3 ∧ j = 0 then -1 else 0 }

/-- The example disks when every `handle_close` of the cleanup loop fails. -/
def demo_world_badclose : World :=
  { demo_world with handle_close_end := fun _ => -1 }

/-- The example disks when the progress callback asks to stop after stripe 0. -/
def demo_world_stop : World :=
  { demo_world with state_progress := fun i _ => decide (i = 0) }

/-- The example catalog waiting for a rehash, with stripe 3 dated in the future
(time 1000). -/
def future_state : snapraid_state :=
  { rehash_state with
    infoarr := fun i => if i = 0 then 42 else if i = 1 then 202 else if i = 3 then 4002 else 0 }

/-! ## An array on which the error counter wraps -/

/-- A catalog of one stripe on `2 ^ 32 - 3` data disks with blocks of one byte and
one parity level, so that `buffermax = diskmax + 2` and `buffermax * block_size`
stay below `2 ^ 32`; every block has a stored hash (0) that differs from the hash
of the byte on disk (2), the files are in sync; `force_scrub = 1`. -/
def wrap_state : snapraid_state :=
  { demo_state with
    infoarr := fun i => if i = 0 then 40 else 0
    block_size := 1
    opt := { force_scrub_even := false, force_scrub := 1, expect_recoverable := false,
             skip_sequential := false }
    diskmax := 4294967293
    disk := fun _ => true
    block := fun j _ => { file := some (demo_file j), has_hash := true, hash := 0 } }

/-- The example disks with blocks and parity files of one byte, the closes of disks
0, 1 and 2 failing in the cleanup loop. -/
def wrap_world : World :=
  { demo_world with
    handle_read := fun _ _ => (1, [1])
    parity_size := 1
    handle_close_end := fun j => if j < 3 then -1 else 0 }

/-- The first disk slot of stripe `i`, among `n` slots from `j`, at which the close
fails (`close_failure`). -/
def first_close_failure (w : World) (state : snapraid_state) (i : Nat) : Nat → Nat → Option Nat
  | 0, _ => none
  | n + 1, j =>
    if close_failure w state i j then some j
    else first_close_failure w state i n (j + 1)

/-- Number of errors counted in stripe `i` when the scrub stops in it at disk slot
`j`: the errors of the data blocks before slot `j`, and the failed close. -/
def stop_errors (x : Helpers) (w : World) (state : snapraid_state) (i : Nat) (rehash : Bool)
    (j : Nat) : Nat :=
  (List.range j).countP (disk_error x w state i rehash) + 1

/-- Number of silent errors counted in stripe `i` when the scrub stops in it at disk
slot `j`: the silent errors of the data blocks before slot `j`. -/
def stop_silent (x : Helpers) (w : World) (state : snapraid_state) (i : Nat) (rehash : Bool)
    (j : Nat) : Nat :=
  (List.range j).countP (disk_silent x w state i rehash)

/-- Number of errors of the stripes `vs`, each taken with the rehash flag of its
info word in `state`. -/
def total_errors (x : Helpers) (w : World) (state : snapraid_state) (vs : List Nat) : Nat :=
  (vs.map (fun k => stripe_errors x w state k (x.info_get_rehash (state.infoarr k)))).sum

/-- Number of silent errors of the stripes `vs`. -/
def total_silent (x : Helpers) (w : World) (state : snapraid_state) (vs : List Nat) : Nat :=
  (vs.map (fun k => stripe_silent x w state k (x.info_get_rehash (state.infoarr k)))).sum

/-- The pair `pl1` comes from `pl` without a new error line unless one of the two
error flags is set in `pl1`. -/
def Quiet (pl pl1 : Proc × Locals) : Prop :=
  pl1.2.error_on_this_block = false → pl1.2.silent_error_on_this_block = false →
    pl1.1.trace.countP Event.is_error_log = pl.1.trace.countP Event.is_error_log

/-! ## Projections of the elementary updates -/

@[simp] theorem Proc.emit_state (p : Proc) (es : List Event) : (p.emit es).state = p.state := rfl
@[simp] theorem Proc.emit_rehandle (p : Proc) (es : List Event) : (p.emit es).rehandle = p.rehandle := rfl
@[simp] theorem Proc.emit_buffer (p : Proc) (es : List Event) : (p.emit es).buffer = p.buffer := rfl
@[simp] theorem Proc.emit_countsize (p : Proc) (es : List Event) : (p.emit es).countsize = p.countsize := rfl
@[simp] theorem Proc.emit_countpos (p : Proc) (es : List Event) : (p.emit es).countpos = p.countpos := rfl
@[simp] theorem Proc.emit_countmax (p : Proc) (es : List Event) : (p.emit es).countmax = p.countmax := rfl
@[simp] theorem Proc.emit_recountmax (p : Proc) (es : List Event) : (p.emit es).recountmax = p.recountmax := rfl
@[simp] theorem Proc.emit_autosavedone (p : Proc) (es : List Event) : (p.emit es).autosavedone = p.autosavedone := rfl
@[simp] theorem Proc.emit_autosavelimit (p : Proc) (es : List Event) : (p.emit es).autosavelimit = p.autosavelimit := rfl
@[simp] theorem Proc.emit_autosavemissing (p : Proc) (es : List Event) : (p.emit es).autosavemissing = p.autosavemissing := rfl
@[simp] theorem Proc.emit_error (p : Proc) (es : List Event) : (p.emit es).error = p.error := rfl
@[simp] theorem Proc.emit_silent_error (p : Proc) (es : List Event) : (p.emit es).silent_error = p.silent_error := rfl
@[simp] theorem Proc.emit_trace (p : Proc) (es : List Event) : (p.emit es).trace = p.trace ++ es := rfl

@[simp] theorem Proc.incr_error_state (p : Proc) : (p.incr_error).state = p.state := rfl
@[simp] theorem Proc.incr_error_rehandle (p : Proc) : (p.incr_error).rehandle = p.rehandle := rfl
@[simp] theorem Proc.incr_error_buffer (p : Proc) : (p.incr_error).buffer = p.buffer := rfl
@[simp] theorem Proc.incr_error_countsize (p : Proc) : (p.incr_error).countsize = p.countsize := rfl
@[simp] theorem Proc.incr_error_countpos (p : Proc) : (p.incr_error).countpos = p.countpos := rfl
@[simp] theorem Proc.incr_error_countmax (p : Proc) : (p.incr_error).countmax = p.countmax := rfl
@[simp] theorem Proc.incr_error_recountmax (p : Proc) : (p.incr_error).recountmax = p.recountmax := rfl
@[simp] theorem Proc.incr_error_autosavedone (p : Proc) : (p.incr_error).autosavedone = p.autosavedone := rfl
@[simp] theorem Proc.incr_error_autosavelimit (p : Proc) : (p.incr_error).autosavelimit = p.autosavelimit := rfl
@[simp] theorem Proc.incr_error_autosavemissing (p : Proc) : (p.incr_error).autosavemissing = p.autosavemissing := rfl
@[simp] theorem Proc.incr_error_error (p : Proc) : (p.incr_error).error = (p.error + 1) % U32 := rfl
@[simp] theorem Proc.incr_error_silent_error (p : Proc) : (p.incr_error).silent_error = p.silent_error := rfl
@[simp] theorem Proc.incr_error_trace (p : Proc) : (p.incr_error).trace = p.trace := rfl

@[simp] theorem Proc.incr_silent_error_state (p : Proc) : (p.incr_silent_error).state = p.state := rfl
@[simp] theorem Proc.incr_silent_error_rehandle (p : Proc) : (p.incr_silent_error).rehandle = p.rehandle := rfl
@[simp] theorem Proc.incr_silent_error_buffer (p : Proc) : (p.incr_silent_error).buffer = p.buffer := rfl
@[simp] theorem Proc.incr_silent_error_countsize (p : Proc) : (p.incr_silent_error).countsize = p.countsize := rfl
@[simp] theorem Proc.incr_silent_error_countpos (p : Proc) : (p.incr_silent_error).countpos = p.countpos := rfl
@[simp] theorem Proc.incr_silent_error_countmax (p : Proc) : (p.incr_silent_error).countmax = p.countmax := rfl
@[simp] theorem Proc.incr_silent_error_recountmax (p : Proc) : (p.incr_silent_error).recountmax = p.recountmax := rfl
@[simp] theorem Proc.incr_silent_error_autosavedone (p : Proc) : (p.incr_silent_error).autosavedone = p.autosavedone := rfl
@[simp] theorem Proc.incr_silent_error_autosavelimit (p : Proc) : (p.incr_silent_error).autosavelimit = p.autosavelimit := rfl
@[simp] theorem Proc.incr_silent_error_autosavemissing (p : Proc) : (p.incr_silent_error).autosavemissing = p.autosavemissing := rfl
@[simp] theorem Proc.incr_silent_error_error (p : Proc) : (p.incr_silent_error).error = p.error := rfl
@[simp] theorem Proc.incr_silent_error_silent_error (p : Proc) : (p.incr_silent_error).silent_error = (p.silent_error + 1) % U32 := rfl
@[simp] theorem Proc.incr_silent_error_trace (p : Proc) : (p.incr_silent_error).trace = p.trace := rfl

@[simp] theorem Proc.add_countsize_state (p : Proc) (n : Int) : (p.add_countsize n).state = p.state := rfl
@[simp] theorem Proc.add_countsize_rehandle (p : Proc) (n : Int) : (p.add_countsize n).rehandle = p.rehandle := rfl
@[simp] theorem Proc.add_countsize_buffer (p : Proc) (n : Int) : (p.add_countsize n).buffer = p.buffer := rfl
@[simp] theorem Proc.add_countsize_countsize (p : Proc) (n : Int) : (p.add_countsize n).countsize = p.countsize + n := rfl
@[simp] theorem Proc.add_countsize_countpos (p : Proc) (n : Int) : (p.add_countsize n).countpos = p.countpos := rfl
@[simp] theorem Proc.add_countsize_countmax (p : Proc) (n : Int) : (p.add_countsize n).countmax = p.countmax := rfl
@[simp] theorem Proc.add_countsize_recountmax (p : Proc) (n : Int) : (p.add_countsize n).recountmax = p.recountmax := rfl
@[simp] theorem Proc.add_countsize_autosavedone (p : Proc) (n : Int) : (p.add_countsize n).autosavedone = p.autosavedone := rfl
@[simp] theorem Proc.add_countsize_autosavelimit (p : Proc) (n : Int) : (p.add_countsize n).autosavelimit = p.autosavelimit := rfl
@[simp] theorem Proc.add_countsize_autosavemissing (p : Proc) (n : Int) : (p.add_countsize n).autosavemissing = p.autosavemissing := rfl
@[simp] theorem Proc.add_countsize_error (p : Proc) (n : Int) : (p.add_countsize n).error = p.error := rfl
@[simp] theorem Proc.add_countsize_silent_error (p : Proc) (n : Int) : (p.add_countsize n).silent_error = p.silent_error := rfl
@[simp] theorem Proc.add_countsize_trace (p : Proc) (n : Int) : (p.add_countsize n).trace = p.trace := rfl

@[simp] theorem Proc.set_buffer_state (p : Proc) (k : Nat) (v : bytes) : (p.set_buffer k v).state = p.state := rfl
@[simp] theorem Proc.set_buffer_rehandle (p : Proc) (k : Nat) (v : bytes) : (p.set_buffer k v).rehandle = p.rehandle := rfl
@[simp] theorem Proc.set_buffer_buffer (p : Proc) (k : Nat) (v : bytes) : (p.set_buffer k v).buffer = upd p.buffer k v := rfl
@[simp] theorem Proc.set_buffer_countsize (p : Proc) (k : Nat) (v : bytes) : (p.set_buffer k v).countsize = p.countsize := rfl
@[simp] theorem Proc.set_buffer_countpos (p : Proc) (k : Nat) (v : bytes) : (p.set_buffer k v).countpos = p.countpos := rfl
@[simp] theorem Proc.set_buffer_countmax (p : Proc) (k : Nat) (v : bytes) : (p.set_buffer k v).countmax = p.countmax := rfl
@[simp] theorem Proc.set_buffer_recountmax (p : Proc) (k : Nat) (v : bytes) : (p.set_buffer k v).recountmax = p.recountmax := rfl
@[simp] theorem Proc.set_buffer_autosavedone (p : Proc) (k : Nat) (v : bytes) : (p.set_buffer k v).autosavedone = p.autosavedone := rfl
@[simp] theorem Proc.set_buffer_autosavelimit (p : Proc) (k : Nat) (v : bytes) : (p.set_buffer k v).autosavelimit = p.autosavelimit := rfl
@[simp] theorem Proc.set_buffer_autosavemissing (p : Proc) (k : Nat) (v : bytes) : (p.set_buffer k v).autosavemissing = p.autosavemissing := rfl
@[simp] theorem Proc.set_buffer_error (p : Proc) (k : Nat) (v : bytes) : (p.set_buffer k v).error = p.error := rfl
@[simp] theorem Proc.set_buffer_silent_error (p : Proc) (k : Nat) (v : bytes) : (p.set_buffer k v).silent_error = p.silent_error := rfl
@[simp] theorem Proc.set_buffer_trace (p : Proc) (k : Nat) (v : bytes) : (p.set_buffer k v).trace = p.trace := rfl

@[simp] theorem Proc.set_rehandle_state (p : Proc) (j : Nat) (r : snapraid_rehash) : (p.set_rehandle j r).state = p.state := rfl
@[simp] theorem Proc.set_rehandle_rehandle (p : Proc) (j : Nat) (r : snapraid_rehash) : (p.set_rehandle j r).rehandle = upd p.rehandle j r := rfl
@[simp] theorem Proc.set_rehandle_buffer (p : Proc) (j : Nat) (r : snapraid_rehash) : (p.set_rehandle j r).buffer = p.buffer := rfl
@[simp] theorem Proc.set_rehandle_countsize (p : Proc) (j : Nat) (r : snapraid_rehash) : (p.set_rehandle j r).countsize = p.countsize := rfl
@[simp] theorem Proc.set_rehandle_countpos (p : Proc) (j : Nat) (r : snapraid_rehash) : (p.set_rehandle j r).countpos = p.countpos := rfl
@[simp] theorem Proc.set_rehandle_countmax (p : Proc) (j : Nat) (r : snapraid_rehash) : (p.set_rehandle j r).countmax = p.countmax := rfl
@[simp] theorem Proc.set_rehandle_recountmax (p : Proc) (j : Nat) (r : snapraid_rehash) : (p.set_rehandle j r).recountmax = p.recountmax := rfl
@[simp] theorem Proc.set_rehandle_autosavedone (p : Proc) (j : Nat) (r : snapraid_rehash) : (p.set_rehandle j r).autosavedone = p.autosavedone := rfl
@[simp] theorem Proc.set_rehandle_autosavelimit (p : Proc) (j : Nat) (r : snapraid_rehash) : (p.set_rehandle j r).autosavelimit = p.autosavelimit := rfl
@[simp] theorem Proc.set_rehandle_autosavemissing (p : Proc) (j : Nat) (r : snapraid_rehash) : (p.set_rehandle j r).autosavemissing = p.autosavemissing := rfl
@[simp] theorem Proc.set_rehandle_error (p : Proc) (j : Nat) (r : snapraid_rehash) : (p.set_rehandle j r).error = p.error := rfl
@[simp] theorem Proc.set_rehandle_silent_error (p : Proc) (j : Nat) (r : snapraid_rehash) : (p.set_rehandle j r).silent_error = p.silent_error := rfl
@[simp] theorem Proc.set_rehandle_trace (p : Proc) (j : Nat) (r : snapraid_rehash) : (p.set_rehandle j r).trace = p.trace := rfl

@[simp] theorem Proc.info_set_rehandle (p : Proc) (i : Nat) (v : Nat) : (p.info_set i v).rehandle = p.rehandle := rfl
@[simp] theorem Proc.info_set_buffer (p : Proc) (i : Nat) (v : Nat) : (p.info_set i v).buffer = p.buffer := rfl
@[simp] theorem Proc.info_set_countsize (p : Proc) (i : Nat) (v : Nat) : (p.info_set i v).countsize = p.countsize := rfl
@[simp] theorem Proc.info_set_countpos (p : Proc) (i : Nat) (v : Nat) : (p.info_set i v).countpos = p.countpos := rfl
@[simp] theorem Proc.info_set_countmax (p : Proc) (i : Nat) (v : Nat) : (p.info_set i v).countmax = p.countmax := rfl
@[simp] theorem Proc.info_set_recountmax (p : Proc) (i : Nat) (v : Nat) : (p.info_set i v).recountmax = p.recountmax := rfl
@[simp] theorem Proc.info_set_autosavedone (p : Proc) (i : Nat) (v : Nat) : (p.info_set i v).autosavedone = p.autosavedone := rfl
@[simp] theorem Proc.info_set_autosavelimit (p : Proc) (i : Nat) (v : Nat) : (p.info_set i v).autosavelimit = p.autosavelimit := rfl
@[simp] theorem Proc.info_set_autosavemissing (p : Proc) (i : Nat) (v : Nat) : (p.info_set i v).autosavemissing = p.autosavemissing := rfl
@[simp] theorem Proc.info_set_error (p : Proc) (i : Nat) (v : Nat) : (p.info_set i v).error = p.error := rfl
@[simp] theorem Proc.info_set_silent_error (p : Proc) (i : Nat) (v : Nat) : (p.info_set i v).silent_error = p.silent_error := rfl
@[simp] theorem Proc.info_set_trace (p : Proc) (i : Nat) (v : Nat) : (p.info_set i v).trace = p.trace := rfl
@[simp] theorem Proc.info_set_infoarr (p : Proc) (i : Nat) (v : Nat) :
    (p.info_set i v).state.infoarr = upd p.state.infoarr i v := rfl
@[simp] theorem Proc.info_set_state_level (p : Proc) (i : Nat) (v : Nat) : (p.info_set i v).state.level = p.state.level := rfl
@[simp] theorem Proc.info_set_state_block_size (p : Proc) (i : Nat) (v : Nat) : (p.info_set i v).state.block_size = p.state.block_size := rfl
@[simp] theorem Proc.info_set_state_autosave (p : Proc) (i : Nat) (v : Nat) : (p.info_set i v).state.autosave = p.state.autosave := rfl
@[simp] theorem Proc.info_set_state_hash (p : Proc) (i : Nat) (v : Nat) : (p.info_set i v).state.hash = p.state.hash := rfl
@[simp] theorem Proc.info_set_state_hashseed (p : Proc) (i : Nat) (v : Nat) : (p.info_set i v).state.hashseed = p.state.hashseed := rfl
@[simp] theorem Proc.info_set_state_prevhash (p : Proc) (i : Nat) (v : Nat) : (p.info_set i v).state.prevhash = p.state.prevhash := rfl
@[simp] theorem Proc.info_set_state_prevhashseed (p : Proc) (i : Nat) (v : Nat) : (p.info_set i v).state.prevhashseed = p.state.prevhashseed := rfl
@[simp] theorem Proc.info_set_state_opt (p : Proc) (i : Nat) (v : Nat) : (p.info_set i v).state.opt = p.state.opt := rfl
@[simp] theorem Proc.info_set_state_need_write (p : Proc) (i : Nat) (v : Nat) : (p.info_set i v).state.need_write = p.state.need_write := rfl
@[simp] theorem Proc.info_set_state_diskmax (p : Proc) (i : Nat) (v : Nat) : (p.info_set i v).state.diskmax = p.state.diskmax := rfl
@[simp] theorem Proc.info_set_state_disk (p : Proc) (i : Nat) (v : Nat) : (p.info_set i v).state.disk = p.state.disk := rfl
@[simp] theorem Proc.info_set_state_block (p : Proc) (i : Nat) (v : Nat) : (p.info_set i v).state.block = p.state.block := rfl

@[simp] theorem Proc.count_visit_state (p : Proc) : p.count_visit.state = p.state := rfl
@[simp] theorem Proc.count_visit_rehandle (p : Proc) : p.count_visit.rehandle = p.rehandle := rfl
@[simp] theorem Proc.count_visit_buffer (p : Proc) : p.count_visit.buffer = p.buffer := rfl
@[simp] theorem Proc.count_visit_countsize (p : Proc) : p.count_visit.countsize = p.countsize := rfl
@[simp] theorem Proc.count_visit_countpos (p : Proc) : p.count_visit.countpos = p.countpos := rfl
@[simp] theorem Proc.count_visit_countmax (p : Proc) : p.count_visit.countmax = p.countmax := rfl
@[simp] theorem Proc.count_visit_recountmax (p : Proc) :
    p.count_visit.recountmax = p.recountmax + 1 := rfl
@[simp] theorem Proc.count_visit_autosavedone (p : Proc) :
    p.count_visit.autosavedone = p.autosavedone + 1 := rfl
@[simp] theorem Proc.count_visit_autosavelimit (p : Proc) :
    p.count_visit.autosavelimit = p.autosavelimit := rfl
@[simp] theorem Proc.count_visit_autosavemissing (p : Proc) :
    p.count_visit.autosavemissing = (p.autosavemissing + U32 - 1) % U32 := rfl
@[simp] theorem Proc.count_visit_error (p : Proc) : p.count_visit.error = p.error := rfl
@[simp] theorem Proc.count_visit_silent_error (p : Proc) :
    p.count_visit.silent_error = p.silent_error := rfl
@[simp] theorem Proc.count_visit_trace (p : Proc) : p.count_visit.trace = p.trace := rfl

@[simp] theorem Proc.hash_set_rehandle (p : Proc) (d : Nat) (k : Nat) (h : hash_t) : (p.hash_set d k h).rehandle = p.rehandle := rfl
@[simp] theorem Proc.hash_set_buffer (p : Proc) (d : Nat) (k : Nat) (h : hash_t) : (p.hash_set d k h).buffer = p.buffer := rfl
@[simp] theorem Proc.hash_set_countsize (p : Proc) (d : Nat) (k : Nat) (h : hash_t) : (p.hash_set d k h).countsize = p.countsize := rfl
@[simp] theorem Proc.hash_set_countpos (p : Proc) (d : Nat) (k : Nat) (h : hash_t) : (p.hash_set d k h).countpos = p.countpos := rfl
@[simp] theorem Proc.hash_set_countmax (p : Proc) (d : Nat) (k : Nat) (h : hash_t) : (p.hash_set d k h).countmax = p.countmax := rfl
@[simp] theorem Proc.hash_set_recountmax (p : Proc) (d : Nat) (k : Nat) (h : hash_t) : (p.hash_set d k h).recountmax = p.recountmax := rfl
@[simp] theorem Proc.hash_set_autosavedone (p : Proc) (d : Nat) (k : Nat) (h : hash_t) : (p.hash_set d k h).autosavedone = p.autosavedone := rfl
@[simp] theorem Proc.hash_set_autosavelimit (p : Proc) (d : Nat) (k : Nat) (h : hash_t) : (p.hash_set d k h).autosavelimit = p.autosavelimit := rfl
@[simp] theorem Proc.hash_set_autosavemissing (p : Proc) (d : Nat) (k : Nat) (h : hash_t) : (p.hash_set d k h).autosavemissing = p.autosavemissing := rfl
@[simp] theorem Proc.hash_set_error (p : Proc) (d : Nat) (k : Nat) (h : hash_t) : (p.hash_set d k h).error = p.error := rfl
@[simp] theorem Proc.hash_set_silent_error (p : Proc) (d : Nat) (k : Nat) (h : hash_t) : (p.hash_set d k h).silent_error = p.silent_error := rfl
@[simp] theorem Proc.hash_set_trace (p : Proc) (d : Nat) (k : Nat) (h : hash_t) : (p.hash_set d k h).trace = p.trace := rfl
@[simp] theorem Proc.hash_set_state_infoarr (p : Proc) (d : Nat) (k : Nat) (h : hash_t) : (p.hash_set d k h).state.infoarr = p.state.infoarr := rfl
@[simp] theorem Proc.hash_set_state_level (p : Proc) (d : Nat) (k : Nat) (h : hash_t) : (p.hash_set d k h).state.level = p.state.level := rfl
@[simp] theorem Proc.hash_set_state_block_size (p : Proc) (d : Nat) (k : Nat) (h : hash_t) : (p.hash_set d k h).state.block_size = p.state.block_size := rfl
@[simp] theorem Proc.hash_set_state_autosave (p : Proc) (d : Nat) (k : Nat) (h : hash_t) : (p.hash_set d k h).state.autosave = p.state.autosave := rfl
@[simp] theorem Proc.hash_set_state_hash (p : Proc) (d : Nat) (k : Nat) (h : hash_t) : (p.hash_set d k h).state.hash = p.state.hash := rfl
@[simp] theorem Proc.hash_set_state_hashseed (p : Proc) (d : Nat) (k : Nat) (h : hash_t) : (p.hash_set d k h).state.hashseed = p.state.hashseed := rfl
@[simp] theorem Proc.hash_set_state_prevhash (p : Proc) (d : Nat) (k : Nat) (h : hash_t) : (p.hash_set d k h).state.prevhash = p.state.prevhash := rfl
@[simp] theorem Proc.hash_set_state_prevhashseed (p : Proc) (d : Nat) (k : Nat) (h : hash_t) : (p.hash_set d k h).state.prevhashseed = p.state.prevhashseed := rfl
@[simp] theorem Proc.hash_set_state_opt (p : Proc) (d : Nat) (k : Nat) (h : hash_t) : (p.hash_set d k h).state.opt = p.state.opt := rfl
@[simp] theorem Proc.hash_set_state_need_write (p : Proc) (d : Nat) (k : Nat) (h : hash_t) : (p.hash_set d k h).state.need_write = p.state.need_write := rfl
@[simp] theorem Proc.hash_set_state_diskmax (p : Proc) (d : Nat) (k : Nat) (h : hash_t) : (p.hash_set d k h).state.diskmax = p.state.diskmax := rfl
@[simp] theorem Proc.hash_set_state_disk (p : Proc) (d : Nat) (k : Nat) (h : hash_t) : (p.hash_set d k h).state.disk = p.state.disk := rfl
theorem Proc.hash_set_block (p : Proc) (d : Nat) (k : Nat) (h : hash_t) :
    (p.hash_set d k h).state.block
      = upd p.state.block d (upd (p.state.block d) k { (p.state.block d k) with hash := h }) := rfl

@[simp] theorem upd_same {β : Type} (f : Nat → β) (a : Nat) (v : β) : upd f a v a = v := by
  simp [upd]

theorem upd_other {β : Type} (f : Nat → β) (a k : Nat) (v : β) (h : k ≠ a) : upd f a v k = f k := by
  simp [upd, h]

/-! ## Frame of the verification phase -/

theorem U32_eq : U32 = 4294967296 := by decide

theorem countP_le_of_prefix {l1 l2 : List Event} (f : Event → Bool) (h : l1 <+: l2) :
    l1.countP f ≤ l2.countP f :=
  h.sublist.countP_le f

@[simp] theorem visited_append (a b : List Event) : visited (a ++ b) = visited a ++ visited b := by
  simp [visited]

@[simp] theorem visited_nil : visited [] = [] := rfl

theorem visited_cons_none (e : Event) (es : List Event) (h : e.visit_index = none) :
    visited (e :: es) = visited es := by
  simp [visited, h]

theorem VFrame.vrefl (i : Nat) (pl : Proc × Locals) : VFrame i pl pl := by
  constructor <;> (try simp) <;> (try omega)

theorem VFrame.vtrans {i : Nat} {a b c : Proc × Locals} (h1 : VFrame i a b)
    (h2 : VFrame i b c) : VFrame i a c := by
  have e1 := h1.errors
  have e2 := h2.errors
  have c1 := countP_le_of_prefix Event.counts_error h1.pre
  have c2 := countP_le_of_prefix Event.counts_error h2.pre
  rw [U32_eq] at e1 e2
  constructor
  · rw [h2.state, h1.state]
  · rw [h2.countpos, h1.countpos]
  · rw [h2.countmax, h1.countmax]
  · rw [h2.recountmax, h1.recountmax]
  · rw [h2.autosavedone, h1.autosavedone]
  · rw [h2.autosavelimit, h1.autosavelimit]
  · rw [h2.autosavemissing, h1.autosavemissing]
  · exact h1.pre.trans h2.pre
  · rw [h2.others, h1.others]
  · rw [h2.visited, h1.visited]
  · rw [U32_eq]
    omega
  · exact fun h => h2.error_lt (h1.error_lt h)
  · exact fun h => h2.silent_lt (h1.silent_lt h)
  · intro h
    obtain ⟨k1, k2⟩ := h1.keep (by omega)
    obtain ⟨k3, k4⟩ := h2.keep (by omega)
    exact ⟨by rw [k3, k1], by rw [k4, k2]⟩
  · intro h
    rcases h2.eflag h with h | h
    · rcases h1.eflag h with h | h
      · exact Or.inl h
      · exact Or.inr (lt_of_lt_of_le h c2)
    · exact Or.inr (lt_of_le_of_lt c1 h)
  · intro h
    rcases h2.sflag h with h | h
    · rcases h1.sflag h with h | h
      · exact Or.inl h
      · exact Or.inr (lt_of_lt_of_le h c2)
    · exact Or.inr (lt_of_le_of_lt c1 h)
  · exact fun h => h2.eflag_mono (h1.eflag_mono h)
  · exact fun h => h2.sflag_mono (h1.sflag_mono h)
  · exact fun h => h2.uflag_mono (h1.uflag_mono h)

theorem hash_compare_frame (i : Nat) (j : Nat) (block : snapraid_block) (hash : hash_t)
    (u : Bool) (pl : Proc × Locals) : VFrame i pl (hash_compare i j block hash u pl) := by
  unfold hash_compare
  repeat' split
  all_goals constructor <;> (try simp [Event.stripe, visited, Event.visit_index, Event.counts_error, Event.is_error_log, U32_eq]) <;> (try omega)


theorem disk_hash_frame (x : Helpers) (i : Nat) (rehash : Bool) (j : Nat)
    (block : snapraid_block) (u : Bool) (n : Int) (pl : Proc × Locals) :
    VFrame i pl (disk_hash x i rehash j block u n pl) := by
  unfold disk_hash
  simp only []
  split
  all_goals refine VFrame.vtrans ?_ (hash_compare_frame _ _ _ _ _ _)
  all_goals constructor <;> (try simp [Event.stripe, visited, Event.visit_index, Event.counts_error, Event.is_error_log, U32_eq]) <;> (try omega)

theorem disk_iter_frame (x : Helpers) (w : World) (i : Nat) (rehash : Bool) (j : Nat)
    (pl : Proc × Locals) : VFrame i pl (disk_iter x w i rehash j pl).2 := by
  unfold disk_iter
  simp only []
  repeat' split
  any_goals refine VFrame.vtrans ?_ (disk_hash_frame _ _ _ _ _ _ _ _)
  all_goals constructor <;> (try simp [Event.stripe, visited, Event.visit_index, Event.counts_error, Event.is_error_log, U32_eq]) <;> (try omega)

theorem disk_loop_frame (x : Helpers) (w : World) (i : Nat) (rehash : Bool) (n j : Nat)
    (pl : Proc × Locals) : VFrame i pl (disk_loop x w i rehash n j pl).2 := by
  induction n generalizing j pl with
  | zero => exact VFrame.vrefl i pl
  | succ n ih =>
    have h := disk_iter_frame x w i rehash j pl
    unfold disk_loop
    split
    · rename_i pl1 heq
      rw [heq] at h
      exact h.vtrans (ih (j + 1) pl1)
    · exact h

theorem parity_fetch_frame (i : Nat) (b : Nat) (r : Int × bytes) (call ev : Event)
    (hc : call.stripe = some i) (hcv : call.visit_index = none) (hcc : call.counts_error = false)
    (he : ev.stripe = some i) (hev : ev.visit_index = none) (hec : ev.counts_error = true)
    (pl : Proc × Locals) : VFrame i pl (parity_fetch b r call ev pl) := by
  unfold parity_fetch
  simp only []
  split
  all_goals constructor <;> (try simp [hc, hcv, hcc, he, hev, hec, visited, U32_eq]) <;> (try omega)

theorem parity_compare_frame (i : Nat) (d : Bool) (ev : Event)
    (he : ev.stripe = some i) (hev : ev.visit_index = none) (hec : ev.counts_error = true)
    (pl : Proc × Locals) : VFrame i pl (parity_compare d ev pl) := by
  unfold parity_compare
  simp only []
  repeat' split
  all_goals constructor <;> (try simp [he, hev, hec, visited, U32_eq]) <;> (try omega)

theorem raid_gen_frame (i : Nat) (pl : Proc × Locals) (b : Nat → bytes) :
    VFrame i pl (({ pl.1 with buffer := b } : Proc).emit [.call_raid_gen i], pl.2) := by
  constructor <;> (try simp [Event.stripe, visited, Event.visit_index, Event.counts_error, Event.is_error_log, U32_eq]) <;> (try omega)

theorem parity_load_frame (x : Helpers) (w : World) (i : Nat) (pl : Proc × Locals) :
    VFrame i pl (parity_load x w i pl).pl := by
  have hP : ∀ b q, VFrame i q (parity_fetch b (w.parity_read i) (.call_parity_read i)
      (.log_parity_read_error i) q) := fun b q =>
    parity_fetch_frame i b _ (.call_parity_read i) (.log_parity_read_error i) rfl rfl rfl rfl rfl rfl q
  have hQ : ∀ b q, VFrame i q (parity_fetch b (w.qarity_read i) (.call_qarity_read i)
      (.log_qarity_read_error i) q) := fun b q =>
    parity_fetch_frame i b _ (.call_qarity_read i) (.log_qarity_read_error i) rfl rfl rfl rfl rfl rfl q
  unfold parity_load
  simp only []
  split
  · exact ((hP _ _).vtrans (hQ _ _)).vtrans (raid_gen_frame i _ _)
  · exact (hP _ _).vtrans (raid_gen_frame i _ _)

theorem parity_verdict_frame (i : Nat) (q : ParityLoad) : VFrame i q.pl (parity_verdict i q) := by
  have cP : ∀ d q, VFrame i q (parity_compare d (.log_parity_data_error i) q) := fun d q =>
    parity_compare_frame i d (.log_parity_data_error i) rfl rfl rfl q
  have cQ : ∀ d q, VFrame i q (parity_compare d (.log_qarity_data_error i) q) := fun d q =>
    parity_compare_frame i d (.log_qarity_data_error i) rfl rfl rfl q
  unfold parity_verdict
  simp only []
  split
  · exact (cP _ _).vtrans (cQ _ _)
  · exact cP _ _

theorem parity_check_frame (x : Helpers) (w : World) (i : Nat) (pl : Proc × Locals) :
    VFrame i pl (parity_check x w i pl) := by
  unfold parity_check
  split
  · exact (parity_load_frame x w i pl).vtrans (parity_verdict_frame i _)
  · exact VFrame.vrefl i pl

theorem verify_frame (x : Helpers) (w : World) (i : Nat) (rehash : Bool) (p : Proc) :
    VFrame i (p, ⟨false, false, false⟩) (verify x w i rehash p).2 := by
  have h := disk_loop_frame x w i rehash p.state.diskmax 0 (p, ⟨false, false, false⟩)
  unfold verify
  simp only []
  split
  · rename_i pl heq
    rw [heq] at h
    exact h.vtrans (parity_check_frame x w i pl)
  · exact h

/-! ## The rehash staging slots -/

theorem hash_compare_rehandle (i : Nat) (j : Nat) (block : snapraid_block) (hash : hash_t)
    (u : Bool) (pl : Proc × Locals) :
    (hash_compare i j block hash u pl).1.rehandle = pl.1.rehandle := by
  unfold hash_compare
  repeat' split
  all_goals simp

theorem hash_compare_eflag (i : Nat) (j : Nat) (block : snapraid_block) (hash : hash_t)
    (u : Bool) (pl : Proc × Locals)
    (h : (hash_compare i j block hash u pl).2.error_on_this_block = false)
    (hs : (hash_compare i j block hash u pl).2.silent_error_on_this_block = false) :
    ¬ (block.has_hash = true ∧ hash ≠ block.hash) := by
  unfold hash_compare at h hs
  intro hc
  have : (block.has_hash && decide (hash ≠ block.hash)) = true := by simp [hc]
  rw [if_pos this] at h hs
  cases u <;> simp at h hs

/-- What `disk_iter` leaves in the staging slots: only slot `j` changes, it
holds no pointer or a pointer to the block of disk `j` at index `i`, and after a
read with `rehash` set it holds the hash of the bytes read under the current
hash function. -/
theorem disk_iter_rehandle (x : Helpers) (w : World) (i : Nat) (rehash : Bool) (j : Nat)
    (pl : Proc × Locals) :
    (∀ k, k ≠ j → (disk_iter x w i rehash j pl).2.1.rehandle k = pl.1.rehandle k)
    ∧ (((disk_iter x w i rehash j pl).2.1.rehandle j).block = none
        ∨ ((disk_iter x w i rehash j pl).2.1.rehandle j).block = some (j, i))
    ∧ ((disk_iter x w i rehash j pl).1 = .next →
        (disk_iter x w i rehash j pl).2.2.error_on_this_block = false →
        rehash = true → pl.1.state.disk j = true →
        ∀ file, (pl.1.state.block j i).file = some file →
        (disk_iter x w i rehash j pl).2.1.rehandle j
          = { hash := x.memhash pl.1.state.hash pl.1.state.hashseed
                ((w.handle_read i j).2.take (w.handle_read i j).1.toNat),
              block := some (j, i) }) := by
  unfold disk_iter disk_hash
  simp only []
  refine ⟨?_, ?_, ?_⟩
  · intro k hk
    repeat' split
    all_goals simp [hash_compare_rehandle, upd_other _ _ _ _ hk]
  · repeat' split
    all_goals simp [hash_compare_rehandle]
  · repeat' split
    all_goals intro h1 h2 h3 h4 file h5
    all_goals simp_all [hash_compare_rehandle]

theorem disk_loop_succ_next (x : Helpers) (w : World) (i : Nat) (rehash : Bool) (n j : Nat)
    (pl pl1 : Proc × Locals) (h : disk_iter x w i rehash j pl = (.next, pl1)) :
    disk_loop x w i rehash (n + 1) j pl = disk_loop x w i rehash n (j + 1) pl1 := by
  simp [disk_loop, h]

theorem disk_loop_succ_stop (x : Helpers) (w : World) (i : Nat) (rehash : Bool) (n j : Nat)
    (pl : Proc × Locals) (h : (disk_iter x w i rehash j pl).1 ≠ .next) :
    disk_loop x w i rehash (n + 1) j pl = disk_iter x w i rehash j pl := by
  unfold disk_loop
  split
  · rename_i heq
    rw [heq] at h
    exact absurd rfl h
  · rfl

theorem disk_loop_rehandle (x : Helpers) (w : World) (i : Nat) (rehash : Bool) (n j0 : Nat)
    (pl : Proc × Locals) :
    (∀ k, k < j0 ∨ j0 + n ≤ k →
        (disk_loop x w i rehash n j0 pl).2.1.rehandle k = pl.1.rehandle k)
    ∧ ((disk_loop x w i rehash n j0 pl).1 = .next → ∀ k, j0 ≤ k → k < j0 + n →
        ((disk_loop x w i rehash n j0 pl).2.1.rehandle k).block = none
        ∨ ((disk_loop x w i rehash n j0 pl).2.1.rehandle k).block = some (k, i))
    ∧ ((disk_loop x w i rehash n j0 pl).1 = .next →
        (disk_loop x w i rehash n j0 pl).2.2.error_on_this_block = false →
        rehash = true → ∀ k, j0 ≤ k → k < j0 + n → pl.1.state.disk k = true →
        ∀ file, (pl.1.state.block k i).file = some file →
        (disk_loop x w i rehash n j0 pl).2.1.rehandle k
          = { hash := x.memhash pl.1.state.hash pl.1.state.hashseed
                ((w.handle_read i k).2.take (w.handle_read i k).1.toNat),
              block := some (k, i) }) := by
  induction n generalizing j0 pl with
  | zero =>
    refine ⟨fun k _ => rfl, fun _ k h1 h2 => ?_, fun _ _ _ k h1 h2 => ?_⟩ <;> omega
  | succ n ih =>
    obtain ⟨a1, a2, a3⟩ := disk_iter_rehandle x w i rehash j0 pl
    have fr := disk_iter_frame x w i rehash j0 pl
    by_cases hf : (disk_iter x w i rehash j0 pl).1 = .next
    · rcases hpl : disk_iter x w i rehash j0 pl with ⟨f, pl1⟩
      simp only [hpl] at a1 a2 a3 fr hf
      subst hf
      rw [disk_loop_succ_next x w i rehash n j0 pl pl1 hpl]
      obtain ⟨b1, b2, b3⟩ := ih (j0 + 1) pl1
      have fr2 := disk_loop_frame x w i rehash n (j0 + 1) pl1
      refine ⟨?_, ?_, ?_⟩
      · intro k hk
        rw [b1 k (by omega), a1 k (by omega)]
      · intro hn k h1 h2
        by_cases hk : k = j0
        · subst hk
          rw [b1 k (by omega)]
          exact a2
        · exact b2 hn k (by omega) (by omega)
      · intro hn he hr k h1 h2 hd file hfile
        by_cases hk : k = j0
        · subst hk
          rw [b1 k (by omega)]
          have he1 : pl1.2.error_on_this_block = false := by
            cases hc : pl1.2.error_on_this_block
            · rfl
            · rw [fr2.eflag_mono hc] at he
              exact absurd he (by simp)
          exact a3 rfl he1 hr hd file hfile
        · have := b3 hn he hr k (by omega) (by omega) (by rw [fr.state]; exact hd) file
            (by rw [fr.state]; exact hfile)
          rw [this, fr.state]
    · rw [disk_loop_succ_stop x w i rehash n j0 pl hf]
      refine ⟨?_, ?_, ?_⟩
      · intro k hk
        exact a1 k (by omega)
      · intro hn
        exact absurd hn hf
      · intro hn
        exact absurd hn hf

/-! ## The commit of staged hashes -/

/-- The commit loop writes only `block->hash` of the blocks the staging slots
point to. -/
theorem rehash_commit_spec (i : Nat) (n j0 : Nat) (p : Proc)
    (h : ∀ k, j0 ≤ k → k < j0 + n →
      (p.rehandle k).block = none ∨ (p.rehandle k).block = some (k, i)) :
    (rehash_commit n j0 p) = { p with state := { p.state with
        block := (rehash_commit n j0 p).state.block } }
    ∧ ∀ d k, (rehash_commit n j0 p).state.block d k
        = if k = i ∧ j0 ≤ d ∧ d < j0 + n ∧ (p.rehandle d).block = some (d, i)
          then { (p.state.block d k) with hash := (p.rehandle d).hash }
          else p.state.block d k := by
  induction n generalizing j0 p with
  | zero =>
    refine ⟨rfl, fun d k => ?_⟩
    rw [if_neg (by omega)]
    rfl
  | succ n ih =>
    unfold rehash_commit
    rcases h j0 (le_refl _) (by omega) with hb | hb
    · rw [hb]
      simp only []
      obtain ⟨c1, c2⟩ := ih (j0 + 1) p (fun k h1 h2 => h k (by omega) (by omega))
      refine ⟨c1, fun d k => ?_⟩
      rw [c2 d k]
      by_cases hd : d = j0
      · subst hd
        rw [if_neg (by omega), if_neg (by simp [hb])]
      · congr 1
        apply propext
        constructor <;> rintro ⟨e1, e2, e3, e4⟩ <;> exact ⟨e1, by omega, by omega, e4⟩
    · rw [hb]
      simp only []
      obtain ⟨c1, c2⟩ := ih (j0 + 1) (p.hash_set j0 i (p.rehandle j0).hash)
        (fun k h1 h2 => h k (by omega) (by omega))
      refine ⟨?_, fun d k => ?_⟩
      · rw [c1]
        rfl
      · rw [c2 d k]
        simp only [Proc.hash_set_rehandle, Proc.hash_set_block]
        by_cases hd : d = j0
        · subst hd
          rw [if_neg (by omega)]
          by_cases hk : k = i
          · subst hk
            rw [if_pos ⟨rfl, le_refl _, by omega, hb⟩]
            simp
          · rw [if_neg (by simp [hk])]
            simp [upd, hk]
        · rw [upd_other _ _ _ _ hd]
          congr 1
          apply propext
          constructor <;> rintro ⟨e1, e2, e3, e4⟩ <;> exact ⟨e1, by omega, by omega, e4⟩

/-! ## Frame of one iteration and of the processing loop -/

theorem IFrame.irefl (S : Nat → Prop) (p : Proc) : IFrame S p p := by
  constructor <;> (try simp) <;> (try omega)
  exact fun e he => Or.inl he

theorem IFrame.itrans {S : Nat → Prop} {a b c : Proc} (h1 : IFrame S a b)
    (h2 : IFrame S b c) : IFrame S a c := by
  have e1 := h1.errors
  have e2 := h2.errors
  have c1 := countP_le_of_prefix Event.counts_error h1.pre
  have c2 := countP_le_of_prefix Event.counts_error h2.pre
  rw [U32_eq] at e1 e2
  constructor
  · rw [h2.level, h1.level]
  · rw [h2.block_size, h1.block_size]
  · rw [h2.autosave, h1.autosave]
  · rw [h2.hash, h1.hash]
  · rw [h2.hashseed, h1.hashseed]
  · rw [h2.prevhash, h1.prevhash]
  · rw [h2.prevhashseed, h1.prevhashseed]
  · rw [h2.opt, h1.opt]
  · rw [h2.diskmax, h1.diskmax]
  · rw [h2.disk, h1.disk]
  · intro k hk
    rw [h2.infoarr k hk, h1.infoarr k hk]
  · intro d k hk
    rw [h2.block d k hk, h1.block d k hk]
  · intro d k
    rw [h2.block_file, h1.block_file]
  · intro d k
    rw [h2.block_has_hash, h1.block_has_hash]
  · exact fun h => h2.need_write (h1.need_write h)
  · rw [h2.countmax, h1.countmax]
  · rw [h2.autosavelimit, h1.autosavelimit]
  · exact h1.pre.trans h2.pre
  · intro e he
    rcases h2.events e he with h | h
    · exact h1.events e h
    · exact Or.inr h
  · rw [U32_eq]
    omega
  · exact fun h => h2.error_lt (h1.error_lt h)
  · exact fun h => h2.silent_lt (h1.silent_lt h)
  · intro h
    obtain ⟨k1, k2⟩ := h1.keep (by omega)
    obtain ⟨k3, k4⟩ := h2.keep (by omega)
    exact ⟨by rw [k3, k1], by rw [k4, k2]⟩
  · exact le_trans h1.recountmax_le h2.recountmax_le
  · exact le_trans h1.countpos_le h2.countpos_le

theorem IFrame.mono {S T : Nat → Prop} {a b : Proc} (h : IFrame S a b)
    (hst : ∀ k, S k → T k) : IFrame T a b := by
  constructor
  · exact h.level
  · exact h.block_size
  · exact h.autosave
  · exact h.hash
  · exact h.hashseed
  · exact h.prevhash
  · exact h.prevhashseed
  · exact h.opt
  · exact h.diskmax
  · exact h.disk
  · exact fun k hk => h.infoarr k (fun hs => hk (hst k hs))
  · exact fun d k hk => h.block d k (fun hs => hk (hst k hs))
  · exact h.block_file
  · exact h.block_has_hash
  · exact h.need_write
  · exact h.countmax
  · exact h.autosavelimit
  · exact h.pre
  · intro e he
    rcases h.events e he with h1 | h1
    · exact Or.inl h1
    · exact Or.inr (fun k hk => hst k (h1 k hk))
  · exact h.errors
  · exact h.error_lt
  · exact h.silent_lt
  · exact h.keep
  · exact h.recountmax_le
  · exact h.countpos_le

/-- Events added by a verification belong to its stripe. -/
theorem VFrame.events {i : Nat} {pl pl1 : Proc × Locals} (h : VFrame i pl pl1) :
    ∀ e, e ∈ pl1.1.trace → e ∈ pl.1.trace ∨ e.stripe = some i := by
  intro e he
  by_cases hs : e.stripe = some i
  · exact Or.inr hs
  · left
    have h1 : e ∈ pl1.1.trace.filter (fun e => decide (e.stripe ≠ some i)) := by
      simp [List.mem_filter, he, hs]
    rw [h.others] at h1
    exact (List.mem_filter.mp h1).1

theorem VFrame.toIFrame {i : Nat} {pl pl1 : Proc × Locals} (h : VFrame i pl pl1) :
    IFrame (fun k => k = i) pl.1 pl1.1 := by
  have hs := h.state
  have he := h.events
  have e1 := h.errors
  have e2 := h.keep
  constructor <;> (try simp [hs])
  · exact h.countmax
  · exact h.autosavelimit
  · exact h.pre
  · intro e hm
    rcases he e hm with h1 | h1
    · exact Or.inl h1
    · right
      intro k hk
      rw [h1] at hk
      exact (Option.some.inj hk).symm
  · exact e1
  · exact h.error_lt
  · exact h.silent_lt
  · exact e2
  · exact le_of_eq h.recountmax.symm
  · exact le_of_eq h.countpos.symm

theorem parity_fetch_rehandle (b : Nat) (r : Int × bytes) (call ev : Event) (pl : Proc × Locals) :
    (parity_fetch b r call ev pl).1.rehandle = pl.1.rehandle := by
  unfold parity_fetch
  simp only []
  split <;> simp

theorem parity_compare_rehandle (d : Bool) (ev : Event) (pl : Proc × Locals) :
    (parity_compare d ev pl).1.rehandle = pl.1.rehandle := by
  unfold parity_compare
  simp only []
  repeat' split
  all_goals simp

theorem parity_load_rehandle (x : Helpers) (w : World) (i : Nat) (pl : Proc × Locals) :
    (parity_load x w i pl).pl.1.rehandle = pl.1.rehandle := by
  unfold parity_load
  simp only []
  split <;> simp [parity_fetch_rehandle]

theorem parity_verdict_rehandle (i : Nat) (q : ParityLoad) :
    (parity_verdict i q).1.rehandle = q.pl.1.rehandle := by
  unfold parity_verdict
  simp only []
  split <;> simp [parity_compare_rehandle]

theorem parity_check_rehandle (x : Helpers) (w : World) (i : Nat) (pl : Proc × Locals) :
    (parity_check x w i pl).1.rehandle = pl.1.rehandle := by
  unfold parity_check
  split
  · rw [parity_verdict_rehandle, parity_load_rehandle]
  · rfl

/-- After a verification that reached the parity check, every staging slot of a
data disk holds no pointer or a pointer to the block of that disk at index `i`. -/
theorem verify_staged (x : Helpers) (w : World) (i : Nat) (rehash : Bool) (p : Proc)
    (pl : Proc × Locals) (h : verify x w i rehash p = (.next, pl)) :
    ∀ k, 0 ≤ k → k < 0 + p.state.diskmax →
      (pl.1.rehandle k).block = none ∨ (pl.1.rehandle k).block = some (k, i) := by
  unfold verify at h
  simp only [] at h
  obtain ⟨-, a2, -⟩ := disk_loop_rehandle x w i rehash p.state.diskmax 0 (p, ⟨false, false, false⟩)
  split at h
  · rename_i pl0 heq
    rw [heq] at a2
    have hpl : pl = parity_check x w i pl0 := by
      simp only [Prod.mk.injEq, true_and] at h
      exact h.symm
    rw [hpl, parity_check_rehandle]
    exact a2 rfl
  · rename_i hne
    exact absurd h (fun h' => hne _ h')

theorem rehash_commit_frame (i : Nat) (n : Nat) (p : Proc)
    (h : ∀ k, 0 ≤ k → k < 0 + n →
      (p.rehandle k).block = none ∨ (p.rehandle k).block = some (k, i)) :
    IFrame (fun k => k = i) p (rehash_commit n 0 p) := by
  obtain ⟨c1, c2⟩ := rehash_commit_spec i n 0 p h
  rw [c1]
  constructor <;> (try simp) <;> (try omega)
  · intro d k hk
    rw [c2 d k, if_neg (by simp [hk])]
  · intro d k
    rw [c2 d k]
    split <;> rfl
  · intro d k
    rw [c2 d k]
    split <;> rfl
  · exact fun e he => Or.inl he

theorem info_set_frame (i : Nat) (p : Proc) (v : Nat) :
    IFrame (fun k => k = i) p (p.info_set i v) := by
  constructor <;> (try simp) <;> (try omega)
  case infoarr =>
    intro k hk
    exact upd_other _ _ _ _ hk
  case events =>
    exact fun e he => Or.inl he

theorem rehash_commit_fields (n j : Nat) (p : Proc) :
    (rehash_commit n j p).countpos = p.countpos
    ∧ (rehash_commit n j p).recountmax = p.recountmax
    ∧ (rehash_commit n j p).autosavedone = p.autosavedone
    ∧ (rehash_commit n j p).autosavemissing = p.autosavemissing
    ∧ (rehash_commit n j p).countsize = p.countsize
    ∧ (rehash_commit n j p).trace = p.trace
    ∧ (rehash_commit n j p).error = p.error
    ∧ (rehash_commit n j p).silent_error = p.silent_error
    ∧ (rehash_commit n j p).state.infoarr = p.state.infoarr
    ∧ (rehash_commit n j p).state.need_write = p.state.need_write := by
  induction n generalizing j p with
  | zero => simp [rehash_commit]
  | succ n ih =>
    unfold rehash_commit
    split
    · rename_i d k _
      have := ih (j + 1) (p.hash_set d k (p.rehandle j).hash)
      simpa using this
    · exact ih (j + 1) p

/-- The bookkeeping touches only the catalog: info word `i` and stored hashes at
index `i`. -/
theorem outcome_frame (x : Helpers) (now : Int) (i : Nat) (info : Nat)
    (rehash : Bool) (pl : Proc × Locals)
    (h : ∀ k, 0 ≤ k → k < 0 + pl.1.state.diskmax →
      (pl.1.rehandle k).block = none ∨ (pl.1.rehandle k).block = some (k, i)) :
    IFrame (fun k => k = i) pl.1 (outcome x now i info rehash pl) := by
  unfold outcome
  split
  · exact info_set_frame i _ _
  · split
    · exact IFrame.irefl _ _
    · split
      · exact (rehash_commit_frame i _ _ h).itrans (info_set_frame i _ _)
      · exact info_set_frame i _ _

theorem outcome_fields (x : Helpers) (now : Int) (i : Nat) (info : Nat)
    (rehash : Bool) (pl : Proc × Locals) :
    (outcome x now i info rehash pl).countpos = pl.1.countpos
    ∧ (outcome x now i info rehash pl).recountmax = pl.1.recountmax
    ∧ (outcome x now i info rehash pl).autosavedone = pl.1.autosavedone
    ∧ (outcome x now i info rehash pl).autosavemissing = pl.1.autosavemissing
    ∧ (outcome x now i info rehash pl).countsize = pl.1.countsize
    ∧ (outcome x now i info rehash pl).trace = pl.1.trace
    ∧ (outcome x now i info rehash pl).error = pl.1.error
    ∧ (outcome x now i info rehash pl).silent_error = pl.1.silent_error := by
  obtain ⟨a1, a2, a3, a4, a5, a6, a7, a8, -, -⟩ := rehash_commit_fields pl.1.state.diskmax 0 pl.1
  unfold outcome
  repeat' split
  all_goals simp [a1, a2, a3, a4, a5, a6, a7, a8]

theorem finish_stripe_frame (w : World) (i : Nat) (p : Proc) :
    IFrame (fun k => k = i) p (finish_stripe w i p).2 := by
  unfold finish_stripe
  simp only []
  repeat' split
  all_goals constructor <;> (try simp [Event.stripe, Event.counts_error, Event.is_error_log]) <;> (try omega)
  all_goals intro e he
  all_goals rcases he with he | he
  all_goals first
    | exact Or.inl he
    | (right; subst he; intro k hk; exact (Option.some.inj hk).symm)
    | (rcases he with he | he <;>
        (right; subst he; intro k hk; exact (Option.some.inj hk).symm))

theorem finish_stripe_fields (w : World) (i : Nat) (p : Proc) :
    (finish_stripe w i p).1 ≠ .bail
    ∧ (finish_stripe w i p).2.countpos = p.countpos + 1
    ∧ (finish_stripe w i p).2.recountmax = p.recountmax
    ∧ (finish_stripe w i p).2.state.infoarr = p.state.infoarr
    ∧ (finish_stripe w i p).2.state.block = p.state.block
    ∧ (finish_stripe w i p).2.state.need_write = true
    ∧ (finish_stripe w i p).2.error = p.error
    ∧ (finish_stripe w i p).2.silent_error = p.silent_error
    ∧ i ∈ visited (finish_stripe w i p).2.trace := by
  unfold finish_stripe
  simp only []
  repeat' split
  all_goals simp [visited, Event.visit_index]

/-! ## Selection in the two passes -/

theorem count_iter_eq (x : Helpers) (state : snapraid_state) (timelimit : Int)
    (countlimit i c : Nat) :
    count_iter x state timelimit countlimit i c
      = if selects x state timelimit countlimit i c then c + 1 else c := by
  unfold count_iter selects
  simp only []
  repeat' split
  all_goals simp_all
  all_goals omega

theorem process_iter_eq (x : Helpers) (w : World) (now timelimit : Int)
    (countlimit i : Nat) (p : Proc) :
    process_iter x w now timelimit countlimit i p
      = if selects x p.state timelimit countlimit i p.recountmax
        then visit x w now i (p.state.infoarr i) p else (.next, p) := by
  unfold process_iter selects
  simp only []
  repeat' split
  all_goals simp_all
  all_goals omega

theorem selects_congr (x : Helpers) (s1 s2 : snapraid_state) (timelimit : Int)
    (countlimit i c : Nat) (h1 : s1.infoarr i = s2.infoarr i) (h2 : s1.opt = s2.opt) :
    selects x s1 timelimit countlimit i c = selects x s2 timelimit countlimit i c := by
  unfold selects
  rw [h1, h2]

theorem count_loop_eq (x : Helpers) (state : snapraid_state) (timelimit : Int)
    (countlimit : Nat) (n : Nat) (i c : Nat) :
    count_loop x state timelimit countlimit n i c
      = c + (select_list x state timelimit countlimit n i c).length := by
  induction n generalizing i c with
  | zero => simp [count_loop, select_list]
  | succ n ih =>
    unfold count_loop select_list
    rw [count_iter_eq, ih]
    split
    · simp
      omega
    · rfl

theorem finish_stripe_visited (w : World) (i : Nat) (p : Proc) :
    visited (finish_stripe w i p).2.trace = visited p.trace ++ [i] := by
  unfold finish_stripe
  simp only []
  repeat' split
  all_goals simp [visited, Event.visit_index]

theorem count_visit_frame (S : Nat → Prop) (p : Proc) : IFrame S p p.count_visit := by
  constructor <;> (try simp) <;> (try omega)
  exact fun e he => Or.inl he

theorem disk_iter_flow (x : Helpers) (w : World) (i : Nat) (rehash : Bool) (j : Nat)
    (pl : Proc × Locals) : (disk_iter x w i rehash j pl).1 ≠ .brk := by
  unfold disk_iter
  simp only []
  repeat' split
  all_goals simp

theorem disk_loop_flow (x : Helpers) (w : World) (i : Nat) (rehash : Bool) (n j : Nat)
    (pl : Proc × Locals) : (disk_loop x w i rehash n j pl).1 ≠ .brk := by
  induction n generalizing j pl with
  | zero => simp [disk_loop]
  | succ n ih =>
    have h := disk_iter_flow x w i rehash j pl
    unfold disk_loop
    split
    · exact ih _ _
    · exact h

theorem verify_flow (x : Helpers) (w : World) (i : Nat) (rehash : Bool) (p : Proc) :
    (verify x w i rehash p).1 ≠ .brk := by
  have h := disk_loop_flow x w i rehash p.state.diskmax 0 (p, ⟨false, false, false⟩)
  unfold verify
  simp only []
  split
  · simp
  · exact h

/-- Facts on `visit`: the frame of the whole stripe, and the counters. -/
theorem visit_spec (x : Helpers) (w : World) (now : Int) (i : Nat) (info : Nat)
    (p : Proc) :
    IFrame (fun k => k = i) p (visit x w now i info p).2
    ∧ (visit x w now i info p).2.recountmax = p.recountmax + 1
    ∧ ((visit x w now i info p).1 ≠ .bail →
        (visit x w now i info p).2.countpos = p.countpos + 1
        ∧ visited (visit x w now i info p).2.trace = visited p.trace ++ [i]
        ∧ (visit x w now i info p).2.state.need_write = true) := by
  have fr := verify_frame x w i (x.info_get_rehash info) p.count_visit
  have st := verify_staged x w i (x.info_get_rehash info) p.count_visit
  unfold visit
  simp only []
  split
  · rename_i pl heq
    rw [heq] at fr
    have st1 := st pl heq
    have hs : pl.1.state.diskmax = p.count_visit.state.diskmax := by rw [fr.state]
    rw [← hs] at st1
    have o1 := outcome_frame x now i info (x.info_get_rehash info) pl st1
    obtain ⟨a1, a2, a3, a4, a5, a6, a7, a8⟩ := outcome_fields x now i info (x.info_get_rehash info) pl
    obtain ⟨b1, b2, b3, b4, b5, b6, b7, b8, b9⟩ :=
      finish_stripe_fields w i (outcome x now i info (x.info_get_rehash info) pl)
    refine ⟨?_, ?_, ?_⟩
    · exact ((count_visit_frame _ p).itrans fr.toIFrame).itrans
        (o1.itrans (finish_stripe_frame w i _))
    · rw [b3, a2, fr.recountmax]
      rfl
    · intro _
      refine ⟨?_, ?_, b6⟩
      · rw [b2, a1, fr.countpos]
        rfl
      · rw [finish_stripe_visited, a6, fr.visited]
        rfl
  · rename_i f pl hne heq
    rw [heq] at fr
    refine ⟨?_, ?_, ?_⟩
    · exact (count_visit_frame _ p).itrans fr.toIFrame
    · rw [fr.recountmax]
      rfl
    · intro hb
      exfalso
      have hf := verify_flow x w i (x.info_get_rehash info) p.count_visit
      rw [heq] at hf
      cases f
      · exact hne rfl
      · exact hf rfl
      · exact hb rfl

/-- The visited stripes of the processing loop are those of `select_list`,
computed from the info array on entry: `state0` agrees with the catalog of `p`
on the indices still to scan.  On a complete scan the list is exhausted. -/
theorem process_loop_visited (x : Helpers) (w : World) (now timelimit : Int) (countlimit : Nat)
    (state0 : snapraid_state) (n i : Nat) (p : Proc)
    (hinfo : ∀ k, i ≤ k → p.state.infoarr k = state0.infoarr k)
    (hopt : p.state.opt = state0.opt) :
    IFrame (fun k => i ≤ k ∧ k < i + n ∧ state0.infoarr k ≠ 0) p
      (process_loop x w now timelimit countlimit n i p).2
    ∧ ((process_loop x w now timelimit countlimit n i p).1 = .next →
      visited (process_loop x w now timelimit countlimit n i p).2.trace
        = visited p.trace ++ select_list x state0 timelimit countlimit n i p.recountmax
      ∧ (process_loop x w now timelimit countlimit n i p).2.recountmax
        = p.recountmax + (select_list x state0 timelimit countlimit n i p.recountmax).length
      ∧ (process_loop x w now timelimit countlimit n i p).2.countpos
        = p.countpos + (select_list x state0 timelimit countlimit n i p.recountmax).length) := by
  induction n generalizing i p with
  | zero =>
    refine ⟨IFrame.irefl _ _, fun _ => ?_⟩
    simp [process_loop, select_list]
  | succ n ih =>
    have hsel := selects_congr x p.state state0 timelimit countlimit i p.recountmax
      (hinfo i (le_refl _)) hopt
    have hit := process_iter_eq x w now timelimit countlimit i p
    rw [hsel] at hit
    unfold process_loop select_list
    by_cases hs : selects x state0 timelimit countlimit i p.recountmax = true
    · rw [if_pos hs] at hit
      rw [if_pos hs, hit]
      obtain ⟨v1, v2, v3⟩ := visit_spec x w now i (p.state.infoarr i) p
      have hused : state0.infoarr i ≠ 0 := by
        unfold selects at hs
        simp only [Bool.and_eq_true, decide_eq_true_eq] at hs
        exact hs.1
      have u1 : IFrame (fun k => i ≤ k ∧ k < i + (n + 1) ∧ state0.infoarr k ≠ 0) p
          (visit x w now i (p.state.infoarr i) p).2 :=
        v1.mono (fun k hk => by subst hk; exact ⟨le_refl _, by omega, hused⟩)
      rcases hv : visit x w now i (p.state.infoarr i) p with ⟨f, p1⟩
      rw [hv] at v1 v2 v3 u1
      simp only [] at v1 v2 v3 u1
      cases f
      · simp only []
        obtain ⟨i1, i2⟩ := ih (i + 1) p1
          (fun k hk => by rw [v1.infoarr k (by omega)]; exact hinfo k (by omega))
          (by rw [v1.opt]; exact hopt)
        obtain ⟨w1, w2, w3⟩ := v3 (by simp)
        refine ⟨u1.itrans (i1.mono (fun k hk => ⟨by omega, by omega, hk.2.2⟩)), fun hn => ?_⟩
        obtain ⟨j1, j2, j3⟩ := i2 hn
        rw [v2] at j1 j2 j3
        rw [j1, j2, j3, w1, w2]
        simp
        omega
      · exact ⟨u1, fun hn => by simp at hn⟩
      · exact ⟨u1, fun hn => by simp at hn⟩
    · rw [if_neg hs] at hit
      rw [if_neg hs, hit]
      simp only []
      obtain ⟨i1, i2⟩ := ih (i + 1) p (fun k hk => hinfo k (by omega)) hopt
      exact ⟨i1.mono (fun k hk => ⟨by omega, by omega, hk.2.2⟩), i2⟩

/-! ## After the loop: summary and cleanup -/

theorem summary_frame (S : Nat → Prop) (p : Proc) : IFrame S p (summary p) := by
  unfold summary
  simp only []
  constructor <;> (try simp) <;> (try omega)
  case events =>
    intro e he
    rcases he with he | he | he
    · exact Or.inl he
    · subst he
      exact Or.inr (fun k hk => by simp [Event.stripe] at hk)
    · right
      intro k hk
      repeat' split at he
      all_goals simp at he
      · rcases he with he | he <;> subst he <;> simp [Event.stripe] at hk
      · subst he
        simp [Event.stripe] at hk
  case errors =>
    repeat' split
    all_goals simp [Event.counts_error, Event.is_error_log]

theorem summary_fields (p : Proc) :
    visited (summary p).trace = visited p.trace
    ∧ (summary p).recountmax = p.recountmax
    ∧ (summary p).countpos = p.countpos
    ∧ (summary p).state = p.state
    ∧ (summary p).error = p.error
    ∧ (summary p).silent_error = p.silent_error := by
  unfold summary
  simp only []
  refine ⟨?_, rfl, rfl, rfl, rfl, rfl⟩
  simp only [Proc.emit_trace, visited_append]
  repeat' split
  all_goals simp [visited, Event.visit_index]

theorem close_loop_frame (S : Nat → Prop) (w : World) (n j : Nat) (p : Proc) :
    IFrame S p (close_loop w n j p) := by
  induction n generalizing j p with
  | zero => exact IFrame.irefl S p
  | succ n ih =>
    unfold close_loop
    refine IFrame.itrans ?_ (ih (j + 1) _)
    split
    · constructor <;> (try simp [Event.counts_error, U32_eq]) <;> (try omega)
      intro e he
      rcases he with he | he
      · exact Or.inl he
      · subst he
        exact Or.inr (fun k hk => by simp [Event.stripe] at hk)
    · exact IFrame.irefl S p

theorem close_loop_fields (w : World) (n j : Nat) (p : Proc) :
    visited (close_loop w n j p).trace = visited p.trace
    ∧ (close_loop w n j p).recountmax = p.recountmax
    ∧ (close_loop w n j p).countpos = p.countpos
    ∧ (close_loop w n j p).state = p.state
    ∧ (close_loop w n j p).silent_error = p.silent_error := by
  induction n generalizing j p with
  | zero => simp [close_loop]
  | succ n ih =>
    unfold close_loop
    obtain ⟨a1, a2, a3, a4, a5⟩ := ih (j + 1)
      (if w.handle_close_end j = -1 then p.incr_error.emit [.danger_close j] else p)
    rw [a1, a2, a3, a4, a5]
    split <;> simp [visited, Event.visit_index]

/-- The visited stripes of a complete run of `state_scrub_process`, and the
counters, in terms of the info array on entry. -/
theorem state_scrub_process_visited {lim : Nat} (x : Helpers) (w : World) (state : snapraid_state)
    (blockstart blockmax : Nat) (timelimit : Int) (countlimit : Nat) (now : Int)
    (h : (process_run x w state blockstart blockmax timelimit countlimit now lim).flow = .next) :
    visited (process_run x w state blockstart blockmax timelimit countlimit now lim).final.trace
      = select_list x state timelimit countlimit (blockmax - blockstart) blockstart 0
    ∧ (process_run x w state blockstart blockmax timelimit countlimit now lim).final.recountmax
      = (select_list x state timelimit countlimit (blockmax - blockstart) blockstart 0).length
    ∧ (process_run x w state blockstart blockmax timelimit countlimit now lim).final.countpos
      = (select_list x state timelimit countlimit (blockmax - blockstart) blockstart 0).length := by
  unfold process_run at h ⊢
  simp only [] at h ⊢
  obtain ⟨-, l2⟩ := process_loop_visited x w now timelimit countlimit state
    (blockmax - blockstart) blockstart
    (process_init x w state blockstart blockmax timelimit countlimit lim) (fun _ _ => rfl) rfl
  obtain ⟨m1, m2, m3⟩ := l2 h
  have hb : ¬ ((process_loop x w now timelimit countlimit (blockmax - blockstart) blockstart
      (process_init x w state blockstart blockmax timelimit countlimit lim)).1 = Flow.bail) := by
    rw [h]
    simp
  rw [if_neg hb]
  obtain ⟨c1, c2, c3, -, -⟩ := close_loop_fields w
    (summary (process_loop x w now timelimit countlimit (blockmax - blockstart) blockstart
      (process_init x w state blockstart blockmax timelimit countlimit lim)).2).state.diskmax 0
    (summary (process_loop x w now timelimit countlimit (blockmax - blockstart) blockstart
      (process_init x w state blockstart blockmax timelimit countlimit lim)).2)
  obtain ⟨s1, s2, s3, -, -, -⟩ := summary_fields
    (process_loop x w now timelimit countlimit (blockmax - blockstart) blockstart
      (process_init x w state blockstart blockmax timelimit countlimit lim)).2
  rw [c1, c2, c3, s1, s2, s3, m1, m2, m3]
  simp [process_init, visited, Event.visit_index]

theorem mem_select_list_bad (x : Helpers) (state : snapraid_state) (timelimit : Int)
    (countlimit : Nat) (n i c k : Nat) (h1 : i ≤ k) (h2 : k < i + n)
    (h0 : state.infoarr k ≠ 0) (hbad : x.info_get_bad (state.infoarr k) = true) :
    k ∈ select_list x state timelimit countlimit n i c := by
  induction n generalizing i c with
  | zero => omega
  | succ n ih =>
    unfold select_list
    by_cases hk : k = i
    · subst hk
      have : selects x state timelimit countlimit k c = true := by
        simp [selects, h0, hbad]
      rw [if_pos this]
      exact List.mem_cons_self _ _
    · split
      · exact List.mem_cons_of_mem _ (ih (i + 1) (c + 1) (by omega) (by omega))
      · exact ih (i + 1) c (by omega) (by omega)

/-- Frame of a whole run of `state_scrub_process`: only used indices of the
range are touched. -/
theorem state_scrub_process_frame {lim : Nat} (x : Helpers) (w : World) (state : snapraid_state)
    (blockstart blockmax : Nat) (timelimit : Int) (countlimit : Nat) (now : Int) :
    IFrame (fun k => blockstart ≤ k ∧ k < blockmax ∧ state.infoarr k ≠ 0)
      (process_init x w state blockstart blockmax timelimit countlimit lim)
      (process_run x w state blockstart blockmax timelimit countlimit now lim).final := by
  unfold process_run
  simp only []
  obtain ⟨l1, -⟩ := process_loop_visited x w now timelimit countlimit state
    (blockmax - blockstart) blockstart
    (process_init x w state blockstart blockmax timelimit countlimit lim) (fun _ _ => rfl) rfl
  have l2 := l1.mono (T := fun k => blockstart ≤ k ∧ k < blockmax ∧ state.infoarr k ≠ 0)
    (fun k hk => ⟨hk.1, by omega, hk.2.2⟩)
  refine IFrame.itrans ?_ (close_loop_frame _ w _ 0 _)
  split
  · exact l2
  · exact l2.itrans (summary_frame _ _)

/-- When line 121 is defined, `state_scrub_process` is the run with the quotient
it stores. -/
theorem state_scrub_process_some (x : Helpers) (w : World) (state : snapraid_state)
    (blockstart blockmax : Nat) (timelimit : Int) (countlimit : Nat) (now : Int) (lim : Nat)
    (h : autosave_limit state = some lim) :
    state_scrub_process x w state blockstart blockmax timelimit countlimit now
      = some (process_run x w state blockstart blockmax timelimit countlimit now lim) := by
  unfold state_scrub_process
  rw [h]

/-- A result of `state_scrub_process` is the run with the quotient of line 121. -/
theorem state_scrub_process_eq_some (x : Helpers) (w : World) (state : snapraid_state)
    (blockstart blockmax : Nat) (timelimit : Int) (countlimit : Nat) (now : Int)
    (r : ProcessResult)
    (h : state_scrub_process x w state blockstart blockmax timelimit countlimit now = some r) :
    ∃ lim, autosave_limit state = some lim
      ∧ r = process_run x w state blockstart blockmax timelimit countlimit now lim := by
  unfold state_scrub_process at h
  rcases hl : autosave_limit state with _ | lim
  · rw [hl] at h
    exact absurd h (by simp)
  · rw [hl] at h
    exact ⟨lim, rfl, (Option.some.inj h).symm⟩

/-- The quotient of line 121 when the divisor is not zero. -/
theorem autosave_limit_some (state : snapraid_state)
    (h : (state.diskmax * state.block_size) % U32 ≠ 0) :
    autosave_limit state
      = some ((state.autosave / ((state.diskmax * state.block_size) % U32)) % U32) := by
  unfold autosave_limit
  simp only []
  rw [if_neg h]

/-- The quotient of line 121 depends on `autosave`, `diskmax` and `block_size` only. -/
theorem autosave_limit_congr (s1 s2 : snapraid_state) (h1 : s1.autosave = s2.autosave)
    (h2 : s1.diskmax = s2.diskmax) (h3 : s1.block_size = s2.block_size) :
    autosave_limit s1 = autosave_limit s2 := by
  unfold autosave_limit
  rw [h1, h2, h3]

/-- A quotient stored by line 121: the divisor is not zero and the value is the
quotient modulo `2 ^ 32`. -/
theorem autosave_limit_eq_some (state : snapraid_state) (lim : Nat)
    (h : autosave_limit state = some lim) :
    (state.diskmax * state.block_size) % U32 ≠ 0
    ∧ lim = (state.autosave / ((state.diskmax * state.block_size) % U32)) % U32 := by
  by_cases hd : (state.diskmax * state.block_size) % U32 = 0
  · unfold autosave_limit at h
    simp only [hd, if_true] at h
    exact absurd h (by simp)
  · rw [autosave_limit_some state hd] at h
    exact ⟨hd, (Option.some.inj h).symm⟩

/-! ## C1: blocks marked bad are always verified -/

/-- C1: when the divisor of line 121 is not zero `state_scrub_process` returns, and
in a run that scans the whole range (no progress abort, no fatal close error),
every index of `[blockstart, blockmax)` whose info word is non-zero and has the
bad flag set is visited, whatever `timelimit`, `countlimit`, `force_scrub_even`
and the parity of the index. -/
theorem C1_bad_always_visited (x : Helpers) (w : World) (state : snapraid_state)
    (blockstart blockmax : Nat) (timelimit : Int) (countlimit : Nat) (now : Int)
    (hdiv : (state.diskmax * state.block_size) % U32 ≠ 0)
    (i : Nat) (h1 : blockstart ≤ i) (h2 : i < blockmax) (h0 : state.infoarr i ≠ 0)
    (hbad : x.info_get_bad (state.infoarr i) = true) :
    ∃ r, state_scrub_process x w state blockstart blockmax timelimit countlimit now = some r
      ∧ (r.flow = .next → i ∈ visited r.final.trace) := by
  refine ⟨_, state_scrub_process_some x w state blockstart blockmax timelimit countlimit now _
    (autosave_limit_some state hdiv), fun hrun => ?_⟩
  rw [(state_scrub_process_visited x w state blockstart blockmax timelimit countlimit now hrun).1]
  exact mem_select_list_bad x state timelimit countlimit _ _ _ i h1 (by omega) h0 hbad

/-- Witness of C1: the recent stripe 1 of the example is bad; with a time limit
older than it and a zero quota it is still visited. -/
theorem C1_bad_always_visited_witness :
    (demo_state.diskmax * demo_state.block_size) % U32 ≠ 0
    ∧ demo_helpers.info_get_time (demo_state.infoarr 1) > 5
    ∧ ∃ r, state_scrub_process demo_helpers demo_world demo_state 0 4 5 0 100 = some r
      ∧ r.flow = .next ∧ 1 ∈ visited r.final.trace := by
  obtain ⟨r, hr, h⟩ := C1_bad_always_visited demo_helpers demo_world demo_state 0 4 5 0 100
    (by decide) 1 (by decide) (by decide) (by decide) (by decide)
  have h0 : state_scrub_process demo_helpers demo_world demo_state 0 4 5 0 100
      = some (process_run demo_helpers demo_world demo_state 0 4 5 0 100 0) := by rfl
  have he : r = process_run demo_helpers demo_world demo_state 0 4 5 0 100 0 :=
    Option.some.inj (hr.symm.trans h0)
  subst he
  exact ⟨by decide, by decide, _, hr, by decide, h (by decide)⟩

/-! ## C2: the two passes select the same stripes -/

/-- C2: when the divisor of line 121 is not zero `state_scrub_process` returns,
and when the processing pass scans the whole range (no abort, no fatal close
error), the number of stripes it visits, `recountmax`, and `countpos` equal the
`countmax` the counting pass computed from the info array on entry, although the
processing pass rewrites info words on its way. -/
theorem C2_recount_eq_countmax (x : Helpers) (w : World) (state : snapraid_state)
    (blockstart blockmax : Nat) (timelimit : Int) (countlimit : Nat) (now : Int)
    (hdiv : (state.diskmax * state.block_size) % U32 ≠ 0) :
    ∃ r, state_scrub_process x w state blockstart blockmax timelimit countlimit now = some r
      ∧ (r.flow = .next →
        r.final.recountmax
          = count_loop x state timelimit countlimit (blockmax - blockstart) blockstart 0
        ∧ r.final.countpos
          = count_loop x state timelimit countlimit (blockmax - blockstart) blockstart 0
        ∧ (visited r.final.trace).length
          = count_loop x state timelimit countlimit (blockmax - blockstart) blockstart 0
        ∧ r.final.countmax
          = count_loop x state timelimit countlimit (blockmax - blockstart) blockstart 0) := by
  refine ⟨_, state_scrub_process_some x w state blockstart blockmax timelimit countlimit now _
    (autosave_limit_some state hdiv), fun hrun => ?_⟩
  obtain ⟨a1, a2, a3⟩ :=
    state_scrub_process_visited x w state blockstart blockmax timelimit countlimit now hrun
  rw [a1, a2, a3, count_loop_eq]
  refine ⟨by simp, by simp, by simp, ?_⟩
  rw [(state_scrub_process_frame x w state blockstart blockmax timelimit countlimit now).countmax,
    ← count_loop_eq]
  rfl

/-- Witness of C2 on the example array: the run is complete and both passes
count the three used stripes. -/
theorem C2_recount_eq_countmax_witness :
    (demo_state.diskmax * demo_state.block_size) % U32 ≠ 0
    ∧ ∃ r, state_scrub_process demo_helpers demo_world demo_state 0 4 30 4 100 = some r
      ∧ r.flow = .next ∧ r.final.recountmax = 3
      ∧ r.final.recountmax = count_loop demo_helpers demo_state 30 4 (4 - 0) 0 0 := by
  obtain ⟨r, hr, h⟩ := C2_recount_eq_countmax demo_helpers demo_world demo_state 0 4 30 4 100
    (by decide)
  have h0 : state_scrub_process demo_helpers demo_world demo_state 0 4 30 4 100
      = some (process_run demo_helpers demo_world demo_state 0 4 30 4 100 0) := by rfl
  have he : r = process_run demo_helpers demo_world demo_state 0 4 30 4 100 0 :=
    Option.some.inj (hr.symm.trans h0)
  subst he
  exact ⟨by decide, _, hr, by decide, by decide, (h (by decide)).1⟩

/-! ## The example info helpers obey the laws -/

theorem demo_helpers_laws : InfoLaws demo_helpers := by
  constructor
  · intro t e r ht
    obtain ⟨n, rfl⟩ := Int.eq_ofNat_of_zero_le ht
    show (((4 * (n : Int).toNat + (if r ≠ 0 then 2 else 0) + (if e ≠ 0 then 1 else 0)) / 4 : Nat) : Int) = n
    rw [Int.toNat_ofNat]
    congr 1
    split <;> split <;> omega
  · intro t e r
    show ((4 * t.toNat + (if r ≠ 0 then 2 else 0) + (if e ≠ 0 then 1 else 0)) % 2 == 1) = decide (e ≠ 0)
    by_cases he : e = 0 <;> by_cases hr : r = 0 <;> simp [he, hr] <;> omega
  · intro t e r
    show ((4 * t.toNat + (if r ≠ 0 then 2 else 0) + (if e ≠ 0 then 1 else 0)) / 2 % 2 == 1) = decide (r ≠ 0)
    by_cases he : e = 0 <;> by_cases hr : r = 0 <;> simp [he, hr] <;> omega
  · intro info
    show (((if info % 2 = 1 then info else info + 1) / 4 : Nat) : Int) = ((info / 4 : Nat) : Int)
    have : (if info % 2 = 1 then info else info + 1) / 4 = info / 4 := by
      split <;> omega
    rw [this]
  · intro info
    show ((if info % 2 = 1 then info else info + 1) / 2 % 2 == 1) = (info / 2 % 2 == 1)
    have : (if info % 2 = 1 then info else info + 1) / 2 % 2 = info / 2 % 2 := by
      split <;> omega
    rw [this]
  · intro info
    show ((if info % 2 = 1 then info else info + 1) % 2 == 1) = true
    have : (if info % 2 = 1 then info else info + 1) % 2 = 1 := by
      split <;> omega
    rw [this]
    rfl

/-- The example `raid_gen` obeys the contract for one parity level. -/
theorem demo_helpers_raid_laws : RaidLaws demo_helpers 1 := by
  constructor
  · intro b b1 diskmax block_size hagree k hk1 hk2
    have hk : k = diskmax := by omega
    subst hk
    show upd b k _ k = upd b1 k _ k
    rw [upd_same, upd_same]
    apply List.map_congr_left
    intro c _
    congr 2
    apply List.map_congr_left
    intro d hd
    rw [hagree d (List.mem_range.mp hd)]
  · intro b diskmax block_size k hk
    show upd b diskmax _ k = b k
    exact upd_other _ _ _ _ (by omega)

/-! ## The three outcomes of a visited stripe -/

theorem visit_eq (x : Helpers) (w : World) (now : Int) (i : Nat) (info : Nat) (p : Proc)
    (hv : (verify x w i (x.info_get_rehash info) p.count_visit).1 = .next) :
    visit x w now i info p
      = finish_stripe w i (outcome x now i info (x.info_get_rehash info)
          (verify x w i (x.info_get_rehash info) p.count_visit).2) := by
  unfold visit
  simp only []
  rcases hv1 : verify x w i (x.info_get_rehash info) p.count_visit with ⟨f, pl⟩
  rw [hv1] at hv
  simp only [] at hv
  subst hv
  rfl

/-- After a verification that ends with the error flag clear and `rehash` set,
the staging slot of every data disk with a block at `i` holds the hash of the
bytes read, under the current hash function. -/
theorem verify_clean_staged (x : Helpers) (w : World) (i : Nat) (rehash : Bool) (p : Proc)
    (hv : (verify x w i rehash p).1 = .next)
    (he : (verify x w i rehash p).2.2.error_on_this_block = false) (hr : rehash = true)
    (k : Nat) (hk : k < p.state.diskmax) (hd : p.state.disk k = true) (file : snapraid_file)
    (hf : (p.state.block k i).file = some file) :
    (verify x w i rehash p).2.1.rehandle k
      = { hash := x.memhash p.state.hash p.state.hashseed
            ((w.handle_read i k).2.take (w.handle_read i k).1.toNat),
          block := some (k, i) } := by
  obtain ⟨-, -, a3⟩ := disk_loop_rehandle x w i rehash p.state.diskmax 0 (p, ⟨false, false, false⟩)
  unfold verify at hv he ⊢
  simp only [] at hv he a3 ⊢
  generalize disk_loop x w i rehash p.state.diskmax 0 (p, ⟨false, false, false⟩) = D at hv he a3 ⊢
  obtain ⟨f, pl0⟩ := D
  cases f
  · simp only [] at hv he a3 ⊢
    rw [parity_check_rehandle]
    have he0 : pl0.2.error_on_this_block = false := by
      cases hc : pl0.2.error_on_this_block
      · rfl
      · rw [(parity_check_frame x w i pl0).eflag_mono hc] at he
        exact absurd he (by simp)
    exact a3 trivial he0 hr k (Nat.zero_le _) (by omega) hd file hf
  · simp at hv
  · simp at hv

/-- C3: a visited stripe that ends data and parity verification with neither
`error_on_this_block` nor `silent_error_on_this_block` set has its info word
replaced by `info_make(now, 0, 0)`, whose time is `now` and whose flags are
clear (by the laws of the info helpers); and when the rehash flag of the word
read on entry is set, every data block of the stripe that has a file gets as
stored hash the hash of the bytes read under the current hash function. -/
theorem C3_clean_outcome (x : Helpers) (w : World) (now : Int) (i : Nat) (p : Proc)
    (hlaws : InfoLaws x) (hnow : 0 ≤ now)
    (hv : (verify x w i (x.info_get_rehash (p.state.infoarr i)) p.count_visit).1 = .next)
    (he : (verify x w i (x.info_get_rehash (p.state.infoarr i))
      p.count_visit).2.2.error_on_this_block = false)
    (hs : (verify x w i (x.info_get_rehash (p.state.infoarr i))
      p.count_visit).2.2.silent_error_on_this_block = false) :
    (visit x w now i (p.state.infoarr i) p).2.state.infoarr i = x.info_make now 0 0
    ∧ x.info_get_time ((visit x w now i (p.state.infoarr i) p).2.state.infoarr i) = now
    ∧ x.info_get_bad ((visit x w now i (p.state.infoarr i) p).2.state.infoarr i) = false
    ∧ x.info_get_rehash ((visit x w now i (p.state.infoarr i) p).2.state.infoarr i) = false
    ∧ (x.info_get_rehash (p.state.infoarr i) = true →
        ∀ j, j < p.state.diskmax → p.state.disk j = true →
        ∀ file, (p.state.block j i).file = some file →
        ((visit x w now i (p.state.infoarr i) p).2.state.block j i).hash
          = x.memhash p.state.hash p.state.hashseed
              ((w.handle_read i j).2.take (w.handle_read i j).1.toNat)) := by
  have hinfo : (visit x w now i (p.state.infoarr i) p).2.state.infoarr i
      = x.info_make now 0 0 := by
    rw [visit_eq x w now i _ p hv, (finish_stripe_fields w i _).2.2.2.1]
    unfold outcome
    rw [if_neg (by simp [hs]), if_neg (by simp [he])]
    simp
  refine ⟨hinfo, ?_, ?_, ?_, ?_⟩
  · rw [hinfo, hlaws.time_make now 0 0 hnow]
  · rw [hinfo, hlaws.bad_make]
    simp
  · rw [hinfo, hlaws.rehash_make]
    simp
  · intro hr j hj hd file hf
    have fr := verify_frame x w i (x.info_get_rehash (p.state.infoarr i)) p.count_visit
    have st := verify_staged x w i (x.info_get_rehash (p.state.infoarr i)) p.count_visit
      (verify x w i (x.info_get_rehash (p.state.infoarr i)) p.count_visit).2
      (by rw [← hv])
    have cs := verify_clean_staged x w i (x.info_get_rehash (p.state.infoarr i)) p.count_visit
      hv he hr j hj hd file hf
    rw [visit_eq x w now i _ p hv, (finish_stripe_fields w i _).2.2.2.2.1]
    unfold outcome
    rw [if_neg (by simp [hs]), if_neg (by simp [he]), if_pos hr]
    have hdm : (verify x w i (x.info_get_rehash (p.state.infoarr i)) p.count_visit).2.1.state.diskmax
        = p.state.diskmax := by rw [fr.state]; rfl
    rw [hdm]
    have hb : ((verify x w i (x.info_get_rehash (p.state.infoarr i))
        p.count_visit).2.1.rehandle j).block = some (j, i) := by rw [cs]
    obtain ⟨-, c2⟩ := rehash_commit_spec i p.state.diskmax 0
      (verify x w i (x.info_get_rehash (p.state.infoarr i)) p.count_visit).2.1 st
    show ((rehash_commit p.state.diskmax 0
      (verify x w i (x.info_get_rehash (p.state.infoarr i)) p.count_visit).2.1).state.block j i).hash
        = _
    rw [c2 j i, if_pos ⟨rfl, Nat.zero_le _, by omega, hb⟩, cs]
    rfl

/-- Witness of C3: stripe 3 of the example waits for a rehash and verifies
clean; its info word becomes `info_make(100, 0, 0)` and the stored hash of disk
0 becomes the current-function hash of the bytes read. -/
theorem C3_clean_outcome_witness :
    (visit demo_helpers demo_world 100 3 (demo_proc.state.infoarr 3) demo_proc).2.state.infoarr 3
      = 400
    ∧ ((visit demo_helpers demo_world 100 3 (demo_proc.state.infoarr 3) demo_proc).2.state.block
        0 3).hash = 7
    ∧ (demo_proc.state.block 0 3).hash = 8 := by
  obtain ⟨a, -, -, -, b⟩ := C3_clean_outcome demo_helpers demo_world 100 3 demo_proc
    demo_helpers_laws (by decide) (by decide) (by decide) (by decide)
  exact ⟨a, b (by decide) 0 (by decide) (by decide) (demo_file 0) rfl, by decide⟩

/-- C4: a visited stripe classified silent (`silent_error_on_this_block` set after
verification) gets the info word `info_set_bad(info)` of the word read on entry:
same time, same rehash flag, bad flag set (by the laws of the info helpers); no
other info word and no block of the catalog changes, staged hashes included. -/
theorem C4_silent_outcome (x : Helpers) (w : World) (now : Int) (i : Nat) (p : Proc)
    (hlaws : InfoLaws x)
    (hv : (verify x w i (x.info_get_rehash (p.state.infoarr i)) p.count_visit).1 = .next)
    (hs : (verify x w i (x.info_get_rehash (p.state.infoarr i))
      p.count_visit).2.2.silent_error_on_this_block = true) :
    (visit x w now i (p.state.infoarr i) p).2.state.infoarr i
      = x.info_set_bad (p.state.infoarr i)
    ∧ x.info_get_time ((visit x w now i (p.state.infoarr i) p).2.state.infoarr i)
      = x.info_get_time (p.state.infoarr i)
    ∧ x.info_get_rehash ((visit x w now i (p.state.infoarr i) p).2.state.infoarr i)
      = x.info_get_rehash (p.state.infoarr i)
    ∧ x.info_get_bad ((visit x w now i (p.state.infoarr i) p).2.state.infoarr i) = true
    ∧ (∀ k, k ≠ i → (visit x w now i (p.state.infoarr i) p).2.state.infoarr k
        = p.state.infoarr k)
    ∧ (visit x w now i (p.state.infoarr i) p).2.state.block = p.state.block := by
  have fr := verify_frame x w i (x.info_get_rehash (p.state.infoarr i)) p.count_visit
  have hinfo : (visit x w now i (p.state.infoarr i) p).2.state.infoarr
      = upd p.state.infoarr i (x.info_set_bad (p.state.infoarr i)) := by
    rw [visit_eq x w now i _ p hv, (finish_stripe_fields w i _).2.2.2.1]
    unfold outcome
    rw [if_pos hs, Proc.info_set_infoarr, fr.state]
    rfl
  refine ⟨?_, ?_, ?_, ?_, ?_, ?_⟩
  · rw [hinfo, upd_same]
  · rw [hinfo, upd_same, hlaws.time_set_bad]
  · rw [hinfo, upd_same, hlaws.rehash_set_bad]
  · rw [hinfo, upd_same, hlaws.bad_set_bad]
  · intro k hk
    rw [hinfo, upd_other _ _ _ _ hk]
  · rw [visit_eq x w now i _ p hv, (finish_stripe_fields w i _).2.2.2.2.1]
    unfold outcome
    rw [if_pos hs, Proc.info_set_state_block, fr.state]
    rfl

/-- Witness of C4: with one byte of disk 1 flipped in stripe 3 and the files in
sync, the stripe is silent: the info word 82 (time 20, rehash) becomes 83 (time
20, rehash, bad) and the stored hash of disk 0, staged for rehash, stays 8. -/
theorem C4_silent_outcome_witness :
    (visit demo_helpers demo_world_corrupt 100 3 (demo_proc.state.infoarr 3)
      demo_proc).2.state.infoarr 3 = 83
    ∧ ((verify demo_helpers demo_world_corrupt 3 true demo_proc.count_visit).2.1.rehandle 0).block
      = some (0, 3)
    ∧ ((visit demo_helpers demo_world_corrupt 100 3 (demo_proc.state.infoarr 3)
      demo_proc).2.state.block 0 3).hash = 8 := by
  obtain ⟨a, -, -, -, -, b⟩ := C4_silent_outcome demo_helpers demo_world_corrupt 100 3 demo_proc
    demo_helpers_laws (by decide) (by decide)
  exact ⟨a, by decide, by rw [b]; decide⟩

/-- C5: a visited stripe classified as a non-silent error (`error_on_this_block`
set, `silent_error_on_this_block` clear after verification) leaves the whole
info array, the word at `i` included, and every block of the catalog as they
were on entry, staged hashes included. -/
theorem C5_error_outcome (x : Helpers) (w : World) (now : Int) (i : Nat) (p : Proc)
    (hv : (verify x w i (x.info_get_rehash (p.state.infoarr i)) p.count_visit).1 = .next)
    (he : (verify x w i (x.info_get_rehash (p.state.infoarr i))
      p.count_visit).2.2.error_on_this_block = true)
    (hs : (verify x w i (x.info_get_rehash (p.state.infoarr i))
      p.count_visit).2.2.silent_error_on_this_block = false) :
    (visit x w now i (p.state.infoarr i) p).2.state.infoarr i = p.state.infoarr i
    ∧ (visit x w now i (p.state.infoarr i) p).2.state.infoarr = p.state.infoarr
    ∧ (visit x w now i (p.state.infoarr i) p).2.state.block = p.state.block := by
  have fr := verify_frame x w i (x.info_get_rehash (p.state.infoarr i)) p.count_visit
  have hinfo : (visit x w now i (p.state.infoarr i) p).2.state.infoarr = p.state.infoarr := by
    rw [visit_eq x w now i _ p hv, (finish_stripe_fields w i _).2.2.2.1]
    unfold outcome
    rw [if_neg (by simp [hs]), if_pos he, fr.state]
    rfl
  refine ⟨by rw [hinfo], hinfo, ?_⟩
  rw [visit_eq x w now i _ p hv, (finish_stripe_fields w i _).2.2.2.2.1]
  unfold outcome
  rw [if_neg (by simp [hs]), if_pos he, fr.state]
  rfl

/-- Witness of C5: the same flipped byte in a file whose mtime changed gives a
non-silent error: the info word of stripe 3 stays 82 and the stored hash of
disk 0, staged for rehash, stays 8. -/
theorem C5_error_outcome_witness :
    (visit demo_helpers demo_world_unsynched 100 3 (demo_proc.state.infoarr 3)
      demo_proc).2.state.infoarr 3 = 82
    ∧ ((verify demo_helpers demo_world_unsynched 3 true demo_proc.count_visit).2.1.rehandle 0).block
      = some (0, 3)
    ∧ ((visit demo_helpers demo_world_unsynched 100 3 (demo_proc.state.infoarr 3)
      demo_proc).2.state.block 0 3).hash = 8 := by
  obtain ⟨a, -, b⟩ := C5_error_outcome demo_helpers demo_world_unsynched 100 3 demo_proc
    (by decide) (by decide) (by decide)
  exact ⟨by rw [a]; decide, by decide, by rw [b]; decide⟩

/-! ## C6: classification of mismatches -/

theorem file_changed_iff (st : stat_t) (file : snapraid_file) :
    file_changed st file = true ↔ ¬ in_sync st file := by
  unfold file_changed in_sync
  simp only [Bool.or_eq_true, decide_eq_true_eq]
  tauto

theorem file_changed_false_iff (st : stat_t) (file : snapraid_file) :
    file_changed st file = false ↔ in_sync st file := by
  rw [← not_iff_not, Bool.not_eq_false, file_changed_iff]

theorem hash_compare_mismatch (i j : Nat) (block : snapraid_block) (hash : hash_t) (u : Bool)
    (pl : Proc × Locals) (hh : block.has_hash = true) (hne : hash ≠ block.hash) :
    (hash_compare i j block hash u pl).1.error = (pl.1.error + 1) % U32
    ∧ (u = false → (hash_compare i j block hash u pl).1.silent_error = (pl.1.silent_error + 1) % U32
        ∧ (hash_compare i j block hash u pl).2.silent_error_on_this_block = true
        ∧ (hash_compare i j block hash u pl).2.error_on_this_block = pl.2.error_on_this_block)
    ∧ (u = true → (hash_compare i j block hash u pl).1.silent_error = pl.1.silent_error
        ∧ (hash_compare i j block hash u pl).2.error_on_this_block = true
        ∧ (hash_compare i j block hash u pl).2.silent_error_on_this_block
          = pl.2.silent_error_on_this_block) := by
  unfold hash_compare
  rw [if_pos (by simp [hh, hne])]
  cases u <;> simp

theorem disk_hash_mismatch (x : Helpers) (i : Nat) (rehash : Bool) (j : Nat)
    (block : snapraid_block) (u : Bool) (n : Int) (pl : Proc × Locals)
    (hh : block.has_hash = true)
    (hne : (if rehash then x.memhash pl.1.state.prevhash pl.1.state.prevhashseed
          ((pl.1.buffer j).take n.toNat)
        else x.memhash pl.1.state.hash pl.1.state.hashseed ((pl.1.buffer j).take n.toNat))
      ≠ block.hash) :
    (disk_hash x i rehash j block u n pl).1.error = (pl.1.error + 1) % U32
    ∧ (u = false → (disk_hash x i rehash j block u n pl).1.silent_error = (pl.1.silent_error + 1) % U32
        ∧ (disk_hash x i rehash j block u n pl).2.silent_error_on_this_block = true
        ∧ (disk_hash x i rehash j block u n pl).2.error_on_this_block = pl.2.error_on_this_block)
    ∧ (u = true → (disk_hash x i rehash j block u n pl).1.silent_error = pl.1.silent_error
        ∧ (disk_hash x i rehash j block u n pl).2.error_on_this_block = true
        ∧ (disk_hash x i rehash j block u n pl).2.silent_error_on_this_block
          = pl.2.silent_error_on_this_block) := by
  unfold disk_hash
  simp only []
  cases rehash
  · simp only [Bool.false_eq_true, if_false] at hne ⊢
    have := hash_compare_mismatch i j block _ u
      ((pl.1.add_countsize n).emit [.call_memhash i j (pl.1.add_countsize n).state.hash], pl.2)
      hh hne
    simpa using this
  · simp only [if_true] at hne ⊢
    have := hash_compare_mismatch i j block _ u
      ((((pl.1.add_countsize n).emit [.call_memhash i j (pl.1.add_countsize n).state.prevhash]).set_rehandle j
        { hash := x.memhash pl.1.state.hash pl.1.state.hashseed ((pl.1.buffer j).take n.toNat),
          block := some (j, i) }).emit [.call_memhash i j pl.1.state.hash], pl.2)
      hh hne
    simpa using this

/-- Data part of C6, on one pass of the per-disk loop. -/
theorem disk_iter_mismatch (x : Helpers) (w : World) (i : Nat) (rehash : Bool) (j : Nat)
    (pl : Proc × Locals) (file : snapraid_file)
    (hd : pl.1.state.disk j = true) (hf : (pl.1.state.block j i).file = some file)
    (hc : ¬ (w.handle_file i j ≠ some file.id ∧ w.handle_close i j = -1))
    (ho : w.handle_open i j ≠ -1) (hr : (w.handle_read i j).1 ≠ -1)
    (hh : (pl.1.state.block j i).has_hash = true)
    (hne : (if rehash then x.memhash pl.1.state.prevhash pl.1.state.prevhashseed
          ((w.handle_read i j).2.take (w.handle_read i j).1.toNat)
        else x.memhash pl.1.state.hash pl.1.state.hashseed
          ((w.handle_read i j).2.take (w.handle_read i j).1.toNat))
      ≠ (pl.1.state.block j i).hash) :
    (disk_iter x w i rehash j pl).1 = .next
    ∧ (disk_iter x w i rehash j pl).2.1.error = (pl.1.error + 1) % U32
    ∧ (in_sync (w.handle_st i j) file →
        (disk_iter x w i rehash j pl).2.1.silent_error = (pl.1.silent_error + 1) % U32
        ∧ (disk_iter x w i rehash j pl).2.2.silent_error_on_this_block = true
        ∧ (disk_iter x w i rehash j pl).2.2.error_on_this_block = pl.2.error_on_this_block)
    ∧ (¬ in_sync (w.handle_st i j) file →
        (disk_iter x w i rehash j pl).2.1.silent_error = pl.1.silent_error
        ∧ (disk_iter x w i rehash j pl).2.2.error_on_this_block = true
        ∧ (disk_iter x w i rehash j pl).2.2.silent_error_on_this_block
          = pl.2.silent_error_on_this_block) := by
  have key := fun (q : Proc × Locals) (hq1 : q.1.state = pl.1.state)
      (hq2 : q.1.buffer j = (w.handle_read i j).2) =>
    disk_hash_mismatch x i rehash j (pl.1.state.block j i)
      (file_changed (w.handle_st i j) file) (w.handle_read i j).1 q hh
      (by rw [hq1, hq2]; exact hne)
  unfold disk_iter
  simp only [Proc.set_rehandle_state, hd, Bool.not_true, Bool.false_eq_true, if_false, hf,
    if_neg hc, if_neg ho, if_neg hr]
  obtain ⟨k1, k2, k3⟩ := key
    ((((pl.1.set_rehandle j { hash := (pl.1.rehandle j).hash, block := none }).emit
        (if w.handle_file i j ≠ some file.id then [.call_handle_close i j] else [])).emit
        [.call_handle_open i j]).set_buffer j (w.handle_read i j).2 |>.emit [.call_handle_read i j],
      if file_changed (w.handle_st i j) file = true then
        { pl.2 with block_is_unsynched := true } else pl.2)
    (by simp) (by simp)
  simp only [Proc.emit_error, Proc.set_buffer_error, Proc.set_rehandle_error,
    Proc.emit_silent_error, Proc.set_buffer_silent_error, Proc.set_rehandle_silent_error] at k1 k2 k3
  refine ⟨trivial, k1, ?_, ?_⟩
  · intro hs
    have hfc := (file_changed_false_iff _ _).mpr hs
    obtain ⟨a, b, c⟩ := k2 hfc
    refine ⟨a, b, ?_⟩
    rw [c, hfc]
    simp
  · intro hs
    have hfc := (file_changed_iff _ _).mpr hs
    obtain ⟨a, b, c⟩ := k3 hfc
    refine ⟨a, b, ?_⟩
    rw [c, hfc]
    simp

theorem hash_compare_unsynched (i j : Nat) (block : snapraid_block) (hash : hash_t) (u : Bool)
    (pl : Proc × Locals) :
    (hash_compare i j block hash u pl).2.block_is_unsynched = pl.2.block_is_unsynched := by
  unfold hash_compare
  repeat' split
  all_goals rfl

theorem disk_hash_unsynched (x : Helpers) (i : Nat) (rehash : Bool) (j : Nat)
    (block : snapraid_block) (u : Bool) (n : Int) (pl : Proc × Locals) :
    (disk_hash x i rehash j block u n pl).2.block_is_unsynched = pl.2.block_is_unsynched := by
  unfold disk_hash
  simp only []
  split <;> rw [hash_compare_unsynched]

/-- The flag `block_is_unsynched` after one pass of the per-disk loop. -/
theorem disk_iter_unsynched (x : Helpers) (w : World) (i : Nat) (rehash : Bool) (j : Nat)
    (pl : Proc × Locals) (hn : (disk_iter x w i rehash j pl).1 = .next) :
    (disk_iter x w i rehash j pl).2.2.block_is_unsynched = true
      ↔ pl.2.block_is_unsynched = true ∨ opened_changed w pl.1.state i j := by
  unfold opened_changed
  unfold disk_iter at hn ⊢
  simp only [] at hn ⊢
  repeat' split at hn
  all_goals simp_all [disk_hash_unsynched, file_changed_iff]

theorem disk_loop_unsynched (x : Helpers) (w : World) (i : Nat) (rehash : Bool) (n j0 : Nat)
    (pl : Proc × Locals) (hn : (disk_loop x w i rehash n j0 pl).1 = .next) :
    (disk_loop x w i rehash n j0 pl).2.2.block_is_unsynched = true
      ↔ pl.2.block_is_unsynched = true
        ∨ ∃ j, j0 ≤ j ∧ j < j0 + n ∧ opened_changed w pl.1.state i j := by
  induction n generalizing j0 pl with
  | zero =>
    simp only [disk_loop]
    constructor
    · exact fun h => Or.inl h
    · rintro (h | ⟨j, h1, h2, -⟩)
      · exact h
      · omega
  | succ n ih =>
    by_cases hf : (disk_iter x w i rehash j0 pl).1 = .next
    · have fr := disk_iter_frame x w i rehash j0 pl
      have hu := disk_iter_unsynched x w i rehash j0 pl hf
      rcases hpl : disk_iter x w i rehash j0 pl with ⟨f, pl1⟩
      rw [hpl] at hf fr hu
      simp only [] at hf fr hu
      subst hf
      rw [disk_loop_succ_next x w i rehash n j0 pl pl1 hpl] at hn ⊢
      rw [ih (j0 + 1) pl1 hn, hu, fr.state]
      constructor
      · rintro ((h | h) | ⟨j, h1, h2, h3⟩)
        · exact Or.inl h
        · exact Or.inr ⟨j0, le_refl _, by omega, h⟩
        · exact Or.inr ⟨j, by omega, by omega, h3⟩
      · rintro (h | ⟨j, h1, h2, h3⟩)
        · exact Or.inl (Or.inl h)
        · by_cases hj : j = j0
          · subst hj
            exact Or.inl (Or.inr h3)
          · exact Or.inr ⟨j, by omega, by omega, h3⟩
    · rw [disk_loop_succ_stop x w i rehash n j0 pl hf] at hn
      exact absurd hn hf

theorem parity_fetch_unsynched (b : Nat) (r : Int × bytes) (call ev : Event) (pl : Proc × Locals) :
    (parity_fetch b r call ev pl).2.block_is_unsynched = pl.2.block_is_unsynched := by
  unfold parity_fetch
  simp only []
  split <;> rfl

theorem parity_load_unsynched (x : Helpers) (w : World) (i : Nat) (pl : Proc × Locals) :
    (parity_load x w i pl).pl.2.block_is_unsynched = pl.2.block_is_unsynched := by
  unfold parity_load
  simp only []
  split <;> simp [parity_fetch_unsynched]

/-! ## Errors of a stripe in terms of the answers of the disks -/

theorem hash_compare_buffer (i j : Nat) (block : snapraid_block) (hash : hash_t) (u : Bool)
    (pl : Proc × Locals) : (hash_compare i j block hash u pl).1.buffer = pl.1.buffer := by
  unfold hash_compare
  repeat' split
  all_goals rfl

theorem disk_hash_buffer (x : Helpers) (i : Nat) (rehash : Bool) (j : Nat)
    (block : snapraid_block) (u : Bool) (n : Int) (pl : Proc × Locals) :
    (disk_hash x i rehash j block u n pl).1.buffer = pl.1.buffer := by
  unfold disk_hash
  simp only []
  split <;> rw [hash_compare_buffer] <;> rfl

/-- A pass of the per-disk loop writes `buffer[j]` only. -/
theorem disk_iter_buffer_other (x : Helpers) (w : World) (i : Nat) (rehash : Bool) (j : Nat)
    (pl : Proc × Locals) (k : Nat) (hk : k ≠ j) :
    (disk_iter x w i rehash j pl).2.1.buffer k = pl.1.buffer k := by
  unfold disk_iter
  simp only []
  repeat' split
  all_goals simp [disk_hash_buffer, upd_other _ _ _ _ hk]

theorem hash_compare_verdict (i j : Nat) (block : snapraid_block) (hash : hash_t) (u : Bool)
    (pl : Proc × Locals) (d : Bool) (hd : d = (block.has_hash && decide (hash ≠ block.hash)))
    (he : pl.1.error < U32) (hs : pl.1.silent_error < U32) :
    (hash_compare i j block hash u pl).1.error = (pl.1.error + d.toNat) % U32
    ∧ (hash_compare i j block hash u pl).1.silent_error
      = (pl.1.silent_error + (d && !u).toNat) % U32
    ∧ (hash_compare i j block hash u pl).2.error_on_this_block
      = (pl.2.error_on_this_block || (d && u))
    ∧ (hash_compare i j block hash u pl).2.silent_error_on_this_block
      = (pl.2.silent_error_on_this_block || (d && !u)) := by
  have me := Nat.mod_eq_of_lt he
  have ms := Nat.mod_eq_of_lt hs
  unfold hash_compare
  rw [← hd]
  cases d <;> cases u <;> simp [me, ms]

theorem disk_hash_verdict (x : Helpers) (i : Nat) (rehash : Bool) (j : Nat)
    (block : snapraid_block) (u : Bool) (n : Int) (pl : Proc × Locals) (d : Bool)
    (hd : d = (block.has_hash && decide ((if rehash then
        x.memhash pl.1.state.prevhash pl.1.state.prevhashseed ((pl.1.buffer j).take n.toNat)
      else x.memhash pl.1.state.hash pl.1.state.hashseed ((pl.1.buffer j).take n.toNat))
        ≠ block.hash)))
    (he : pl.1.error < U32) (hs : pl.1.silent_error < U32) :
    (disk_hash x i rehash j block u n pl).1.error = (pl.1.error + d.toNat) % U32
    ∧ (disk_hash x i rehash j block u n pl).1.silent_error
      = (pl.1.silent_error + (d && !u).toNat) % U32
    ∧ (disk_hash x i rehash j block u n pl).2.error_on_this_block
      = (pl.2.error_on_this_block || (d && u))
    ∧ (disk_hash x i rehash j block u n pl).2.silent_error_on_this_block
      = (pl.2.silent_error_on_this_block || (d && !u)) := by
  unfold disk_hash
  simp only []
  cases rehash
  · simp only [Bool.false_eq_true, if_false] at hd ⊢
    exact hash_compare_verdict i j block _ u _ d hd he hs
  · simp only [if_true] at hd ⊢
    exact hash_compare_verdict i j block _ u _ d hd he hs

/-- What the block of disk slot `j` adds to the counters and flags of stripe `i`, in
terms of the answers of the disk, when the loop goes on to the next disk. -/
theorem disk_iter_verdict (x : Helpers) (w : World) (i : Nat) (rehash : Bool) (j : Nat)
    (pl : Proc × Locals) (hn : (disk_iter x w i rehash j pl).1 = .next)
    (he : pl.1.error < U32) (hs : pl.1.silent_error < U32) :
    (disk_iter x w i rehash j pl).2.1.error
      = (pl.1.error + (disk_error x w pl.1.state i rehash j).toNat) % U32
    ∧ (disk_iter x w i rehash j pl).2.1.silent_error
      = (pl.1.silent_error + (disk_silent x w pl.1.state i rehash j).toNat) % U32
    ∧ (disk_iter x w i rehash j pl).2.2.error_on_this_block
      = (pl.2.error_on_this_block
          || (disk_error x w pl.1.state i rehash j && !disk_silent x w pl.1.state i rehash j))
    ∧ (disk_iter x w i rehash j pl).2.2.silent_error_on_this_block
      = (pl.2.silent_error_on_this_block || disk_silent x w pl.1.state i rehash j)
    ∧ (disk_error x w pl.1.state i rehash j = false →
        (disk_iter x w i rehash j pl).2.1.buffer j = stripe_data w pl.1.state i j) := by
  have me := Nat.mod_eq_of_lt he
  have ms := Nat.mod_eq_of_lt hs
  by_cases hd : pl.1.state.disk j = true
  · rcases hf : (pl.1.state.block j i).file with _ | file
    · unfold disk_iter
      simp only [Proc.set_rehandle_state, hd, Bool.not_true, Bool.false_eq_true, if_false, hf]
      simp [disk_error, disk_silent, open_failure, read_failure, hash_mismatch, hf, me, ms,
        stripe_data]
    · have hc : ¬ (w.handle_file i j ≠ some file.id ∧ w.handle_close i j = -1) := by
        intro hc
        unfold disk_iter at hn
        simp only [Proc.set_rehandle_state, hd, Bool.not_true, Bool.false_eq_true, if_false, hf,
          if_pos hc] at hn
        exact absurd hn (by simp)
      by_cases ho : w.handle_open i j = -1
      · unfold disk_iter
        simp only [Proc.set_rehandle_state, hd, Bool.not_true, Bool.false_eq_true, if_false, hf,
          if_neg hc, if_pos ho]
        simp [disk_error, disk_silent, open_failure, read_failure, hash_mismatch, hf, hd, ho, ms]
      · by_cases hr : (w.handle_read i j).1 = -1
        · unfold disk_iter
          simp only [Proc.set_rehandle_state, hd, Bool.not_true, Bool.false_eq_true, if_false, hf,
            if_neg hc, if_neg ho, if_pos hr]
          simp [disk_error, disk_silent, open_failure, read_failure, hash_mismatch, hf, hd, ho,
            hr, ms]
          split <;> rfl
        · have hde : disk_error x w pl.1.state i rehash j
              = ((pl.1.state.block j i).has_hash
                && decide (read_hash x w pl.1.state i rehash j ≠ (pl.1.state.block j i).hash)) := by
            simp [disk_error, open_failure, read_failure, hash_mismatch, hf, hd, ho, hr]
          have hds : disk_silent x w pl.1.state i rehash j
              = (disk_error x w pl.1.state i rehash j
                && !file_changed (w.handle_st i j) file) := by
            rw [hde]
            by_cases hsy : in_sync (w.handle_st i j) file
            · simp [disk_silent, hash_mismatch, file_in_sync, hf, hd, ho, hr, hsy,
                (file_changed_false_iff _ _).mpr hsy]
            · simp [disk_silent, hash_mismatch, file_in_sync, hf, hd, ho, hr, hsy,
                (file_changed_iff _ _).mpr hsy]
          obtain ⟨k1, k2, k3, k4⟩ := disk_hash_verdict x i rehash j (pl.1.state.block j i)
            (file_changed (w.handle_st i j) file) (w.handle_read i j).1
            ((((pl.1.set_rehandle j { hash := (pl.1.rehandle j).hash, block := none }).emit
                (if w.handle_file i j ≠ some file.id then [.call_handle_close i j] else [])).emit
                [.call_handle_open i j]).set_buffer j (w.handle_read i j).2
                  |>.emit [.call_handle_read i j],
              if file_changed (w.handle_st i j) file = true then
                { pl.2 with block_is_unsynched := true } else pl.2)
            (disk_error x w pl.1.state i rehash j)
            (by rw [hde]; simp [read_hash]) (by simpa using he) (by simpa using hs)
          unfold disk_iter
          simp only [Proc.set_rehandle_state, hd, Bool.not_true, Bool.false_eq_true, if_false, hf,
            if_neg hc, if_neg ho, if_neg hr]
          simp only [Proc.emit_error, Proc.set_buffer_error, Proc.set_rehandle_error,
            Proc.emit_silent_error, Proc.set_buffer_silent_error,
            Proc.set_rehandle_silent_error] at k1 k2 k3 k4
          refine ⟨k1, ?_, ?_, ?_, ?_⟩
          · rw [k2, hds]
          · rw [k3, hds]
            cases disk_error x w pl.1.state i rehash j <;>
              cases file_changed (w.handle_st i j) file <;> simp
          · rw [k4, hds]
            cases disk_error x w pl.1.state i rehash j <;>
              cases file_changed (w.handle_st i j) file <;> simp
          · intro _
            rw [disk_hash_buffer]
            simp [stripe_data, hd, hf]
  · unfold disk_iter
    have hd2 : pl.1.state.disk j = false := by simpa using hd
    simp only [Proc.set_rehandle_state, hd2, Bool.not_false, if_true]
    simp [disk_error, disk_silent, open_failure, read_failure, hash_mismatch, hd2, me, ms,
      stripe_data]
/-- The counters, flags and data buffers after the per-disk loop of stripe `i`, in
terms of the answers of the disks, when the loop runs to its end. -/
theorem disk_loop_verdict (x : Helpers) (w : World) (i : Nat) (rehash : Bool) (n j0 : Nat)
    (pl : Proc × Locals) (hn : (disk_loop x w i rehash n j0 pl).1 = .next)
    (he : pl.1.error < U32) (hs : pl.1.silent_error < U32) :
    (disk_loop x w i rehash n j0 pl).2.1.error
      = (pl.1.error + (List.range' j0 n).countP (disk_error x w pl.1.state i rehash)) % U32
    ∧ (disk_loop x w i rehash n j0 pl).2.1.silent_error
      = (pl.1.silent_error
          + (List.range' j0 n).countP (disk_silent x w pl.1.state i rehash)) % U32
    ∧ (disk_loop x w i rehash n j0 pl).2.2.error_on_this_block
      = (pl.2.error_on_this_block
          || (List.range' j0 n).any (fun j => disk_error x w pl.1.state i rehash j
                && !disk_silent x w pl.1.state i rehash j))
    ∧ (disk_loop x w i rehash n j0 pl).2.2.silent_error_on_this_block
      = (pl.2.silent_error_on_this_block
          || (List.range' j0 n).any (disk_silent x w pl.1.state i rehash))
    ∧ (∀ j, j0 ≤ j → j < j0 + n → disk_error x w pl.1.state i rehash j = false →
        (disk_loop x w i rehash n j0 pl).2.1.buffer j = stripe_data w pl.1.state i j)
    ∧ ∀ k, k < j0 ∨ j0 + n ≤ k → (disk_loop x w i rehash n j0 pl).2.1.buffer k = pl.1.buffer k := by
  induction n generalizing j0 pl with
  | zero =>
    refine ⟨?_, ?_, ?_, ?_, fun j h1 h2 => ?_, fun k _ => rfl⟩
    · simp [disk_loop, Nat.mod_eq_of_lt he]
    · simp [disk_loop, Nat.mod_eq_of_lt hs]
    · simp [disk_loop]
    · simp [disk_loop]
    · omega
  | succ n ih =>
    by_cases hf : (disk_iter x w i rehash j0 pl).1 = .next
    · have fr := disk_iter_frame x w i rehash j0 pl
      obtain ⟨a1, a2, a3, a4, a5⟩ := disk_iter_verdict x w i rehash j0 pl hf he hs
      have a6 := disk_iter_buffer_other x w i rehash j0 pl
      rcases hpl : disk_iter x w i rehash j0 pl with ⟨f, pl1⟩
      rw [hpl] at hf fr a1 a2 a3 a4 a5 a6
      simp only [] at hf fr a1 a2 a3 a4 a5 a6
      subst hf
      rw [disk_loop_succ_next x w i rehash n j0 pl pl1 hpl] at hn ⊢
      obtain ⟨b1, b2, b3, b4, b5, b6⟩ := ih (j0 + 1) pl1 hn (fr.error_lt he) (fr.silent_lt hs)
      rw [fr.state] at b1 b2 b3 b4 b5
      have hr : List.range' j0 (n + 1) = j0 :: List.range' (j0 + 1) n := by
        simp [List.range'_succ]
      rw [hr]
      refine ⟨?_, ?_, ?_, ?_, fun j h1 h2 hj => ?_, fun k hk => ?_⟩
      · rw [b1, a1, List.countP_cons, Nat.mod_add_mod]
        cases disk_error x w pl.1.state i rehash j0 <;> simp <;> congr 1 <;> omega
      · rw [b2, a2, List.countP_cons, Nat.mod_add_mod]
        cases disk_silent x w pl.1.state i rehash j0 <;> simp <;> congr 1 <;> omega
      · rw [b3, a3, List.any_cons, Bool.or_assoc]
      · rw [b4, a4, List.any_cons, Bool.or_assoc]
      · by_cases hj0 : j = j0
        · subst hj0
          rw [b6 j (by omega), a5 hj]
        · exact b5 j (by omega) (by omega) hj
      · rw [b6 k (by omega), a6 k (by omega)]
    · rw [disk_loop_succ_stop x w i rehash n j0 pl hf] at hn
      exact absurd hn hf
theorem parity_compare_spec (d : Bool) (ev : Event) (pl : Proc × Locals)
    (he : pl.1.error < U32) (hs : pl.1.silent_error < U32) :
    (parity_compare d ev pl).1.error = (pl.1.error + d.toNat) % U32
    ∧ (parity_compare d ev pl).1.silent_error
      = (pl.1.silent_error + (if pl.2.block_is_unsynched then 0 else d.toNat)) % U32
    ∧ (parity_compare d ev pl).2.silent_error_on_this_block
      = (pl.2.silent_error_on_this_block || (!pl.2.block_is_unsynched && d))
    ∧ (parity_compare d ev pl).2.error_on_this_block
      = (pl.2.error_on_this_block || (pl.2.block_is_unsynched && d))
    ∧ (parity_compare d ev pl).2.block_is_unsynched = pl.2.block_is_unsynched
    ∧ (parity_compare d ev pl).1.state = pl.1.state := by
  have me := Nat.mod_eq_of_lt he
  have ms := Nat.mod_eq_of_lt hs
  unfold parity_compare
  cases d <;> cases hu : pl.2.block_is_unsynched <;> simp [hu, me, ms]

/-- Exact account of the comparisons of lines 324-350, in terms of the two tests
`buffer_parity && memcmp(...) != 0`. -/
theorem parity_verdict_spec (i : Nat) (q : ParityLoad)
    (he : q.pl.1.error < U32) (hs : q.pl.1.silent_error < U32) :
    (parity_verdict i q).1.error
      = (q.pl.1.error
        + ((parity_differs q.pl.1 q.pl.1.state.diskmax q.buffer_parity).toNat
          + (decide (q.pl.1.state.level ≥ 2)
            && parity_differs q.pl.1 (q.pl.1.state.diskmax + 1) q.buffer_qarity).toNat)) % U32
    ∧ (parity_verdict i q).1.silent_error
      = (q.pl.1.silent_error
        + (if q.pl.2.block_is_unsynched then 0
          else (parity_differs q.pl.1 q.pl.1.state.diskmax q.buffer_parity).toNat
            + (decide (q.pl.1.state.level ≥ 2)
                && parity_differs q.pl.1 (q.pl.1.state.diskmax + 1) q.buffer_qarity).toNat)) % U32
    ∧ (parity_verdict i q).2.silent_error_on_this_block
      = (q.pl.2.silent_error_on_this_block
        || (!q.pl.2.block_is_unsynched
          && (parity_differs q.pl.1 q.pl.1.state.diskmax q.buffer_parity
            || (decide (q.pl.1.state.level ≥ 2)
              && parity_differs q.pl.1 (q.pl.1.state.diskmax + 1) q.buffer_qarity))))
    ∧ (parity_verdict i q).2.error_on_this_block
      = (q.pl.2.error_on_this_block
        || (q.pl.2.block_is_unsynched
          && (parity_differs q.pl.1 q.pl.1.state.diskmax q.buffer_parity
            || (decide (q.pl.1.state.level ≥ 2)
              && parity_differs q.pl.1 (q.pl.1.state.diskmax + 1) q.buffer_qarity))))
    ∧ (parity_verdict i q).2.block_is_unsynched = q.pl.2.block_is_unsynched := by
  unfold parity_verdict
  simp only []
  obtain ⟨a1, a2, a3, a4, a5, a6⟩ := parity_compare_spec
    (parity_differs q.pl.1 q.pl.1.state.diskmax q.buffer_parity) (.log_parity_data_error i) q.pl
    he hs
  have he1 : (parity_compare (parity_differs q.pl.1 q.pl.1.state.diskmax q.buffer_parity)
      (.log_parity_data_error i) q.pl).1.error < U32 := by
    rw [a1]
    exact Nat.mod_lt _ (by decide)
  have hs1 : (parity_compare (parity_differs q.pl.1 q.pl.1.state.diskmax q.buffer_parity)
      (.log_parity_data_error i) q.pl).1.silent_error < U32 := by
    rw [a2]
    exact Nat.mod_lt _ (by decide)
  obtain ⟨b1, b2, b3, b4, b5, -⟩ := parity_compare_spec
    (parity_differs q.pl.1 (q.pl.1.state.diskmax + 1) q.buffer_qarity) (.log_qarity_data_error i)
    (parity_compare (parity_differs q.pl.1 q.pl.1.state.diskmax q.buffer_parity)
      (.log_parity_data_error i) q.pl) he1 hs1
  by_cases hl : q.pl.1.state.level ≥ 2
  · rw [if_pos hl, b1, b2, b3, b4, b5, a1, a2, a3, a4, a5]
    simp only [hl, decide_True, Bool.true_and, Nat.mod_add_mod]
    cases q.pl.2.block_is_unsynched <;>
      cases parity_differs q.pl.1 q.pl.1.state.diskmax q.buffer_parity <;>
      cases parity_differs q.pl.1 (q.pl.1.state.diskmax + 1) q.buffer_qarity <;>
      cases q.pl.2.silent_error_on_this_block <;>
      cases q.pl.2.error_on_this_block <;> simp [Nat.add_assoc]
  · rw [if_neg hl, a1, a2, a3, a4, a5]
    simp only [hl, decide_False, Bool.false_and]
    cases q.pl.2.block_is_unsynched <;>
      cases parity_differs q.pl.1 q.pl.1.state.diskmax q.buffer_parity <;> simp

theorem parity_fetch_spec (b : Nat) (r : Int × bytes) (call ev : Event) (pl : Proc × Locals)
    (he : pl.1.error < U32) :
    (parity_fetch b r call ev pl).1.error = (pl.1.error + (decide (r.1 = -1)).toNat) % U32
    ∧ (parity_fetch b r call ev pl).1.silent_error = pl.1.silent_error
    ∧ (parity_fetch b r call ev pl).2.error_on_this_block
      = (pl.2.error_on_this_block || decide (r.1 = -1))
    ∧ (parity_fetch b r call ev pl).2.silent_error_on_this_block
      = pl.2.silent_error_on_this_block
    ∧ (parity_fetch b r call ev pl).2.block_is_unsynched = pl.2.block_is_unsynched
    ∧ (parity_fetch b r call ev pl).1.buffer = upd pl.1.buffer b r.2
    ∧ (parity_fetch b r call ev pl).1.state = pl.1.state := by
  have me := Nat.mod_eq_of_lt he
  unfold parity_fetch
  by_cases h : r.1 = -1 <;> simp [h, me]
/-- The two tests `buffer_parity && memcmp(...) != 0` of lines 325 and 338 after
the parity reads and `raid_gen`, when the data buffers hold the data of the
stripe: they are the P and Q mismatches of the stripe. -/
theorem parity_load_differs (x : Helpers) (w : World) (i : Nat) (pl : Proc × Locals)
    (hraid : RaidLaws x pl.1.state.level)
    (hlevel : pl.1.state.level = 1 ∨ pl.1.state.level = 2)
    (hbuf : ∀ j, j < pl.1.state.diskmax → pl.1.buffer j = stripe_data w pl.1.state i j) :
    parity_differs (parity_load x w i pl).pl.1 pl.1.state.diskmax
        (parity_load x w i pl).buffer_parity = parity_mismatch x w pl.1.state i
    ∧ (decide (pl.1.state.level ≥ 2)
        && parity_differs (parity_load x w i pl).pl.1 (pl.1.state.diskmax + 1)
          (parity_load x w i pl).buffer_qarity) = qarity_mismatch x w pl.1.state i := by
  have fr := parity_load_frame x w i pl
  rcases hlevel with h1 | h2
  · have hload : (parity_load x w i pl).pl.1.buffer
          = x.raid_gen 1 (upd pl.1.buffer (pl.1.state.diskmax + 1) (w.parity_read i).2)
              pl.1.state.diskmax pl.1.state.block_size
        ∧ (parity_load x w i pl).buffer_parity
          = (if (w.parity_read i).1 = -1 then none else some (pl.1.state.diskmax + 1)) := by
      unfold parity_load parity_fetch
      by_cases hP : (w.parity_read i).1 = -1 <;> simp [h1, hP]
    obtain ⟨l3, l4⟩ := hload
    rw [h1] at hraid
    refine ⟨?_, by simp [qarity_mismatch, h1]⟩
    rw [l4]
    by_cases hP : (w.parity_read i).1 = -1
    · simp [hP, parity_differs, parity_mismatch]
    · rw [if_neg hP]
      unfold parity_differs parity_mismatch parity_computed
      simp only [hP, ne_eq, not_false_eq_true, decide_True, Bool.true_and]
      rw [l3, fr.state, hraid.writes _ pl.1.state.diskmax _ (pl.1.state.diskmax + 1) (by omega),
        upd_same,
        hraid.reads _ (stripe_data w pl.1.state i) _ _
          (fun j hj => by rw [upd_other _ _ _ _ (by omega)]; exact hbuf j hj)
          pl.1.state.diskmax (le_refl _) (by omega), h1]
  · have hload : (parity_load x w i pl).pl.1.buffer
          = x.raid_gen 2 (upd (upd pl.1.buffer (pl.1.state.diskmax + 2) (w.parity_read i).2)
              (pl.1.state.diskmax + 3) (w.qarity_read i).2)
              pl.1.state.diskmax pl.1.state.block_size
        ∧ (parity_load x w i pl).buffer_parity
          = (if (w.parity_read i).1 = -1 then none else some (pl.1.state.diskmax + 2))
        ∧ (parity_load x w i pl).buffer_qarity
          = (if (w.qarity_read i).1 = -1 then none else some (pl.1.state.diskmax + 3)) := by
      unfold parity_load parity_fetch
      by_cases hP : (w.parity_read i).1 = -1 <;> by_cases hQ : (w.qarity_read i).1 = -1 <;>
        simp [h2, hP, hQ]
    obtain ⟨l3, l4, l5⟩ := hload
    rw [h2] at hraid
    have hagree : ∀ j, j < pl.1.state.diskmax →
        upd (upd pl.1.buffer (pl.1.state.diskmax + 2) (w.parity_read i).2)
          (pl.1.state.diskmax + 3) (w.qarity_read i).2 j = stripe_data w pl.1.state i j := by
      intro j hj
      rw [upd_other _ _ _ _ (by omega), upd_other _ _ _ _ (by omega)]
      exact hbuf j hj
    refine ⟨?_, ?_⟩
    · rw [l4]
      by_cases hP : (w.parity_read i).1 = -1
      · simp [hP, parity_differs, parity_mismatch]
      · rw [if_neg hP]
        unfold parity_differs parity_mismatch parity_computed
        simp only [hP, ne_eq, not_false_eq_true, decide_True, Bool.true_and]
        rw [l3, fr.state, hraid.writes _ pl.1.state.diskmax _ (pl.1.state.diskmax + 2) (by omega),
          upd_other _ _ _ _ (by omega), upd_same,
          hraid.reads _ (stripe_data w pl.1.state i) _ _ hagree pl.1.state.diskmax (le_refl _)
            (by omega), h2]
    · rw [l5]
      by_cases hQ : (w.qarity_read i).1 = -1
      · simp [hQ, parity_differs, qarity_mismatch]
      · rw [if_neg hQ]
        unfold parity_differs qarity_mismatch parity_computed
        simp only [hQ, ne_eq, not_false_eq_true, decide_True, Bool.true_and, h2, ge_iff_le,
          le_refl]
        rw [l3, fr.state, hraid.writes _ pl.1.state.diskmax _ (pl.1.state.diskmax + 3) (by omega),
          upd_same,
          hraid.reads _ (stripe_data w pl.1.state i) _ _ hagree (pl.1.state.diskmax + 1) (by omega)
            (by omega)]

/-- Counters and flags after the parity reads and `raid_gen` (lines 289-322). -/
theorem parity_load_spec (x : Helpers) (w : World) (i : Nat) (pl : Proc × Locals)
    (he : pl.1.error < U32) :
    (parity_load x w i pl).pl.1.error
      = (pl.1.error
          + ((parity_read_failure w i).toNat + (qarity_read_failure w pl.1.state i).toNat)) % U32
    ∧ (parity_load x w i pl).pl.1.silent_error = pl.1.silent_error
    ∧ (parity_load x w i pl).pl.2.error_on_this_block
      = (pl.2.error_on_this_block
          || (parity_read_failure w i || qarity_read_failure w pl.1.state i))
    ∧ (parity_load x w i pl).pl.2.silent_error_on_this_block = pl.2.silent_error_on_this_block
    ∧ (parity_load x w i pl).pl.2.block_is_unsynched = pl.2.block_is_unsynched := by
  have me := Nat.mod_eq_of_lt he
  unfold parity_load parity_fetch parity_read_failure qarity_read_failure
  by_cases hl : pl.1.state.level ≥ 2 <;> by_cases hP : (w.parity_read i).1 = -1 <;>
    by_cases hQ : (w.qarity_read i).1 = -1 <;> simp [hl, hP, hQ, me]

/-- The parity check of a stripe whose data buffers hold the data read and on
which no data error was found: counters and flags afterwards, in terms of the
answers of the parity files. -/
theorem parity_check_verdict (x : Helpers) (w : World) (i : Nat) (pl : Proc × Locals)
    (hraid : RaidLaws x pl.1.state.level)
    (hlevel : pl.1.state.level = 1 ∨ pl.1.state.level = 2)
    (hbuf : ∀ j, j < pl.1.state.diskmax → pl.1.buffer j = stripe_data w pl.1.state i j)
    (hef : pl.2.error_on_this_block = false) (hsf : pl.2.silent_error_on_this_block = false)
    (he : pl.1.error < U32) (hs : pl.1.silent_error < U32) :
    (parity_check x w i pl).1.error = (pl.1.error + parity_errors x w pl.1.state i) % U32
    ∧ (parity_check x w i pl).1.silent_error
      = (pl.1.silent_error
        + (if pl.2.block_is_unsynched then 0 else parity_mismatches x w pl.1.state i)) % U32
    ∧ (parity_check x w i pl).2.error_on_this_block
      = (parity_read_failure w i || qarity_read_failure w pl.1.state i
        || (pl.2.block_is_unsynched
          && (parity_mismatch x w pl.1.state i || qarity_mismatch x w pl.1.state i)))
    ∧ (parity_check x w i pl).2.silent_error_on_this_block
      = (!pl.2.block_is_unsynched
          && (parity_mismatch x w pl.1.state i || qarity_mismatch x w pl.1.state i))
    ∧ (parity_check x w i pl).2.block_is_unsynched = pl.2.block_is_unsynched := by
  have fr := parity_load_frame x w i pl
  obtain ⟨d1, d2⟩ := parity_load_differs x w i pl hraid hlevel hbuf
  obtain ⟨l1, l2, l3, l4, l5⟩ := parity_load_spec x w i pl he
  obtain ⟨v1, v2, v3, v4, v5⟩ := parity_verdict_spec i (parity_load x w i pl)
    (fr.error_lt he) (fr.silent_lt hs)
  rw [fr.state, d1, d2, l1] at v1
  rw [fr.state, d1, d2, l2, l5] at v2
  rw [fr.state, d1, d2, l4, l5] at v3
  rw [fr.state, d1, d2, l3, l5] at v4
  rw [l5] at v5
  unfold parity_check
  rw [if_pos (by simp [hef, hsf])]
  refine ⟨?_, ?_, ?_, ?_, v5⟩
  · rw [v1, Nat.mod_add_mod]
    unfold parity_errors parity_mismatches
    congr 1
    omega
  · rw [v2]
    rfl
  · rw [v4, hef]
    simp
  · rw [v3, hsf]
    simp
theorem stripe_unsynched_iff (w : World) (state : snapraid_state) (i : Nat) :
    stripe_unsynched w state i = true ↔ ∃ j, j < state.diskmax ∧ opened_changed w state i j := by
  unfold stripe_unsynched opened_changed file_in_sync
  simp only [List.any_eq_true, List.mem_range, Bool.and_eq_true, decide_eq_true_eq,
    Bool.not_eq_true']
  constructor
  · rintro ⟨j, hj, ⟨⟨hd, hf⟩, ho⟩, hs⟩
    rcases hfile : (state.block j i).file with _ | file
    · rw [hfile] at hf
      simp at hf
    · rw [hfile] at hs
      exact ⟨j, hj, hd, file, hfile, ho, by simpa using hs⟩
  · rintro ⟨j, hj, hd, file, hfile, ho, hs⟩
    refine ⟨j, hj, ⟨⟨hd, by simp [hfile]⟩, ho⟩, ?_⟩
    rw [hfile]
    simpa using hs

theorem disk_silent_error (x : Helpers) (w : World) (state : snapraid_state) (i : Nat)
    (rehash : Bool) (j : Nat) (h : disk_silent x w state i rehash j = true) :
    disk_error x w state i rehash j = true := by
  unfold disk_silent at h
  unfold disk_error
  simp only [Bool.and_eq_true] at h
  simp [h.1]

theorem countP_le_countP (s e : Nat → Bool) (l : List Nat) (h : ∀ j, s j = true → e j = true) :
    l.countP s ≤ l.countP e := by
  induction l with
  | nil => simp
  | cons a l ih =>
    rw [List.countP_cons, List.countP_cons]
    have := h a
    cases hs : s a <;> cases he : e a <;> simp_all <;> omega

theorem countP_lt_iff_any (s e : Nat → Bool) (l : List Nat) (h : ∀ j, s j = true → e j = true) :
    l.any (fun j => e j && !s j) = decide (l.countP s < l.countP e) := by
  induction l with
  | nil => simp
  | cons a l ih =>
    rw [List.any_cons, ih, List.countP_cons, List.countP_cons]
    have hle := countP_le_countP s e l h
    have := h a
    cases hs : s a <;> cases he : e a <;> simp_all <;> omega

theorem any_eq_countP_pos (s : Nat → Bool) (l : List Nat) :
    l.any s = decide (0 < l.countP s) := by
  induction l with
  | nil => simp
  | cons a l ih =>
    rw [List.any_cons, ih, List.countP_cons]
    cases hs : s a <;> simp

theorem data_silent_le (x : Helpers) (w : World) (state : snapraid_state) (i : Nat)
    (rehash : Bool) : data_silent x w state i rehash ≤ data_errors x w state i rehash :=
  countP_le_countP _ _ _ (fun j => disk_silent_error x w state i rehash j)

theorem stripe_silent_le (x : Helpers) (w : World) (state : snapraid_state) (i : Nat)
    (rehash : Bool) : stripe_silent x w state i rehash ≤ stripe_errors x w state i rehash := by
  unfold stripe_silent stripe_errors
  split
  · split
    · exact Nat.zero_le _
    · unfold parity_errors
      omega
  · exact data_silent_le x w state i rehash

/-- Verification of stripe `i` that is not stopped by a failed close: the counters
grow by the numbers of errors and of silent errors of the stripe, the silent flag
is set when there is a silent error, the error flag when there is another error. -/
theorem verify_verdict (x : Helpers) (w : World) (i : Nat) (rehash : Bool) (p : Proc)
    (hn : (verify x w i rehash p).1 = .next)
    (hraid : RaidLaws x p.state.level) (hlevel : p.state.level = 1 ∨ p.state.level = 2)
    (he : p.error < U32) (hs : p.silent_error < U32) :
    (verify x w i rehash p).2.1.error = (p.error + stripe_errors x w p.state i rehash) % U32
    ∧ (verify x w i rehash p).2.1.silent_error
      = (p.silent_error + stripe_silent x w p.state i rehash) % U32
    ∧ (verify x w i rehash p).2.2.silent_error_on_this_block
      = decide (0 < stripe_silent x w p.state i rehash)
    ∧ (verify x w i rehash p).2.2.error_on_this_block
      = decide (stripe_silent x w p.state i rehash < stripe_errors x w p.state i rehash) := by
  have fr := disk_loop_frame x w i rehash p.state.diskmax 0 (p, ⟨false, false, false⟩)
  have hu := disk_loop_unsynched x w i rehash p.state.diskmax 0 (p, ⟨false, false, false⟩)
  have hd := disk_loop_verdict x w i rehash p.state.diskmax 0 (p, ⟨false, false, false⟩)
  unfold verify at hn ⊢
  simp only [] at hn ⊢
  rcases hl : disk_loop x w i rehash p.state.diskmax 0 (p, ⟨false, false, false⟩) with ⟨f, pl⟩
  rw [hl] at hn fr hu hd
  cases f
  case brk => exact absurd hn (by simp)
  case bail => exact absurd hn (by simp)
  simp only [] at fr hu hd ⊢
  obtain ⟨d1, d2, d3, d4, d5, -⟩ := hd trivial he hs
  have hu2 := hu trivial
  simp only [Bool.false_eq_true, false_or, Nat.zero_le, true_and, Nat.zero_add] at hu2
  rw [← List.range_eq_range'] at d1 d2 d3 d4
  simp only [Bool.false_or] at d3 d4
  rw [countP_lt_iff_any _ _ _ (fun j => disk_silent_error x w p.state i rehash j)] at d3
  rw [any_eq_countP_pos] at d4
  have hsl := data_silent_le x w p.state i rehash
  unfold data_silent data_errors at hsl
  by_cases h0 : data_errors x w p.state i rehash = 0
  · -- no data error: the parity check is made
    have h0b := h0
    unfold data_errors at h0b
    have h0s : (List.range p.state.diskmax).countP (disk_silent x w p.state i rehash) = 0 := by
      omega
    rw [h0b] at d1
    rw [h0s] at d2
    rw [h0b, h0s] at d3
    rw [h0s] at d4
    simp only [Nat.lt_irrefl, decide_False] at d3 d4
    have hbuf : ∀ j, j < pl.1.state.diskmax → pl.1.buffer j = stripe_data w pl.1.state i j := by
      intro j hj
      rw [fr.state] at hj ⊢
      simp only [] at hj
      refine d5 j (Nat.zero_le _) (by omega) ?_
      rw [List.countP_eq_zero] at h0b
      have := h0b j (List.mem_range.mpr hj)
      simpa using this
    have hun : pl.2.block_is_unsynched = stripe_unsynched w p.state i := by
      have h2 := stripe_unsynched_iff w p.state i
      cases ha : pl.2.block_is_unsynched <;> cases hb : stripe_unsynched w p.state i
      · rfl
      · exact absurd (hu2.mpr (h2.mp hb)) (by simp [ha])
      · exact absurd (h2.mpr (hu2.mp ha)) (by simp [hb])
      · rfl
    obtain ⟨c1, c2, c3, c4, -⟩ := parity_check_verdict x w i pl (by rw [fr.state]; exact hraid)
      (by rw [fr.state]; exact hlevel) hbuf d3 d4 (fr.error_lt he) (fr.silent_lt hs)
    rw [fr.state] at c1 c2 c3 c4
    rw [hun] at c2 c3 c4
    unfold stripe_errors stripe_silent
    rw [if_pos h0, if_pos h0]
    refine ⟨?_, ?_, ?_, ?_⟩
    · rw [c1, d1]
      simp
    · rw [c2, d2]
      simp
    · rw [c4]
      unfold parity_mismatches
      cases stripe_unsynched w p.state i <;> cases parity_mismatch x w p.state i <;>
        cases qarity_mismatch x w p.state i <;> simp
    · rw [c3]
      unfold parity_errors parity_mismatches
      cases stripe_unsynched w p.state i <;> cases parity_mismatch x w p.state i <;>
        cases qarity_mismatch x w p.state i <;> cases parity_read_failure w i <;>
        cases qarity_read_failure w p.state i <;> simp
  · -- a data error: no parity check
    have hflag : ¬ (pl.2.error_on_this_block = false ∧ pl.2.silent_error_on_this_block = false) := by
      rintro ⟨h1, h2⟩
      rw [d3] at h1
      rw [d4] at h2
      unfold data_errors at h0
      simp only [decide_eq_false_iff_not, Nat.not_lt] at h1 h2
      omega
    have hpc : parity_check x w i pl = pl := by
      unfold parity_check
      rw [if_neg]
      intro hc
      apply hflag
      simpa using hc
    rw [hpc]
    unfold stripe_errors stripe_silent
    rw [if_neg h0, if_neg h0]
    exact ⟨d1, d2, d4, d3⟩
theorem stripe_data_congr (w : World) (s1 s2 : snapraid_state) (i : Nat)
    (hg : same_setup s1 s2) (hb : ∀ d, (s1.block d i).file = (s2.block d i).file) :
    stripe_data w s1 i = stripe_data w s2 i := by
  obtain ⟨-, g2, -, -, -, -, -, -, g9⟩ := hg
  funext j
  unfold stripe_data
  rw [g2, g9, hb j]

/-- The errors of a stripe depend on the catalog through the geometry, the hash
functions and the blocks of the stripe only. -/
theorem stripe_errors_congr (x : Helpers) (w : World) (s1 s2 : snapraid_state) (i : Nat)
    (rehash : Bool) (hg : same_setup s1 s2) (hb : ∀ d, s1.block d i = s2.block d i) :
    stripe_errors x w s1 i rehash = stripe_errors x w s2 i rehash
    ∧ stripe_silent x w s1 i rehash = stripe_silent x w s2 i rehash := by
  have hdata := stripe_data_congr w s1 s2 i hg (fun d => by rw [hb d])
  obtain ⟨g1, g2, g3, g4, g5, g6, g7, g8, g9⟩ := hg
  have h1 : disk_error x w s1 i rehash = disk_error x w s2 i rehash := by
    funext j
    simp only [disk_error, open_failure, read_failure, hash_mismatch, read_hash, g3, g4, g5, g6,
      g9, hb j]
  have h2 : disk_silent x w s1 i rehash = disk_silent x w s2 i rehash := by
    funext j
    simp only [disk_silent, hash_mismatch, read_hash, file_in_sync, g3, g4, g5, g6, g9, hb j]
  have h3 : stripe_unsynched w s1 i = stripe_unsynched w s2 i := by
    unfold stripe_unsynched
    rw [g8, g9]
    congr 1
    funext j
    simp only [file_in_sync, hb j]
  have h4 : parity_mismatches x w s1 i = parity_mismatches x w s2 i := by
    simp only [parity_mismatches, parity_mismatch, qarity_mismatch, parity_computed, hdata, g1, g2,
      g8]
  have h5 : parity_errors x w s1 i = parity_errors x w s2 i := by
    simp only [parity_errors, h4, qarity_read_failure, g1]
  have h6 : data_errors x w s1 i rehash = data_errors x w s2 i rehash := by
    simp only [data_errors, h1, g8]
  have h7 : data_silent x w s1 i rehash = data_silent x w s2 i rehash := by
    simp only [data_silent, h2, g8]
  unfold stripe_errors stripe_silent
  rw [h3, h4, h5, h6, h7]
  exact ⟨rfl, rfl⟩

/-- A selected stripe that is not stopped by a failed close adds its errors to the
counters. -/
theorem visit_verdict (x : Helpers) (w : World) (now : Int) (i : Nat) (info : Nat) (p : Proc)
    (hn : (visit x w now i info p).1 ≠ .bail)
    (hraid : RaidLaws x p.state.level) (hlevel : p.state.level = 1 ∨ p.state.level = 2)
    (he : p.error < U32) (hs : p.silent_error < U32) :
    (visit x w now i info p).2.error
      = (p.error + stripe_errors x w p.state i (x.info_get_rehash info)) % U32
    ∧ (visit x w now i info p).2.silent_error
      = (p.silent_error + stripe_silent x w p.state i (x.info_get_rehash info)) % U32 := by
  have hv : (verify x w i (x.info_get_rehash info) p.count_visit).1 = .next := by
    have hb := verify_flow x w i (x.info_get_rehash info) p.count_visit
    rcases hf : (verify x w i (x.info_get_rehash info) p.count_visit).1
    · rfl
    · exact absurd hf hb
    · exfalso
      apply hn
      unfold visit
      simp only []
      rcases hq : verify x w i (x.info_get_rehash info) p.count_visit with ⟨f, pl⟩
      rw [hq] at hf
      simp only [] at hf
      subst hf
      rfl
  obtain ⟨a1, a2, -, -⟩ := verify_verdict x w i (x.info_get_rehash info) p.count_visit hv
    hraid hlevel he hs
  rw [visit_eq x w now i info p hv]
  obtain ⟨-, -, -, -, -, -, f7, f8, -⟩ := finish_stripe_fields w i
    (outcome x now i info (x.info_get_rehash info)
      (verify x w i (x.info_get_rehash info) p.count_visit).2)
  obtain ⟨-, -, -, -, -, -, o7, o8⟩ := outcome_fields x now i info (x.info_get_rehash info)
    (verify x w i (x.info_get_rehash info) p.count_visit).2
  rw [f7, f8, o7, o8, a1, a2]
  exact ⟨rfl, rfl⟩

theorem same_setup_of_frame {S : Nat → Prop} {p p1 : Proc} (h : IFrame S p p1) :
    same_setup p1.state p.state :=
  ⟨h.level, h.block_size, h.hash, h.hashseed, h.prevhash, h.prevhashseed, h.opt, h.diskmax,
    h.disk⟩

theorem same_setup_trans {s1 s2 s3 : snapraid_state} (h1 : same_setup s1 s2)
    (h2 : same_setup s2 s3) : same_setup s1 s3 := by
  obtain ⟨a1, a2, a3, a4, a5, a6, a7, a8, a9⟩ := h1
  obtain ⟨b1, b2, b3, b4, b5, b6, b7, b8, b9⟩ := h2
  exact ⟨a1.trans b1, a2.trans b2, a3.trans b3, a4.trans b4, a5.trans b5, a6.trans b6,
    a7.trans b7, a8.trans b8, a9.trans b9⟩

/-- The counters after the processing loop, when it is not stopped by a failed
close: each visited stripe has added its errors, as read off the disks and the
catalog on entry. -/
theorem process_loop_verdict (x : Helpers) (w : World) (now timelimit : Int) (countlimit : Nat)
    (state0 : snapraid_state) (n i : Nat) (p : Proc)
    (hinfo : ∀ k, i ≤ k → p.state.infoarr k = state0.infoarr k)
    (hblock : ∀ d k, i ≤ k → p.state.block d k = state0.block d k)
    (hsetup : same_setup p.state state0)
    (hraid : RaidLaws x state0.level) (hlevel : state0.level = 1 ∨ state0.level = 2)
    (he : p.error < U32) (hs : p.silent_error < U32)
    (hn : (process_loop x w now timelimit countlimit n i p).1 ≠ .bail) :
    ∃ vs, visited (process_loop x w now timelimit countlimit n i p).2.trace = visited p.trace ++ vs
      ∧ (process_loop x w now timelimit countlimit n i p).2.error
        = (p.error + (vs.map (fun k =>
            stripe_errors x w state0 k (x.info_get_rehash (state0.infoarr k)))).sum) % U32
      ∧ (process_loop x w now timelimit countlimit n i p).2.silent_error
        = (p.silent_error + (vs.map (fun k =>
            stripe_silent x w state0 k (x.info_get_rehash (state0.infoarr k)))).sum) % U32 := by
  induction n generalizing i p with
  | zero =>
    refine ⟨[], ?_, ?_, ?_⟩
    · simp [process_loop]
    · simp [process_loop, Nat.mod_eq_of_lt he]
    · simp [process_loop, Nat.mod_eq_of_lt hs]
  | succ n ih =>
    have hopt : p.state.opt = state0.opt := hsetup.2.2.2.2.2.2.1
    have hsel := selects_congr x p.state state0 timelimit countlimit i p.recountmax
      (hinfo i (le_refl _)) hopt
    have hit := process_iter_eq x w now timelimit countlimit i p
    rw [hsel] at hit
    unfold process_loop at hn ⊢
    by_cases hsl : selects x state0 timelimit countlimit i p.recountmax = true
    · rw [if_pos hsl] at hit
      rw [hit] at hn ⊢
      obtain ⟨v1, v2, v3⟩ := visit_spec x w now i (p.state.infoarr i) p
      have hvd := visit_verdict x w now i (p.state.infoarr i) p
      rcases hv : visit x w now i (p.state.infoarr i) p with ⟨f, p1⟩
      rw [hv] at v1 v2 v3 hvd hn
      simp only [] at v1 v2 v3 hvd hn
      have hfb : f ≠ .bail := by
        intro hfb
        subst hfb
        exact hn rfl
      obtain ⟨w1, w2, w3⟩ := v3 hfb
      obtain ⟨e1, e2⟩ := hvd hfb (by rw [hsetup.1]; exact hraid) (by rw [hsetup.1]; exact hlevel)
        he hs
      obtain ⟨c1, c2⟩ := stripe_errors_congr x w p.state state0 i
        (x.info_get_rehash (p.state.infoarr i)) hsetup (fun d => hblock d i (le_refl _))
      rw [c1, hinfo i (le_refl _)] at e1
      rw [c2, hinfo i (le_refl _)] at e2
      cases f
      · simp only [] at hn ⊢
        obtain ⟨vs, i1, i2, i3⟩ := ih (i + 1) p1
          (fun k hk => by rw [v1.infoarr k (by omega)]; exact hinfo k (by omega))
          (fun d k hk => by rw [v1.block d k (by omega)]; exact hblock d k (by omega))
          (same_setup_trans (same_setup_of_frame v1) hsetup)
          (v1.error_lt he) (v1.silent_lt hs) hn
        refine ⟨i :: vs, ?_, ?_, ?_⟩
        · rw [i1, w2]
          simp
        · rw [i2, e1, Nat.mod_add_mod]
          simp [Nat.add_assoc]
        · rw [i3, e2, Nat.mod_add_mod]
          simp [Nat.add_assoc]
      · refine ⟨[i], w2, ?_, ?_⟩
        · rw [e1]
          simp
        · rw [e2]
          simp
      · exact absurd rfl hfb
    · rw [if_neg hsl] at hit
      rw [hit] at hn ⊢
      simp only [] at hn ⊢
      exact ih (i + 1) p (fun k hk => hinfo k (by omega)) (fun d k hk => hblock d k (by omega))
        hsetup he hs hn
/-- The cleanup loop adds one to `error` for each close that fails. -/
theorem close_loop_verdict (w : World) (n j : Nat) (p : Proc) (he : p.error < U32) :
    (close_loop w n j p).error
      = (p.error + (List.range' j n).countP (fun k => decide (w.handle_close_end k = -1))) % U32
    ∧ (close_loop w n j p).silent_error = p.silent_error := by
  induction n generalizing j p with
  | zero => simp [close_loop, Nat.mod_eq_of_lt he]
  | succ n ih =>
    unfold close_loop
    have hr : List.range' j (n + 1) = j :: List.range' (j + 1) n := by
      simp [List.range'_succ]
    rw [hr, List.countP_cons]
    by_cases hc : w.handle_close_end j = -1
    · rw [if_pos hc]
      obtain ⟨a1, a2⟩ := ih (j + 1) (p.incr_error.emit [.danger_close j])
        (by simp only [Proc.emit_error, Proc.incr_error_error]; exact Nat.mod_lt _ (by decide))
      rw [a1, a2]
      simp only [Proc.emit_error, Proc.incr_error_error, Proc.emit_silent_error,
        Proc.incr_error_silent_error, hc, decide_True, if_true, Nat.mod_add_mod]
      refine ⟨?_, trivial⟩
      congr 1
      omega
    · rw [if_neg hc]
      obtain ⟨a1, a2⟩ := ih (j + 1) p he
      rw [a1, a2]
      simp [hc]

/-- The counters at the end of a run that is not stopped by a failed close inside
the loop: `error` is the number of errors of the visited stripes plus the number
of failed closes of the cleanup loop, `silent_error` the number of silent errors
of the visited stripes, both modulo `2 ^ 32`. -/
theorem process_run_verdict {lim : Nat} (x : Helpers) (w : World) (state : snapraid_state)
    (blockstart blockmax : Nat) (timelimit : Int) (countlimit : Nat) (now : Int)
    (hraid : RaidLaws x state.level) (hlevel : state.level = 1 ∨ state.level = 2)
    (hn : (process_run x w state blockstart blockmax timelimit countlimit now lim).flow ≠ .bail) :
    (process_run x w state blockstart blockmax timelimit countlimit now lim).final.error
      = (((visited (process_run x w state blockstart blockmax timelimit countlimit now
            lim).final.trace).map
          (fun k => stripe_errors x w state k (x.info_get_rehash (state.infoarr k)))).sum
        + close_failures w state.diskmax) % U32
    ∧ (process_run x w state blockstart blockmax timelimit countlimit now lim).final.silent_error
      = ((visited (process_run x w state blockstart blockmax timelimit countlimit now
            lim).final.trace).map
          (fun k => stripe_silent x w state k (x.info_get_rehash (state.infoarr k)))).sum % U32 := by
  unfold process_run at hn ⊢
  simp only [] at hn ⊢
  have h0e : (process_init x w state blockstart blockmax timelimit countlimit lim).error = 0 := rfl
  have h0s : (process_init x w state blockstart blockmax timelimit countlimit lim).silent_error
      = 0 := rfl
  have h0v : visited (process_init x w state blockstart blockmax timelimit countlimit lim).trace
      = [] := by
    simp [process_init, visited, Event.visit_index]
  obtain ⟨vs, l1, l2, l3⟩ := process_loop_verdict x w now timelimit countlimit state
    (blockmax - blockstart) blockstart
    (process_init x w state blockstart blockmax timelimit countlimit lim)
    (fun _ _ => rfl) (fun _ _ _ => rfl) ⟨rfl, rfl, rfl, rfl, rfl, rfl, rfl, rfl, rfl⟩
    hraid hlevel (by rw [h0e]; decide) (by rw [h0s]; decide) hn
  obtain ⟨fr, -⟩ := process_loop_visited x w now timelimit countlimit state
    (blockmax - blockstart) blockstart
    (process_init x w state blockstart blockmax timelimit countlimit lim) (fun _ _ => rfl) rfl
  rw [h0e, Nat.zero_add] at l2
  rw [h0s, Nat.zero_add] at l3
  rw [h0v, List.nil_append] at l1
  rw [if_neg hn]
  obtain ⟨s1, -, -, s4, s5, s6⟩ := summary_fields
    (process_loop x w now timelimit countlimit (blockmax - blockstart) blockstart
      (process_init x w state blockstart blockmax timelimit countlimit lim)).2
  obtain ⟨c1, -, -, -, -⟩ := close_loop_fields w
    (summary (process_loop x w now timelimit countlimit (blockmax - blockstart) blockstart
      (process_init x w state blockstart blockmax timelimit countlimit lim)).2).state.diskmax 0
    (summary (process_loop x w now timelimit countlimit (blockmax - blockstart) blockstart
      (process_init x w state blockstart blockmax timelimit countlimit lim)).2)
  obtain ⟨k1, k2⟩ := close_loop_verdict w
    (summary (process_loop x w now timelimit countlimit (blockmax - blockstart) blockstart
      (process_init x w state blockstart blockmax timelimit countlimit lim)).2).state.diskmax 0
    (summary (process_loop x w now timelimit countlimit (blockmax - blockstart) blockstart
      (process_init x w state blockstart blockmax timelimit countlimit lim)).2)
    (by rw [s5, l2]; exact Nat.mod_lt _ (by decide))
  have hdm : (process_loop x w now timelimit countlimit (blockmax - blockstart) blockstart
      (process_init x w state blockstart blockmax timelimit countlimit lim)).2.state.diskmax
      = state.diskmax := fr.diskmax
  rw [k1, k2, c1, s1, s4, s5, s6, l1, l2, l3, hdm, ← List.range_eq_range', Nat.mod_add_mod]
  exact ⟨rfl, rfl⟩

/-- C6: classification of a mismatch in a visited stripe `i`.

Data: when the block of disk `j` is opened and read and its stored hash differs
from the hash computed from the bytes read (previous function under `rehash`,
current one otherwise), the pass of the per-disk loop adds one to `error`
(modulo `2 ^ 32`, as every `++` of an `unsigned`); it adds one to `silent_error`
and sets `silent_error_on_this_block` if and only if the live size, mtime and
inode equal the catalog values; otherwise `silent_error` is unchanged,
`error_on_this_block` is set and the silent flag is left as it was.

Parity: after a per-disk loop that ran to its end without setting a flag, the
parity check is made.  It adds to `error` one for each failed parity read, one
for a P mismatch and one for a Q mismatch, where a mismatch means that the
parity read from the file differs from `raid_gen` of the data blocks read (Q only
with two parity levels).  When no data file opened in the stripe differs from
the catalog, each mismatch also adds one to `silent_error` and sets the silent
flag, and the error flag is set by a failed read only; when some opened file
differs, `silent_error` is unchanged, the silent flag stays clear and a mismatch
sets `error_on_this_block`.  `raid_gen` is taken with its contract (`RaidLaws`)
for one or two parity levels, the counters as 32-bit values. -/
theorem C6_mismatch_classification (x : Helpers) (w : World) (i : Nat) (rehash : Bool) :
    (∀ (j : Nat) (pl : Proc × Locals) (file : snapraid_file),
      pl.1.state.disk j = true → (pl.1.state.block j i).file = some file →
      ¬ (w.handle_file i j ≠ some file.id ∧ w.handle_close i j = -1) →
      w.handle_open i j ≠ -1 → (w.handle_read i j).1 ≠ -1 →
      (pl.1.state.block j i).has_hash = true →
      (if rehash then x.memhash pl.1.state.prevhash pl.1.state.prevhashseed
            ((w.handle_read i j).2.take (w.handle_read i j).1.toNat)
          else x.memhash pl.1.state.hash pl.1.state.hashseed
            ((w.handle_read i j).2.take (w.handle_read i j).1.toNat))
        ≠ (pl.1.state.block j i).hash →
      (disk_iter x w i rehash j pl).1 = .next
      ∧ (disk_iter x w i rehash j pl).2.1.error = (pl.1.error + 1) % U32
      ∧ (((disk_iter x w i rehash j pl).2.1.silent_error = (pl.1.silent_error + 1) % U32
          ∧ (disk_iter x w i rehash j pl).2.2.silent_error_on_this_block = true)
        ↔ in_sync (w.handle_st i j) file)
      ∧ (¬ in_sync (w.handle_st i j) file →
          (disk_iter x w i rehash j pl).2.1.silent_error = pl.1.silent_error
          ∧ (disk_iter x w i rehash j pl).2.2.error_on_this_block = true
          ∧ (disk_iter x w i rehash j pl).2.2.silent_error_on_this_block
            = pl.2.silent_error_on_this_block))
    ∧ (∀ (p : Proc) (pl : Proc × Locals),
      RaidLaws x p.state.level → (p.state.level = 1 ∨ p.state.level = 2) →
      p.error < U32 → p.silent_error < U32 →
      disk_loop x w i rehash p.state.diskmax 0 (p, ⟨false, false, false⟩) = (.next, pl) →
      pl.2.error_on_this_block = false → pl.2.silent_error_on_this_block = false →
      (stripe_unsynched w p.state i = true
        ↔ ∃ j, j < p.state.diskmax ∧ opened_changed w p.state i j)
      ∧ (parity_check x w i pl).1.error
        = (pl.1.error + ((parity_read_failure w i).toNat + (qarity_read_failure w p.state i).toNat
            + ((parity_mismatch x w p.state i).toNat + (qarity_mismatch x w p.state i).toNat)))
          % U32
      ∧ (stripe_unsynched w p.state i = false →
          (parity_check x w i pl).1.silent_error
            = (pl.1.silent_error
              + ((parity_mismatch x w p.state i).toNat + (qarity_mismatch x w p.state i).toNat))
              % U32
          ∧ (parity_check x w i pl).2.silent_error_on_this_block
            = (parity_mismatch x w p.state i || qarity_mismatch x w p.state i)
          ∧ (parity_check x w i pl).2.error_on_this_block
            = (parity_read_failure w i || qarity_read_failure w p.state i))
      ∧ (stripe_unsynched w p.state i = true →
          (parity_check x w i pl).1.silent_error = pl.1.silent_error
          ∧ (parity_check x w i pl).2.silent_error_on_this_block = false
          ∧ (parity_check x w i pl).2.error_on_this_block
            = (parity_read_failure w i || qarity_read_failure w p.state i
              || (parity_mismatch x w p.state i || qarity_mismatch x w p.state i)))) := by
  refine ⟨?_, ?_⟩
  · intro j pl file hd hf hc ho hr hh hne
    obtain ⟨a1, a2, a3, a4⟩ := disk_iter_mismatch x w i rehash j pl file hd hf hc ho hr hh hne
    refine ⟨a1, a2, ⟨?_, fun hs => ⟨(a3 hs).1, (a3 hs).2.1⟩⟩, a4⟩
    rintro ⟨h1, -⟩
    by_contra hs
    rw [(a4 hs).1, U32_eq] at h1
    omega
  · intro p pl hraid hlevel he hs hloop hef hsf
    have fr := disk_loop_frame x w i rehash p.state.diskmax 0 (p, ⟨false, false, false⟩)
    have hu := disk_loop_unsynched x w i rehash p.state.diskmax 0 (p, ⟨false, false, false⟩)
      (by rw [hloop])
    obtain ⟨-, -, d3, -, d5, -⟩ := disk_loop_verdict x w i rehash p.state.diskmax 0
      (p, ⟨false, false, false⟩) (by rw [hloop]) he hs
    rw [hloop] at fr hu d3 d5
    simp only [] at fr hu d3 d5
    simp only [Bool.false_eq_true, false_or, Nat.zero_le, true_and, Nat.zero_add] at hu
    have hiff := stripe_unsynched_iff w p.state i
    have hun : pl.2.block_is_unsynched = stripe_unsynched w p.state i := by
      cases ha : pl.2.block_is_unsynched <;> cases hb : stripe_unsynched w p.state i
      · rfl
      · exact absurd (hu.mpr (hiff.mp hb)) (by simp [ha])
      · exact absurd (hiff.mpr (hu.mp ha)) (by simp [hb])
      · rfl
    -- no flag is set, so no data block gave an error and the buffers hold the data
    have hnone : ∀ j, j < p.state.diskmax → disk_error x w p.state i rehash j = false := by
      intro j hj
      by_contra hc
      have hc1 : disk_error x w p.state i rehash j = true := by simpa using hc
      have hany : (List.range' 0 p.state.diskmax).any (fun j =>
          disk_error x w p.state i rehash j && !disk_silent x w p.state i rehash j) = false := by
        rw [hef] at d3
        simpa using d3.symm
      obtain ⟨-, -, -, d4, -, -⟩ := disk_loop_verdict x w i rehash p.state.diskmax 0
        (p, ⟨false, false, false⟩) (by rw [hloop]) he hs
      rw [hloop] at d4
      simp only [] at d4
      have hany2 : (List.range' 0 p.state.diskmax).any (disk_silent x w p.state i rehash)
          = false := by
        rw [hsf] at d4
        simpa using d4.symm
      rw [List.any_eq_false] at hany hany2
      have hm : j ∈ List.range' 0 p.state.diskmax := by
        rw [← List.range_eq_range']
        exact List.mem_range.mpr hj
      have h1 := hany j hm
      have h2 := hany2 j hm
      rw [hc1] at h1
      simp only [Bool.true_and, Bool.not_eq_true', Bool.not_eq_false] at h1
      exact h2 h1
    have hbuf : ∀ j, j < pl.1.state.diskmax → pl.1.buffer j = stripe_data w pl.1.state i j := by
      intro j hj
      rw [fr.state] at hj ⊢
      simp only [] at hj
      exact d5 j (Nat.zero_le _) (by omega) (hnone j hj)
    obtain ⟨c1, c2, c3, c4, -⟩ := parity_check_verdict x w i pl (by rw [fr.state]; exact hraid)
      (by rw [fr.state]; exact hlevel) hbuf hef hsf (fr.error_lt he) (fr.silent_lt hs)
    rw [fr.state] at c1 c2 c3 c4
    rw [hun] at c2 c3 c4
    simp only [] at c1 c2 c3 c4
    refine ⟨hiff, ?_, ?_, ?_⟩
    · rw [c1]
      rfl
    · intro hf
      rw [hf] at c2 c3 c4
      refine ⟨?_, ?_, ?_⟩
      · rw [c2]
        rfl
      · rw [c4]
        simp
      · rw [c3]
        simp
    · intro ht
      rw [ht] at c2 c3 c4
      refine ⟨?_, ?_, ?_⟩
      · rw [c2]
        simp only [if_true, Nat.add_zero]
        exact Nat.mod_eq_of_lt (fr.silent_lt hs)
      · rw [c4]
        simp
      · rw [c3]
        simp

/-- Witness of C6.  Data: the flipped byte of disk 1 in stripe 3 counts one error;
it is silent when the file is in sync and a plain error when its mtime changed.
Parity: a wrong byte in the parity of stripe 0 counts one error; it is silent when
every file is in sync and a plain error when the mtime of disk 1 changed. -/
theorem C6_mismatch_classification_witness :
    (((disk_iter demo_helpers demo_world_corrupt 3 true 1
        (demo_proc.count_visit, ⟨false, false, false⟩)).2.1.error = 1
      ∧ (disk_iter demo_helpers demo_world_corrupt 3 true 1
        (demo_proc.count_visit, ⟨false, false, false⟩)).2.1.silent_error = 1)
    ∧ ((disk_iter demo_helpers demo_world_unsynched 3 true 1
        (demo_proc.count_visit, ⟨false, false, false⟩)).2.1.error = 1
      ∧ (disk_iter demo_helpers demo_world_unsynched 3 true 1
        (demo_proc.count_visit, ⟨false, false, false⟩)).2.1.silent_error = 0
      ∧ (disk_iter demo_helpers demo_world_unsynched 3 true 1
        (demo_proc.count_visit, ⟨false, false, false⟩)).2.2.error_on_this_block = true))
    ∧ (parity_mismatch demo_helpers demo_world_badparity demo_state 0 = true
      ∧ stripe_unsynched demo_world_badparity demo_state 0 = false
      ∧ (parity_check demo_helpers demo_world_badparity 0
          (disk_loop demo_helpers demo_world_badparity 0 false 2 0
            (demo_proc.count_visit, ⟨false, false, false⟩)).2).1.error = 1
      ∧ (parity_check demo_helpers demo_world_badparity 0
          (disk_loop demo_helpers demo_world_badparity 0 false 2 0
            (demo_proc.count_visit, ⟨false, false, false⟩)).2).1.silent_error = 1
      ∧ (parity_check demo_helpers demo_world_badparity 0
          (disk_loop demo_helpers demo_world_badparity 0 false 2 0
            (demo_proc.count_visit, ⟨false, false, false⟩)).2).2.silent_error_on_this_block
        = true)
    ∧ (parity_mismatch demo_helpers demo_world_badparity_unsynched demo_state 0 = true
      ∧ stripe_unsynched demo_world_badparity_unsynched demo_state 0 = true
      ∧ (parity_check demo_helpers demo_world_badparity_unsynched 0
          (disk_loop demo_helpers demo_world_badparity_unsynched 0 false 2 0
            (demo_proc.count_visit, ⟨false, false, false⟩)).2).1.error = 1
      ∧ (parity_check demo_helpers demo_world_badparity_unsynched 0
          (disk_loop demo_helpers demo_world_badparity_unsynched 0 false 2 0
            (demo_proc.count_visit, ⟨false, false, false⟩)).2).1.silent_error = 0
      ∧ (parity_check demo_helpers demo_world_badparity_unsynched 0
          (disk_loop demo_helpers demo_world_badparity_unsynched 0 false 2 0
            (demo_proc.count_visit, ⟨false, false, false⟩)).2).2.error_on_this_block = true) := by
  obtain ⟨-, a2, a3, -⟩ := (C6_mismatch_classification demo_helpers demo_world_corrupt 3 true).1 1
    (demo_proc.count_visit, ⟨false, false, false⟩) (demo_file 1)
    (by decide) (by decide) (by decide) (by decide) (by decide) (by decide) (by decide)
  obtain ⟨-, b2, -, b4⟩ := (C6_mismatch_classification demo_helpers demo_world_unsynched 3 true).1 1
    (demo_proc.count_visit, ⟨false, false, false⟩) (demo_file 1)
    (by decide) (by decide) (by decide) (by decide) (by decide) (by decide) (by decide)
  obtain ⟨-, c2, c3, -⟩ := (C6_mismatch_classification demo_helpers demo_world_badparity 0 false).2
    demo_proc.count_visit
    (disk_loop demo_helpers demo_world_badparity 0 false 2 0
      (demo_proc.count_visit, ⟨false, false, false⟩)).2
    demo_helpers_raid_laws (by decide) (by decide) (by decide) rfl (by decide) (by decide)
  obtain ⟨-, d2, -, d4⟩ := (C6_mismatch_classification demo_helpers
      demo_world_badparity_unsynched 0 false).2
    demo_proc.count_visit
    (disk_loop demo_helpers demo_world_badparity_unsynched 0 false 2 0
      (demo_proc.count_visit, ⟨false, false, false⟩)).2
    demo_helpers_raid_laws (by decide) (by decide) (by decide) rfl (by decide) (by decide)
  obtain ⟨c5, c6, -⟩ := c3 (by decide)
  obtain ⟨d5, -, d7⟩ := d4 (by decide)
  exact ⟨⟨⟨a2.trans (by decide), (a3.mpr (by decide)).1.trans (by decide)⟩,
      b2.trans (by decide), (b4 (by decide)).1, (b4 (by decide)).2.1⟩,
    ⟨by decide, by decide, c2.trans (by decide), c5.trans (by decide), c6.trans (by decide)⟩,
    ⟨by decide, by decide, d2.trans (by decide), d5, d7.trans (by decide)⟩⟩

/-! ## C7: the time limit is an order statistic of the block times -/

/-- In a list sorted by `f`, the key at position `m` has at least `m + 1` keys
not above it and at most `m` keys below it. -/
theorem sorted_get_count (f : Nat → Int) (l : List Nat)
    (hs : l.Pairwise (fun a b => f a ≤ f b)) (m : Nat) (a : Nat) (ha : l.get? m = some a) :
    m + 1 ≤ l.countP (fun b => decide (f b ≤ f a))
    ∧ l.countP (fun b => decide (f b < f a)) ≤ m := by
  induction l generalizing m with
  | nil => simp at ha
  | cons c t ih =>
    rw [List.pairwise_cons] at hs
    cases m with
    | zero =>
      simp only [List.get?_cons_zero, Option.some.injEq] at ha
      subst ha
      refine ⟨?_, ?_⟩
      · rw [List.countP_cons_of_pos _ _ (by simp)]
        omega
      · rw [List.countP_cons_of_neg _ _ (by simp)]
        rw [Nat.le_zero, List.countP_eq_zero]
        intro b hb
        have := hs.1 b hb
        simp only [decide_eq_true_eq, not_lt]
        exact this
    | succ m =>
      simp only [List.get?_cons_succ] at ha
      obtain ⟨h1, h2⟩ := ih hs.2 m ha
      have hca : f c ≤ f a := hs.1 a (List.get?_mem ha)
      refine ⟨?_, ?_⟩
      · rw [List.countP_cons_of_pos _ _ (by simpa using hca)]
        omega
      · have := List.countP_cons (fun b => decide (f b < f a)) c t
        rw [this]
        split <;> omega

/-- The two counts determine the key. -/
theorem order_statistic_unique (f : Nat → Int) (l : List Nat) (m : Nat) (s t : Int)
    (hs1 : m + 1 ≤ l.countP (fun b => decide (f b ≤ s)))
    (hs2 : l.countP (fun b => decide (f b < s)) ≤ m)
    (ht1 : m + 1 ≤ l.countP (fun b => decide (f b ≤ t)))
    (ht2 : l.countP (fun b => decide (f b < t)) ≤ m) : s = t := by
  rcases lt_trichotomy s t with h | h | h
  · have : l.countP (fun b => decide (f b ≤ s)) ≤ l.countP (fun b => decide (f b < t)) := by
      apply List.countP_mono_left
      intro b _ hb
      simp only [decide_eq_true_eq] at hb ⊢
      omega
    omega
  · exact h
  · have : l.countP (fun b => decide (f b ≤ t)) ≤ l.countP (fun b => decide (f b < s)) := by
      apply List.countP_mono_left
      intro b _ hb
      simp only [decide_eq_true_eq] at hb ⊢
      omega
    omega

theorem qsort_by_time_perm (x : Helpers) (l : List Nat) : (qsort_by_time x l).Perm l :=
  List.perm_insertionSort _ l

theorem qsort_by_time_sorted (x : Helpers) (l : List Nat) :
    (qsort_by_time x l).Pairwise (fun a b => x.info_get_time a ≤ x.info_get_time b) := by
  haveI : IsTotal Nat (fun a b => x.info_get_time a ≤ x.info_get_time b) :=
    ⟨fun a b => le_total _ _⟩
  haveI : IsTrans Nat (fun a b => x.info_get_time a ≤ x.info_get_time b) :=
    ⟨fun a b c h1 h2 => le_trans h1 h2⟩
  exact List.sorted_insertionSort _ l

theorem infomap_length_le (state : snapraid_state) (blockmax : Nat) :
    (infomap state blockmax).length ≤ blockmax := by
  unfold infomap
  refine le_trans (List.length_filter_le _ _) ?_
  simp

/-- The limits computed by `state_scrub` when the quota chosen from the options is
at least 1: the time limit is the k-th smallest block time, capped at the recency
floor. -/
theorem scrub_limits_spec (x : Helpers) (state : snapraid_state) (blockmax : Nat) (now : Int)
    (hbm : blockmax < U32) (hused : infomap state blockmax ≠ [])
    (hcl : 1 ≤ (option_limits state blockmax now).1) :
    ∃ tk : Int,
      scrub_limits x state blockmax now
        = .ok (min tk (option_limits state blockmax now).2,
            min (option_limits state blockmax now).1 (infomap state blockmax).length)
      ∧ (option_limits state blockmax now).2
        = (if state.opt.force_scrub_even = true ∨ state.opt.force_scrub ≠ 0 then now
          else now - 10 * 24 * 3600)
      ∧ (∃ info, info ∈ infomap state blockmax ∧ x.info_get_time info = tk)
      ∧ min (option_limits state blockmax now).1 (infomap state blockmax).length
        ≤ (infomap state blockmax).countP (fun b => decide (x.info_get_time b ≤ tk))
      ∧ (infomap state blockmax).countP (fun b => decide (x.info_get_time b < tk))
        < min (option_limits state blockmax now).1 (infomap state blockmax).length
      ∧ (∀ l : List Nat, l.Perm (infomap state blockmax) →
          l.Pairwise (fun a b => x.info_get_time a ≤ x.info_get_time b) →
          (l.get? (min (option_limits state blockmax now).1 (infomap state blockmax).length
            - 1)).map x.info_get_time = some tk)
      ∧ min tk (option_limits state blockmax now).2 ≤ (option_limits state blockmax now).2 := by
  have hlen := infomap_length_le state blockmax
  have hpos : 0 < (infomap state blockmax).length := List.length_pos.mpr hused
  have hperm := qsort_by_time_perm x (infomap state blockmax)
  have hsorted := qsort_by_time_sorted x (infomap state blockmax)
  generalize hk : min (option_limits state blockmax now).1 (infomap state blockmax).length = k
  have hk1 : 1 ≤ k := by rw [← hk]; exact le_min hcl hpos
  have hk2 : k ≤ (infomap state blockmax).length := by rw [← hk]; exact min_le_right _ _
  have hidx : (k + U32 - 1) % U32 = k - 1 := by
    have : k + U32 - 1 = (k - 1) + U32 := by omega
    rw [this, Nat.add_mod_right, Nat.mod_eq_of_lt (by omega)]
  have hin : k - 1 < (qsort_by_time x (infomap state blockmax)).length := by
    rw [hperm.length_eq]
    omega
  obtain ⟨info, hinfo⟩ : ∃ info, (qsort_by_time x (infomap state blockmax)).get? (k - 1)
      = some info := ⟨_, List.get?_eq_get hin⟩
  obtain ⟨c1, c2⟩ := sorted_get_count x.info_get_time _ hsorted (k - 1) info hinfo
  rw [hperm.countP_eq] at c1 c2
  refine ⟨x.info_get_time info, ?_, ?_, ?_, ?_, ?_, ?_, ?_⟩
  · unfold scrub_limits
    simp only []
    rw [if_neg (by omega)]
    have hmin : (if (option_limits state blockmax now).1 > (infomap state blockmax).length
        then (infomap state blockmax).length else (option_limits state blockmax now).1) = k := by
      rw [← hk]
      split
      · rw [min_eq_right (by omega)]
      · rw [min_eq_left (by omega)]
    rw [hmin, hidx, hinfo]
    simp only []
    have hmin2 : (if x.info_get_time info > (option_limits state blockmax now).2
        then (option_limits state blockmax now).2 else x.info_get_time info)
        = min (x.info_get_time info) (option_limits state blockmax now).2 := by
      split
      · rw [min_eq_right (by omega)]
      · rw [min_eq_left (by omega)]
    rw [hmin2]
  · unfold option_limits
    by_cases h1 : state.opt.force_scrub_even = true
    · simp [h1]
    · by_cases h2 : state.opt.force_scrub = 0
      · simp [h1, h2]
      · simp [h1, h2]
  · exact ⟨info, hperm.mem_iff.mp (List.get?_mem hinfo), rfl⟩
  · omega
  · omega
  · intro l hl hls
    have hin2 : k - 1 < l.length := by
      rw [hl.length_eq]
      omega
    obtain ⟨b, hb⟩ : ∃ b, l.get? (k - 1) = some b := ⟨_, List.get?_eq_get hin2⟩
    obtain ⟨d1, d2⟩ := sorted_get_count x.info_get_time l hls (k - 1) b hb
    rw [hl.countP_eq] at d1 d2
    rw [hb]
    simp only [Option.map_some', Option.some.injEq]
    exact order_statistic_unique x.info_get_time (infomap state blockmax) (k - 1) _ _ d1 d2 c1 c2
  · exact min_le_right _ _

/-- C7: for an array with a used info word and a quota `count_limit >= 1` (the
value chosen from the options, `blockmax` being a 32-bit block count),
`state_scrub` derives `time_limit = min(t_k, recency_floor)` and the clamped
quota `k = min(count_limit, used_count)`, where `recency_floor` is `now` in
forced and even mode and `now - 10*24*3600` by default, and `t_k` is the k-th
smallest time among the used words: it is the time of a used word, at least
`k` used words have a time `<= t_k` and fewer than `k` have a time `< t_k`;
every ascending order of the used words, whatever the order of ties, has
`t_k` at position `k - 1`.  Hence `time_limit <= recency_floor`. -/
theorem C7_time_limit (x : Helpers) (state : snapraid_state) (blockmax : Nat) (now : Int)
    (hbm : blockmax < U32) (hused : infomap state blockmax ≠ [])
    (hcl : 1 ≤ (option_limits state blockmax now).1) :
    ∃ tk : Int,
      scrub_limits x state blockmax now
        = .ok (min tk (option_limits state blockmax now).2,
            min (option_limits state blockmax now).1 (infomap state blockmax).length)
      ∧ (option_limits state blockmax now).2
        = (if state.opt.force_scrub_even = true ∨ state.opt.force_scrub ≠ 0 then now
          else now - 10 * 24 * 3600)
      ∧ (∃ info, info ∈ infomap state blockmax ∧ x.info_get_time info = tk)
      ∧ min (option_limits state blockmax now).1 (infomap state blockmax).length
        ≤ (infomap state blockmax).countP (fun b => decide (x.info_get_time b ≤ tk))
      ∧ (infomap state blockmax).countP (fun b => decide (x.info_get_time b < tk))
        < min (option_limits state blockmax now).1 (infomap state blockmax).length
      ∧ (∀ l : List Nat, l.Perm (infomap state blockmax) →
          l.Pairwise (fun a b => x.info_get_time a ≤ x.info_get_time b) →
          (l.get? (min (option_limits state blockmax now).1 (infomap state blockmax).length
            - 1)).map x.info_get_time = some tk)
      ∧ min tk (option_limits state blockmax now).2 ≤ (option_limits state blockmax now).2 :=
  scrub_limits_spec x state blockmax now hbm hused hcl

/-- Witness of C7 on the example array: three used words with times 10, 50 and
20, `force_scrub = 4`: the quota is clamped to 3 and the limit is the third
smallest time, 50. -/
theorem C7_time_limit_witness :
    infomap demo_state 4 = [40, 201, 82]
    ∧ ∃ tk : Int, scrub_limits demo_helpers demo_state 4 100 = .ok (min tk 100, 3)
      ∧ 3 ≤ (infomap demo_state 4).countP (fun b => decide (demo_helpers.info_get_time b ≤ tk)) := by
  refine ⟨by decide, ?_⟩
  obtain ⟨tk, h1, -, -, h4, -⟩ := C7_time_limit demo_helpers demo_state 4 100 (by decide)
    (by decide) (by decide)
  exact ⟨tk, h1, h4⟩

/-! ## C8: the index used to read the sorted vector -/

/-- C8, evaluation at the failing input: on the four-stripe array of scenario 1
with default options the quota is `4 / 12 = 0`, the index `countlimit - 1`
computed in 32-bit unsigned arithmetic is `4294967295`, and the vector holds 4
words: `state_scrub` reads `infomap` out of bounds although the array is not
empty. -/
theorem C8_index_out_of_bounds :
    infomap scenario1_state 4 ≠ []
    ∧ (option_limits scenario1_state 4 3000000).1 = 0
    ∧ scrub_limits demo_helpers scenario1_state 4 3000000
      = .error (.index_out_of_bounds 4294967295 4)
    ∧ state_scrub demo_helpers demo_world scenario1_state 3000000
      = .error (.index_out_of_bounds 4294967295 4) := by
  refine ⟨by decide, by decide, by rfl, by rfl⟩

/-! ## C9: unused indices are left alone -/

theorem visited_mem_stripe (t : List Event) (k : Nat) (h : k ∈ visited t) :
    ∃ e, e ∈ t ∧ e.stripe = some k := by
  unfold visited at h
  rw [List.mem_filterMap] at h
  obtain ⟨e, he, hv⟩ := h
  refine ⟨e, he, ?_⟩
  cases e <;> simp [Event.visit_index] at hv
  subst hv
  rfl

/-- C9: for an index `i` whose info word is 0, the counting pass does not count
it; the processing pass leaves the whole process state as it is (no counter, no
buffer, no catalog entry changes and no call is made); and when the divisor of
line 121 is not zero `state_scrub_process` returns and after the scrub, however it
ended, the info word at `i` is still 0, no block at index `i` has changed, no call
(open, read, hash, parity read) and no log line of the trace is about stripe `i`,
and `i` is not among the visited stripes. -/
theorem C9_unused_untouched (x : Helpers) (w : World) (state : snapraid_state)
    (blockstart blockmax : Nat) (timelimit : Int) (countlimit : Nat) (now : Int) (i : Nat)
    (h0 : state.infoarr i = 0) :
    (∀ c, count_iter x state timelimit countlimit i c = c)
    ∧ (∀ p : Proc, p.state.infoarr i = 0 →
        process_iter x w now timelimit countlimit i p = (.next, p))
    ∧ ((state.diskmax * state.block_size) % U32 ≠ 0 →
      ∃ r, state_scrub_process x w state blockstart blockmax timelimit countlimit now = some r
        ∧ r.final.state.infoarr i = 0
        ∧ (∀ j, r.final.state.block j i = state.block j i)
        ∧ (∀ e, e ∈ r.final.trace → e.stripe ≠ some i)
        ∧ i ∉ visited r.final.trace) := by
  refine ⟨?_, ?_, fun hdiv => ?_⟩
  · intro c
    simp [count_iter, h0]
  · intro p hp
    simp [process_iter, hp]
  refine ⟨_, state_scrub_process_some x w state blockstart blockmax timelimit countlimit now _
    (autosave_limit_some state hdiv), ?_⟩
  have fr := @state_scrub_process_frame
    ((state.autosave / ((state.diskmax * state.block_size) % U32)) % U32)
    x w state blockstart blockmax timelimit countlimit now
  have hS : ¬ (blockstart ≤ i ∧ i < blockmax ∧ state.infoarr i ≠ 0) := fun h => h.2.2 h0
  have hev : ∀ e, e ∈ (process_run x w state blockstart blockmax timelimit countlimit
      now ((state.autosave / ((state.diskmax * state.block_size) % U32)) % U32)).final.trace →
      e.stripe ≠ some i := by
    intro e he hs
    rcases fr.events e he with h | h
    · simp only [process_init, List.mem_singleton] at h
      subst h
      simp [Event.stripe] at hs
    · exact hS (h i hs)
  refine ⟨?_, ?_, hev, ?_⟩
  · rw [fr.infoarr i hS]
    exact h0
  · intro j
    rw [fr.block j i hS]
    rfl
  · intro hv
    obtain ⟨e, he, hs⟩ := visited_mem_stripe _ i hv
    exact hev e he hs

/-- Witness of C9: stripe 2 of the example is unused; after a full forced scrub
its info word is 0 and it is not among the visited stripes. -/
theorem C9_unused_untouched_witness :
    demo_state.infoarr 2 = 0
    ∧ (demo_state.diskmax * demo_state.block_size) % U32 ≠ 0
    ∧ ∃ r, state_scrub_process demo_helpers demo_world demo_state 0 4 50 3 100 = some r
      ∧ r.final.state.infoarr 2 = 0 ∧ 2 ∉ visited r.final.trace := by
  obtain ⟨-, -, h⟩ := C9_unused_untouched demo_helpers demo_world demo_state 0 4 50 3 100 2
    (by decide)
  obtain ⟨r, hr, a, -, -, b⟩ := h (by decide)
  exact ⟨by decide, by decide, r, hr, a, b⟩

/-! ## Kinds of the events of a verification -/

theorem hash_compare_kinds (i : Nat) (j : Nat) (block : snapraid_block) (hash : hash_t)
    (u : Bool) (pl : Proc × Locals) :
    (hash_compare i j block hash u pl).1.trace.filter (fun e => !e.is_data)
      = pl.1.trace.filter (fun e => !e.is_data) := by
  unfold hash_compare
  repeat' split
  all_goals simp [Event.is_data]

theorem disk_hash_kinds (x : Helpers) (i : Nat) (rehash : Bool) (j : Nat)
    (block : snapraid_block) (u : Bool) (n : Int) (pl : Proc × Locals) :
    (disk_hash x i rehash j block u n pl).1.trace.filter (fun e => !e.is_data)
      = pl.1.trace.filter (fun e => !e.is_data) := by
  unfold disk_hash
  simp only []
  split
  all_goals rw [hash_compare_kinds]
  all_goals simp [Event.is_data]

theorem disk_iter_kinds (x : Helpers) (w : World) (i : Nat) (rehash : Bool) (j : Nat)
    (pl : Proc × Locals) :
    (disk_iter x w i rehash j pl).2.1.trace.filter (fun e => !e.is_data)
      = pl.1.trace.filter (fun e => !e.is_data) := by
  unfold disk_iter
  simp only []
  repeat' split
  any_goals rw [disk_hash_kinds]
  all_goals simp [Event.is_data]

theorem disk_loop_kinds (x : Helpers) (w : World) (i : Nat) (rehash : Bool) (n j : Nat)
    (pl : Proc × Locals) :
    (disk_loop x w i rehash n j pl).2.1.trace.filter (fun e => !e.is_data)
      = pl.1.trace.filter (fun e => !e.is_data) := by
  induction n generalizing j pl with
  | zero => rfl
  | succ n ih =>
    have h := disk_iter_kinds x w i rehash j pl
    unfold disk_loop
    split
    · rename_i pl1 heq
      rw [heq] at h
      rw [ih (j + 1) pl1, h]
    · exact h

theorem parity_fetch_kinds (b : Nat) (r : Int × bytes) (call ev : Event)
    (hc : call.is_parity = true) (he : ev.is_parity = true) (pl : Proc × Locals) :
    (parity_fetch b r call ev pl).1.trace.filter (fun e => !e.is_parity)
      = pl.1.trace.filter (fun e => !e.is_parity) := by
  unfold parity_fetch
  simp only []
  split
  all_goals simp [hc, he]

theorem parity_compare_kinds (d : Bool) (ev : Event) (he : ev.is_parity = true)
    (pl : Proc × Locals) :
    (parity_compare d ev pl).1.trace.filter (fun e => !e.is_parity)
      = pl.1.trace.filter (fun e => !e.is_parity) := by
  unfold parity_compare
  simp only []
  repeat' split
  all_goals simp [he]

theorem parity_load_kinds (x : Helpers) (w : World) (i : Nat) (pl : Proc × Locals) :
    (parity_load x w i pl).pl.1.trace.filter (fun e => !e.is_parity)
      = pl.1.trace.filter (fun e => !e.is_parity) := by
  have hP : ∀ b q, (parity_fetch b (w.parity_read i) (.call_parity_read i)
      (.log_parity_read_error i) q).1.trace.filter (fun e => !e.is_parity)
      = q.1.trace.filter (fun e => !e.is_parity) := fun b q =>
    parity_fetch_kinds b _ (.call_parity_read i) (.log_parity_read_error i) rfl rfl q
  have hQ : ∀ b q, (parity_fetch b (w.qarity_read i) (.call_qarity_read i)
      (.log_qarity_read_error i) q).1.trace.filter (fun e => !e.is_parity)
      = q.1.trace.filter (fun e => !e.is_parity) := fun b q =>
    parity_fetch_kinds b _ (.call_qarity_read i) (.log_qarity_read_error i) rfl rfl q
  have hR : ∀ t : List Event, (t ++ [Event.call_raid_gen i]).filter (fun e => !e.is_parity)
      = t.filter (fun e => !e.is_parity) := by
    intro t
    simp [Event.is_parity]
  unfold parity_load
  simp only []
  split
  · simp only [Proc.emit_trace]
    rw [hR, hQ, hP]
  · simp only [Proc.emit_trace]
    rw [hR, hP]

theorem parity_verdict_kinds (i : Nat) (q : ParityLoad) :
    (parity_verdict i q).1.trace.filter (fun e => !e.is_parity)
      = q.pl.1.trace.filter (fun e => !e.is_parity) := by
  have cP : ∀ d q, (parity_compare d (.log_parity_data_error i) q).1.trace.filter
      (fun e => !e.is_parity) = q.1.trace.filter (fun e => !e.is_parity) := fun d q =>
    parity_compare_kinds d (.log_parity_data_error i) rfl q
  have cQ : ∀ d q, (parity_compare d (.log_qarity_data_error i) q).1.trace.filter
      (fun e => !e.is_parity) = q.1.trace.filter (fun e => !e.is_parity) := fun d q =>
    parity_compare_kinds d (.log_qarity_data_error i) rfl q
  unfold parity_verdict
  simp only []
  split
  · rw [cQ, cP]
  · rw [cP]

theorem parity_check_kinds (x : Helpers) (w : World) (i : Nat) (pl : Proc × Locals) :
    (parity_check x w i pl).1.trace.filter (fun e => !e.is_parity)
      = pl.1.trace.filter (fun e => !e.is_parity) := by
  unfold parity_check
  split
  · rw [parity_verdict_kinds, parity_load_kinds]
  · rfl

/-- Verification of a stripe adds to the trace only events of the per-disk loop
and of the parity check. -/
theorem verify_kinds (x : Helpers) (w : World) (i : Nat) (rehash : Bool) (p : Proc) :
    (verify x w i rehash p).2.1.trace.filter (fun e => !e.is_data && !e.is_parity)
      = p.trace.filter (fun e => !e.is_data && !e.is_parity) := by
  have h := disk_loop_kinds x w i rehash p.state.diskmax 0 (p, ⟨false, false, false⟩)
  have hsplit : ∀ t : List Event, t.filter (fun e => !e.is_data && !e.is_parity)
      = (t.filter (fun e => !e.is_data)).filter (fun e => !e.is_parity) := by
    intro t
    rw [List.filter_filter]
    congr 1
    funext e
    exact Bool.and_comm _ _
  have hsplit2 : ∀ t : List Event, t.filter (fun e => !e.is_data && !e.is_parity)
      = (t.filter (fun e => !e.is_parity)).filter (fun e => !e.is_data) := by
    intro t
    rw [List.filter_filter]
  unfold verify
  simp only []
  split
  · rename_i pl heq
    rw [heq] at h
    simp only [] at h ⊢
    rw [hsplit2, parity_check_kinds, ← hsplit2, hsplit, h, ← hsplit]
  · rw [hsplit, h, ← hsplit]

/-! ## C10: forced full scrub -/

/-- With even mode off, every used word old enough and a quota that covers the
used words still to come, the selection takes exactly the used indices. -/
theorem select_list_all (x : Helpers) (state : snapraid_state) (timelimit : Int)
    (countlimit : Nat) (n i c : Nat) (heven : state.opt.force_scrub_even = false)
    (htime : ∀ k, i ≤ k → k < i + n → state.infoarr k ≠ 0 →
      x.info_get_time (state.infoarr k) ≤ timelimit)
    (hquota : c + ((List.range' i n).filter (fun k => decide (state.infoarr k ≠ 0))).length
      ≤ countlimit) :
    select_list x state timelimit countlimit n i c
      = (List.range' i n).filter (fun k => decide (state.infoarr k ≠ 0)) := by
  induction n generalizing i c with
  | zero => simp [select_list]
  | succ n ih =>
    unfold select_list
    rw [List.range'_succ, List.filter_cons] at hquota ⊢
    by_cases hu : state.infoarr i = 0
    · have hsel : selects x state timelimit countlimit i c = false := by
        simp [selects, hu]
      rw [hsel]
      simp only [Bool.false_eq_true, if_false, hu, ne_eq, not_true_eq_false, decide_False] at hquota ⊢
      exact ih (i + 1) c (fun k h1 h2 => htime k (by omega) (by omega)) hquota
    · have hd : decide (state.infoarr i ≠ 0) = true := by simp [hu]
      rw [hd] at hquota ⊢
      simp only [if_true, List.length_cons] at hquota ⊢
      have hsel : selects x state timelimit countlimit i c = true := by
        have := htime i (le_refl _) (by omega) hu
        simp only [selects, heven, hu, ne_eq, not_false_eq_true, decide_True, Bool.true_and,
          Bool.false_and, Bool.not_false, Bool.and_true, Bool.or_eq_true, Bool.and_eq_true,
          decide_eq_true_eq]
        exact Or.inr ⟨this, by omega⟩
      rw [hsel]
      simp only [if_true]
      rw [ih (i + 1) (c + 1) (fun k h1 h2 => htime k (by omega) (by omega)) (by omega)]

theorem infomap_length (state : snapraid_state) (blockmax : Nat) :
    (infomap state blockmax).length
      = ((List.range' 0 blockmax).filter (fun k => decide (state.infoarr k ≠ 0))).length := by
  unfold infomap
  rw [List.filter_map, List.length_map, List.range_eq_range']
  rfl

theorem mem_infomap (state : snapraid_state) (blockmax : Nat) (i : Nat) (hi : i < blockmax)
    (hu : state.infoarr i ≠ 0) : state.infoarr i ∈ infomap state blockmax := by
  unfold infomap
  rw [List.mem_filter]
  refine ⟨List.mem_map.mpr ⟨i, List.mem_range.mpr hi, rfl⟩, ?_⟩
  simp [hu]

/-- The limits of a forced scrub whose count covers the used words: the quota is
the number of used words and no used word is younger than the time limit. -/
theorem scrub_limits_forced (x : Helpers) (state : snapraid_state) (blockmax : Nat) (now : Int)
    (hbm : blockmax < U32) (heven : state.opt.force_scrub_even = false)
    (hN : (infomap state blockmax).length ≤ state.opt.force_scrub)
    (hne : infomap state blockmax ≠ [])
    (htime : ∀ i, i < blockmax → state.infoarr i ≠ 0 →
      x.info_get_time (state.infoarr i) ≤ now) :
    ∃ tl, scrub_limits x state blockmax now = .ok (tl, (infomap state blockmax).length)
      ∧ ∀ i, i < blockmax → state.infoarr i ≠ 0 → x.info_get_time (state.infoarr i) ≤ tl := by
  have hpos : 0 < (infomap state blockmax).length := List.length_pos.mpr hne
  have hf : state.opt.force_scrub ≠ 0 := by omega
  have hol : option_limits state blockmax now = (state.opt.force_scrub, now) := by
    simp [option_limits, heven, hf]
  obtain ⟨tk, h1, -, -, h4, -, -, -⟩ := scrub_limits_spec x state blockmax now hbm hne
    (by rw [hol]; exact Nat.one_le_iff_ne_zero.mpr hf)
  rw [hol] at h1 h4
  simp only [] at h1 h4
  rw [min_eq_right hN] at h1 h4
  refine ⟨min tk now, h1, ?_⟩
  intro i hi hu
  have hall := List.countP_eq_length.mp (le_antisymm (List.countP_le_length _) h4)
  have h := hall _ (mem_infomap state blockmax i hi hu)
  simp only [decide_eq_true_eq] at h
  exact le_min h (htime i hi hu)

theorem prefix_countP_le {t u : List Event} (h : t <+: u) :
    t.countP Event.counts_error ≤ u.countP Event.counts_error :=
  h.sublist.countP_le _

/-- A visited stripe during which no error is reported is clean: its info word
becomes `info_make(now, 0, 0)`. -/
theorem visit_clean (x : Helpers) (w : World) (now : Int) (i : Nat) (info : Nat) (p : Proc)
    (hf : (visit x w now i info p).1 ≠ .bail)
    (hc : (visit x w now i info p).2.trace.countP Event.counts_error
      ≤ p.trace.countP Event.counts_error) :
    (visit x w now i info p).2.state.infoarr i = x.info_make now 0 0 := by
  have hv : (verify x w i (x.info_get_rehash info) p.count_visit).1 = .next := by
    by_contra hne
    apply hf
    have hfl := verify_flow x w i (x.info_get_rehash info) p.count_visit
    unfold visit
    simp only []
    generalize verify x w i (x.info_get_rehash info) p.count_visit = V at hne hfl ⊢
    obtain ⟨f, pl⟩ := V
    cases f
    · exact absurd rfl hne
    · exact absurd rfl hfl
    · rfl
  have fr := verify_frame x w i (x.info_get_rehash info) p.count_visit
  rw [visit_eq x w now i info p hv] at hc ⊢
  obtain ⟨-, -, -, -, -, o6, -, -⟩ := outcome_fields x now i info (x.info_get_rehash info)
    (verify x w i (x.info_get_rehash info) p.count_visit).2
  obtain ⟨-, -, -, b4, -, -, -, -, -⟩ := finish_stripe_fields w i
    (outcome x now i info (x.info_get_rehash info)
      (verify x w i (x.info_get_rehash info) p.count_visit).2)
  have fe := prefix_countP_le (finish_stripe_frame w i (outcome x now i info
      (x.info_get_rehash info) (verify x w i (x.info_get_rehash info) p.count_visit).2)).pre
  rw [o6] at fe
  have he : (verify x w i (x.info_get_rehash info) p.count_visit).2.2.error_on_this_block
      = false := by
    cases hx : (verify x w i (x.info_get_rehash info) p.count_visit).2.2.error_on_this_block
    · rfl
    · rcases fr.eflag hx with h | h
      · simp at h
      · simp only [Proc.count_visit_trace] at h
        omega
  have hs : (verify x w i (x.info_get_rehash info) p.count_visit).2.2.silent_error_on_this_block
      = false := by
    cases hx : (verify x w i (x.info_get_rehash info)
        p.count_visit).2.2.silent_error_on_this_block
    · rfl
    · rcases fr.sflag hx with h | h
      · simp at h
      · simp only [Proc.count_visit_trace] at h
        omega
  rw [b4]
  unfold outcome
  rw [if_neg (by simp [hs]), if_neg (by simp [he])]
  simp

theorem hash_compare_stop (i : Nat) (j : Nat) (block : snapraid_block) (hash : hash_t)
    (u : Bool) (pl : Proc × Locals) :
    (hash_compare i j block hash u pl).1.trace.filter Event.is_stop
      = pl.1.trace.filter Event.is_stop := by
  unfold hash_compare
  repeat' split
  all_goals simp [Event.is_stop]

theorem disk_hash_stop (x : Helpers) (i : Nat) (rehash : Bool) (j : Nat)
    (block : snapraid_block) (u : Bool) (n : Int) (pl : Proc × Locals) :
    (disk_hash x i rehash j block u n pl).1.trace.filter Event.is_stop
      = pl.1.trace.filter Event.is_stop := by
  unfold disk_hash
  simp only []
  split
  all_goals rw [hash_compare_stop]
  all_goals simp [Event.is_stop]

theorem disk_iter_stop (x : Helpers) (w : World) (i : Nat) (rehash : Bool) (j : Nat)
    (pl : Proc × Locals) (hn : (disk_iter x w i rehash j pl).1 = .next) :
    (disk_iter x w i rehash j pl).2.1.trace.filter Event.is_stop
      = pl.1.trace.filter Event.is_stop := by
  by_cases hd : pl.1.state.disk j = true
  · rcases hf : (pl.1.state.block j i).file with _ | file
    · unfold disk_iter
      simp [hd, hf]
    · by_cases hc : w.handle_file i j ≠ some file.id ∧ w.handle_close i j = -1
      · unfold disk_iter at hn
        simp only [Proc.set_rehandle_state, hd, Bool.not_true, Bool.false_eq_true, if_false, hf,
          if_pos hc] at hn
        exact absurd hn (by simp)
      · unfold disk_iter
        simp only [Proc.set_rehandle_state, hd, Bool.not_true, Bool.false_eq_true, if_false, hf,
          if_neg hc]
        repeat' split
        all_goals simp [disk_hash_stop, Event.is_stop]
  · unfold disk_iter
    have hd2 : pl.1.state.disk j = false := by simpa using hd
    simp [hd2]

theorem disk_loop_stop (x : Helpers) (w : World) (i : Nat) (rehash : Bool) (n j : Nat)
    (pl : Proc × Locals) (hn : (disk_loop x w i rehash n j pl).1 = .next) :
    (disk_loop x w i rehash n j pl).2.1.trace.filter Event.is_stop
      = pl.1.trace.filter Event.is_stop := by
  induction n generalizing j pl with
  | zero => rfl
  | succ n ih =>
    by_cases hf : (disk_iter x w i rehash j pl).1 = .next
    · have h := disk_iter_stop x w i rehash j pl hf
      rcases hpl : disk_iter x w i rehash j pl with ⟨f, pl1⟩
      rw [hpl] at hf h
      simp only [] at hf h
      subst hf
      rw [disk_loop_succ_next x w i rehash n j pl pl1 hpl] at hn ⊢
      rw [ih (j + 1) pl1 hn, h]
    · rw [disk_loop_succ_stop x w i rehash n j pl hf] at hn
      exact absurd hn hf

theorem parity_check_stop (x : Helpers) (w : World) (i : Nat) (pl : Proc × Locals) :
    (parity_check x w i pl).1.trace.filter Event.is_stop = pl.1.trace.filter Event.is_stop := by
  have h := parity_check_kinds x w i pl
  have key : ∀ t : List Event, t.filter Event.is_stop
      = (t.filter (fun e => !e.is_parity)).filter Event.is_stop := by
    intro t
    rw [List.filter_filter]
    apply List.filter_congr
    intro e _
    cases e <;> rfl
  rw [key, h, ← key]

theorem verify_stop (x : Helpers) (w : World) (i : Nat) (rehash : Bool) (p : Proc)
    (hn : (verify x w i rehash p).1 = .next) :
    (verify x w i rehash p).2.1.trace.filter Event.is_stop = p.trace.filter Event.is_stop := by
  have h := disk_loop_stop x w i rehash p.state.diskmax 0 (p, ⟨false, false, false⟩)
  unfold verify at hn ⊢
  simp only [] at hn ⊢
  rcases hl : disk_loop x w i rehash p.state.diskmax 0 (p, ⟨false, false, false⟩) with ⟨f, pl⟩
  rw [hl] at hn h
  cases f
  · simp only [] at h ⊢
    rw [parity_check_stop, h trivial]
  · exact absurd hn (by simp)
  · exact absurd hn (by simp)

theorem finish_stripe_stop (w : World) (i : Nat) (p : Proc) :
    (finish_stripe w i p).2.trace.filter Event.is_stop = p.trace.filter Event.is_stop := by
  unfold finish_stripe
  simp only []
  repeat' split
  all_goals simp [Event.is_stop]

/-- A stripe that is not stopped by a failed close reports no failed close. -/
theorem visit_stop (x : Helpers) (w : World) (now : Int) (i : Nat) (info : Nat) (p : Proc)
    (hf : (visit x w now i info p).1 ≠ .bail) :
    (visit x w now i info p).2.trace.filter Event.is_stop = p.trace.filter Event.is_stop := by
  have hv : (verify x w i (x.info_get_rehash info) p.count_visit).1 = .next := by
    by_contra hne
    apply hf
    have hfl := verify_flow x w i (x.info_get_rehash info) p.count_visit
    unfold visit
    simp only []
    generalize verify x w i (x.info_get_rehash info) p.count_visit = V at hne hfl ⊢
    obtain ⟨f, pl⟩ := V
    cases f
    · exact absurd rfl hne
    · exact absurd rfl hfl
    · rfl
  rw [visit_eq x w now i info p hv, finish_stripe_stop]
  obtain ⟨-, -, -, -, -, o6, -, -⟩ := outcome_fields x now i info (x.info_get_rehash info)
    (verify x w i (x.info_get_rehash info) p.count_visit).2
  rw [o6, verify_stop x w i _ _ hv]
  rfl

/-- A processing loop that is not stopped by a failed close reports no failed
close. -/
theorem process_loop_stop (x : Helpers) (w : World) (now timelimit : Int) (countlimit : Nat)
    (n i : Nat) (p : Proc)
    (hn : (process_loop x w now timelimit countlimit n i p).1 ≠ .bail) :
    (process_loop x w now timelimit countlimit n i p).2.trace.filter Event.is_stop
      = p.trace.filter Event.is_stop := by
  induction n generalizing i p with
  | zero => rfl
  | succ n ih =>
    have hit := process_iter_eq x w now timelimit countlimit i p
    unfold process_loop at hn ⊢
    by_cases hsl : selects x p.state timelimit countlimit i p.recountmax = true
    · rw [if_pos hsl] at hit
      rw [hit] at hn ⊢
      have hvs := visit_stop x w now i (p.state.infoarr i) p
      rcases hv : visit x w now i (p.state.infoarr i) p with ⟨f, p1⟩
      rw [hv] at hvs hn
      simp only [] at hvs hn ⊢
      cases f
      · simp only [] at hn ⊢
        rw [ih (i + 1) p1 hn, hvs (by simp)]
      · exact hvs (by simp)
      · exact absurd rfl hn
    · rw [if_neg hsl] at hit
      rw [hit] at hn ⊢
      simp only [] at hn ⊢
      exact ih (i + 1) p hn

/-- Without a report of a failed close, the events that count an error are the
error lines of the log. -/
theorem countP_counts_error_eq (t : List Event) (h : t.filter Event.is_stop = []) :
    t.countP Event.counts_error = t.countP Event.is_error_log := by
  induction t with
  | nil => rfl
  | cons e t ih =>
    rw [List.filter_cons] at h
    have he : e.is_stop = false := by
      cases hs : e.is_stop
      · rfl
      · rw [hs] at h
        simp at h
    rw [he] at h
    simp only [Bool.false_eq_true, if_false] at h
    rw [List.countP_cons, List.countP_cons, ih h]
    cases e <;> simp_all [Event.is_stop, Event.counts_error, Event.is_error_log]

/-- In a complete scan during which no error is reported, every selected stripe
ends with the info word `info_make(now, 0, 0)`. -/
theorem process_loop_clean (x : Helpers) (w : World) (now timelimit : Int) (countlimit : Nat)
    (state0 : snapraid_state) (n i : Nat) (p : Proc)
    (hinfo : ∀ k, i ≤ k → p.state.infoarr k = state0.infoarr k)
    (hopt : p.state.opt = state0.opt)
    (hflow : (process_loop x w now timelimit countlimit n i p).1 = .next)
    (hc : (process_loop x w now timelimit countlimit n i p).2.trace.countP Event.counts_error
      ≤ p.trace.countP Event.counts_error) :
    ∀ k, k ∈ select_list x state0 timelimit countlimit n i p.recountmax →
      (process_loop x w now timelimit countlimit n i p).2.state.infoarr k
        = x.info_make now 0 0 := by
  induction n generalizing i p with
  | zero =>
    intro k hk
    simp [select_list] at hk
  | succ n ih =>
    have hsel := selects_congr x p.state state0 timelimit countlimit i p.recountmax
      (hinfo i (le_refl _)) hopt
    have hit := process_iter_eq x w now timelimit countlimit i p
    rw [hsel] at hit
    unfold process_loop at hflow hc ⊢
    unfold select_list
    by_cases hs : selects x state0 timelimit countlimit i p.recountmax = true
    · rw [if_pos hs] at hit
      rw [hit] at hflow hc ⊢
      rw [if_pos hs]
      obtain ⟨v1, v2, -⟩ := visit_spec x w now i (p.state.infoarr i) p
      have vc := visit_clean x w now i (p.state.infoarr i) p
      rcases hv : visit x w now i (p.state.infoarr i) p with ⟨f, p1⟩
      rw [hv] at v1 v2 vc hflow hc
      simp only [] at v1 v2 vc hflow hc ⊢
      cases f
      · simp only [] at hflow hc ⊢
        have hinfo1 : ∀ k, i + 1 ≤ k → p1.state.infoarr k = state0.infoarr k :=
          fun k hk => by rw [v1.infoarr k (by omega)]; exact hinfo k (by omega)
        have hopt1 : p1.state.opt = state0.opt := by rw [v1.opt]; exact hopt
        obtain ⟨l1, -⟩ := process_loop_visited x w now timelimit countlimit state0 n (i + 1) p1
          hinfo1 hopt1
        have c1 := prefix_countP_le v1.pre
        have c2 := prefix_countP_le l1.pre
        intro k hk
        rcases List.mem_cons.mp hk with hk | hk
        · subst hk
          rw [l1.infoarr k (by omega)]
          exact vc (by simp) (by omega)
        · exact ih (i + 1) p1 hinfo1 hopt1 hflow (by omega) k (by rw [v2]; exact hk)
      · simp at hflow
      · simp at hflow
    · rw [if_neg hs] at hit
      rw [hit] at hflow hc ⊢
      rw [if_neg hs]
      exact ih (i + 1) p (fun k hk => hinfo k (by omega)) hopt hflow hc

/-- The cleanup loop adds to the trace one report for each close that fails. -/
theorem close_loop_trace_eq (w : World) (n j : Nat) (p : Proc) :
    (close_loop w n j p).trace
      = p.trace ++ ((List.range' j n).filter
          (fun k => decide (w.handle_close_end k = -1))).map Event.danger_close := by
  induction n generalizing j p with
  | zero => simp [close_loop]
  | succ n ih =>
    unfold close_loop
    have hr : List.range' j (n + 1) = j :: List.range' (j + 1) n := by
      simp [List.range'_succ]
    rw [ih, hr, List.filter_cons]
    by_cases hc : w.handle_close_end j = -1
    · simp [hc]
    · simp [hc]

/-- A complete run of `state_scrub_process` during which no error line is logged:
every selected stripe ends with `info_make(now, 0, 0)`, `silent_error` is zero,
`error` counts the failed closes of the cleanup loop and, when a stripe was
selected, the summary printed is "No error", followed by the reports of the
failed closes only. -/
theorem state_scrub_process_clean {lim : Nat} (x : Helpers) (w : World) (state : snapraid_state)
    (blockstart blockmax : Nat) (timelimit : Int) (countlimit : Nat) (now : Int)
    (hflow : (process_run x w state blockstart blockmax timelimit countlimit now lim).flow
      = .next)
    (hclean : ∀ e, e ∈ (process_run x w state blockstart blockmax timelimit countlimit
      now lim).final.trace → e.is_error_log = false) :
    (∀ k, k ∈ select_list x state timelimit countlimit (blockmax - blockstart) blockstart 0 →
      (process_run x w state blockstart blockmax timelimit countlimit
        now lim).final.state.infoarr k = x.info_make now 0 0)
    ∧ (process_run x w state blockstart blockmax timelimit countlimit now lim).final.error
      = close_failures w state.diskmax % U32
    ∧ (process_run x w state blockstart blockmax timelimit countlimit
        now lim).final.silent_error = 0
    ∧ (select_list x state timelimit countlimit (blockmax - blockstart) blockstart 0 ≠ [] →
      ∃ t cp cm cs, (process_run x w state blockstart blockmax timelimit countlimit
        now lim).final.trace
          = t ++ [Event.progress_end cp cm cs, Event.print_no_error]
            ++ ((List.range state.diskmax).filter
                (fun k => decide (w.handle_close_end k = -1))).map Event.danger_close) := by
  obtain ⟨-, -, v3⟩ :=
    state_scrub_process_visited x w state blockstart blockmax timelimit countlimit now hflow
  unfold process_run at hflow hclean v3 ⊢
  simp only [] at hflow hclean v3 ⊢
  rw [if_neg (by rw [hflow]; simp)] at hclean v3 ⊢
  have hstop := process_loop_stop x w now timelimit countlimit (blockmax - blockstart) blockstart
    (process_init x w state blockstart blockmax timelimit countlimit lim) (by rw [hflow]; simp)
  obtain ⟨fr, -⟩ := process_loop_visited x w now timelimit countlimit state
    (blockmax - blockstart) blockstart
    (process_init x w state blockstart blockmax timelimit countlimit lim) (fun _ _ => rfl) rfl
  have hclean0 := process_loop_clean x w now timelimit countlimit state (blockmax - blockstart)
    blockstart (process_init x w state blockstart blockmax timelimit countlimit lim)
    (fun _ _ => rfl) rfl hflow
  have h0t : (process_init x w state blockstart blockmax timelimit countlimit lim).trace.countP
      Event.counts_error = 0 := by
    simp [process_init, Event.counts_error, Event.is_error_log]
  have h0f : (process_init x w state blockstart blockmax timelimit countlimit lim).trace.filter
      Event.is_stop = [] := by
    simp [process_init, Event.is_stop]
  have h0e : (process_init x w state blockstart blockmax timelimit countlimit lim).error = 0 := rfl
  have h0s : (process_init x w state blockstart blockmax timelimit countlimit lim).silent_error
      = 0 := rfl
  have hdm : (process_loop x w now timelimit countlimit (blockmax - blockstart) blockstart
      (process_init x w state blockstart blockmax timelimit countlimit lim)).2.state.diskmax
      = state.diskmax := fr.diskmax
  rw [h0f] at hstop
  rw [h0t] at hclean0
  have hkeep := fr.keep
  rw [h0t, h0e, h0s] at hkeep
  generalize (process_loop x w now timelimit countlimit (blockmax - blockstart) blockstart
    (process_init x w state blockstart blockmax timelimit countlimit lim)).2 = q
    at hclean v3 hstop hclean0 hkeep hdm ⊢
  have htr := close_loop_trace_eq w (summary q).state.diskmax 0 (summary q)
  obtain ⟨-, -, c3, c4, c5⟩ := close_loop_fields w (summary q).state.diskmax 0 (summary q)
  obtain ⟨-, -, s3, s4, s5, s6⟩ := summary_fields q
  have hpre : q.trace <+: (close_loop w (summary q).state.diskmax 0 (summary q)).trace :=
    (summary_frame (fun _ => False) q).pre.trans
      (close_loop_frame (fun _ => False) w _ 0 _).pre
  have hq0 : q.trace.countP Event.counts_error = 0 := by
    rw [countP_counts_error_eq q.trace hstop, List.countP_eq_zero]
    intro e he
    rw [hclean e (hpre.subset he)]
    simp
  obtain ⟨qe, qs⟩ := hkeep hq0
  obtain ⟨k1, -⟩ := close_loop_verdict w (summary q).state.diskmax 0 (summary q)
    (by rw [s5, qe]; decide)
  refine ⟨?_, ?_, ?_, ?_⟩
  · rw [c4, s4]
    exact hclean0 (by omega)
  · rw [k1, s5, qe, s4, hdm, Nat.zero_add, ← List.range_eq_range']
    rfl
  · rw [c5, s6, qs]
  · intro hne
    rw [c3, s3] at v3
    have hcp : q.countpos ≠ 0 := by
      rw [v3]
      exact fun h => hne (List.length_eq_zero.mp h)
    rw [htr, s4, hdm, ← List.range_eq_range']
    refine ⟨q.trace, q.countpos, q.countmax, q.countsize, ?_⟩
    congr 1
    unfold summary
    simp only [Proc.emit_trace, Proc.emit_error, Proc.emit_silent_error, Proc.emit_countpos]
    rw [if_neg (by omega), if_pos hcp]
    simp

/-- The forced full scrub on an array with a used word and accessible parity
files: `state_scrub` returns; a complete scan visits exactly the used stripes and,
when no error line is logged, leaves every used word at `info_make(now, 0, 0)`,
`silent_error` at zero, prints "No error" and counts in `error` the failed closes
of the cleanup loop. -/
theorem forced_full_scrub_spec {lim : Nat} (x : Helpers) (w : World) (state : snapraid_state)
    (now : Int)
    (N : Nat) (hlaws : InfoLaws x) (hnow : 0 ≤ now) (hbm : w.parity_size < U32)
    (heven : state.opt.force_scrub_even = false) (hforce : state.opt.force_scrub = N)
    (hN : (infomap state w.parity_size).length ≤ N)
    (hne : infomap state w.parity_size ≠ [])
    (hpo : w.parity_open ≠ -1) (hqo : ¬ (state.level ≥ 2 ∧ w.qarity_open = -1))
    (htime : ∀ i, i < w.parity_size → state.infoarr i ≠ 0 →
      x.info_get_time (state.infoarr i) ≤ now)
    (hdiv : autosave_limit state = some lim) :
    ∃ ret r, state_scrub x w state now = .ok (ret, r)
      ∧ (r.flow = .next →
        visited r.final.trace
          = (List.range w.parity_size).filter (fun i => decide (state.infoarr i ≠ 0))
        ∧ (∀ i, i < w.parity_size → state.infoarr i ≠ 0 → i ∈ visited r.final.trace)
        ∧ ((∀ e, e ∈ r.final.trace → e.is_error_log = false) →
          (∀ i, i < w.parity_size → state.infoarr i ≠ 0 →
            r.final.state.infoarr i = x.info_make now 0 0
            ∧ x.info_get_time (r.final.state.infoarr i) = now
            ∧ x.info_get_bad (r.final.state.infoarr i) = false
            ∧ x.info_get_rehash (r.final.state.infoarr i) = false)
          ∧ r.final.silent_error = 0
          ∧ r.final.error = close_failures w state.diskmax % U32
          ∧ ∃ t cp cm cs, r.final.trace
              = t ++ [Event.progress_end cp cm cs, Event.print_no_error]
                ++ ((List.range state.diskmax).filter
                    (fun k => decide (w.handle_close_end k = -1))).map Event.danger_close)) := by
  obtain ⟨tl, hlim, htl⟩ := scrub_limits_forced x state w.parity_size now hbm heven
    (by rw [hforce]; exact hN) hne htime
  have hsel : select_list x state tl (infomap state w.parity_size).length (w.parity_size - 0) 0 0
      = (List.range w.parity_size).filter (fun i => decide (state.infoarr i ≠ 0)) := by
    rw [List.range_eq_range']
    exact select_list_all x state tl _ _ 0 0 heven (fun k _ hk hu => htl k (by omega) hu)
      (by rw [infomap_length]; simp)
  have hmem : ∀ i, i < w.parity_size → state.infoarr i ≠ 0 →
      i ∈ (List.range w.parity_size).filter (fun i => decide (state.infoarr i ≠ 0)) := by
    intro i hi hu
    rw [List.mem_filter]
    exact ⟨List.mem_range.mpr hi, by simp [hu]⟩
  have hss : ∃ ret, state_scrub x w state now = .ok (ret, process_run x w state 0
      w.parity_size tl (infomap state w.parity_size).length now lim) := by
    unfold state_scrub
    simp only [hlim]
    rw [if_neg hpo, if_neg hqo, state_scrub_process_some x w state _ _ _ _ _ lim hdiv]
    exact ⟨_, rfl⟩
  obtain ⟨ret, hret⟩ := hss
  refine ⟨ret, process_run x w state 0 w.parity_size tl
    (infomap state w.parity_size).length now lim, hret, ?_⟩
  · intro hflow
    obtain ⟨a1, -, -⟩ := state_scrub_process_visited x w state 0 w.parity_size tl
      (infomap state w.parity_size).length now hflow
    rw [hsel] at a1
    refine ⟨a1, fun i hi hu => by rw [a1]; exact hmem i hi hu, fun hclean => ?_⟩
    obtain ⟨b1, b2, b3, b4⟩ := state_scrub_process_clean x w state 0 w.parity_size tl
      (infomap state w.parity_size).length now hflow hclean
    rw [hsel] at b1 b4
    refine ⟨fun i hi hu => ?_, b3, b2, b4 ?_⟩
    · have h := b1 i (hmem i hi hu)
      refine ⟨h, ?_, ?_, ?_⟩
      · rw [h, hlaws.time_make now 0 0 hnow]
      · rw [h, hlaws.bad_make]
        simp
      · rw [h, hlaws.rehash_make]
        simp
    · intro hnil
      apply hne
      have := infomap_length state w.parity_size
      rw [← List.range_eq_range', hnil] at this
      exact List.length_eq_zero.mp this

/-- When `state_scrub` returns, the array has a used word, the parity files were
opened and line 121 did not divide by zero. -/
theorem state_scrub_ok (x : Helpers) (w : World) (state : snapraid_state) (now : Int)
    (ret : Int) (r : ProcessResult) (h : state_scrub x w state now = .ok (ret, r)) :
    infomap state w.parity_size ≠ [] ∧ w.parity_open ≠ -1
      ∧ ¬ (state.level ≥ 2 ∧ w.qarity_open = -1)
      ∧ ∃ tl cl lim, scrub_limits x state w.parity_size now = .ok (tl, cl)
        ∧ autosave_limit state = some lim
        ∧ r = process_run x w state 0 w.parity_size tl cl now lim := by
  unfold state_scrub at h
  simp only [] at h
  rcases hl : scrub_limits x state w.parity_size now with e | ⟨tl, cl⟩
  · rw [hl] at h
    simp at h
  · rw [hl] at h
    simp only [] at h
    have hne : infomap state w.parity_size ≠ [] := by
      intro he
      have : scrub_limits x state w.parity_size now = .error .empty_array := by
        unfold scrub_limits
        simp [he]
      rw [this] at hl
      simp at hl
    by_cases hp : w.parity_open = -1
    · rw [if_pos hp] at h
      simp at h
    · rw [if_neg hp] at h
      by_cases hq : state.level ≥ 2 ∧ w.qarity_open = -1
      · rw [if_pos hq] at h
        simp at h
      · rw [if_neg hq] at h
        rcases hs : state_scrub_process x w state 0 w.parity_size tl cl now with _ | r1
        · rw [hs] at h
          simp at h
        · rw [hs] at h
          simp only [Except.ok.injEq, Prod.mk.injEq] at h
          obtain ⟨lim, hd, hr⟩ := state_scrub_process_eq_some x w state 0 w.parity_size tl cl now
            r1 hs
          exact ⟨hne, hp, hq, tl, cl, lim, rfl, hd, by rw [← h.2, hr]⟩

/-- When `state_scrub` returns, its result is the run of `state_scrub_process` with
the limits it derived. -/
theorem state_scrub_inv (x : Helpers) (w : World) (state : snapraid_state) (now : Int)
    (ret : Int) (r : ProcessResult) (h : state_scrub x w state now = .ok (ret, r)) :
    ∃ tl cl lim, scrub_limits x state w.parity_size now = .ok (tl, cl)
      ∧ autosave_limit state = some lim
      ∧ r = process_run x w state 0 w.parity_size tl cl now lim :=
  (state_scrub_ok x w state now ret r h).2.2.2

/-- C10, counterexample: the example array without a bad stripe (used words of
times 10, 50 and 20) is scrubbed at `now = 100` with `force_scrub = 4`; the scan is
complete, the three used stripes are visited, no error line is logged (every
visited stripe is clean) and "No error" is printed; the two closes of the cleanup
loop fail, so the run ends with the error counter at 2, not zero, and
`state_scrub` returns -1. -/
theorem C10_counterexample :
    (∀ i, i < demo_world_badclose.parity_size → good_state.infoarr i ≠ 0 →
      demo_helpers.info_get_time (good_state.infoarr i) ≤ 100)
    ∧ good_state.opt.force_scrub_even = false
    ∧ good_state.opt.force_scrub = 4
    ∧ (infomap good_state demo_world_badclose.parity_size).length ≤ 4
    ∧ state_scrub demo_helpers demo_world_badclose good_state 100
      = .ok (-1, process_run demo_helpers demo_world_badclose good_state 0 4 50 3 100 0)
    ∧ (process_run demo_helpers demo_world_badclose good_state 0 4 50 3 100 0).flow = .next
    ∧ visited (process_run demo_helpers demo_world_badclose good_state 0 4 50 3 100 0).final.trace
      = [0, 1, 3]
    ∧ (∀ e, e ∈ (process_run demo_helpers demo_world_badclose good_state 0 4 50 3 100
        0).final.trace → e.is_error_log = false)
    ∧ Event.print_no_error
      ∈ (process_run demo_helpers demo_world_badclose good_state 0 4 50 3 100 0).final.trace
    ∧ (process_run demo_helpers demo_world_badclose good_state 0 4 50 3 100 0).final.error = 2
    ∧ (process_run demo_helpers demo_world_badclose good_state 0 4 50 3 100 0).final.silent_error
      = 0 := by
  refine ⟨by decide, by decide, by decide, by decide, by rfl, by decide, by decide, by decide,
    by decide, by decide, by decide⟩

/-- C10, amended: a forced scrub whose count `N` covers the used words
(`force_scrub = N`, `N >= used_count`, even mode off) on an array whose used words
all have a time `<= now`.  Whenever `state_scrub` returns after a complete scan (no
abort), it has visited exactly the used stripes; if moreover no error line was
logged during the run (every visited stripe is clean), every used info word is
`info_make(now, 0, 0)` afterwards, i.e. time `now`, bad and rehash clear, the
summary printed is "No error", `silent_error` is zero and the error counter is the
number of `handle_close` calls that fail in the cleanup loop (modulo `2 ^ 32`),
zero when none fails.  And `state_scrub` does return when the array has a used
word, the parity files can be opened and the divisor of line 121 is not zero. -/
theorem C10_forced_full_scrub (x : Helpers) (w : World) (state : snapraid_state) (now : Int)
    (N : Nat) (hlaws : InfoLaws x) (hnow : 0 ≤ now) (hbm : w.parity_size < U32)
    (heven : state.opt.force_scrub_even = false) (hforce : state.opt.force_scrub = N)
    (hN : (infomap state w.parity_size).length ≤ N)
    (htime : ∀ i, i < w.parity_size → state.infoarr i ≠ 0 →
      x.info_get_time (state.infoarr i) ≤ now) :
    (infomap state w.parity_size ≠ [] → w.parity_open ≠ -1 →
      ¬ (state.level ≥ 2 ∧ w.qarity_open = -1) →
      (state.diskmax * state.block_size) % U32 ≠ 0 →
      ∃ ret r, state_scrub x w state now = .ok (ret, r))
    ∧ ∀ ret r, state_scrub x w state now = .ok (ret, r) → r.flow = .next →
        visited r.final.trace
          = (List.range w.parity_size).filter (fun i => decide (state.infoarr i ≠ 0))
        ∧ (∀ i, i < w.parity_size → state.infoarr i ≠ 0 → i ∈ visited r.final.trace)
        ∧ ((∀ e, e ∈ r.final.trace → e.is_error_log = false) →
          (∀ i, i < w.parity_size → state.infoarr i ≠ 0 →
            r.final.state.infoarr i = x.info_make now 0 0
            ∧ x.info_get_time (r.final.state.infoarr i) = now
            ∧ x.info_get_bad (r.final.state.infoarr i) = false
            ∧ x.info_get_rehash (r.final.state.infoarr i) = false)
          ∧ r.final.silent_error = 0
          ∧ r.final.error = close_failures w state.diskmax % U32
          ∧ (close_failures w state.diskmax = 0 → r.final.error = 0)
          ∧ ∃ t cp cm cs, r.final.trace
              = t ++ [Event.progress_end cp cm cs, Event.print_no_error]
                ++ ((List.range state.diskmax).filter
                    (fun k => decide (w.handle_close_end k = -1))).map Event.danger_close) := by
  refine ⟨fun hne hpo hqo hdiv => ?_, fun ret r hret hflow => ?_⟩
  · obtain ⟨ret, r, h, -⟩ := forced_full_scrub_spec x w state now N hlaws hnow hbm heven hforce
      hN hne hpo hqo htime (autosave_limit_some state hdiv)
    exact ⟨ret, r, h⟩
  · obtain ⟨hne, hpo, hqo, -, -, lim, -, hdiv, -⟩ := state_scrub_ok x w state now ret r hret
    obtain ⟨ret1, r1, h1, h2⟩ := forced_full_scrub_spec x w state now N hlaws hnow hbm heven
      hforce hN hne hpo hqo htime hdiv
    rw [hret] at h1
    simp only [Except.ok.injEq, Prod.mk.injEq] at h1
    obtain ⟨-, hr⟩ := h1
    subst hr
    obtain ⟨a1, a2, a3⟩ := h2 hflow
    refine ⟨a1, a2, fun hclean => ?_⟩
    obtain ⟨b1, b2, b3, b4⟩ := a3 hclean
    exact ⟨b1, b2, b3, fun h0 => by rw [b3, h0]; rfl, b4⟩

/-- Witness of C10 on the example array without a bad stripe (`force_scrub = 4`,
three used words with times 10, 50 and 20, `now = 100`) with two failing closes
in the cleanup loop: `state_scrub` returns, the complete scan visits the used
stripes 0, 1 and 3, no error line is logged, and the error counter ends at 2. -/
theorem C10_forced_full_scrub_witness :
    (infomap good_state demo_world_badclose.parity_size).length ≤ 4
    ∧ state_scrub demo_helpers demo_world_badclose good_state 100
      = .ok (-1, process_run demo_helpers demo_world_badclose good_state 0 4 50 3 100 0)
    ∧ visited (process_run demo_helpers demo_world_badclose good_state 0 4 50 3 100 0).final.trace
      = [0, 1, 3]
    ∧ (process_run demo_helpers demo_world_badclose good_state 0 4 50 3 100 0).final.error = 2
    ∧ (process_run demo_helpers demo_world_badclose good_state 0 4 50 3 100
        0).final.silent_error = 0 := by
  obtain ⟨-, h2⟩ := C10_forced_full_scrub demo_helpers demo_world_badclose good_state 100 4
    demo_helpers_laws (by decide) (by decide) (by decide) rfl (by decide) (by decide)
  obtain ⟨a1, -, a3⟩ := h2 (-1)
    (process_run demo_helpers demo_world_badclose good_state 0 4 50 3 100 0) (by rfl) (by decide)
  obtain ⟨-, b2, b3, -, -⟩ := a3 (by decide)
  exact ⟨by decide, by rfl, a1.trans (by decide), b3.trans (by decide), b2⟩

/-! ## C16: the return value and the error counter -/

theorem first_close_failure_some (w : World) (state : snapraid_state) (i : Nat) (n j0 j : Nat)
    (h : first_close_failure w state i n j0 = some j) :
    j0 ≤ j ∧ j < j0 + n ∧ close_failure w state i j = true := by
  induction n generalizing j0 with
  | zero => simp [first_close_failure] at h
  | succ n ih =>
    unfold first_close_failure at h
    by_cases hc : close_failure w state i j0 = true
    · rw [if_pos hc] at h
      have := Option.some.inj h
      subst this
      exact ⟨le_refl _, by omega, hc⟩
    · rw [if_neg hc] at h
      obtain ⟨a, b, c⟩ := ih (j0 + 1) h
      exact ⟨by omega, by omega, c⟩

theorem first_close_failure_none (w : World) (state : snapraid_state) (i : Nat) (n j0 : Nat)
    (h : first_close_failure w state i n j0 = none) :
    ∀ j, j0 ≤ j → j < j0 + n → close_failure w state i j = false := by
  induction n generalizing j0 with
  | zero =>
    intro j h1 h2
    omega
  | succ n ih =>
    unfold first_close_failure at h
    by_cases hc : close_failure w state i j0 = true
    · rw [if_pos hc] at h
      simp at h
    · rw [if_neg hc] at h
      intro j h1 h2
      by_cases hj : j = j0
      · subst hj
        simpa using hc
      · exact ih (j0 + 1) h j (by omega) (by omega)

/-- A pass of the per-disk loop stops the scrub exactly at a failed close, which
counts one error. -/
theorem disk_iter_stop_iff (x : Helpers) (w : World) (i : Nat) (rehash : Bool) (j : Nat)
    (pl : Proc × Locals) :
    (close_failure w pl.1.state i j = false → (disk_iter x w i rehash j pl).1 = .next)
    ∧ (close_failure w pl.1.state i j = true →
        (disk_iter x w i rehash j pl).1 = .bail
        ∧ (disk_iter x w i rehash j pl).2.1.error = (pl.1.error + 1) % U32
        ∧ (disk_iter x w i rehash j pl).2.1.silent_error = pl.1.silent_error
        ∧ Event.print_stopping i ∈ (disk_iter x w i rehash j pl).2.1.trace) := by
  by_cases hd : pl.1.state.disk j = true
  · rcases hf : (pl.1.state.block j i).file with _ | file
    · unfold disk_iter close_failure
      simp [hd, hf]
    · by_cases hc : w.handle_file i j ≠ some file.id ∧ w.handle_close i j = -1
      · have hcf : close_failure w pl.1.state i j = true := by
          unfold close_failure
          simp only [hd, hf, Bool.true_and, decide_eq_true_eq]
          exact hc
        unfold disk_iter
        simp only [Proc.set_rehandle_state, hd, Bool.not_true, Bool.false_eq_true, if_false, hf,
          if_pos hc]
        simp [hcf]
      · have hcf : close_failure w pl.1.state i j = false := by
          unfold close_failure
          simp only [hd, hf, Bool.true_and, decide_eq_false_iff_not]
          exact hc
        unfold disk_iter
        simp only [Proc.set_rehandle_state, hd, Bool.not_true, Bool.false_eq_true, if_false, hf,
          if_neg hc]
        rw [hcf]
        refine ⟨fun _ => ?_, fun h => absurd h (by simp)⟩
        repeat' split
        all_goals rfl
  · have hd2 : pl.1.state.disk j = false := by simpa using hd
    unfold disk_iter close_failure
    simp [hd2]

/-- The per-disk loop of stripe `i`: it runs to its end when no close fails, and
otherwise stops at the first failed close, with the errors of the blocks before
it and one error for the close. -/
theorem disk_loop_stop_verdict (x : Helpers) (w : World) (i : Nat) (rehash : Bool) (n j0 : Nat)
    (pl : Proc × Locals) (he : pl.1.error < U32) (hs : pl.1.silent_error < U32) :
    (first_close_failure w pl.1.state i n j0 = none →
      (disk_loop x w i rehash n j0 pl).1 = .next)
    ∧ ∀ j, first_close_failure w pl.1.state i n j0 = some j →
      (disk_loop x w i rehash n j0 pl).1 = .bail
      ∧ (disk_loop x w i rehash n j0 pl).2.1.error
        = (pl.1.error
            + ((List.range' j0 (j - j0)).countP (disk_error x w pl.1.state i rehash) + 1)) % U32
      ∧ (disk_loop x w i rehash n j0 pl).2.1.silent_error
        = (pl.1.silent_error
            + (List.range' j0 (j - j0)).countP (disk_silent x w pl.1.state i rehash)) % U32
      ∧ Event.print_stopping i ∈ (disk_loop x w i rehash n j0 pl).2.1.trace := by
  induction n generalizing j0 pl with
  | zero =>
    refine ⟨fun _ => rfl, fun j h => ?_⟩
    simp [first_close_failure] at h
  | succ n ih =>
    obtain ⟨s1, s2⟩ := disk_iter_stop_iff x w i rehash j0 pl
    unfold first_close_failure
    by_cases hc : close_failure w pl.1.state i j0 = true
    · rw [if_pos hc]
      obtain ⟨t1, t2, t3, t4⟩ := s2 hc
      have hne : ¬ (disk_iter x w i rehash j0 pl).1 = .next := by
        rw [t1]
        simp
      rw [disk_loop_succ_stop x w i rehash n j0 pl hne]
      refine ⟨fun h => absurd h (by simp), fun j hj => ?_⟩
      have := Option.some.inj hj
      subst this
      refine ⟨t1, ?_, ?_, t4⟩
      · rw [t2]
        simp
      · rw [t3]
        simp [Nat.mod_eq_of_lt hs]
    · have hcf : close_failure w pl.1.state i j0 = false := by simpa using hc
      rw [if_neg hc]
      have hf := s1 hcf
      have fr := disk_iter_frame x w i rehash j0 pl
      obtain ⟨a1, a2, -, -, -⟩ := disk_iter_verdict x w i rehash j0 pl hf he hs
      rcases hpl : disk_iter x w i rehash j0 pl with ⟨f, pl1⟩
      rw [hpl] at hf fr a1 a2
      simp only [] at hf fr a1 a2
      subst hf
      rw [disk_loop_succ_next x w i rehash n j0 pl pl1 hpl]
      obtain ⟨b1, b2⟩ := ih (j0 + 1) pl1 (fr.error_lt he) (fr.silent_lt hs)
      rw [fr.state] at b1 b2
      refine ⟨b1, fun j hj => ?_⟩
      obtain ⟨c1, c2, c3, c4⟩ := b2 j hj
      obtain ⟨d1, -, -⟩ := first_close_failure_some w pl.1.state i n (j0 + 1) j hj
      have hr : List.range' j0 (j - j0) = j0 :: List.range' (j0 + 1) (j - (j0 + 1)) := by
        have : j - j0 = (j - (j0 + 1)) + 1 := by omega
        rw [this]
        simp [List.range'_succ]
      refine ⟨c1, ?_, ?_, c4⟩
      · rw [c2, a1, hr, List.countP_cons, Nat.mod_add_mod]
        cases disk_error x w pl.1.state i rehash j0 <;> simp <;> congr 1 <;> omega
      · rw [c3, a2, hr, List.countP_cons, Nat.mod_add_mod]
        cases disk_silent x w pl.1.state i rehash j0 <;> simp <;> congr 1 <;> omega

theorem first_close_failure_eq_none (w : World) (state : snapraid_state) (i : Nat) (n j0 : Nat)
    (h : ∀ j, j0 ≤ j → j < j0 + n → close_failure w state i j = false) :
    first_close_failure w state i n j0 = none := by
  induction n generalizing j0 with
  | zero => rfl
  | succ n ih =>
    unfold first_close_failure
    rw [if_neg (by rw [h j0 (le_refl _) (by omega)]; simp)]
    exact ih (j0 + 1) (fun j h1 h2 => h j (by omega) (by omega))

theorem first_close_failure_congr (w : World) (s1 s2 : snapraid_state) (i : Nat) (n j0 : Nat)
    (hd : s1.disk = s2.disk) (hb : ∀ d, (s1.block d i).file = (s2.block d i).file) :
    first_close_failure w s1 i n j0 = first_close_failure w s2 i n j0 := by
  induction n generalizing j0 with
  | zero => rfl
  | succ n ih =>
    unfold first_close_failure
    have : close_failure w s1 i j0 = close_failure w s2 i j0 := by
      unfold close_failure
      rw [hd, hb j0]
    rw [this, ih (j0 + 1)]

/-- Verification of stripe `i` is stopped exactly by a failed close; the counters
then hold the errors of the blocks before the failing slot and one error for the
close. -/
theorem verify_stop_verdict (x : Helpers) (w : World) (i : Nat) (rehash : Bool) (p : Proc)
    (he : p.error < U32) (hs : p.silent_error < U32) :
    (first_close_failure w p.state i p.state.diskmax 0 = none →
      (verify x w i rehash p).1 = .next)
    ∧ ∀ j, first_close_failure w p.state i p.state.diskmax 0 = some j →
      (verify x w i rehash p).1 = .bail
      ∧ (verify x w i rehash p).2.1.error = (p.error + stop_errors x w p.state i rehash j) % U32
      ∧ (verify x w i rehash p).2.1.silent_error
        = (p.silent_error + stop_silent x w p.state i rehash j) % U32
      ∧ Event.print_stopping i ∈ (verify x w i rehash p).2.1.trace := by
  obtain ⟨h1, h2⟩ := disk_loop_stop_verdict x w i rehash p.state.diskmax 0
    (p, ⟨false, false, false⟩) he hs
  simp only [] at h1 h2
  unfold verify
  simp only []
  refine ⟨fun hnone => ?_, fun j hj => ?_⟩
  · have := h1 hnone
    rcases hl : disk_loop x w i rehash p.state.diskmax 0 (p, ⟨false, false, false⟩) with ⟨f, pl⟩
    rw [hl] at this
    simp only [] at this
    subst this
    rfl
  · obtain ⟨a1, a2, a3, a4⟩ := h2 j hj
    rcases hl : disk_loop x w i rehash p.state.diskmax 0 (p, ⟨false, false, false⟩) with ⟨f, pl⟩
    rw [hl] at a1 a2 a3 a4
    simp only [] at a1 a2 a3 a4
    subst a1
    simp only [Nat.sub_zero, ← List.range_eq_range'] at a2 a3
    exact ⟨rfl, a2, a3, a4⟩

theorem finish_stripe_next (w : World) (i : Nat) (p : Proc)
    (h : w.state_progress i (p.countpos + 1) = false) : (finish_stripe w i p).1 = .next := by
  unfold finish_stripe
  simp only [Proc.emit_countpos, h, Bool.false_eq_true, if_false]
  split <;> rfl

/-- A selected stripe is stopped exactly by a failed close. -/
theorem visit_stop_verdict (x : Helpers) (w : World) (now : Int) (i : Nat) (info : Nat)
    (p : Proc) (he : p.error < U32) (hs : p.silent_error < U32) :
    (first_close_failure w p.state i p.state.diskmax 0 = none →
      (visit x w now i info p).1 ≠ .bail
      ∧ (w.state_progress i (p.countpos + 1) = false → (visit x w now i info p).1 = .next))
    ∧ ∀ j, first_close_failure w p.state i p.state.diskmax 0 = some j →
      (visit x w now i info p).1 = .bail
      ∧ (visit x w now i info p).2.error
        = (p.error + stop_errors x w p.state i (x.info_get_rehash info) j) % U32
      ∧ (visit x w now i info p).2.silent_error
        = (p.silent_error + stop_silent x w p.state i (x.info_get_rehash info) j) % U32
      ∧ Event.print_stopping i ∈ (visit x w now i info p).2.trace
      ∧ visited (visit x w now i info p).2.trace = visited p.trace := by
  obtain ⟨h1, h2⟩ := verify_stop_verdict x w i (x.info_get_rehash info) p.count_visit he hs
  have fr := verify_frame x w i (x.info_get_rehash info) p.count_visit
  refine ⟨fun hnone => ?_, fun j hj => ?_⟩
  · have hv := h1 hnone
    rw [visit_eq x w now i info p hv]
    obtain ⟨f1, f2, -⟩ := finish_stripe_fields w i
      (outcome x now i info (x.info_get_rehash info)
        (verify x w i (x.info_get_rehash info) p.count_visit).2)
    refine ⟨f1, fun hp => ?_⟩
    apply finish_stripe_next
    obtain ⟨o1, -⟩ := outcome_fields x now i info (x.info_get_rehash info)
      (verify x w i (x.info_get_rehash info) p.count_visit).2
    rw [o1, fr.countpos]
    exact hp
  · obtain ⟨a1, a2, a3, a4⟩ := h2 j hj
    have hvis := fr.visited
    unfold visit
    simp only []
    rcases hq : verify x w i (x.info_get_rehash info) p.count_visit with ⟨f, pl⟩
    rw [hq] at a1 a2 a3 a4 hvis
    simp only [] at a1 a2 a3 a4 hvis
    subst a1
    exact ⟨rfl, a2, a3, a4, hvis⟩

theorem disk_error_congr (x : Helpers) (w : World) (s1 s2 : snapraid_state) (i : Nat)
    (rehash : Bool) (hg : same_setup s1 s2) (hb : ∀ d, s1.block d i = s2.block d i) :
    disk_error x w s1 i rehash = disk_error x w s2 i rehash
    ∧ disk_silent x w s1 i rehash = disk_silent x w s2 i rehash := by
  obtain ⟨g1, g2, g3, g4, g5, g6, g7, g8, g9⟩ := hg
  constructor
  · funext j
    simp only [disk_error, open_failure, read_failure, hash_mismatch, read_hash, g3, g4, g5, g6,
      g9, hb j]
  · funext j
    simp only [disk_silent, hash_mismatch, read_hash, file_in_sync, g3, g4, g5, g6, g9, hb j]

/-- The counters after a processing loop stopped by a failed close: each visited
stripe has added its errors, and the stripe named in the "Stopping at block" line
the errors of its blocks before the failing slot and one error for the close. -/
theorem process_loop_stop_verdict (x : Helpers) (w : World) (now timelimit : Int)
    (countlimit : Nat) (state0 : snapraid_state) (n i : Nat) (p : Proc)
    (hinfo : ∀ k, i ≤ k → p.state.infoarr k = state0.infoarr k)
    (hblock : ∀ d k, i ≤ k → p.state.block d k = state0.block d k)
    (hsetup : same_setup p.state state0)
    (hraid : RaidLaws x state0.level) (hlevel : state0.level = 1 ∨ state0.level = 2)
    (he : p.error < U32) (hs : p.silent_error < U32)
    (hb : (process_loop x w now timelimit countlimit n i p).1 = .bail) :
    ∃ vs ib jb,
      visited (process_loop x w now timelimit countlimit n i p).2.trace = visited p.trace ++ vs
      ∧ first_close_failure w state0 ib state0.diskmax 0 = some jb
      ∧ Event.print_stopping ib ∈ (process_loop x w now timelimit countlimit n i p).2.trace
      ∧ (process_loop x w now timelimit countlimit n i p).2.error
        = (p.error + ((vs.map (fun k =>
            stripe_errors x w state0 k (x.info_get_rehash (state0.infoarr k)))).sum
          + stop_errors x w state0 ib (x.info_get_rehash (state0.infoarr ib)) jb)) % U32
      ∧ (process_loop x w now timelimit countlimit n i p).2.silent_error
        = (p.silent_error + ((vs.map (fun k =>
            stripe_silent x w state0 k (x.info_get_rehash (state0.infoarr k)))).sum
          + stop_silent x w state0 ib (x.info_get_rehash (state0.infoarr ib)) jb)) % U32 := by
  induction n generalizing i p with
  | zero => simp [process_loop] at hb
  | succ n ih =>
    have hopt : p.state.opt = state0.opt := hsetup.2.2.2.2.2.2.1
    have hsel := selects_congr x p.state state0 timelimit countlimit i p.recountmax
      (hinfo i (le_refl _)) hopt
    have hit := process_iter_eq x w now timelimit countlimit i p
    rw [hsel] at hit
    unfold process_loop at hb ⊢
    by_cases hsl : selects x state0 timelimit countlimit i p.recountmax = true
    · rw [if_pos hsl] at hit
      rw [hit] at hb ⊢
      obtain ⟨v1, v2, v3⟩ := visit_spec x w now i (p.state.infoarr i) p
      have hvd := visit_verdict x w now i (p.state.infoarr i) p
      obtain ⟨t1, t2⟩ := visit_stop_verdict x w now i (p.state.infoarr i) p he hs
      have hfc : first_close_failure w p.state i p.state.diskmax 0
          = first_close_failure w state0 i state0.diskmax 0 := by
        rw [← hsetup.2.2.2.2.2.2.2.1]
        exact first_close_failure_congr w p.state state0 i p.state.diskmax 0
          hsetup.2.2.2.2.2.2.2.2 (fun d => by rw [hblock d i (le_refl _)])
      obtain ⟨g1, g2⟩ := disk_error_congr x w p.state state0 i
        (x.info_get_rehash (p.state.infoarr i)) hsetup (fun d => hblock d i (le_refl _))
      rcases hfirst : first_close_failure w p.state i p.state.diskmax 0 with _ | j
      · -- the stripe is not stopped
        obtain ⟨hnb, -⟩ := t1 hfirst
        rcases hv : visit x w now i (p.state.infoarr i) p with ⟨f, p1⟩
        rw [hv] at v1 v2 v3 hvd hb hnb
        simp only [] at v1 v2 v3 hvd hb hnb
        obtain ⟨w1, w2, w3⟩ := v3 hnb
        obtain ⟨e1, e2⟩ := hvd hnb (by rw [hsetup.1]; exact hraid)
          (by rw [hsetup.1]; exact hlevel) he hs
        obtain ⟨c1, c2⟩ := stripe_errors_congr x w p.state state0 i
          (x.info_get_rehash (p.state.infoarr i)) hsetup (fun d => hblock d i (le_refl _))
        rw [c1, hinfo i (le_refl _)] at e1
        rw [c2, hinfo i (le_refl _)] at e2
        cases f
        · simp only [] at hb ⊢
          obtain ⟨vs, ib, jb, i1, i2, i3, i4, i5⟩ := ih (i + 1) p1
            (fun k hk => by rw [v1.infoarr k (by omega)]; exact hinfo k (by omega))
            (fun d k hk => by rw [v1.block d k (by omega)]; exact hblock d k (by omega))
            (same_setup_trans (same_setup_of_frame v1) hsetup)
            (v1.error_lt he) (v1.silent_lt hs) hb
          refine ⟨i :: vs, ib, jb, ?_, i2, i3, ?_, ?_⟩
          · rw [i1, w2]
            simp
          · rw [i4, e1, Nat.mod_add_mod]
            simp [Nat.add_assoc]
          · rw [i5, e2, Nat.mod_add_mod]
            simp [Nat.add_assoc]
        · exact absurd hb (by simp)
        · exact absurd rfl hnb
      · -- the stripe is stopped at slot j
        obtain ⟨a1, a2, a3, a4, a5⟩ := t2 j hfirst
        rw [hfirst] at hfc
        rcases hv : visit x w now i (p.state.infoarr i) p with ⟨f, p1⟩
        rw [hv] at a1 a2 a3 a4 a5
        simp only [] at a1 a2 a3 a4 a5
        subst a1
        simp only []
        refine ⟨[], i, j, by simp [a5], hfc.symm, a4, ?_, ?_⟩
        · rw [a2]
          unfold stop_errors
          rw [g1, hinfo i (le_refl _)]
          simp
        · rw [a3]
          unfold stop_silent
          rw [g2, hinfo i (le_refl _)]
          simp
    · rw [if_neg hsl] at hit
      rw [hit] at hb ⊢
      simp only [] at hb ⊢
      exact ih (i + 1) p (fun k hk => hinfo k (by omega)) (fun d k hk => hblock d k (by omega))
        hsetup he hs hb

/-- The processing loop runs over the whole range when no close fails and the
progress callback never asks to stop. -/
theorem process_loop_next (x : Helpers) (w : World) (now timelimit : Int) (countlimit : Nat)
    (state0 : snapraid_state) (n i : Nat) (p : Proc)
    (hdisk : p.state.disk = state0.disk)
    (hfile : ∀ d k, (p.state.block d k).file = (state0.block d k).file)
    (hdm : p.state.diskmax = state0.diskmax)
    (he : p.error < U32) (hs : p.silent_error < U32)
    (hclose : ∀ k j, close_failure w state0 k j = false)
    (hprog : ∀ k c, w.state_progress k c = false) :
    (process_loop x w now timelimit countlimit n i p).1 = .next := by
  induction n generalizing i p with
  | zero => rfl
  | succ n ih =>
    have hit := process_iter_eq x w now timelimit countlimit i p
    unfold process_loop
    by_cases hsl : selects x p.state timelimit countlimit i p.recountmax = true
    · rw [if_pos hsl] at hit
      rw [hit]
      obtain ⟨v1, -, -⟩ := visit_spec x w now i (p.state.infoarr i) p
      obtain ⟨t1, -⟩ := visit_stop_verdict x w now i (p.state.infoarr i) p he hs
      have hfc := first_close_failure_congr w p.state state0 i p.state.diskmax 0 hdisk
        (fun d => hfile d i)
      rw [first_close_failure_eq_none w state0 i p.state.diskmax 0
        (fun j _ _ => hclose i j)] at hfc
      obtain ⟨-, hn⟩ := t1 hfc
      have hvn := hn (hprog i _)
      rcases hv : visit x w now i (p.state.infoarr i) p with ⟨f, p1⟩
      rw [hv] at v1 hvn
      simp only [] at v1 hvn
      subst hvn
      simp only []
      exact ih (i + 1) p1 (by rw [v1.disk]; exact hdisk)
        (fun d k => by rw [v1.block_file]; exact hfile d k) (by rw [v1.diskmax]; exact hdm)
        (v1.error_lt he) (v1.silent_lt hs)
    · rw [if_neg hsl] at hit
      rw [hit]
      simp only []
      exact ih (i + 1) p hdisk hfile hdm he hs

theorem total_silent_le (x : Helpers) (w : World) (state : snapraid_state) (vs : List Nat) :
    total_silent x w state vs ≤ total_errors x w state vs := by
  unfold total_silent total_errors
  induction vs with
  | nil => simp
  | cons k vs ih =>
    simp only [List.map_cons, List.sum_cons]
    have := stripe_silent_le x w state k (x.info_get_rehash (state.infoarr k))
    omega

/-- The counters at the end of a run stopped by a failed close inside the loop:
the errors of the visited stripes, those of the stripe named in the "Stopping at
block" line up to the failing slot, one for that close, and the failed closes of
the cleanup loop. -/
theorem process_run_stop_verdict {lim : Nat} (x : Helpers) (w : World) (state : snapraid_state)
    (blockstart blockmax : Nat) (timelimit : Int) (countlimit : Nat) (now : Int)
    (hraid : RaidLaws x state.level) (hlevel : state.level = 1 ∨ state.level = 2)
    (hb : (process_run x w state blockstart blockmax timelimit countlimit now lim).flow = .bail) :
    ∃ ib jb,
      Event.print_stopping ib
        ∈ (process_run x w state blockstart blockmax timelimit countlimit now lim).final.trace
      ∧ first_close_failure w state ib state.diskmax 0 = some jb
      ∧ (process_run x w state blockstart blockmax timelimit countlimit now lim).final.error
        = (total_errors x w state
            (visited (process_run x w state blockstart blockmax timelimit countlimit now
              lim).final.trace)
          + stop_errors x w state ib (x.info_get_rehash (state.infoarr ib)) jb
          + close_failures w state.diskmax) % U32
      ∧ (process_run x w state blockstart blockmax timelimit countlimit now lim).final.silent_error
        = (total_silent x w state
            (visited (process_run x w state blockstart blockmax timelimit countlimit now
              lim).final.trace)
          + stop_silent x w state ib (x.info_get_rehash (state.infoarr ib)) jb) % U32 := by
  unfold process_run at hb ⊢
  simp only [] at hb ⊢
  have h0e : (process_init x w state blockstart blockmax timelimit countlimit lim).error = 0 := rfl
  have h0s : (process_init x w state blockstart blockmax timelimit countlimit lim).silent_error
      = 0 := rfl
  have h0v : visited (process_init x w state blockstart blockmax timelimit countlimit lim).trace
      = [] := by
    simp [process_init, visited, Event.visit_index]
  obtain ⟨vs, ib, jb, l1, l2, l3, l4, l5⟩ := process_loop_stop_verdict x w now timelimit
    countlimit state (blockmax - blockstart) blockstart
    (process_init x w state blockstart blockmax timelimit countlimit lim)
    (fun _ _ => rfl) (fun _ _ _ => rfl) ⟨rfl, rfl, rfl, rfl, rfl, rfl, rfl, rfl, rfl⟩
    hraid hlevel (by rw [h0e]; decide) (by rw [h0s]; decide) hb
  obtain ⟨fr, -⟩ := process_loop_visited x w now timelimit countlimit state
    (blockmax - blockstart) blockstart
    (process_init x w state blockstart blockmax timelimit countlimit lim) (fun _ _ => rfl) rfl
  rw [h0e, Nat.zero_add] at l4
  rw [h0s, Nat.zero_add] at l5
  rw [h0v, List.nil_append] at l1
  rw [if_pos hb]
  obtain ⟨c1, -, -, -, -⟩ := close_loop_fields w
    (process_loop x w now timelimit countlimit (blockmax - blockstart) blockstart
      (process_init x w state blockstart blockmax timelimit countlimit lim)).2.state.diskmax 0
    (process_loop x w now timelimit countlimit (blockmax - blockstart) blockstart
      (process_init x w state blockstart blockmax timelimit countlimit lim)).2
  obtain ⟨k1, k2⟩ := close_loop_verdict w
    (process_loop x w now timelimit countlimit (blockmax - blockstart) blockstart
      (process_init x w state blockstart blockmax timelimit countlimit lim)).2.state.diskmax 0
    (process_loop x w now timelimit countlimit (blockmax - blockstart) blockstart
      (process_init x w state blockstart blockmax timelimit countlimit lim)).2
    (by rw [l4]; exact Nat.mod_lt _ (by decide))
  have hpre := (close_loop_frame (fun _ => False) w
    (process_loop x w now timelimit countlimit (blockmax - blockstart) blockstart
      (process_init x w state blockstart blockmax timelimit countlimit lim)).2.state.diskmax 0
    (process_loop x w now timelimit countlimit (blockmax - blockstart) blockstart
      (process_init x w state blockstart blockmax timelimit countlimit lim)).2).pre
  have hdm : (process_loop x w now timelimit countlimit (blockmax - blockstart) blockstart
      (process_init x w state blockstart blockmax timelimit countlimit lim)).2.state.diskmax
      = state.diskmax := fr.diskmax
  refine ⟨ib, jb, hpre.subset l3, l2, ?_, ?_⟩
  · rw [k1, c1, l1, l4, hdm, ← List.range_eq_range', Nat.mod_add_mod]
    rfl
  · rw [k2, c1, l1, l5]
    rfl

/-- The counters at the end of a run that is not stopped by a failed close inside the
loop, with the totals over the visited stripes. -/
theorem process_run_totals {lim : Nat} (x : Helpers) (w : World) (state : snapraid_state)
    (blockstart blockmax : Nat) (timelimit : Int) (countlimit : Nat) (now : Int)
    (hraid : RaidLaws x state.level) (hlevel : state.level = 1 ∨ state.level = 2)
    (hn : (process_run x w state blockstart blockmax timelimit countlimit now lim).flow ≠ .bail) :
    (process_run x w state blockstart blockmax timelimit countlimit now lim).final.error
      = (total_errors x w state
          (visited (process_run x w state blockstart blockmax timelimit countlimit now
            lim).final.trace)
        + close_failures w state.diskmax) % U32
    ∧ (process_run x w state blockstart blockmax timelimit countlimit now lim).final.silent_error
      = total_silent x w state
          (visited (process_run x w state blockstart blockmax timelimit countlimit now
            lim).final.trace) % U32 :=
  process_run_verdict x w state blockstart blockmax timelimit countlimit now hraid hlevel hn

theorem process_run_ret {lim : Nat} (x : Helpers) (w : World) (state : snapraid_state)
    (blockstart blockmax : Nat) (timelimit : Int) (countlimit : Nat) (now : Int) :
    ((process_run x w state blockstart blockmax timelimit countlimit now lim).ret = -1
      ↔ (state.opt.expect_recoverable = false
          ∧ (process_run x w state blockstart blockmax timelimit countlimit
              now lim).final.error ≠ 0)
        ∨ (state.opt.expect_recoverable = true
          ∧ (process_run x w state blockstart blockmax timelimit countlimit
              now lim).final.error = 0))
    ∧ ((process_run x w state blockstart blockmax timelimit countlimit now lim).ret ≠ -1 →
        (process_run x w state blockstart blockmax timelimit countlimit now lim).ret = 0) := by
  have fr := @state_scrub_process_frame lim x w state blockstart blockmax timelimit countlimit now
  have hopt : (process_run x w state blockstart blockmax timelimit countlimit
      now lim).final.state.opt = state.opt := fr.opt
  have hret : (process_run x w state blockstart blockmax timelimit countlimit now lim).ret
      = if state.opt.expect_recoverable = true then
          (if (process_run x w state blockstart blockmax timelimit countlimit
            now lim).final.error = 0 then -1 else 0)
        else (if (process_run x w state blockstart blockmax timelimit countlimit
            now lim).final.error ≠ 0 then -1 else 0) := by
    rw [← hopt]
    rfl
  refine ⟨?_, ?_⟩
  · rw [hret]
    cases state.opt.expect_recoverable <;> simp
  · rw [hret]
    cases state.opt.expect_recoverable <;> simp

theorem wrap_disk_error (j : Nat) :
    disk_error demo_helpers wrap_world wrap_state 0 false j = true := by
  simp [disk_error, open_failure, read_failure, hash_mismatch, read_hash, wrap_state, wrap_world,
    demo_world, demo_state, demo_helpers]

theorem wrap_disk_silent (j : Nat) :
    disk_silent demo_helpers wrap_world wrap_state 0 false j = true := by
  simp [disk_silent, hash_mismatch, read_hash, file_in_sync, in_sync, wrap_state, wrap_world,
    demo_world, demo_state, demo_helpers, demo_file]

theorem wrap_data_errors : data_errors demo_helpers wrap_world wrap_state 0 false = 4294967293 := by
  unfold data_errors
  rw [List.countP_eq_length.mpr (fun j _ => wrap_disk_error j), List.length_range]
  rfl

theorem wrap_data_silent : data_silent demo_helpers wrap_world wrap_state 0 false = 4294967293 := by
  unfold data_silent
  rw [List.countP_eq_length.mpr (fun j _ => wrap_disk_silent j), List.length_range]
  rfl

theorem wrap_rehash : demo_helpers.info_get_rehash (wrap_state.infoarr 0) = false := by decide

theorem total_errors_singleton (x : Helpers) (w : World) (state : snapraid_state) (k : Nat) :
    total_errors x w state [k] = stripe_errors x w state k (x.info_get_rehash (state.infoarr k)) := by
  simp [total_errors]

theorem total_silent_singleton (x : Helpers) (w : World) (state : snapraid_state) (k : Nat) :
    total_silent x w state [k] = stripe_silent x w state k (x.info_get_rehash (state.infoarr k)) := by
  simp [total_silent]

theorem stripe_errors_of_data (x : Helpers) (w : World) (state : snapraid_state) (i : Nat)
    (rehash : Bool) (h : data_errors x w state i rehash ≠ 0) :
    stripe_errors x w state i rehash = data_errors x w state i rehash
    ∧ stripe_silent x w state i rehash = data_silent x w state i rehash := by
  simp [stripe_errors, stripe_silent, h]

theorem wrap_totals :
    total_errors demo_helpers wrap_world wrap_state [0] = 4294967293
    ∧ total_silent demo_helpers wrap_world wrap_state [0] = 4294967293 := by
  have hne : data_errors demo_helpers wrap_world wrap_state 0 false ≠ 0 := by
    rw [wrap_data_errors]
    decide
  obtain ⟨h1, h2⟩ := stripe_errors_of_data demo_helpers wrap_world wrap_state 0 false hne
  rw [total_errors_singleton, total_silent_singleton, wrap_rehash, h1, h2, wrap_data_errors,
    wrap_data_silent]
  exact ⟨rfl, rfl⟩

theorem wrap_close_failures (n : Nat) : close_failures wrap_world (3 + n) = 3 := by
  unfold close_failures
  rw [List.range_add, List.countP_append, List.countP_map]
  have h0 : (List.range n).countP
      ((fun j => decide (wrap_world.handle_close_end j = -1)) ∘ (fun k => 3 + k)) = 0 := by
    rw [List.countP_eq_zero]
    intro a _
    simp [wrap_world]
  rw [h0]
  decide

theorem process_run_next {lim : Nat} (x : Helpers) (w : World) (state : snapraid_state)
    (blockstart blockmax : Nat) (timelimit : Int) (countlimit : Nat) (now : Int)
    (hclose : ∀ k j, close_failure w state k j = false)
    (hprog : ∀ k c, w.state_progress k c = false) :
    (process_run x w state blockstart blockmax timelimit countlimit now lim).flow = .next := by
  unfold process_run
  simp only []
  exact process_loop_next x w now timelimit countlimit state (blockmax - blockstart) blockstart
    (process_init x w state blockstart blockmax timelimit countlimit lim) rfl (fun _ _ => rfl) rfl
    (by simp [process_init, U32]) (by simp [process_init, U32]) hclose hprog

theorem wrap_flow :
    (process_run demo_helpers wrap_world wrap_state 0 1 10 1 100 0).flow = .next :=
  process_run_next demo_helpers wrap_world wrap_state 0 1 10 1 100
    (fun k j => by simp [close_failure, wrap_state, wrap_world, demo_world])
    (fun _ _ => rfl)

theorem wrap_visited :
    visited (process_run demo_helpers wrap_world wrap_state 0 1 10 1 100 0).final.trace = [0] := by
  rw [(state_scrub_process_visited demo_helpers wrap_world wrap_state 0 1 10 1 100 wrap_flow).1]
  decide

/-- C16, counterexample: one stripe on `2 ^ 32 - 3` data disks (blocks of one
byte, one parity level: no other 32-bit quantity of the function wraps) whose
blocks all mismatch their stored hash on files in sync, and three failing closes
in the cleanup loop.  The scan is complete and visits the stripe; `2 ^ 32 - 3` data
mismatches and three failed closes are counted, so the `unsigned` error counter
wraps to 0 while `silent_error` is `2 ^ 32 - 3`: the silent counter exceeds the
error counter, the error counter does not hold the number of errors, and
`state_scrub_process` returns 0 with `expect_recoverable` unset although errors
were found. -/
theorem C16_counterexample :
    wrap_state.diskmax + wrap_state.level * 2 < U32
    ∧ (wrap_state.diskmax + wrap_state.level * 2) * wrap_state.block_size < U32
    ∧ state_scrub_process demo_helpers wrap_world wrap_state 0 1 10 1 100
      = some (process_run demo_helpers wrap_world wrap_state 0 1 10 1 100 0)
    ∧ wrap_state.opt.expect_recoverable = false
    ∧ (process_run demo_helpers wrap_world wrap_state 0 1 10 1 100 0).flow = .next
    ∧ visited (process_run demo_helpers wrap_world wrap_state 0 1 10 1 100 0).final.trace = [0]
    ∧ data_errors demo_helpers wrap_world wrap_state 0 false = 4294967293
    ∧ data_silent demo_helpers wrap_world wrap_state 0 false = 4294967293
    ∧ close_failures wrap_world wrap_state.diskmax = 3
    ∧ (process_run demo_helpers wrap_world wrap_state 0 1 10 1 100 0).final.error = 0
    ∧ (process_run demo_helpers wrap_world wrap_state 0 1 10 1 100 0).final.silent_error
      = 4294967293
    ∧ ¬ ((process_run demo_helpers wrap_world wrap_state 0 1 10 1 100 0).final.silent_error
      ≤ (process_run demo_helpers wrap_world wrap_state 0 1 10 1 100 0).final.error)
    ∧ (process_run demo_helpers wrap_world wrap_state 0 1 10 1 100 0).ret = 0 := by
  obtain ⟨t1, t2⟩ := wrap_totals
  obtain ⟨e1, e2⟩ := @process_run_totals 0 demo_helpers wrap_world wrap_state 0 1 10 1 100
    demo_helpers_raid_laws (Or.inl rfl) (by rw [wrap_flow]; simp)
  rw [wrap_visited, t1] at e1
  rw [wrap_visited, t2] at e2
  have hc : close_failures wrap_world wrap_state.diskmax = 3 := wrap_close_failures 4294967290
  rw [hc] at e1
  have he : (process_run demo_helpers wrap_world wrap_state 0 1 10 1 100 0).final.error = 0 := by
    rw [e1]
    decide
  have hs : (process_run demo_helpers wrap_world wrap_state 0 1 10 1 100 0).final.silent_error
      = 4294967293 := by
    rw [e2]
    decide
  obtain ⟨r1, r2⟩ := @process_run_ret 0 demo_helpers wrap_world wrap_state 0 1 10 1 100
  refine ⟨by decide, by decide, by rfl, rfl, wrap_flow, wrap_visited, wrap_data_errors,
    wrap_data_silent, hc, he, hs, ?_, ?_⟩
  · rw [he, hs]
    decide
  · apply r2
    intro h
    rcases r1.mp h with ⟨-, h2⟩ | ⟨h1, -⟩
    · exact h2 he
    · exact absurd h1 (by decide)

/-- C16, amended: when the divisor of line 121 is not zero, `state_scrub_process`
returns, and it returns -1 exactly when `expect_recoverable` is unset and the final
error counter is not zero, or `expect_recoverable` is set and the counter is zero;
otherwise it returns 0.  The counters are `unsigned` and hold the counts modulo
`2 ^ 32`.  In a run not stopped by a failed close inside the loop, `error` is the
number, over the visited stripes, of open failures, read failures and data
mismatches, and for a stripe without any of these of failed parity reads and
parity mismatches, plus the number of closes that fail in the cleanup loop;
`silent_error` is the number of data mismatches on files in sync and of parity
mismatches of stripes all of whose opened files are in sync.  In a run stopped by
a failed close at slot `jb` of stripe `ib`, the errors of the slots before `jb`
and the failed close are counted as well.  The silent errors are among the errors
counted, so `silent_error <= error` holds whenever fewer than `2 ^ 32` errors are
counted. -/
theorem C16_return_code (x : Helpers) (w : World) (state : snapraid_state)
    (blockstart blockmax : Nat) (timelimit : Int) (countlimit : Nat) (now : Int)
    (hraid : RaidLaws x state.level) (hlevel : state.level = 1 ∨ state.level = 2)
    (hdiv : (state.diskmax * state.block_size) % U32 ≠ 0) :
    ∃ r, state_scrub_process x w state blockstart blockmax timelimit countlimit now = some r
      ∧ (r.ret = -1
          ↔ (state.opt.expect_recoverable = false ∧ r.final.error ≠ 0)
            ∨ (state.opt.expect_recoverable = true ∧ r.final.error = 0))
      ∧ (r.ret ≠ -1 → r.ret = 0)
      ∧ total_silent x w state (visited r.final.trace)
          ≤ total_errors x w state (visited r.final.trace)
      ∧ (r.flow ≠ .bail →
          r.final.error
            = (total_errors x w state (visited r.final.trace)
                + close_failures w state.diskmax) % U32
          ∧ r.final.silent_error = total_silent x w state (visited r.final.trace) % U32
          ∧ (total_errors x w state (visited r.final.trace)
                + close_failures w state.diskmax < U32 →
              r.final.silent_error ≤ r.final.error))
      ∧ (r.flow = .bail →
          ∃ ib jb, Event.print_stopping ib ∈ r.final.trace
            ∧ first_close_failure w state ib state.diskmax 0 = some jb
            ∧ r.final.error
              = (total_errors x w state (visited r.final.trace)
                  + stop_errors x w state ib (x.info_get_rehash (state.infoarr ib)) jb
                  + close_failures w state.diskmax) % U32
            ∧ r.final.silent_error
              = (total_silent x w state (visited r.final.trace)
                  + stop_silent x w state ib (x.info_get_rehash (state.infoarr ib)) jb) % U32
            ∧ stop_silent x w state ib (x.info_get_rehash (state.infoarr ib)) jb
              < stop_errors x w state ib (x.info_get_rehash (state.infoarr ib)) jb
            ∧ (total_errors x w state (visited r.final.trace)
                  + stop_errors x w state ib (x.info_get_rehash (state.infoarr ib)) jb
                  + close_failures w state.diskmax < U32 →
                r.final.silent_error ≤ r.final.error)) := by
  have hl := autosave_limit_some state hdiv
  refine ⟨_, state_scrub_process_some x w state blockstart blockmax timelimit countlimit now _ hl,
    ?_⟩
  obtain ⟨r1, r2⟩ := @process_run_ret ((state.autosave / ((state.diskmax * state.block_size) % U32)) % U32)
    x w state blockstart blockmax timelimit countlimit now
  have hle := total_silent_le x w state
    (visited (process_run x w state blockstart blockmax timelimit countlimit now
      ((state.autosave / ((state.diskmax * state.block_size) % U32)) % U32)).final.trace)
  refine ⟨r1, r2, hle, fun hn => ?_, fun hb => ?_⟩
  · obtain ⟨e1, e2⟩ := process_run_totals x w state blockstart blockmax timelimit countlimit now
      hraid hlevel hn
    refine ⟨e1, e2, fun hlt => ?_⟩
    rw [e1, e2, Nat.mod_eq_of_lt hlt, Nat.mod_eq_of_lt (by omega)]
    omega
  · obtain ⟨ib, jb, s1, s2, s3, s4⟩ := process_run_stop_verdict x w state blockstart blockmax
      timelimit countlimit now hraid hlevel hb
    have hst : stop_silent x w state ib (x.info_get_rehash (state.infoarr ib)) jb
        < stop_errors x w state ib (x.info_get_rehash (state.infoarr ib)) jb := by
      unfold stop_silent stop_errors
      have := countP_le_countP (disk_silent x w state ib (x.info_get_rehash (state.infoarr ib)))
        (disk_error x w state ib (x.info_get_rehash (state.infoarr ib))) (List.range jb)
        (fun j h => disk_silent_error x w state ib _ j h)
      omega
    refine ⟨ib, jb, s1, s2, s3, s4, hst, fun hlt => ?_⟩
    rw [s3, s4, Nat.mod_eq_of_lt hlt, Nat.mod_eq_of_lt (by omega)]
    omega

/-- Witness of C16 on the example array with, in stripe 3, a flipped byte of disk 1
on a file in sync and an open failure of disk 0: `state_scrub_process` returns -1
with two errors counted, one of them silent. -/
theorem C16_return_code_witness :
    (demo_state.diskmax * demo_state.block_size) % U32 ≠ 0
    ∧ state_scrub_process demo_helpers demo_world_mixed demo_state 0 4 30 4 0
      = some (process_run demo_helpers demo_world_mixed demo_state 0 4 30 4 0 0)
    ∧ ∃ r, state_scrub_process demo_helpers demo_world_mixed demo_state 0 4 30 4 0 = some r
      ∧ r.ret = -1 ∧ r.flow = .next ∧ visited r.final.trace = [0, 1, 3]
      ∧ r.final.error = 2 ∧ r.final.silent_error = 1
      ∧ total_errors demo_helpers demo_world_mixed demo_state (visited r.final.trace) = 2
      ∧ total_silent demo_helpers demo_world_mixed demo_state (visited r.final.trace) = 1
      ∧ close_failures demo_world_mixed demo_state.diskmax = 0 := by
  obtain ⟨r, h1, h2, -, -, h5, -⟩ := C16_return_code demo_helpers demo_world_mixed demo_state
    0 4 30 4 0 demo_helpers_raid_laws (Or.inl rfl) (by decide)
  have h0 : state_scrub_process demo_helpers demo_world_mixed demo_state 0 4 30 4 0
      = some (process_run demo_helpers demo_world_mixed demo_state 0 4 30 4 0 0) := by rfl
  have hr : r = process_run demo_helpers demo_world_mixed demo_state 0 4 30 4 0 0 :=
    Option.some.inj (h1.symm.trans h0)
  subst hr
  refine ⟨by decide, by rfl, _, h1, ?_, by decide, by decide, ?_, ?_, by decide, by decide,
    by decide⟩
  · exact h2.mpr (Or.inl ⟨rfl, by decide⟩)
  · exact (h5 (by decide)).1.trans (by decide)
  · exact (h5 (by decide)).2.1.trans (by decide)

/-! ## C19: the selection rule of the processing pass -/

theorem select_list_range (x : Helpers) (state : snapraid_state) (timelimit : Int)
    (countlimit : Nat) (n i c k : Nat)
    (h : k ∈ select_list x state timelimit countlimit n i c) : i ≤ k ∧ k < i + n := by
  induction n generalizing i c with
  | zero => simp [select_list] at h
  | succ n ih =>
    unfold select_list at h
    split at h
    · rcases List.mem_cons.mp h with h | h
      · omega
      · have := ih (i + 1) (c + 1) h
        omega
    · have := ih (i + 1) c h
      omega

theorem select_list_filter_lt (x : Helpers) (state : snapraid_state) (timelimit : Int)
    (countlimit : Nat) (n i c k : Nat) (hk : k ≤ i) :
    (select_list x state timelimit countlimit n i c).filter (fun m => decide (m < k)) = [] := by
  rw [List.filter_eq_nil_iff]
  intro m hm
  have := select_list_range x state timelimit countlimit n i c m hm
  simp
  omega

/-- Membership in `select_list`: an index of the range is selected exactly when
the selection test holds with the count of the indices selected before it. -/
theorem select_list_mem_iff (x : Helpers) (state : snapraid_state) (timelimit : Int)
    (countlimit : Nat) (n i c k : Nat) :
    k ∈ select_list x state timelimit countlimit n i c
      ↔ i ≤ k ∧ k < i + n
        ∧ selects x state timelimit countlimit k
            (c + ((select_list x state timelimit countlimit n i c).filter
              (fun m => decide (m < k))).length) = true := by
  induction n generalizing i c with
  | zero =>
    simp only [select_list, List.not_mem_nil, false_iff]
    omega
  | succ n ih =>
    unfold select_list
    by_cases hs : selects x state timelimit countlimit i c = true
    · rw [if_pos hs]
      by_cases hki : k = i
      · subst hki
        have hnil := select_list_filter_lt x state timelimit countlimit n (k + 1) (c + 1) k
          (by omega)
        simp only [List.mem_cons, true_or, true_iff, List.filter_cons, lt_self_iff_false,
          decide_False, Bool.false_eq_true, if_false, hnil, List.length_nil, Nat.add_zero]
        exact ⟨le_refl _, by omega, hs⟩
      · rw [List.mem_cons, ih (i + 1) (c + 1)]
        by_cases hlt : i < k
        · have hf : (i :: select_list x state timelimit countlimit n (i + 1) (c + 1)).filter
              (fun m => decide (m < k))
              = i :: (select_list x state timelimit countlimit n (i + 1) (c + 1)).filter
                (fun m => decide (m < k)) := by
            simp [List.filter_cons, hlt]
          rw [hf, List.length_cons]
          constructor
          · rintro (h | ⟨h1, h2, h3⟩)
            · exact absurd h hki
            · refine ⟨by omega, by omega, ?_⟩
              rw [← h3]
              congr 1
              omega
          · rintro ⟨h1, h2, h3⟩
            right
            refine ⟨by omega, by omega, ?_⟩
            rw [← h3]
            congr 1
            omega
        · constructor
          · rintro (h | ⟨h1, h2, h3⟩)
            · exact absurd h hki
            · omega
          · rintro ⟨h1, h2, h3⟩
            omega
    · rw [if_neg hs, ih (i + 1) c]
      by_cases hki : k = i
      · subst hki
        have hnil := select_list_filter_lt x state timelimit countlimit n (k + 1) c k (by omega)
        rw [hnil]
        simp only [List.length_nil, Nat.add_zero]
        constructor
        · rintro ⟨h1, h2, h3⟩
          omega
        · rintro ⟨h1, h2, h3⟩
          exact absurd h3 hs
      · constructor
        · rintro ⟨h1, h2, h3⟩
          exact ⟨by omega, by omega, h3⟩
        · rintro ⟨h1, h2, h3⟩
          exact ⟨by omega, by omega, h3⟩

/-- The selected indices that are not marked bad stay within the quota. -/
theorem select_list_good_le (x : Helpers) (state : snapraid_state) (timelimit : Int)
    (countlimit : Nat) (n i c : Nat) :
    ((select_list x state timelimit countlimit n i c).filter
      (fun k => !x.info_get_bad (state.infoarr k))).length + c ≤ max c countlimit := by
  induction n generalizing i c with
  | zero => simp [select_list]
  | succ n ih =>
    unfold select_list
    by_cases hs : selects x state timelimit countlimit i c = true
    · rw [if_pos hs]
      have h1 := ih (i + 1) (c + 1)
      by_cases hb : x.info_get_bad (state.infoarr i) = true
      · rw [List.filter_cons, if_neg (by simp [hb])]
        have : max (c + 1) countlimit ≤ max c countlimit + 1 := by omega
        omega
      · have hc : c < countlimit := by
          unfold selects at hs
          simp only [Bool.and_eq_true, Bool.or_eq_true, decide_eq_true_eq] at hs
          rcases hs.2 with h | h
          · exact absurd h hb
          · exact h.2
        rw [List.filter_cons, if_pos (by simpa using hb), List.length_cons]
        have : max (c + 1) countlimit = countlimit := by omega
        have : max c countlimit = countlimit := by omega
        omega
    · rw [if_neg hs]
      exact ih (i + 1) c

theorem select_list_sublist (x : Helpers) (state : snapraid_state) (timelimit : Int)
    (countlimit : Nat) (n i c : Nat) :
    (select_list x state timelimit countlimit n i c).Sublist (List.range' i n) := by
  induction n generalizing i c with
  | zero => simp [select_list]
  | succ n ih =>
    unfold select_list
    rw [List.range'_succ]
    split
    · exact (ih (i + 1) (c + 1)).cons₂ i
    · exact (ih (i + 1) c).cons i

theorem select_list_used (x : Helpers) (state : snapraid_state) (timelimit : Int)
    (countlimit : Nat) (n i c k : Nat)
    (h : k ∈ select_list x state timelimit countlimit n i c) : state.infoarr k ≠ 0 := by
  have := ((select_list_mem_iff x state timelimit countlimit n i c k).mp h).2.2
  unfold selects at this
  simp only [Bool.and_eq_true, decide_eq_true_eq] at this
  exact this.1

/-- C19: when the divisor of line 121 is not zero `state_scrub_process` returns,
and in a complete scan of `[blockstart, blockmax)` (no progress abort, no fatal
close error), a stripe `i` of the range whose info word is non-zero and not
marked bad is visited if and only if its time is at most `timelimit`, and
`force_scrub_even` is off or `i` is even, and the number of stripes visited at
indices below `i`, bad ones included, is below `countlimit`.  The number of
visited stripes not marked bad is at most `countlimit`, and the number of visited
stripes is at most `countlimit` plus the number of used stripes marked bad. -/
theorem C19_selection_rule (x : Helpers) (w : World) (state : snapraid_state)
    (blockstart blockmax : Nat) (timelimit : Int) (countlimit : Nat) (now : Int)
    (hdiv : (state.diskmax * state.block_size) % U32 ≠ 0) :
    ∃ r, state_scrub_process x w state blockstart blockmax timelimit countlimit now = some r
      ∧ (r.flow = .next →
        (∀ i, blockstart ≤ i → i < blockmax → state.infoarr i ≠ 0 →
          x.info_get_bad (state.infoarr i) = false →
          (i ∈ visited r.final.trace
            ↔ x.info_get_time (state.infoarr i) ≤ timelimit
              ∧ (state.opt.force_scrub_even = false ∨ i % 2 = 0)
              ∧ ((visited r.final.trace).filter (fun k => decide (k < i))).length
                < countlimit))
        ∧ ((visited r.final.trace).filter (fun k => !x.info_get_bad (state.infoarr k))).length
            ≤ countlimit
        ∧ (visited r.final.trace).length
            ≤ countlimit + ((List.range' blockstart (blockmax - blockstart)).filter
              (fun k => decide (state.infoarr k ≠ 0)
                && x.info_get_bad (state.infoarr k))).length) := by
  refine ⟨_, state_scrub_process_some x w state blockstart blockmax timelimit countlimit now _
    (autosave_limit_some state hdiv), fun hrun => ?_⟩
  obtain ⟨hv, -, -⟩ :=
    state_scrub_process_visited x w state blockstart blockmax timelimit countlimit now hrun
  rw [hv]
  have hgood := select_list_good_le x state timelimit countlimit (blockmax - blockstart)
    blockstart 0
  rw [Nat.add_zero, Nat.zero_max] at hgood
  refine ⟨?_, hgood, ?_⟩
  · intro i h1 h2 h0 hb
    rw [select_list_mem_iff, Nat.zero_add]
    unfold selects
    simp only [h0, hb, ne_eq, not_false_eq_true, decide_True, Bool.true_and, Bool.false_or,
      Bool.and_eq_true, decide_eq_true_eq, Bool.not_eq_true', Bool.and_eq_false_imp]
    constructor
    · rintro ⟨-, -, ⟨a, b⟩, c⟩
      refine ⟨a, ?_, c⟩
      cases he : state.opt.force_scrub_even
      · exact Or.inl rfl
      · right
        have := b he
        simp at this
        exact this
    · rintro ⟨a, b, c⟩
      refine ⟨h1, by omega, ⟨a, fun he => ?_⟩, c⟩
      rcases b with b | b
      · rw [b] at he
        exact absurd he (by simp)
      · simp [b]
  · have hlen : ∀ l : List Nat, l.length
        = (l.filter (fun k => !x.info_get_bad (state.infoarr k))).length
          + (l.filter (fun k => x.info_get_bad (state.infoarr k))).length := by
      intro l
      induction l with
      | nil => rfl
      | cons a t ih =>
        simp only [List.filter_cons, List.length_cons]
        cases x.info_get_bad (state.infoarr a) <;> simp <;> omega
    have hsub := select_list_sublist x state timelimit countlimit (blockmax - blockstart)
      blockstart 0
    have hbad : (select_list x state timelimit countlimit (blockmax - blockstart)
          blockstart 0).filter (fun k => x.info_get_bad (state.infoarr k))
        = (select_list x state timelimit countlimit (blockmax - blockstart)
          blockstart 0).filter
            (fun k => decide (state.infoarr k ≠ 0) && x.info_get_bad (state.infoarr k)) := by
      apply List.filter_congr
      intro k hk
      have := select_list_used x state timelimit countlimit _ _ _ k hk
      simp [this]
    have hle := (hsub.filter
      (fun k => decide (state.infoarr k ≠ 0) && x.info_get_bad (state.infoarr k))).length_le
    rw [hlen, hbad]
    omega

/-- Witness of C19 on the example array with `countlimit = 1` and `timelimit = 30`:
stripe 0 (time 10) is visited, stripe 1 is bad and visited, stripe 3 (time 20) is
not visited because two stripes were visited before it. -/
theorem C19_selection_rule_witness :
    (demo_state.diskmax * demo_state.block_size) % U32 ≠ 0
    ∧ ∃ r, state_scrub_process demo_helpers demo_world demo_state 0 4 30 1 100 = some r
      ∧ r.flow = .next
      ∧ visited r.final.trace = [0, 1]
      ∧ (3 ∈ visited r.final.trace
        ↔ demo_helpers.info_get_time (demo_state.infoarr 3) ≤ 30
          ∧ (demo_state.opt.force_scrub_even = false ∨ 3 % 2 = 0)
          ∧ ((visited r.final.trace).filter (fun k => decide (k < 3))).length < 1) := by
  obtain ⟨r, hr, h⟩ := C19_selection_rule demo_helpers demo_world demo_state 0 4 30 1 100
    (by decide)
  have h0 : state_scrub_process demo_helpers demo_world demo_state 0 4 30 1 100
      = some (process_run demo_helpers demo_world demo_state 0 4 30 1 100 0) := by rfl
  have he : r = process_run demo_helpers demo_world demo_state 0 4 30 1 100 0 :=
    Option.some.inj (hr.symm.trans h0)
  subst he
  exact ⟨by decide, _, hr, by decide, by decide,
    (h (by decide)).1 3 (by decide) (by decide) (by decide) (by decide)⟩

/-! ## C13: the default quota of an array of fewer than 12 stripes -/

theorem selects_zero_quota (x : Helpers) (state : snapraid_state) (timelimit : Int) (k c : Nat)
    (hb : x.info_get_bad (state.infoarr k) = false) :
    selects x state timelimit 0 k c = false := by
  unfold selects
  simp [hb]

/-- When no index of the range passes the selection test the processing loop
leaves everything as it was. -/
theorem process_loop_none (x : Helpers) (w : World) (now timelimit : Int) (countlimit : Nat)
    (n i : Nat) (p : Proc)
    (h : ∀ k, i ≤ k → k < i + n → selects x p.state timelimit countlimit k p.recountmax = false) :
    process_loop x w now timelimit countlimit n i p = (.next, p) := by
  induction n generalizing i with
  | zero => rfl
  | succ n ih =>
    unfold process_loop
    rw [process_iter_eq, if_neg (by rw [h i (le_refl _) (by omega)]; simp)]
    exact ih (i + 1) (fun k h1 h2 => h k (by omega) (by omega))

theorem select_list_none (x : Helpers) (state : snapraid_state) (timelimit : Int)
    (countlimit : Nat) (n i c : Nat)
    (h : ∀ k, i ≤ k → k < i + n → selects x state timelimit countlimit k c = false) :
    select_list x state timelimit countlimit n i c = [] := by
  induction n generalizing i with
  | zero => rfl
  | succ n ih =>
    unfold select_list
    rw [if_neg (by rw [h i (le_refl _) (by omega)]; simp)]
    exact ih (i + 1) (fun k h1 h2 => h k (by omega) (by omega))

/-- C13, evaluation at the array of scenario 1 (two disks, four stripes, one parity
level, every stripe used and verified 30 days before `now`, no stripe marked bad,
no option): the quota is `4 / 12 = 0` and `state_scrub` reads `infomap[4294967295]`
in a vector of 4 words before any stripe is looked at.  Whatever time limit
comes out of that read, `state_scrub_process` called with the quota 0 leaves the
catalog as it was (no info word, no stored hash changes, `need_write` stays
unset), calls `state_progress` for no stripe and prints no summary line. -/
theorem C13_default_quota_zero :
    infomap scenario1_state 4 ≠ []
    ∧ (∀ i, demo_helpers.info_get_bad (scenario1_state.infoarr i) = false)
    ∧ scenario1_state.opt.force_scrub = 0 ∧ scenario1_state.opt.force_scrub_even = false
    ∧ state_scrub demo_helpers demo_world scenario1_state 3000000
      = .error (.index_out_of_bounds 4294967295 4)
    ∧ ∀ timelimit : Int,
      ∃ r, state_scrub_process demo_helpers demo_world scenario1_state 0 4 timelimit 0
          3000000 = some r
        ∧ r.final.state = scenario1_state
        ∧ r.final.trace = [.progress_begin 0 4 0, .progress_end 0 0 0]
        ∧ r.ret = 0 := by
  have hbad : ∀ i, demo_helpers.info_get_bad (scenario1_state.infoarr i) = false := by
    intro i
    unfold scenario1_state
    simp only []
    split <;> rfl
  refine ⟨by decide, hbad, rfl, rfl, by rfl, fun timelimit => ?_⟩
  have hsel : ∀ k c, selects demo_helpers scenario1_state timelimit 0 k c = false :=
    fun k c => selects_zero_quota demo_helpers scenario1_state timelimit k c (hbad k)
  have hcount : count_loop demo_helpers scenario1_state timelimit 0 (4 - 0) 0 0 = 0 := by
    rw [count_loop_eq, select_list_none _ _ _ _ _ _ _ (fun k _ _ => hsel k 0)]
    rfl
  have hloop := process_loop_none demo_helpers demo_world 3000000 timelimit 0 (4 - 0) 0
    (process_init demo_helpers demo_world scenario1_state 0 4 timelimit 0 0)
    (fun k _ _ => hsel k _)
  refine ⟨_, state_scrub_process_some demo_helpers demo_world scenario1_state 0 4 timelimit 0
    3000000 0 (by decide), ?_⟩
  unfold process_run
  simp only [hloop]
  simp only [process_init, hcount]
  refine ⟨rfl, rfl, rfl⟩

/-! ## C18: the quota and the oldest blocks -/

/-- C18, evaluation at the failing input: four stripes whose times are 5, 5, 3 and
unused, no stripe marked bad, `force_scrub = 2`, even mode off.  The sorted times
are 3, 5, 5, the limit is the second one, 5, and the processing pass spends the
quota of 2 in index order on stripes 0 and 1 (time 5): the complete scan leaves
out stripe 2, used and older (time 3) than both stripes visited. -/
theorem C18_oldest_first_ties :
    (∀ i, demo_helpers.info_get_bad (ties_state.infoarr i) = false)
    ∧ ties_state.opt.force_scrub_even = false
    ∧ (option_limits ties_state 4 100).1 = 2
    ∧ scrub_limits demo_helpers ties_state 4 100 = .ok (5, 2)
    ∧ (∃ ret r, state_scrub demo_helpers demo_world ties_state 100 = .ok (ret, r)
        ∧ r.flow = .next ∧ visited r.final.trace = [0, 1])
    ∧ ties_state.infoarr 2 ≠ 0
    ∧ demo_helpers.info_get_time (ties_state.infoarr 2) = 3
    ∧ demo_helpers.info_get_time (ties_state.infoarr 0) = 5
    ∧ demo_helpers.info_get_time (ties_state.infoarr 1) = 5 := by
  refine ⟨fun i => ?_, rfl, by decide, by rfl, ?_, by decide, by decide, by decide, by decide⟩
  · unfold ties_state
    simp only []
    repeat' split
    all_goals rfl
  · exact ⟨0, process_run demo_helpers demo_world ties_state 0 4 5 2 100 0, by rfl,
      by decide, by decide⟩

/-! ## C17: a data mismatch and the parity check -/

theorem disk_iter_bail (x : Helpers) (w : World) (i : Nat) (rehash : Bool) (j : Nat)
    (pl : Proc × Locals) (file : snapraid_file)
    (hd : pl.1.state.disk j = true) (hf : (pl.1.state.block j i).file = some file)
    (hc : w.handle_file i j ≠ some file.id ∧ w.handle_close i j = -1) :
    (disk_iter x w i rehash j pl).1 = .bail := by
  unfold disk_iter
  simp only [Proc.set_rehandle_state, hd, Bool.not_true, Bool.false_eq_true, if_false, hf,
    if_pos hc]

/-- A data mismatch in the sense of `data_mismatch` is one of the errors of the
block counted by `disk_error`. -/
theorem data_mismatch_disk_error (x : Helpers) (w : World) (state : snapraid_state) (i : Nat)
    (rehash : Bool) (j : Nat) (file : snapraid_file)
    (hm : data_mismatch x w state i rehash j file) :
    disk_error x w state i rehash j = true := by
  obtain ⟨m1, m2, m3, m4, m5, m6⟩ := hm
  unfold disk_error hash_mismatch read_hash
  cases rehash <;> simp_all

/-- A data mismatch on a disk of the stripe leaves one of the two flags set at
the end of the per-disk loop. -/
theorem disk_loop_mismatch (x : Helpers) (w : World) (i : Nat) (rehash : Bool) (n j0 : Nat)
    (pl : Proc × Locals) (j : Nat) (file : snapraid_file) (h1 : j0 ≤ j) (h2 : j < j0 + n)
    (hm : data_mismatch x w pl.1.state i rehash j file)
    (hn : (disk_loop x w i rehash n j0 pl).1 = .next) :
    (disk_loop x w i rehash n j0 pl).2.2.error_on_this_block = true
      ∨ (disk_loop x w i rehash n j0 pl).2.2.silent_error_on_this_block = true := by
  induction n generalizing j0 pl with
  | zero => omega
  | succ n ih =>
    by_cases hf : (disk_iter x w i rehash j0 pl).1 = .next
    · have fr := disk_iter_frame x w i rehash j0 pl
      by_cases hj : j = j0
      · subst hj
        obtain ⟨m1, m2, m3, m4, m5, m6⟩ := hm
        have hc : ¬ (w.handle_file i j ≠ some file.id ∧ w.handle_close i j = -1) := by
          intro hc
          rw [disk_iter_bail x w i rehash j pl file m1 m2 hc] at hf
          exact absurd hf (by simp)
        obtain ⟨-, a2, a3, a4⟩ := disk_iter_mismatch x w i rehash j pl file m1 m2 hc m3 m4 m5 m6
        rcases hpl : disk_iter x w i rehash j pl with ⟨f, pl1⟩
        rw [hpl] at hf fr a2 a3 a4
        simp only [] at hf fr a2 a3 a4
        subst hf
        rw [disk_loop_succ_next x w i rehash n j pl pl1 hpl] at hn ⊢
        have fr2 := disk_loop_frame x w i rehash n (j + 1) pl1
        by_cases hs : in_sync (w.handle_st i j) file
        · exact Or.inr (fr2.sflag_mono (a3 hs).2.1)
        · exact Or.inl (fr2.eflag_mono (a4 hs).2.1)
      · rcases hpl : disk_iter x w i rehash j0 pl with ⟨f, pl1⟩
        rw [hpl] at hf fr
        simp only [] at hf fr
        subst hf
        rw [disk_loop_succ_next x w i rehash n j0 pl pl1 hpl] at hn ⊢
        exact ih (j0 + 1) pl1 (by omega) (by omega) (by rw [fr.state]; exact hm) hn
    · rw [disk_loop_succ_stop x w i rehash n j0 pl hf] at hn
      exact absurd hn hf

theorem countP_parity_filter (t : List Event) :
    (t.filter (fun e => !e.is_data)).countP Event.is_parity = t.countP Event.is_parity := by
  rw [List.countP_filter]
  congr 1
  funext e
  cases e <;> rfl

/-- C17, counterexample: in stripe 3 of the example the stored hash of disk 1
mismatches the hash of the bytes read and the parity file cannot be read; the
stripe is visited, the error counter goes from 0 to 1, not 2, and no parity read
failure is logged: the parity was not read. -/
theorem C17_counterexample :
    data_mismatch demo_helpers demo_world_noparity demo_proc.state 3
      (demo_helpers.info_get_rehash (demo_proc.state.infoarr 3)) 1 (demo_file 1)
    ∧ (demo_world_noparity.parity_read 3).1 = -1
    ∧ 3 ∈ visited (visit demo_helpers demo_world_noparity 100 3 (demo_proc.state.infoarr 3)
        demo_proc).2.trace
    ∧ demo_proc.error = 0
    ∧ (visit demo_helpers demo_world_noparity 100 3 (demo_proc.state.infoarr 3)
        demo_proc).2.error = 1
    ∧ Event.log_parity_read_error 3 ∉ (visit demo_helpers demo_world_noparity 100 3
        (demo_proc.state.infoarr 3) demo_proc).2.trace
    ∧ Event.call_parity_read 3 ∉ (visit demo_helpers demo_world_noparity 100 3
        (demo_proc.state.infoarr 3) demo_proc).2.trace := by
  refine ⟨by decide, by decide, by decide, by decide, by decide, by decide, by decide⟩

/-- C17, amended: on a stripe whose verification runs to its end and on which the
stored hash of a data block mismatches the hash computed from the bytes read, the
per-disk pass of that block adds one to the `unsigned` error counter, and the
parity check is not made: the verification ends with the per-disk loop, no parity
or qarity read, parity computation or parity error line is added to the trace, so
a parity read failure is never counted on such a stripe.  The errors counted on
the stripe are those of its data blocks (open failures, read failures and
mismatches), at least one, added to the counter modulo `2 ^ 32`; they are the
events of the per-disk loop that come with a `++error`. -/
theorem C17_mismatch_skips_parity (x : Helpers) (w : World) (i : Nat) (rehash : Bool) (p : Proc)
    (j : Nat) (file : snapraid_file) (hj : j < p.state.diskmax)
    (he : p.error < U32) (hs : p.silent_error < U32)
    (hm : data_mismatch x w p.state i rehash j file)
    (hv : (verify x w i rehash p).1 = .next) :
    (verify x w i rehash p).2
      = (disk_loop x w i rehash p.state.diskmax 0 (p, ⟨false, false, false⟩)).2
    ∧ (verify x w i rehash p).2.1.trace.countP Event.is_parity = p.trace.countP Event.is_parity
    ∧ (∀ pl : Proc × Locals, pl.1.state = p.state → (disk_iter x w i rehash j pl).1 = .next →
        (disk_iter x w i rehash j pl).2.1.error = (pl.1.error + 1) % U32)
    ∧ (verify x w i rehash p).2.1.error = (p.error + data_errors x w p.state i rehash) % U32
    ∧ 1 ≤ data_errors x w p.state i rehash
    ∧ (p.error + data_errors x w p.state i rehash < U32 →
        p.error + 1 ≤ (verify x w i rehash p).2.1.error)
    ∧ ((verify x w i rehash p).2.1.error + p.trace.countP Event.counts_error) % U32
      = (p.error + (verify x w i rehash p).2.1.trace.countP Event.counts_error) % U32 := by
  have hk := disk_loop_kinds x w i rehash p.state.diskmax 0 (p, ⟨false, false, false⟩)
  have hdl := disk_loop_mismatch x w i rehash p.state.diskmax 0 (p, ⟨false, false, false⟩) j file
    (Nat.zero_le _) (by omega) hm
  have hfr := (verify_frame x w i rehash p).errors
  have heq : (verify x w i rehash p).2
      = (disk_loop x w i rehash p.state.diskmax 0 (p, ⟨false, false, false⟩)).2 := by
    unfold verify at hv ⊢
    simp only [] at hv ⊢
    generalize disk_loop x w i rehash p.state.diskmax 0 (p, ⟨false, false, false⟩) = D
      at hv hdl ⊢
    obtain ⟨f, pl0⟩ := D
    cases f
    · simp only [] at hdl ⊢
      have hflag := hdl trivial
      unfold parity_check
      rw [if_neg]
      rcases hflag with h | h <;> simp [h]
    · rfl
    · rfl
  have hflow : (disk_loop x w i rehash p.state.diskmax 0 (p, ⟨false, false, false⟩)).1 = .next := by
    unfold verify at hv
    simp only [] at hv
    generalize disk_loop x w i rehash p.state.diskmax 0 (p, ⟨false, false, false⟩) = D at hv ⊢
    obtain ⟨f, pl0⟩ := D
    cases f
    · rfl
    · simp at hv
    · simp at hv
  have hcount : (verify x w i rehash p).2.1.error
      = (p.error + data_errors x w p.state i rehash) % U32 := by
    rw [heq, (disk_loop_verdict x w i rehash p.state.diskmax 0 (p, ⟨false, false, false⟩) hflow
      he hs).1]
    unfold data_errors
    rw [List.range_eq_range']
  have hpos : 1 ≤ data_errors x w p.state i rehash := by
    unfold data_errors
    exact List.countP_pos_iff.mpr ⟨j, List.mem_range.mpr hj,
      data_mismatch_disk_error x w p.state i rehash j file hm⟩
  refine ⟨heq, ?_, ?_, hcount, hpos, ?_, hfr⟩
  · rw [heq, ← countP_parity_filter, hk, countP_parity_filter]
  · intro pl hst hf
    obtain ⟨m1, m2, m3, m4, m5, m6⟩ := hm
    rw [← hst] at m1 m2 m5 m6
    have hc : ¬ (w.handle_file i j ≠ some file.id ∧ w.handle_close i j = -1) := by
      intro hc
      rw [disk_iter_bail x w i rehash j pl file m1 m2 hc] at hf
      exact absurd hf (by simp)
    exact (disk_iter_mismatch x w i rehash j pl file m1 m2 hc m3 m4 m5 m6).2.1
  · intro hlt
    rw [hcount, Nat.mod_eq_of_lt hlt]
    omega

/-- Witness of the amended C17 on stripe 3 of the example, disk 1 with a flipped
byte and the parity file unreadable: the verification is that of the per-disk
loop and counts one error. -/
theorem C17_mismatch_skips_parity_witness :
    (verify demo_helpers demo_world_noparity 3 true demo_proc.count_visit).2
      = (disk_loop demo_helpers demo_world_noparity 3 true demo_proc.count_visit.state.diskmax 0
          (demo_proc.count_visit, ⟨false, false, false⟩)).2
    ∧ data_errors demo_helpers demo_world_noparity demo_proc.count_visit.state 3 true = 1
    ∧ demo_proc.count_visit.error + 1
      ≤ (verify demo_helpers demo_world_noparity 3 true demo_proc.count_visit).2.1.error := by
  obtain ⟨a, -, -, -, -, b, -⟩ := C17_mismatch_skips_parity demo_helpers demo_world_noparity 3 true
    demo_proc.count_visit 1 (demo_file 1) (by decide) (by decide) (by decide) (by decide)
    (by decide)
  exact ⟨a, by decide, b (by decide)⟩

/-! ## C20: the silent flag takes precedence -/

/-- A stripe has a silent error exactly when a data block of a file in sync
mismatches its stored hash, or no data block gives an error, no opened file
differs from the catalog and P or Q mismatches. -/
theorem stripe_silent_pos_iff (x : Helpers) (w : World) (state : snapraid_state) (i : Nat)
    (rehash : Bool) :
    0 < stripe_silent x w state i rehash
      ↔ (∃ j, j < state.diskmax ∧ hash_mismatch x w state i rehash j = true
            ∧ file_in_sync w state i j = true)
        ∨ ((∀ j, j < state.diskmax → disk_error x w state i rehash j = false)
          ∧ stripe_unsynched w state i = false
          ∧ (parity_mismatch x w state i = true ∨ qarity_mismatch x w state i = true)) := by
  have hzero : data_errors x w state i rehash = 0
      ↔ ∀ j, j < state.diskmax → disk_error x w state i rehash j = false := by
    unfold data_errors
    rw [List.countP_eq_zero]
    simp only [List.mem_range, Bool.not_eq_true]
  unfold stripe_silent
  by_cases hd : data_errors x w state i rehash = 0
  · rw [if_pos hd]
    have hall := hzero.mp hd
    constructor
    · intro h
      right
      cases hu : stripe_unsynched w state i
      · rw [hu] at h
        simp only [Bool.false_eq_true, if_false] at h
        refine ⟨hall, rfl, ?_⟩
        unfold parity_mismatches at h
        cases hp : parity_mismatch x w state i
        · cases hq : qarity_mismatch x w state i
          · rw [hp, hq] at h
            simp at h
          · exact Or.inr rfl
        · exact Or.inl rfl
      · rw [hu] at h
        simp at h
    · rintro (⟨j, hj, hm, hs⟩ | ⟨-, hu, hpq⟩)
      · have := hall j hj
        unfold disk_error at this
        rw [hm] at this
        simp at this
      · rw [hu]
        simp only [Bool.false_eq_true, if_false]
        unfold parity_mismatches
        rcases hpq with h | h <;> rw [h] <;> simp
  · rw [if_neg hd]
    unfold data_silent
    rw [List.countP_pos_iff]
    constructor
    · rintro ⟨j, hj, hs⟩
      left
      unfold disk_silent at hs
      simp only [Bool.and_eq_true] at hs
      exact ⟨j, List.mem_range.mp hj, hs.1, hs.2⟩
    · rintro (⟨j, hj, hm, hs⟩ | ⟨hall, -, -⟩)
      · refine ⟨j, List.mem_range.mpr hj, ?_⟩
        unfold disk_silent
        rw [hm, hs]
        rfl
      · exact absurd (hzero.mpr hall) hd

/-- A stripe has no error exactly when no data block gives an error, both parity
reads succeed and neither P nor Q mismatches. -/
theorem stripe_errors_eq_zero_iff (x : Helpers) (w : World) (state : snapraid_state) (i : Nat)
    (rehash : Bool) :
    stripe_errors x w state i rehash = 0
      ↔ (∀ j, j < state.diskmax → disk_error x w state i rehash j = false)
        ∧ parity_read_failure w i = false ∧ qarity_read_failure w state i = false
        ∧ parity_mismatch x w state i = false ∧ qarity_mismatch x w state i = false := by
  have hzero : data_errors x w state i rehash = 0
      ↔ ∀ j, j < state.diskmax → disk_error x w state i rehash j = false := by
    unfold data_errors
    rw [List.countP_eq_zero]
    simp only [List.mem_range, Bool.not_eq_true]
  unfold stripe_errors
  by_cases hd : data_errors x w state i rehash = 0
  · rw [if_pos hd]
    unfold parity_errors parity_mismatches
    constructor
    · intro h
      refine ⟨hzero.mp hd, ?_, ?_, ?_, ?_⟩
      · cases hc : parity_read_failure w i
        · rfl
        · rw [hc] at h
          simp at h
      · cases hc : qarity_read_failure w state i
        · rfl
        · rw [hc] at h
          simp at h
      · cases hc : parity_mismatch x w state i
        · rfl
        · rw [hc] at h
          simp at h
      · cases hc : qarity_mismatch x w state i
        · rfl
        · rw [hc] at h
          simp at h
    · rintro ⟨-, h1, h2, h3, h4⟩
      rw [h1, h2, h3, h4]
      rfl
  · rw [if_neg hd]
    constructor
    · intro h
      exact absurd h hd
    · rintro ⟨h, -⟩
      exact absurd (hzero.mpr h) hd

/-- The info array after a visited stripe, by the flags its verification ends
with. -/
theorem visit_infoarr (x : Helpers) (w : World) (now : Int) (i : Nat) (p : Proc)
    (hv : (verify x w i (x.info_get_rehash (p.state.infoarr i)) p.count_visit).1 = .next) :
    ((verify x w i (x.info_get_rehash (p.state.infoarr i))
        p.count_visit).2.2.silent_error_on_this_block = true →
      (visit x w now i (p.state.infoarr i) p).2.state.infoarr
        = upd p.state.infoarr i (x.info_set_bad (p.state.infoarr i)))
    ∧ ((verify x w i (x.info_get_rehash (p.state.infoarr i))
        p.count_visit).2.2.silent_error_on_this_block = false →
      (verify x w i (x.info_get_rehash (p.state.infoarr i))
        p.count_visit).2.2.error_on_this_block = true →
      (visit x w now i (p.state.infoarr i) p).2.state.infoarr = p.state.infoarr)
    ∧ ((verify x w i (x.info_get_rehash (p.state.infoarr i))
        p.count_visit).2.2.silent_error_on_this_block = false →
      (verify x w i (x.info_get_rehash (p.state.infoarr i))
        p.count_visit).2.2.error_on_this_block = false →
      (visit x w now i (p.state.infoarr i) p).2.state.infoarr
        = upd p.state.infoarr i (x.info_make now 0 0)) := by
  have fr := verify_frame x w i (x.info_get_rehash (p.state.infoarr i)) p.count_visit
  have hst : (verify x w i (x.info_get_rehash (p.state.infoarr i)) p.count_visit).2.1.state
      = p.state := by rw [fr.state]; rfl
  rw [visit_eq x w now i _ p hv, (finish_stripe_fields w i _).2.2.2.1]
  refine ⟨fun hs => ?_, fun hs he => ?_, fun hs he => ?_⟩
  · unfold outcome
    rw [if_pos hs, Proc.info_set_infoarr, hst]
  · unfold outcome
    rw [if_neg (by simp [hs]), if_pos he, hst]
  · unfold outcome
    rw [if_neg (by simp [hs]), if_neg (by simp [he])]
    split
    · rw [Proc.info_set_infoarr, (rehash_commit_fields _ _ _).2.2.2.2.2.2.2.2.1, hst]
    · rw [Proc.info_set_infoarr, hst]

/-- C20: for a visited stripe `i` whose verification runs to its end, with the
mismatches and failures read off the answers of the disks and the catalog
(`hash_mismatch`: the hash of the bytes read differs from the stored hash;
`parity_mismatch`, `qarity_mismatch`: the parity `raid_gen` computes from the data
read differs from the parity read).

The silent flag is set at the end of the verification if and only if the stored
hash of some data block of an in-sync file mismatched, or no data block gave an
error, no opened file differed from the catalog and P or Q mismatched.  When it
is set the info word is rewritten with `info_set_bad`: bad flag set, time kept,
whatever the error flag (open failures, read failures, mismatches of unsynched
files on other disks).  When only the error flag is set the info array is left as
it was.  Neither flag is set exactly when the stripe has no error at all, and
then the word is rewritten with `info_make(now, 0, 0)`, whose time is `now`.  So
the time is overwritten with `now` exactly when neither flag is set. -/
theorem C20_silent_precedence (x : Helpers) (w : World) (now : Int) (i : Nat) (p : Proc)
    (hlaws : InfoLaws x) (hnow : 0 ≤ now)
    (hraid : RaidLaws x p.state.level) (hlevel : p.state.level = 1 ∨ p.state.level = 2)
    (he : p.error < U32) (hs : p.silent_error < U32)
    (hv : (verify x w i (x.info_get_rehash (p.state.infoarr i)) p.count_visit).1 = .next) :
    ((verify x w i (x.info_get_rehash (p.state.infoarr i))
        p.count_visit).2.2.silent_error_on_this_block = true
      ↔ (∃ j, j < p.state.diskmax
            ∧ hash_mismatch x w p.state i (x.info_get_rehash (p.state.infoarr i)) j = true
            ∧ file_in_sync w p.state i j = true)
        ∨ ((∀ j, j < p.state.diskmax →
              disk_error x w p.state i (x.info_get_rehash (p.state.infoarr i)) j = false)
          ∧ stripe_unsynched w p.state i = false
          ∧ (parity_mismatch x w p.state i = true ∨ qarity_mismatch x w p.state i = true)))
    ∧ (((verify x w i (x.info_get_rehash (p.state.infoarr i))
          p.count_visit).2.2.silent_error_on_this_block = false
        ∧ (verify x w i (x.info_get_rehash (p.state.infoarr i))
          p.count_visit).2.2.error_on_this_block = false)
      ↔ (∀ j, j < p.state.diskmax →
            disk_error x w p.state i (x.info_get_rehash (p.state.infoarr i)) j = false)
        ∧ parity_read_failure w i = false ∧ qarity_read_failure w p.state i = false
        ∧ parity_mismatch x w p.state i = false ∧ qarity_mismatch x w p.state i = false)
    ∧ ((verify x w i (x.info_get_rehash (p.state.infoarr i))
          p.count_visit).2.2.silent_error_on_this_block = true →
        (visit x w now i (p.state.infoarr i) p).2.state.infoarr
          = upd p.state.infoarr i (x.info_set_bad (p.state.infoarr i))
        ∧ x.info_get_bad ((visit x w now i (p.state.infoarr i) p).2.state.infoarr i) = true
        ∧ x.info_get_time ((visit x w now i (p.state.infoarr i) p).2.state.infoarr i)
          = x.info_get_time (p.state.infoarr i))
    ∧ ((verify x w i (x.info_get_rehash (p.state.infoarr i))
          p.count_visit).2.2.silent_error_on_this_block = false →
        (verify x w i (x.info_get_rehash (p.state.infoarr i))
          p.count_visit).2.2.error_on_this_block = true →
        (visit x w now i (p.state.infoarr i) p).2.state.infoarr = p.state.infoarr)
    ∧ ((verify x w i (x.info_get_rehash (p.state.infoarr i))
          p.count_visit).2.2.silent_error_on_this_block = false →
        (verify x w i (x.info_get_rehash (p.state.infoarr i))
          p.count_visit).2.2.error_on_this_block = false →
        (visit x w now i (p.state.infoarr i) p).2.state.infoarr
          = upd p.state.infoarr i (x.info_make now 0 0)
        ∧ x.info_get_bad ((visit x w now i (p.state.infoarr i) p).2.state.infoarr i) = false
        ∧ x.info_get_time ((visit x w now i (p.state.infoarr i) p).2.state.infoarr i) = now) := by
  obtain ⟨-, -, v3, v4⟩ := verify_verdict x w i (x.info_get_rehash (p.state.infoarr i))
    p.count_visit hv hraid hlevel he hs
  rw [Proc.count_visit_state] at v3 v4
  have hle := stripe_silent_le x w p.state i (x.info_get_rehash (p.state.infoarr i))
  obtain ⟨i1, i2, i3⟩ := visit_infoarr x w now i p hv
  refine ⟨?_, ?_, fun hs => ?_, i2, fun hs he => ?_⟩
  · rw [v3, decide_eq_true_iff]
    exact stripe_silent_pos_iff x w p.state i _
  · rw [v3, v4, decide_eq_false_iff_not, decide_eq_false_iff_not,
      ← stripe_errors_eq_zero_iff]
    omega
  · have h := i1 hs
    refine ⟨h, ?_, ?_⟩
    · rw [h, upd_same, hlaws.bad_set_bad]
    · rw [h, upd_same, hlaws.time_set_bad]
  · have h := i3 hs he
    refine ⟨h, ?_, ?_⟩
    · rw [h, upd_same, hlaws.bad_make]
      simp
    · rw [h, upd_same, hlaws.time_make now 0 0 hnow]

/-- Witness of C20 on stripe 3 of the example, a mixed stripe: disk 0 fails to
open, disk 1 has a flipped byte on a file in sync.  Both flags are set, and the
info word 82 becomes 83: bad flag set, time 20 kept. -/
theorem C20_silent_precedence_witness :
    open_failure demo_world_mixed demo_proc.state 3 0 = true
    ∧ hash_mismatch demo_helpers demo_world_mixed demo_proc.state 3
        (demo_helpers.info_get_rehash (demo_proc.state.infoarr 3)) 1 = true
    ∧ file_in_sync demo_world_mixed demo_proc.state 3 1 = true
    ∧ (verify demo_helpers demo_world_mixed 3 (demo_helpers.info_get_rehash
        (demo_proc.state.infoarr 3)) demo_proc.count_visit).2.2.error_on_this_block = true
    ∧ (verify demo_helpers demo_world_mixed 3 (demo_helpers.info_get_rehash
        (demo_proc.state.infoarr 3)) demo_proc.count_visit).2.2.silent_error_on_this_block = true
    ∧ (visit demo_helpers demo_world_mixed 100 3 (demo_proc.state.infoarr 3)
        demo_proc).2.state.infoarr 3 = 83
    ∧ demo_helpers.info_get_bad ((visit demo_helpers demo_world_mixed 100 3
        (demo_proc.state.infoarr 3) demo_proc).2.state.infoarr 3) = true
    ∧ demo_helpers.info_get_time ((visit demo_helpers demo_world_mixed 100 3
        (demo_proc.state.infoarr 3) demo_proc).2.state.infoarr 3) = 20 := by
  obtain ⟨s, -, a, -, -⟩ := C20_silent_precedence demo_helpers demo_world_mixed 100 3 demo_proc
    demo_helpers_laws (by decide) demo_helpers_raid_laws (Or.inl rfl) (by decide) (by decide)
    (by decide)
  have hs := s.mpr (Or.inl ⟨1, by decide, by decide, by decide⟩)
  obtain ⟨a1, a2, a3⟩ := a hs
  refine ⟨by decide, by decide, by decide, by decide, hs, ?_, a2, ?_⟩
  · rw [a1]
    decide
  · rw [a3]
    decide

/-! ## The autosave counters -/

theorem foldl_filter_kinds (f : Nat → Event → Nat)
    (hf : ∀ n e, (!e.is_data && !e.is_parity) = false → f n e = n) (t : List Event) (n : Nat) :
    (t.filter (fun e => !e.is_data && !e.is_parity)).foldl f n = t.foldl f n := by
  induction t generalizing n with
  | nil => rfl
  | cons e t ih =>
    rw [List.filter_cons]
    by_cases he : (!e.is_data && !e.is_parity) = true
    · rw [if_pos he, List.foldl_cons, List.foldl_cons, ih]
    · rw [if_neg he, List.foldl_cons, ih, hf n e (by simpa using he)]

theorem since_save_filter (t : List Event) :
    since_save (t.filter (fun e => !e.is_data && !e.is_parity)) = since_save t := by
  unfold since_save
  apply foldl_filter_kinds
  intro n e he
  cases e <;> first | rfl | simp [Event.is_data, Event.is_parity] at he

theorem countP_filter_kinds (q : Event → Bool)
    (hq : ∀ e, q e = true → (!e.is_data && !e.is_parity) = true) (t : List Event) :
    (t.filter (fun e => !e.is_data && !e.is_parity)).countP q = t.countP q := by
  rw [List.countP_filter]
  congr 1
  funext e
  cases h : q e
  · rfl
  · rw [hq e h]
    rfl

theorem verify_since_save (x : Helpers) (w : World) (i : Nat) (rehash : Bool) (p : Proc) :
    since_save (verify x w i rehash p).2.1.trace = since_save p.trace := by
  rw [← since_save_filter, verify_kinds, since_save_filter]

theorem verify_countP (x : Helpers) (w : World) (i : Nat) (rehash : Bool) (p : Proc)
    (q : Event → Bool) (hq : ∀ e, q e = true → (!e.is_data && !e.is_parity) = true) :
    (verify x w i rehash p).2.1.trace.countP q = p.trace.countP q := by
  rw [← countP_filter_kinds q hq, verify_kinds, countP_filter_kinds q hq]

theorem since_save_append (t u : List Event) :
    since_save (t ++ u) = u.foldl save_step (since_save t) := by
  unfold since_save
  rw [List.foldl_append]

/-- What `finish_stripe` appends to the trace and leaves in the autosave
counters. -/
theorem finish_stripe_save (w : World) (i : Nat) (p : Proc) :
    (finish_stripe w i p).2.trace
      = p.trace ++ (.progress i (p.countpos + 1) p.countmax p.countsize ::
          (if w.state_progress i (p.countpos + 1) = false ∧ p.state.autosave ≠ 0
              ∧ p.autosavedone ≥ p.autosavelimit ∧ p.autosavemissing ≥ p.autosavelimit
            then [.autosave i] else []))
    ∧ (finish_stripe w i p).2.autosavedone
      = (if w.state_progress i (p.countpos + 1) = false ∧ p.state.autosave ≠ 0
            ∧ p.autosavedone ≥ p.autosavelimit ∧ p.autosavemissing ≥ p.autosavelimit
          then 0 else p.autosavedone)
    ∧ (finish_stripe w i p).2.autosavemissing = p.autosavemissing
    ∧ ((finish_stripe w i p).1 = .next ↔ w.state_progress i (p.countpos + 1) = false) := by
  unfold finish_stripe
  simp only [Proc.emit_countpos, Proc.emit_state, Proc.emit_autosavedone,
    Proc.emit_autosavelimit, Proc.emit_autosavemissing, Proc.emit_trace]
  by_cases hp : w.state_progress i (p.countpos + 1) = true
  · simp [hp]
  · simp only [Bool.not_eq_true] at hp
    by_cases hc : p.state.autosave ≠ 0 ∧ p.autosavedone ≥ p.autosavelimit
        ∧ p.autosavemissing ≥ p.autosavelimit
    · simp [hp, hc]
    · simp [hp, hc]

/-- What a visited stripe appends to the trace after its verification, and the
autosave counters it leaves. -/
theorem visit_save (x : Helpers) (w : World) (now : Int) (i : Nat) (info : Nat) (p : Proc)
    (hv : (verify x w i (x.info_get_rehash info) p.count_visit).1 = .next) :
    (visit x w now i info p).2.trace
      = (verify x w i (x.info_get_rehash info) p.count_visit).2.1.trace
        ++ (.progress i (p.countpos + 1) p.countmax
              (verify x w i (x.info_get_rehash info) p.count_visit).2.1.countsize ::
          (if w.state_progress i (p.countpos + 1) = false ∧ p.state.autosave ≠ 0
              ∧ p.autosavedone + 1 ≥ p.autosavelimit
              ∧ (p.autosavemissing + U32 - 1) % U32 ≥ p.autosavelimit
            then [.autosave i] else []))
    ∧ (visit x w now i info p).2.autosavedone
      = (if w.state_progress i (p.countpos + 1) = false ∧ p.state.autosave ≠ 0
            ∧ p.autosavedone + 1 ≥ p.autosavelimit
            ∧ (p.autosavemissing + U32 - 1) % U32 ≥ p.autosavelimit
          then 0 else p.autosavedone + 1)
    ∧ (visit x w now i info p).2.autosavemissing = (p.autosavemissing + U32 - 1) % U32
    ∧ ((visit x w now i info p).1 = .next ↔ w.state_progress i (p.countpos + 1) = false) := by
  have fr := verify_frame x w i (x.info_get_rehash info) p.count_visit
  have st := verify_staged x w i (x.info_get_rehash info) p.count_visit
    (verify x w i (x.info_get_rehash info) p.count_visit).2 (by rw [← hv])
  have hs : (verify x w i (x.info_get_rehash info) p.count_visit).2.1.state.diskmax
      = p.count_visit.state.diskmax := by rw [fr.state]
  rw [← hs] at st
  have o1 := outcome_frame x now i info (x.info_get_rehash info)
    (verify x w i (x.info_get_rehash info) p.count_visit).2 st
  obtain ⟨a1, a2, a3, a4, a5, a6, a7, a8⟩ := outcome_fields x now i info (x.info_get_rehash info)
    (verify x w i (x.info_get_rehash info) p.count_visit).2
  obtain ⟨b1, b2, b3, b4⟩ := finish_stripe_save w i
    (outcome x now i info (x.info_get_rehash info)
      (verify x w i (x.info_get_rehash info) p.count_visit).2)
  have hauto : (outcome x now i info (x.info_get_rehash info)
      (verify x w i (x.info_get_rehash info) p.count_visit).2).state.autosave
      = p.state.autosave := by
    rw [o1.autosave, fr.state]
    rfl
  have hlim : (outcome x now i info (x.info_get_rehash info)
      (verify x w i (x.info_get_rehash info) p.count_visit).2).autosavelimit
      = p.autosavelimit := by
    rw [o1.autosavelimit, fr.autosavelimit]
    rfl
  have hcm : (outcome x now i info (x.info_get_rehash info)
      (verify x w i (x.info_get_rehash info) p.count_visit).2).countmax = p.countmax := by
    rw [o1.countmax, fr.countmax]
    rfl
  have hd : (verify x w i (x.info_get_rehash info) p.count_visit).2.1.autosavedone
      = p.autosavedone + 1 := by rw [fr.autosavedone]; rfl
  have hmi : (verify x w i (x.info_get_rehash info) p.count_visit).2.1.autosavemissing
      = (p.autosavemissing + U32 - 1) % U32 := by rw [fr.autosavemissing]; rfl
  have hcp : (verify x w i (x.info_get_rehash info) p.count_visit).2.1.countpos
      = p.countpos := by rw [fr.countpos]; rfl
  rw [visit_eq x w now i info p hv]
  simp only [a1, a3, a4, a5, a6, hauto, hlim, hcm, hd, hmi, hcp] at b1 b2 b3 b4
  exact ⟨b1, b2, b3, b4⟩

theorem visit_flow_next (x : Helpers) (w : World) (now : Int) (i : Nat) (info : Nat) (p : Proc)
    (hf : (visit x w now i info p).1 = .next) :
    (verify x w i (x.info_get_rehash info) p.count_visit).1 = .next := by
  unfold visit at hf
  simp only [] at hf
  generalize verify x w i (x.info_get_rehash info) p.count_visit = V at hf ⊢
  obtain ⟨f, pl⟩ := V
  cases f
  · rfl
  · exact hf
  · exact hf

/-- The autosave counters after a visited stripe that lets the loop go on. -/
theorem visit_counters (x : Helpers) (w : World) (now : Int) (i : Nat) (info : Nat) (p : Proc)
    (hf : (visit x w now i info p).1 = .next)
    (hd : p.autosavedone = since_save p.trace) :
    (visit x w now i info p).2.autosavedone = since_save (visit x w now i info p).2.trace
    ∧ ((visit x w now i info p).2.autosavemissing + (visit x w now i info p).2.recountmax) % U32
      = (p.autosavemissing + p.recountmax) % U32
    ∧ (visit x w now i info p).2.autosavemissing < U32 := by
  have hv := visit_flow_next x w now i info p hf
  obtain ⟨s1, s2, s3, -⟩ := visit_save x w now i info p hv
  obtain ⟨-, v2, -⟩ := visit_spec x w now i info p
  have hs := verify_since_save x w i (x.info_get_rehash info) p.count_visit
  refine ⟨?_, ?_, ?_⟩
  · rw [s1, s2, since_save_append, hs]
    simp only [Proc.count_visit_trace]
    split
    · rfl
    · simp only [List.foldl_cons, List.foldl_nil, save_step]
      rw [hd]
  · rw [s3, v2, U32_eq]
    omega
  · rw [s3, U32_eq]
    omega

/-- The autosave counters at the head of any iteration of the processing loop:
`autosavedone` is the number of stripes visited since the last autosave, and
`autosavemissing + recountmax` keeps its value modulo `2 ^ 32`. -/
theorem process_loop_counters (x : Helpers) (w : World) (now timelimit : Int) (countlimit : Nat)
    (n i : Nat) (p : Proc)
    (hflow : (process_loop x w now timelimit countlimit n i p).1 = .next)
    (hd : p.autosavedone = since_save p.trace) (hm : p.autosavemissing < U32) :
    (process_loop x w now timelimit countlimit n i p).2.autosavedone
      = since_save (process_loop x w now timelimit countlimit n i p).2.trace
    ∧ ((process_loop x w now timelimit countlimit n i p).2.autosavemissing
        + (process_loop x w now timelimit countlimit n i p).2.recountmax) % U32
      = (p.autosavemissing + p.recountmax) % U32
    ∧ (process_loop x w now timelimit countlimit n i p).2.autosavemissing < U32 := by
  induction n generalizing i p with
  | zero => exact ⟨hd, rfl, hm⟩
  | succ n ih =>
    have hit := process_iter_eq x w now timelimit countlimit i p
    unfold process_loop at hflow ⊢
    by_cases hs : selects x p.state timelimit countlimit i p.recountmax = true
    · rw [if_pos hs] at hit
      rw [hit] at hflow ⊢
      have vc := visit_counters x w now i (p.state.infoarr i) p
      rcases hv : visit x w now i (p.state.infoarr i) p with ⟨f, p1⟩
      rw [hv] at vc hflow
      simp only [] at vc hflow ⊢
      cases f
      · simp only [] at hflow ⊢
        obtain ⟨c1, c2, c3⟩ := vc rfl hd
        obtain ⟨d1, d2, d3⟩ := ih (i + 1) p1 hflow c1 c3
        exact ⟨d1, by rw [d2, c2], d3⟩
      · simp at hflow
      · simp at hflow
    · rw [if_neg hs] at hit
      rw [hit] at hflow ⊢
      exact ih (i + 1) p hflow hd hm

theorem select_list_append (x : Helpers) (state : snapraid_state) (timelimit : Int)
    (countlimit : Nat) (a b i c : Nat) :
    select_list x state timelimit countlimit (a + b) i c
      = select_list x state timelimit countlimit a i c
        ++ select_list x state timelimit countlimit b (i + a)
            (c + (select_list x state timelimit countlimit a i c).length) := by
  have hs : ∀ n i c, select_list x state timelimit countlimit (n + 1) i c
      = if selects x state timelimit countlimit i c
        then i :: select_list x state timelimit countlimit n (i + 1) (c + 1)
        else select_list x state timelimit countlimit n (i + 1) c := fun _ _ _ => rfl
  induction a generalizing i c with
  | zero => simp [select_list]
  | succ a ih =>
    have : a + 1 + b = (a + b) + 1 := by omega
    rw [this, hs (a + b), hs a]
    split
    · rw [ih (i + 1) (c + 1)]
      have h1 : i + 1 + a = i + (a + 1) := by omega
      have h2 : c + 1 + (select_list x state timelimit countlimit a (i + 1) (c + 1)).length
          = c + (i :: select_list x state timelimit countlimit a (i + 1) (c + 1)).length := by
        rw [List.length_cons]
        omega
      rw [h1, h2]
      rfl
    · rw [ih (i + 1) c]
      have h1 : i + 1 + a = i + (a + 1) := by omega
      rw [h1]

theorem verify_count_save (x : Helpers) (w : World) (i : Nat) (rehash : Bool) (p : Proc)
    (k : Nat) :
    (verify x w i rehash p).2.1.trace.count (.autosave k) = p.trace.count (.autosave k) := by
  unfold List.count
  apply verify_countP
  intro e he
  have : e = .autosave k := by simpa using he
  subst this
  rfl

/-- A selected stripe adds at most one autosave to the trace, its own, after its
progress call, and none when `autosave` is 0. -/
theorem visit_save_count (x : Helpers) (w : World) (now : Int) (i : Nat) (info : Nat) (p : Proc)
    (k : Nat) :
    (visit x w now i info p).2.trace.count (.autosave k)
      ≤ p.trace.count (.autosave k)
        + (if p.state.autosave ≠ 0 ∧ k = i ∧ i ∈ visited (visit x w now i info p).2.trace
          then 1 else 0) := by
  have hc := verify_count_save x w i (x.info_get_rehash info) p.count_visit k
  simp only [Proc.count_visit_trace] at hc
  by_cases hv : (verify x w i (x.info_get_rehash info) p.count_visit).1 = .next
  · obtain ⟨s1, -, -, -⟩ := visit_save x w now i info p hv
    have hvis : i ∈ visited (visit x w now i info p).2.trace := by
      rw [s1]
      simp [visited, Event.visit_index]
    rw [s1, List.count_append, hc]
    split
    · rename_i hcond
      by_cases hk : k = i
      · subst hk
        rw [if_pos ⟨hcond.2.1, rfl, by simp [visited, Event.visit_index]⟩]
        simp [List.count_cons]
      · have : Event.autosave i ≠ Event.autosave k := fun h => hk (by injection h with h; exact h.symm)
        simp [List.count_cons, this]
    · simp [List.count_cons]
  · have : (visit x w now i info p).2
        = (verify x w i (x.info_get_rehash info) p.count_visit).2.1 := by
      rcases hV : verify x w i (x.info_get_rehash info) p.count_visit with ⟨f, pl⟩
      rw [hV] at hv
      cases f
      · exact absurd rfl hv
      · unfold visit
        simp only [hV]
      · unfold visit
        simp only [hV]
    rw [this, hc]
    exact Nat.le_add_right _ _

theorem prefix_visited_mem {t u : List Event} (h : t <+: u) (k : Nat) (hk : k ∈ visited t) :
    k ∈ visited u := by
  obtain ⟨v, rfl⟩ := h
  rw [visited_append]
  exact List.mem_append_left _ hk

theorem process_loop_save_count (x : Helpers) (w : World) (now timelimit : Int) (countlimit : Nat)
    (n i : Nat) (p : Proc) (k : Nat) :
    (process_loop x w now timelimit countlimit n i p).2.trace.count (.autosave k)
      ≤ p.trace.count (.autosave k)
        + (if p.state.autosave ≠ 0 ∧ i ≤ k ∧ k < i + n
            ∧ k ∈ visited (process_loop x w now timelimit countlimit n i p).2.trace
          then 1 else 0) := by
  induction n generalizing i p with
  | zero => simp [process_loop]
  | succ n ih =>
    have hit := process_iter_eq x w now timelimit countlimit i p
    unfold process_loop
    by_cases hs : selects x p.state timelimit countlimit i p.recountmax = true
    · rw [if_pos hs] at hit
      rw [hit]
      have vc := visit_save_count x w now i (p.state.infoarr i) p k
      obtain ⟨v1, -, -⟩ := visit_spec x w now i (p.state.infoarr i) p
      rcases hv : visit x w now i (p.state.infoarr i) p with ⟨f, p1⟩
      rw [hv] at vc v1
      simp only [] at vc v1 ⊢
      cases f
      · simp only []
        have h2 := ih (i + 1) p1
        obtain ⟨l1, -⟩ := process_loop_visited x w now timelimit countlimit p1.state n (i + 1) p1
          (fun _ _ => rfl) rfl
        have hpre := prefix_visited_mem l1.pre k
        rw [v1.autosave] at h2
        refine le_trans h2 ?_
        by_cases hk : k = i
        · subst hk
          rw [if_neg (by omega)]
          by_cases hc : p.state.autosave ≠ 0 ∧ k = k ∧ k ∈ visited p1.trace
          · rw [if_pos hc] at vc
            rw [if_pos ⟨hc.1, le_refl _, by omega, hpre hc.2.2⟩]
            omega
          · rw [if_neg hc] at vc
            omega
        · rw [if_neg (by tauto)] at vc
          split
          · rename_i hc
            rw [if_pos ⟨hc.1, by omega, by omega, hc.2.2.2⟩]
            omega
          · omega
      · refine le_trans vc ?_
        split
        · rename_i hc
          rw [if_pos ⟨hc.1, by omega, by omega, by rw [hc.2.1]; exact hc.2.2⟩]
        · omega
      · refine le_trans vc ?_
        split
        · rename_i hc
          rw [if_pos ⟨hc.1, by omega, by omega, by rw [hc.2.1]; exact hc.2.2⟩]
        · omega
    · rw [if_neg hs] at hit
      rw [hit]
      simp only []
      refine le_trans (ih (i + 1) p) ?_
      split
      · rename_i hc
        rw [if_pos ⟨hc.1, by omega, by omega, hc.2.2.2⟩]
      · omega

theorem summary_count_save (p : Proc) (k : Nat) :
    (summary p).trace.count (.autosave k) = p.trace.count (.autosave k) := by
  unfold summary
  simp only [Proc.emit_trace]
  repeat' split
  all_goals simp [List.count_cons]

theorem close_loop_count_save (w : World) (n j : Nat) (p : Proc) (k : Nat) :
    (close_loop w n j p).trace.count (.autosave k) = p.trace.count (.autosave k) := by
  induction n generalizing j p with
  | zero => rfl
  | succ n ih =>
    unfold close_loop
    rw [ih]
    split
    · simp [List.count_cons]
    · rfl

/-- Autosaves of a whole run: at most one per stripe, only for stripes handed to
`state_progress`, none when `autosave` is 0. -/
theorem state_scrub_process_save_count {lim : Nat} (x : Helpers) (w : World) (state : snapraid_state)
    (blockstart blockmax : Nat) (timelimit : Int) (countlimit : Nat) (now : Int) (k : Nat) :
    (process_run x w state blockstart blockmax timelimit countlimit
        now lim).final.trace.count (.autosave k)
      ≤ (if state.autosave ≠ 0
            ∧ k ∈ visited (process_run x w state blockstart blockmax timelimit countlimit
                now lim).final.trace
          then 1 else 0) := by
  have hl := process_loop_save_count x w now timelimit countlimit (blockmax - blockstart)
    blockstart (process_init x w state blockstart blockmax timelimit countlimit lim) k
  have h0 : (process_init x w state blockstart blockmax timelimit countlimit lim).trace.count
      (.autosave k) = 0 := by
    simp [process_init, List.count_cons]
  have ha : (process_init x w state blockstart blockmax timelimit countlimit lim).state.autosave
      = state.autosave := rfl
  rw [h0, ha, Nat.zero_add] at hl
  have hvis : visited (process_run x w state blockstart blockmax timelimit countlimit
        now lim).final.trace
      = visited (process_loop x w now timelimit countlimit (blockmax - blockstart)
          blockstart (process_init x w state blockstart blockmax timelimit countlimit lim)).2.trace := by
    unfold process_run
    simp only []
    rw [(close_loop_fields w _ 0 _).1]
    split
    · rfl
    · rw [(summary_fields _).1]
  have hcnt : (process_run x w state blockstart blockmax timelimit countlimit
        now lim).final.trace.count (.autosave k)
      = (process_loop x w now timelimit countlimit (blockmax - blockstart)
          blockstart (process_init x w state blockstart blockmax timelimit
            countlimit lim)).2.trace.count (.autosave k) := by
    unfold process_run
    simp only []
    rw [close_loop_count_save]
    split
    · rfl
    · rw [summary_count_save]
  rw [hvis, hcnt]
  refine le_trans hl ?_
  split
  · rename_i hc
    rw [if_pos ⟨hc.1, hc.2.2.2⟩]
  · omega

/-! ## C14: when an autosave is made -/

/-- C14, counterexample: on the example array with `autosave = 8` (threshold
`8 / (2 * 4) = 1`) the progress callback asks to stop after stripe 0.  Stripe 0 is
visited, `autosave != 0`, one stripe was visited since the start and two of the
three candidates remain, so the three conditions hold; but lines 381-383 leave the
loop before the test of line 386 and no autosave is made. -/
theorem C14_counterexample :
    autosave_state.autosave ≠ 0
    ∧ autosave_state.autosave / (autosave_state.diskmax * autosave_state.block_size) = 1
    ∧ autosave_limit autosave_state = some 1
    ∧ state_scrub_process demo_helpers demo_world_stop autosave_state 0 4 100 4 100
      = some (process_run demo_helpers demo_world_stop autosave_state 0 4 100 4 100 1)
    ∧ visited (process_run demo_helpers demo_world_stop autosave_state 0 4 100 4 100
        1).final.trace = [0]
    ∧ 1 ≤ since_save (process_init demo_helpers demo_world_stop autosave_state 0 4 100 4
        1).trace + 1
    ∧ count_loop demo_helpers autosave_state 100 4 (4 - 0) 0 0 = 3
    ∧ 1 ≤ count_loop demo_helpers autosave_state 100 4 (4 - 0) 0 0 - 1
    ∧ (process_run demo_helpers demo_world_stop autosave_state 0 4 100 4 100
        1).final.trace.filter Event.is_save = [] := by
  refine ⟨by decide, by decide, by decide, by rfl, by decide, by decide, by decide, by decide,
    by decide⟩

/-- C14, amended: the autosave after a visited stripe.  The threshold `lim` is the
value line 121 stores: `autosave / (diskmax * block_size)` in unsigned 32-bit
arithmetic (product and quotient modulo `2 ^ 32`), defined when the divisor is not
zero, and equal to the exact quotient when neither wraps.  Take any state `p` of
`state_scrub_process` at the head of the iteration for index `i = blockstart + m`
(`m` iterations were made without leaving the loop), with stripe `i` selected and
verified without a fatal close error, so that `i` is visited; `countmax` is the
result of the counting pass, `blockmax` a 32-bit block count.

If the iteration ends with an autosave, then `autosave != 0`, the number of
stripes visited since the previous autosave (or the start), this one included, is
at least the threshold, and `countmax` minus the number of stripes visited so far,
this one included, is at least the threshold.  When the progress callback lets
the loop go on after the stripe, the converse holds too: the autosave is made if
and only if these three conditions hold.  When the callback asks to stop, no
autosave is made.  So no autosave is made when fewer candidates than the
threshold remain, and a run with `autosave = 0` makes no autosave at all. -/
theorem C14_autosave_rule (x : Helpers) (w : World) (state : snapraid_state)
    (blockstart blockmax : Nat) (timelimit : Int) (countlimit : Nat) (now : Int)
    (lim : Nat) (hdiv : autosave_limit state = some lim)
    (hbm : blockmax < U32) (m : Nat) (p : Proc) (hm : blockstart + m < blockmax)
    (hp : process_loop x w now timelimit countlimit m blockstart
      (process_init x w state blockstart blockmax timelimit countlimit lim) = (.next, p))
    (hsel : selects x p.state timelimit countlimit (blockstart + m) p.recountmax = true)
    (hv : (verify x w (blockstart + m) (x.info_get_rehash (p.state.infoarr (blockstart + m)))
      p.count_visit).1 = .next) :
    process_iter x w now timelimit countlimit (blockstart + m) p
      = visit x w now (blockstart + m) (p.state.infoarr (blockstart + m)) p
    ∧ visited (visit x w now (blockstart + m) (p.state.infoarr (blockstart + m)) p).2.trace
      = visited p.trace ++ [blockstart + m]
    ∧ ((visit x w now (blockstart + m) (p.state.infoarr (blockstart + m)) p).2.trace.getLast?
          = some (.autosave (blockstart + m)) →
        state.autosave ≠ 0
        ∧ lim ≤ since_save p.trace + 1
        ∧ lim
          ≤ count_loop x state timelimit countlimit (blockmax - blockstart) blockstart 0
            - ((visited p.trace).length + 1))
    ∧ (w.state_progress (blockstart + m) (p.countpos + 1) = false →
        ((visit x w now (blockstart + m) (p.state.infoarr (blockstart + m)) p).2.trace.getLast?
            = some (.autosave (blockstart + m))
          ↔ state.autosave ≠ 0
            ∧ lim ≤ since_save p.trace + 1
            ∧ lim
              ≤ count_loop x state timelimit countlimit (blockmax - blockstart) blockstart 0
                - ((visited p.trace).length + 1)))
    ∧ (w.state_progress (blockstart + m) (p.countpos + 1) = true →
        (visit x w now (blockstart + m) (p.state.infoarr (blockstart + m)) p).2.trace.getLast?
          ≠ some (.autosave (blockstart + m)))
    ∧ lim = (state.autosave / ((state.diskmax * state.block_size) % U32)) % U32
    ∧ (state.diskmax * state.block_size < U32 →
        state.autosave / (state.diskmax * state.block_size) < U32 →
        lim = state.autosave / (state.diskmax * state.block_size))
    ∧ (state.autosave = 0 →
        ∃ r, state_scrub_process x w state blockstart blockmax timelimit countlimit now = some r
          ∧ ∀ k, Event.autosave k ∉ r.final.trace) := by
  obtain ⟨fr, hvis⟩ := process_loop_visited x w now timelimit countlimit state m blockstart
    (process_init x w state blockstart blockmax timelimit countlimit lim) (fun _ _ => rfl) rfl
  have hcm0 : count_loop x state timelimit countlimit (blockmax - blockstart) blockstart 0
      = (select_list x state timelimit countlimit (blockmax - blockstart) blockstart 0).length := by
    rw [count_loop_eq, Nat.zero_add]
  have hlen : (select_list x state timelimit countlimit (blockmax - blockstart) blockstart 0).length
      ≤ blockmax - blockstart := by
    have := (select_list_sublist x state timelimit countlimit (blockmax - blockstart)
      blockstart 0).length_le
    rw [List.length_range'] at this
    exact this
  obtain ⟨c1, c2, c3⟩ := process_loop_counters x w now timelimit countlimit m blockstart
    (process_init x w state blockstart blockmax timelimit countlimit lim) (by rw [hp]) rfl
    (by
      show count_loop x state timelimit countlimit (blockmax - blockstart) blockstart 0 < U32
      omega)
  rw [hp] at fr hvis c1 c2 c3
  simp only [] at fr hvis c1 c2 c3
  obtain ⟨w1, w2, -⟩ := hvis trivial
  have hv0 : visited (process_init x w state blockstart blockmax timelimit countlimit lim).trace
      = [] := rfl
  have hr0 : (process_init x w state blockstart blockmax timelimit countlimit lim).recountmax = 0 :=
    rfl
  have ham0 : (process_init x w state blockstart blockmax timelimit countlimit lim).autosavemissing
      = count_loop x state timelimit countlimit (blockmax - blockstart) blockstart 0 := rfl
  rw [hv0, hr0, List.nil_append] at w1
  rw [hr0, Nat.zero_add] at w2
  rw [hr0, ham0] at c2
  have hsel0 : selects x state timelimit countlimit (blockstart + m) p.recountmax = true := by
    rw [← hsel]
    exact (selects_congr x p.state state timelimit countlimit _ _
      (fr.infoarr _ (by omega)) fr.opt).symm
  have hsplit : (select_list x state timelimit countlimit (blockmax - blockstart) blockstart
      0).length ≥ p.recountmax + 1 := by
    have e1 : blockmax - blockstart = m + ((blockmax - blockstart - m - 1) + 1) := by omega
    rw [e1, select_list_append, List.length_append, Nat.zero_add, ← w2]
    have : select_list x state timelimit countlimit ((blockmax - blockstart - m - 1) + 1)
        (blockstart + m) p.recountmax
        = (blockstart + m) :: select_list x state timelimit countlimit
            (blockmax - blockstart - m - 1) (blockstart + m + 1) (p.recountmax + 1) := by
      show (if selects x state timelimit countlimit (blockstart + m) p.recountmax = true
          then _ else _) = _
      rw [if_pos hsel0]
    rw [this, List.length_cons]
    omega
  have hvl : (visited p.trace).length = p.recountmax := by rw [w1, w2]
  have hmiss : (p.autosavemissing + U32 - 1) % U32
      = count_loop x state timelimit countlimit (blockmax - blockstart) blockstart 0
        - ((visited p.trace).length + 1) := by
    rw [hvl]
    rw [U32_eq] at c2 c3 hbm ⊢
    omega
  have hauto : p.state.autosave = state.autosave := fr.autosave
  have hlim : p.autosavelimit = lim :=
    fr.autosavelimit
  obtain ⟨s1, -, -, -⟩ := visit_save x w now (blockstart + m) (p.state.infoarr (blockstart + m))
    p hv
  have hlast : (visit x w now (blockstart + m) (p.state.infoarr (blockstart + m))
        p).2.trace.getLast? = some (.autosave (blockstart + m))
      ↔ w.state_progress (blockstart + m) (p.countpos + 1) = false ∧ state.autosave ≠ 0
        ∧ lim ≤ since_save p.trace + 1
        ∧ lim
          ≤ count_loop x state timelimit countlimit (blockmax - blockstart) blockstart 0
            - ((visited p.trace).length + 1) := by
    rw [s1, hauto, hlim, hmiss, c1, List.getLast?_append_of_ne_nil _ (by simp)]
    split
    · rename_i hc
      constructor
      · exact fun _ => hc
      · exact fun _ => rfl
    · rename_i hc
      constructor
      · intro h
        simp at h
      · intro h
        exact absurd h hc
  refine ⟨?_, ?_, ?_, ?_, ?_, ?_, ?_, ?_⟩
  · rw [process_iter_eq, if_pos hsel]
  · obtain ⟨-, -, v3⟩ := visit_spec x w now (blockstart + m) (p.state.infoarr (blockstart + m)) p
    have hnb : (visit x w now (blockstart + m) (p.state.infoarr (blockstart + m)) p).1
        ≠ .bail := by
      rw [visit_eq x w now _ _ p hv]
      exact (finish_stripe_fields w _ _).1
    exact (v3 hnb).2.1
  · intro h
    exact (hlast.mp h).2
  · intro hgo
    rw [hlast]
    constructor
    · exact fun h => h.2
    · exact fun h => ⟨hgo, h⟩
  · intro hstop h
    rw [(hlast.mp h).1] at hstop
    exact absurd hstop (by simp)
  · exact (autosave_limit_eq_some state lim hdiv).2
  · intro h1 h2
    have := (autosave_limit_eq_some state lim hdiv).2
    rw [Nat.mod_eq_of_lt h1, Nat.mod_eq_of_lt h2] at this
    exact this
  · intro h0
    refine ⟨_, state_scrub_process_some x w state blockstart blockmax timelimit countlimit now
      lim hdiv, fun k hk => ?_⟩
    have := @state_scrub_process_save_count lim x w state blockstart blockmax timelimit
      countlimit now k
    rw [if_neg (by simp [h0])] at this
    have hpos := List.count_pos_iff.mpr hk
    omega

/-- Witness of C14 on the example array with `autosave = 8` (threshold 1), at the
first iteration: stripe 0 is visited, one stripe is done, two of the three
candidates remain, and the iteration ends with an autosave. -/
theorem C14_autosave_rule_witness :
    autosave_limit autosave_state = some 1
    ∧ (visit demo_helpers demo_world 100 0
      ((process_init demo_helpers demo_world autosave_state 0 4 100 4 1).state.infoarr 0)
      (process_init demo_helpers demo_world autosave_state 0 4 100 4 1)).2.trace.getLast?
      = some (.autosave 0) :=
  ⟨by decide,
    ((C14_autosave_rule demo_helpers demo_world autosave_state 0 4 100 4 100 1 (by decide)
      (by decide) 0 (process_init demo_helpers demo_world autosave_state 0 4 100 4 1) (by decide)
      rfl (by decide) (by decide)).2.2.2.1 (by decide)).mpr ⟨by decide, by decide, by decide⟩⟩

/-! ## C15: the autosave threshold -/

/-- C15, counterexample: with `autosave = 1` byte, two disks and blocks of four
bytes, the threshold computed on line 121 is `1 / (2 * 4) = 0` stripes, not at
least 1. -/
theorem C15_counterexample :
    0 < autosave_small_state.autosave ∧ 1 ≤ autosave_small_state.diskmax
    ∧ 1 ≤ autosave_small_state.block_size
    ∧ autosave_small_state.autosave
        / (autosave_small_state.diskmax * autosave_small_state.block_size) = 0
    ∧ autosave_limit autosave_small_state = some 0
    ∧ ∃ r, state_scrub_process demo_helpers demo_world autosave_small_state 0 4 100 4 100 = some r
        ∧ r.final.autosavelimit = 0 := by
  refine ⟨by decide, by decide, by decide, by decide, by decide,
    process_run demo_helpers demo_world autosave_small_state 0 4 100 4 100 0, by rfl, by decide⟩

/-- C15, amended: when `diskmax * block_size` is not zero modulo `2 ^ 32` (so
`diskmax >= 1` and `block_size >= 1`) line 121 is defined and the autosave
threshold of the run is `autosave / (diskmax * block_size)` computed in unsigned
32-bit arithmetic: the product and the quotient are taken modulo `2 ^ 32`.  When
neither reaches `2 ^ 32` the threshold is the exact quotient; it is at least 1
stripe if and only if `autosave >= diskmax * block_size`, and it is 0 for an
`autosave` smaller than the divisor.  Whatever the threshold,
`state_scrub_process` returns and the run makes at most one autosave per stripe,
and only for stripes that were visited. -/
theorem C15_autosave_threshold (x : Helpers) (w : World) (state : snapraid_state)
    (blockstart blockmax : Nat) (timelimit : Int) (countlimit : Nat) (now : Int)
    (hdiv : (state.diskmax * state.block_size) % U32 ≠ 0) :
    1 ≤ state.diskmax ∧ 1 ≤ state.block_size
    ∧ autosave_limit state
      = some ((state.autosave / ((state.diskmax * state.block_size) % U32)) % U32)
    ∧ (state.diskmax * state.block_size < U32 →
        state.autosave / (state.diskmax * state.block_size) < U32 →
        autosave_limit state = some (state.autosave / (state.diskmax * state.block_size)))
    ∧ (1 ≤ state.autosave / (state.diskmax * state.block_size)
      ↔ state.diskmax * state.block_size ≤ state.autosave)
    ∧ (state.autosave < (state.diskmax * state.block_size) % U32 →
        autosave_limit state = some 0)
    ∧ ∃ r, state_scrub_process x w state blockstart blockmax timelimit countlimit now = some r
        ∧ r.final.autosavelimit
          = (state.autosave / ((state.diskmax * state.block_size) % U32)) % U32
        ∧ ∀ k, r.final.trace.count (.autosave k) ≤ 1
          ∧ (Event.autosave k ∈ r.final.trace → k ∈ visited r.final.trace) := by
  have hl := autosave_limit_some state hdiv
  have hpos : 0 < state.diskmax * state.block_size := by
    rcases Nat.eq_zero_or_pos (state.diskmax * state.block_size) with h | h
    · rw [h] at hdiv
      exact absurd (Nat.zero_mod _) hdiv
    · exact h
  have hd : 1 ≤ state.diskmax := Nat.pos_of_mul_pos_right hpos
  have hb : 1 ≤ state.block_size := Nat.pos_of_mul_pos_left hpos
  refine ⟨hd, hb, hl, fun h1 h2 => ?_, ?_, fun h => ?_, _,
    state_scrub_process_some x w state blockstart blockmax timelimit countlimit now _ hl, ?_,
    fun k => ?_⟩
  · rw [hl, Nat.mod_eq_of_lt h1, Nat.mod_eq_of_lt h2]
  · rw [Nat.le_div_iff_mul_le hpos, Nat.one_mul]
  · rw [hl, Nat.div_eq_of_lt h]
    rfl
  · exact (state_scrub_process_frame x w state blockstart blockmax timelimit countlimit
      now).autosavelimit
  · have := @state_scrub_process_save_count
      ((state.autosave / ((state.diskmax * state.block_size) % U32)) % U32)
      x w state blockstart blockmax timelimit countlimit now k
    refine ⟨?_, fun hk => ?_⟩
    · refine le_trans this ?_
      split <;> omega
    · have hpos := List.count_pos_iff.mpr hk
      by_contra hn
      rw [if_neg (by tauto)] at this
      omega

/-- Witness of the amended C15 on the example array with `autosave = 1`: the
threshold is 0 and every visited stripe is followed by exactly one autosave. -/
theorem C15_autosave_threshold_witness :
    (autosave_small_state.diskmax * autosave_small_state.block_size) % U32 ≠ 0
    ∧ autosave_limit autosave_small_state = some 0
    ∧ ∃ r, state_scrub_process demo_helpers demo_world autosave_small_state 0 4 100 4 100
          = some r
        ∧ r.final.autosavelimit = 0
        ∧ r.final.trace.count (.autosave 3) ≤ 1
        ∧ r.final.trace.filter Event.is_save = [.autosave 0, .autosave 1, .autosave 3] := by
  obtain ⟨-, -, -, -, -, a, r, hr, b, c⟩ := C15_autosave_threshold demo_helpers demo_world
    autosave_small_state 0 4 100 4 100 (by decide)
  have h0 : state_scrub_process demo_helpers demo_world autosave_small_state 0 4 100 4 100
      = some (process_run demo_helpers demo_world autosave_small_state 0 4 100 4 100 0) := by rfl
  have he : r = process_run demo_helpers demo_world autosave_small_state 0 4 100 4 100 0 :=
    Option.some.inj (hr.symm.trans h0)
  subst he
  exact ⟨by decide, a (by decide), _, hr, b.trans (by decide), (c 3).1, by decide⟩

/-! ## C12: a scrub after a clean scrub -/

theorem scrub_limits_le (x : Helpers) (state : snapraid_state) (blockmax : Nat) (now : Int)
    (tl : Int) (cl : Nat) (h : scrub_limits x state blockmax now = .ok (tl, cl)) :
    tl ≤ (option_limits state blockmax now).2 := by
  unfold scrub_limits at h
  simp only [] at h
  split at h
  · simp at h
  · split at h
    · simp at h
    · simp only [Except.ok.injEq, Prod.mk.injEq] at h
      rw [← h.1]
      split <;> omega

/-- C12, counterexamples.  First: the example array without a bad stripe is
scrubbed in full at time 100 (`force_scrub = 4`), every stripe is clean; the next
scrub, same options, at time 200, has the recency floor `200 >= 100` and visits all
three used stripes again, not zero.  Second: with a floor below the time of the
first scrub the next scrub still visits stripes when the first one did not cover
the array: twelve stripes of time 10 and default options give a quota of 1; the
scrub at time 1000000 visits stripe 0 and the scrub 100 seconds later (floor
136100) visits stripe 1. -/
theorem C12_counterexample :
    ((∀ i, demo_helpers.info_get_bad (good_state.infoarr i) = false)
      ∧ (∃ ret r, state_scrub demo_helpers demo_world good_state 100 = .ok (ret, r)
          ∧ r.flow = .next ∧ r.final.error = 0 ∧ visited r.final.trace = [0, 1, 3]
          ∧ r.final.state = state_after demo_helpers demo_world good_state 100)
      ∧ (option_limits good_state 4 100).1 = 4
      ∧ option_limits (state_after demo_helpers demo_world good_state 100) 4 200 = (4, 200)
      ∧ ∃ ret r, state_scrub demo_helpers demo_world
            (state_after demo_helpers demo_world good_state 100) 200 = .ok (ret, r)
          ∧ r.flow = .next ∧ visited r.final.trace = [0, 1, 3])
    ∧ ((∀ i, demo_helpers.info_get_bad (twelve_state.infoarr i) = false)
      ∧ (∃ ret r, state_scrub demo_helpers twelve_world twelve_state 1000000 = .ok (ret, r)
          ∧ r.flow = .next ∧ r.final.error = 0 ∧ visited r.final.trace = [0]
          ∧ r.final.state = state_after demo_helpers twelve_world twelve_state 1000000)
      ∧ option_limits (state_after demo_helpers twelve_world twelve_state 1000000) 12 1000100
          = (1, 136100)
      ∧ ∃ ret r, state_scrub demo_helpers twelve_world
            (state_after demo_helpers twelve_world twelve_state 1000000) 1000100 = .ok (ret, r)
          ∧ r.flow = .next ∧ visited r.final.trace = [1]) := by
  refine ⟨⟨fun i => ?_, ?_, by decide, by rfl, ?_⟩, ⟨fun i => ?_, ?_, by rfl, ?_⟩⟩
  · unfold good_state
    simp only []
    repeat' split
    all_goals rfl
  · exact ⟨0, process_run demo_helpers demo_world good_state 0 4 50 3 100 0, by rfl,
      by rfl, by rfl, by rfl, by rfl⟩
  · exact ⟨0, process_run demo_helpers demo_world
      (state_after demo_helpers demo_world good_state 100) 0 4 100 3 200 0, by rfl, by rfl, by rfl⟩
  · unfold twelve_state
    simp only []
    split <;> rfl
  · exact ⟨0, process_run demo_helpers twelve_world twelve_state 0 12 10 1 1000000 0,
      by rfl, by rfl, by rfl, by rfl, by rfl⟩
  · exact ⟨0, process_run demo_helpers twelve_world
      (state_after demo_helpers twelve_world twelve_state 1000000) 0 12 10 1 1000100 0,
      by rfl, by rfl, by rfl⟩

/-- C12, amended: after a complete scrub at time `now` during which no error was
reported (every visited stripe clean, no failed close), a later complete scrub of
the resulting catalog whose recency floor is below `now` visits none of the
stripes the first scrub visited; it visits no stripe at all when the first scrub
visited every used stripe. -/
theorem C12_second_scrub (x : Helpers) (w w2 : World) (state : snapraid_state) (now now2 : Int)
    (hlaws : InfoLaws x) (hnow : 0 ≤ now)
    (ret : Int) (r : ProcessResult) (h1 : state_scrub x w state now = .ok (ret, r))
    (hflow : r.flow = .next)
    (hclean : ∀ e, e ∈ r.final.trace → e.counts_error = false)
    (hsize : w2.parity_size = w.parity_size)
    (ret2 : Int) (r2 : ProcessResult)
    (h2 : state_scrub x w2 r.final.state now2 = .ok (ret2, r2)) (hflow2 : r2.flow = .next)
    (hfloor : (option_limits r.final.state w2.parity_size now2).2 < now) :
    (∀ i, i ∈ visited r.final.trace → i ∉ visited r2.final.trace)
    ∧ ((∀ i, i < w.parity_size → state.infoarr i ≠ 0 → i ∈ visited r.final.trace) →
        visited r2.final.trace = []) := by
  obtain ⟨tl, cl, lim, -, -, hr⟩ := state_scrub_inv x w state now ret r h1
  obtain ⟨tl2, cl2, lim2, hl2, -, hr2⟩ := state_scrub_inv x w2 r.final.state now2 ret2 r2 h2
  have htl2 := scrub_limits_le x r.final.state w2.parity_size now2 tl2 cl2 hl2
  subst hr
  subst hr2
  have hlog : ∀ e, e ∈ (process_run x w state 0 w.parity_size tl cl now lim).final.trace →
      e.is_error_log = false := by
    intro e he
    have := hclean e he
    cases e <;> first | rfl | exact this
  obtain ⟨v1, -, -⟩ := state_scrub_process_visited x w state 0 w.parity_size tl cl now hflow
  obtain ⟨v2, -, -⟩ := state_scrub_process_visited x w2 _ 0 w2.parity_size tl2 cl2 now2 hflow2
  obtain ⟨c1, -, -, -⟩ := state_scrub_process_clean x w state 0 w.parity_size tl cl now hflow
    hlog
  have fr := @state_scrub_process_frame lim x w state 0 w.parity_size tl cl now
  have part1 : ∀ i, i ∈ visited (process_run x w state 0 w.parity_size tl cl
      now lim).final.trace →
      i ∉ visited (process_run x w2 (process_run x w state 0 w.parity_size tl cl
        now lim).final.state 0 w2.parity_size tl2 cl2 now2 lim2).final.trace := by
    intro i hi hi2
    rw [v1] at hi
    rw [v2] at hi2
    have hw := c1 i hi
    have hs := ((select_list_mem_iff x _ tl2 cl2 _ _ _ i).mp hi2).2.2
    unfold selects at hs
    rw [hw, hlaws.bad_make, hlaws.time_make now 0 0 hnow] at hs
    simp only [ne_eq, not_true_eq_false, decide_False, Bool.false_or, Bool.and_eq_true,
      decide_eq_true_eq] at hs
    omega
  refine ⟨part1, fun hall => ?_⟩
  rw [List.eq_nil_iff_forall_not_mem]
  intro i hi2
  have hi2s := hi2
  rw [v2] at hi2s
  have hrange := select_list_range x _ tl2 cl2 _ _ _ i hi2s
  have hused := select_list_used x _ tl2 cl2 _ _ _ i hi2s
  by_cases h0 : state.infoarr i = 0
  · apply hused
    rw [fr.infoarr i (fun hS => hS.2.2 h0)]
    exact h0
  · exact part1 i (hall i (by omega) h0) hi2

/-- Witness of the amended C12 on the array of twelve stripes with default
options: the scrub at time 1000000 visits stripe 0 and the scrub 100 seconds
later does not visit it. -/
theorem C12_second_scrub_witness :
    state_scrub demo_helpers twelve_world twelve_state 1000000
      = .ok (0, process_run demo_helpers twelve_world twelve_state 0 12 10 1 1000000 0)
    ∧ 0 ∈ visited
        (process_run demo_helpers twelve_world twelve_state 0 12 10 1 1000000 0).final.trace
    ∧ 0 ∉ visited (process_run demo_helpers twelve_world
        (process_run demo_helpers twelve_world twelve_state 0 12 10 1 1000000 0).final.state
        0 12 10 1 1000100 0).final.trace :=
  ⟨by rfl, by decide,
    (C12_second_scrub demo_helpers twelve_world twelve_world twelve_state 1000000 1000100
      demo_helpers_laws (by decide) 0
      (process_run demo_helpers twelve_world twelve_state 0 12 10 1 1000000 0) (by rfl)
      (by rfl) (by decide) rfl 0
      (process_run demo_helpers twelve_world
        (process_run demo_helpers twelve_world twelve_state 0 12 10 1 1000000 0).final.state
        0 12 10 1 1000100 0) (by rfl) (by rfl) (by decide)).1 0 (by decide)⟩

/-! ## C11: a stripe in order verifies clean -/

theorem Quiet.qtrans {i : Nat} {pl pl1 pl2 : Proc × Locals} (h1 : Quiet pl pl1)
    (h2 : Quiet pl1 pl2) (fr : VFrame i pl1 pl2) : Quiet pl pl2 := by
  intro he hs
  have he1 : pl1.2.error_on_this_block = false := by
    cases h : pl1.2.error_on_this_block
    · rfl
    · rw [fr.eflag_mono h] at he
      exact absurd he (by simp)
  have hs1 : pl1.2.silent_error_on_this_block = false := by
    cases h : pl1.2.silent_error_on_this_block
    · rfl
    · rw [fr.sflag_mono h] at hs
      exact absurd hs (by simp)
  rw [h2 he hs, h1 he1 hs1]

theorem hash_compare_quiet (i j : Nat) (block : snapraid_block) (hash : hash_t) (u : Bool)
    (pl : Proc × Locals) : Quiet pl (hash_compare i j block hash u pl) := by
  intro he hs
  unfold hash_compare at he hs ⊢
  by_cases hm : (block.has_hash && decide (hash ≠ block.hash)) = true
  · rw [if_pos hm] at he hs
    cases u <;> simp at he hs
  · rw [if_neg hm]

theorem disk_hash_quiet (x : Helpers) (i : Nat) (rehash : Bool) (j : Nat)
    (block : snapraid_block) (u : Bool) (n : Int) (pl : Proc × Locals) :
    Quiet pl (disk_hash x i rehash j block u n pl) := by
  intro he hs
  unfold disk_hash at he hs ⊢
  simp only [] at he hs ⊢
  cases rehash
  · simp only [Bool.false_eq_true, if_false] at he hs ⊢
    rw [hash_compare_quiet _ _ _ _ _ _ he hs]
    simp [Proc.emit, Proc.add_countsize, Event.is_error_log]
  · simp only [if_true] at he hs ⊢
    rw [hash_compare_quiet _ _ _ _ _ _ he hs]
    simp [Proc.emit, Proc.add_countsize, Proc.set_rehandle, Event.is_error_log]

theorem disk_iter_quiet (x : Helpers) (w : World) (i : Nat) (rehash : Bool) (j : Nat)
    (pl : Proc × Locals) : Quiet pl (disk_iter x w i rehash j pl).2 := by
  intro he hs
  by_cases hd : pl.1.state.disk j = true
  · rcases hf : (pl.1.state.block j i).file with _ | file
    · unfold disk_iter
      simp only [Proc.set_rehandle_state, hd, Bool.not_true, Bool.false_eq_true, if_false, hf]
      simp [Proc.set_buffer, Proc.set_rehandle]
    · by_cases hc : w.handle_file i j ≠ some file.id ∧ w.handle_close i j = -1
      · unfold disk_iter
        simp only [Proc.set_rehandle_state, hd, Bool.not_true, Bool.false_eq_true, if_false, hf,
          if_pos hc]
        simp [Proc.emit, Proc.set_rehandle, Proc.incr_error, Event.is_error_log]
      · by_cases ho : w.handle_open i j = -1
        · unfold disk_iter at he
          simp only [Proc.set_rehandle_state, hd, Bool.not_true, Bool.false_eq_true, if_false, hf,
            if_neg hc, if_pos ho] at he
          simp at he
        · by_cases hr : (w.handle_read i j).1 = -1
          · unfold disk_iter at he
            simp only [Proc.set_rehandle_state, hd, Bool.not_true, Bool.false_eq_true, if_false,
              hf, if_neg hc, if_neg ho, if_pos hr] at he
            simp at he
          · unfold disk_iter at he hs ⊢
            simp only [Proc.set_rehandle_state, hd, Bool.not_true, Bool.false_eq_true, if_false,
              hf, if_neg hc, if_neg ho, if_neg hr] at he hs ⊢
            rw [disk_hash_quiet _ _ _ _ _ _ _ _ he hs]
            simp only [Proc.emit, Proc.set_buffer, Proc.set_rehandle, List.countP_append]
            split <;> simp [Event.is_error_log]
  · unfold disk_iter
    have hd2 : pl.1.state.disk j = false := by simpa using hd
    simp only [Proc.set_rehandle_state, hd2, Bool.not_false, if_true]
    simp [Proc.set_buffer, Proc.set_rehandle]

theorem disk_loop_quiet (x : Helpers) (w : World) (i : Nat) (rehash : Bool) (n j : Nat)
    (pl : Proc × Locals) : Quiet pl (disk_loop x w i rehash n j pl).2 := by
  induction n generalizing j pl with
  | zero => exact fun _ _ => rfl
  | succ n ih =>
    have h := disk_iter_quiet x w i rehash j pl
    unfold disk_loop
    rcases hq : disk_iter x w i rehash j pl with ⟨f, pl1⟩
    rw [hq] at h
    cases f
    · exact Quiet.qtrans h (ih (j + 1) pl1) (disk_loop_frame x w i rehash n (j + 1) pl1)
    · exact h
    · exact h

theorem parity_fetch_quiet (b : Nat) (r : Int × bytes) (call ev : Event) (pl : Proc × Locals)
    (hcall : call.is_error_log = false) : Quiet pl (parity_fetch b r call ev pl) := by
  intro he hs
  unfold parity_fetch at he hs ⊢
  simp only [] at he hs ⊢
  split at he
  · simp at he
  · rename_i hr
    rw [if_neg hr]
    simp [Proc.emit, Proc.set_buffer, hcall]

theorem parity_compare_quiet (d : Bool) (ev : Event) (pl : Proc × Locals) :
    Quiet pl (parity_compare d ev pl) := by
  intro he hs
  unfold parity_compare at he hs ⊢
  cases d
  · rfl
  · simp only [if_true] at he hs
    split at he
    · simp at he
    · rename_i hu
      rw [if_neg hu] at hs
      simp at hs

theorem raid_gen_quiet (i : Nat) (pl : Proc × Locals) (b : Nat → bytes) :
    Quiet pl (({ pl.1 with buffer := b } : Proc).emit [.call_raid_gen i], pl.2) := by
  intro _ _
  simp [Proc.emit, Event.is_error_log]

theorem parity_load_quiet (x : Helpers) (w : World) (i : Nat) (pl : Proc × Locals) :
    Quiet pl (parity_load x w i pl).pl := by
  have hP : ∀ b q, VFrame i q (parity_fetch b (w.parity_read i) (.call_parity_read i)
      (.log_parity_read_error i) q) := fun b q =>
    parity_fetch_frame i b _ (.call_parity_read i) (.log_parity_read_error i) rfl rfl rfl rfl rfl rfl q
  have hQ : ∀ b q, VFrame i q (parity_fetch b (w.qarity_read i) (.call_qarity_read i)
      (.log_qarity_read_error i) q) := fun b q =>
    parity_fetch_frame i b _ (.call_qarity_read i) (.log_qarity_read_error i) rfl rfl rfl rfl rfl rfl q
  have qP : ∀ b q, Quiet q (parity_fetch b (w.parity_read i) (.call_parity_read i)
      (.log_parity_read_error i) q) := fun b q =>
    parity_fetch_quiet b _ (.call_parity_read i) (.log_parity_read_error i) q rfl
  have qQ : ∀ b q, Quiet q (parity_fetch b (w.qarity_read i) (.call_qarity_read i)
      (.log_qarity_read_error i) q) := fun b q =>
    parity_fetch_quiet b _ (.call_qarity_read i) (.log_qarity_read_error i) q rfl
  unfold parity_load
  simp only []
  split
  · exact Quiet.qtrans (Quiet.qtrans (qP _ _) (qQ _ _) (hQ _ _)) (raid_gen_quiet i _ _)
      (raid_gen_frame i _ _)
  · exact Quiet.qtrans (qP _ _) (raid_gen_quiet i _ _) (raid_gen_frame i _ _)

theorem parity_verdict_quiet (i : Nat) (q : ParityLoad) : Quiet q.pl (parity_verdict i q) := by
  have cQ : ∀ d q, VFrame i q (parity_compare d (.log_qarity_data_error i) q) := fun d q =>
    parity_compare_frame i d (.log_qarity_data_error i) rfl rfl rfl q
  unfold parity_verdict
  simp only []
  split
  · exact Quiet.qtrans (parity_compare_quiet _ _ _) (parity_compare_quiet _ _ _) (cQ _ _)
  · exact parity_compare_quiet _ _ _

theorem parity_check_quiet (x : Helpers) (w : World) (i : Nat) (pl : Proc × Locals) :
    Quiet pl (parity_check x w i pl) := by
  unfold parity_check
  split
  · exact Quiet.qtrans (parity_load_quiet x w i pl) (parity_verdict_quiet i _)
      (parity_verdict_frame i _)
  · exact fun _ _ => rfl

/-- A verification that ends with both flags clear logs no error line. -/
theorem verify_quiet (x : Helpers) (w : World) (i : Nat) (rehash : Bool) (p : Proc)
    (he : (verify x w i rehash p).2.2.error_on_this_block = false)
    (hs : (verify x w i rehash p).2.2.silent_error_on_this_block = false) :
    (verify x w i rehash p).2.1.trace.countP Event.is_error_log
      = p.trace.countP Event.is_error_log := by
  have h := disk_loop_quiet x w i rehash p.state.diskmax 0 (p, ⟨false, false, false⟩)
  unfold verify at he hs ⊢
  simp only [] at he hs ⊢
  rcases hq : disk_loop x w i rehash p.state.diskmax 0 (p, ⟨false, false, false⟩) with ⟨f, pl⟩
  rw [hq] at h he hs
  cases f
  · exact Quiet.qtrans h (parity_check_quiet x w i pl) (parity_check_frame x w i pl) he hs
  · exact h he hs
  · exact h he hs


theorem hash_compare_match (i j : Nat) (block : snapraid_block) (hash : hash_t) (u : Bool)
    (pl : Proc × Locals) (h : block.has_hash = true → hash = block.hash) :
    hash_compare i j block hash u pl = pl := by
  unfold hash_compare
  rw [if_neg]
  simp only [Bool.and_eq_true, decide_eq_true_eq, not_and, not_not]
  exact h

theorem disk_hash_match (x : Helpers) (i : Nat) (rehash : Bool) (j : Nat)
    (block : snapraid_block) (u : Bool) (n : Int) (pl : Proc × Locals)
    (h : block.has_hash = true →
      (if rehash then x.memhash pl.1.state.prevhash pl.1.state.prevhashseed
          ((pl.1.buffer j).take n.toNat)
        else x.memhash pl.1.state.hash pl.1.state.hashseed ((pl.1.buffer j).take n.toNat))
      = block.hash) :
    (disk_hash x i rehash j block u n pl).2 = pl.2
    ∧ (disk_hash x i rehash j block u n pl).1.error = pl.1.error
    ∧ (disk_hash x i rehash j block u n pl).1.buffer = pl.1.buffer := by
  unfold disk_hash
  simp only []
  cases rehash
  · simp only [Bool.false_eq_true, if_false] at h ⊢
    rw [hash_compare_match]
    · exact ⟨rfl, rfl, rfl⟩
    · exact h
  · simp only [if_true] at h ⊢
    rw [hash_compare_match]
    · exact ⟨rfl, rfl, rfl⟩
    · exact h

/-- One pass of the per-disk loop on a block in order: no flag changes, no error
is counted and `buffer[j]` holds the data of the block. -/
theorem disk_iter_sound (x : Helpers) (w : World) (i : Nat) (rehash : Bool) (j : Nat)
    (pl : Proc × Locals) (hn : (disk_iter x w i rehash j pl).1 = .next)
    (hs : disk_sound x w pl.1.state i rehash j) :
    (disk_iter x w i rehash j pl).2.2 = pl.2
    ∧ (disk_iter x w i rehash j pl).2.1.error = pl.1.error
    ∧ (disk_iter x w i rehash j pl).2.1.buffer j = stripe_data w pl.1.state i j
    ∧ ∀ k, k ≠ j → (disk_iter x w i rehash j pl).2.1.buffer k = pl.1.buffer k := by
  unfold disk_sound at hs
  by_cases hd : pl.1.state.disk j = true
  · rcases hf : (pl.1.state.block j i).file with _ | file
    · unfold disk_iter
      simp only [Proc.set_rehandle_state, hd, Bool.not_true, Bool.false_eq_true, if_false, hf]
      refine ⟨by simp, by simp, ?_, fun k hk => ?_⟩
      · simp [stripe_data, hf]
      · simp [upd_other _ _ _ _ hk]
    · obtain ⟨ho, hsync, hr, hh⟩ := hs hd file hf
      have hc : ¬ (w.handle_file i j ≠ some file.id ∧ w.handle_close i j = -1) := by
        intro hc
        rw [disk_iter_bail x w i rehash j pl file hd hf hc] at hn
        exact absurd hn (by simp)
      have hfc := (file_changed_false_iff _ _).mpr hsync
      have key := fun (q : Proc × Locals) (hq1 : q.1.state = pl.1.state)
          (hq2 : q.1.buffer j = (w.handle_read i j).2) =>
        disk_hash_match x i rehash j (pl.1.state.block j i)
          (file_changed (w.handle_st i j) file) (w.handle_read i j).1 q
          (by rw [hq1, hq2]; exact hh)
      unfold disk_iter
      simp only [Proc.set_rehandle_state, hd, Bool.not_true, Bool.false_eq_true, if_false, hf,
        if_neg hc, if_neg ho, if_neg hr, hfc]
      obtain ⟨k1, k2, k3⟩ := key
        ((((pl.1.set_rehandle j { hash := (pl.1.rehandle j).hash, block := none }).emit
            (if w.handle_file i j ≠ some file.id then [.call_handle_close i j] else [])).emit
            [.call_handle_open i j]).set_buffer j (w.handle_read i j).2
              |>.emit [.call_handle_read i j], pl.2)
        (by simp) (by simp)
      rw [hfc] at k1 k2 k3
      refine ⟨k1, ?_, ?_, fun k hk => ?_⟩
      · rw [k2]
        simp
      · rw [k3]
        simp [stripe_data, hd, hf]
      · rw [k3]
        simp [upd_other _ _ _ _ hk]
  · unfold disk_iter
    have hd2 : pl.1.state.disk j = false := by simpa using hd
    simp only [Proc.set_rehandle_state, hd2, Bool.not_false, if_true]
    refine ⟨by simp, by simp, ?_, fun k hk => ?_⟩
    · simp [stripe_data, hd2]
    · simp [upd_other _ _ _ _ hk]

theorem disk_loop_sound (x : Helpers) (w : World) (i : Nat) (rehash : Bool) (n j0 : Nat)
    (pl : Proc × Locals) (hn : (disk_loop x w i rehash n j0 pl).1 = .next)
    (hs : ∀ j, j0 ≤ j → j < j0 + n → disk_sound x w pl.1.state i rehash j) :
    (disk_loop x w i rehash n j0 pl).2.2 = pl.2
    ∧ (disk_loop x w i rehash n j0 pl).2.1.error = pl.1.error
    ∧ (∀ j, j0 ≤ j → j < j0 + n →
        (disk_loop x w i rehash n j0 pl).2.1.buffer j = stripe_data w pl.1.state i j)
    ∧ ∀ k, k < j0 ∨ j0 + n ≤ k → (disk_loop x w i rehash n j0 pl).2.1.buffer k = pl.1.buffer k := by
  induction n generalizing j0 pl with
  | zero =>
    refine ⟨rfl, rfl, fun j h1 h2 => ?_, fun k _ => rfl⟩
    omega
  | succ n ih =>
    by_cases hf : (disk_iter x w i rehash j0 pl).1 = .next
    · have fr := disk_iter_frame x w i rehash j0 pl
      obtain ⟨a1, a2, a3, a4⟩ := disk_iter_sound x w i rehash j0 pl hf
        (hs j0 (le_refl _) (by omega))
      rcases hpl : disk_iter x w i rehash j0 pl with ⟨f, pl1⟩
      rw [hpl] at hf fr a1 a2 a3 a4
      simp only [] at hf fr a1 a2 a3 a4
      subst hf
      rw [disk_loop_succ_next x w i rehash n j0 pl pl1 hpl] at hn ⊢
      obtain ⟨b1, b2, b3, b4⟩ := ih (j0 + 1) pl1 hn
        (fun j h1 h2 => by rw [fr.state]; exact hs j (by omega) (by omega))
      refine ⟨by rw [b1, a1], by rw [b2, a2], fun j h1 h2 => ?_, fun k hk => ?_⟩
      · by_cases hj : j = j0
        · subst hj
          rw [b4 j (by omega), a3]
        · rw [b3 j (by omega) (by omega), fr.state]
      · rw [b4 k (by omega), a4 k (by omega)]
    · rw [disk_loop_succ_stop x w i rehash n j0 pl hf] at hn
      exact absurd hn hf

/-- The parity check of a stripe whose data buffers hold the data on disk and
whose parity on disk is the parity of that data: no flag is set and no error is
counted. -/
theorem parity_check_sound (x : Helpers) (w : World) (i : Nat) (pl : Proc × Locals)
    (hraid : RaidLaws x pl.1.state.level)
    (hlevel : pl.1.state.level = 1 ∨ pl.1.state.level = 2)
    (hbuf : ∀ j, j < pl.1.state.diskmax → pl.1.buffer j = stripe_data w pl.1.state i j)
    (hP : (w.parity_read i).1 ≠ -1)
    (hPd : (x.raid_gen pl.1.state.level (stripe_data w pl.1.state i) pl.1.state.diskmax
          pl.1.state.block_size pl.1.state.diskmax).take pl.1.state.block_size
        = (w.parity_read i).2.take pl.1.state.block_size)
    (hQ : pl.1.state.level ≥ 2 → (w.qarity_read i).1 ≠ -1
      ∧ (x.raid_gen pl.1.state.level (stripe_data w pl.1.state i) pl.1.state.diskmax
            pl.1.state.block_size (pl.1.state.diskmax + 1)).take pl.1.state.block_size
          = (w.qarity_read i).2.take pl.1.state.block_size)
    (he : pl.1.error < U32) (hs : pl.1.silent_error < U32) :
    (parity_verdict i (parity_load x w i pl)).2 = pl.2
    ∧ (parity_verdict i (parity_load x w i pl)).1.error = pl.1.error := by
  have fr := parity_load_frame x w i pl
  obtain ⟨v1, -, v3, v4, vu⟩ := parity_verdict_spec i (parity_load x w i pl) (fr.error_lt he)
    (fr.silent_lt hs)
  rw [fr.state] at v1 v3 v4
  rcases hlevel with h1 | h2
  · -- one parity level
    have hload : (parity_load x w i pl).pl.2 = pl.2
        ∧ (parity_load x w i pl).pl.1.error = pl.1.error
        ∧ (parity_load x w i pl).pl.1.buffer
          = x.raid_gen 1 (upd pl.1.buffer (pl.1.state.diskmax + 1) (w.parity_read i).2)
              pl.1.state.diskmax pl.1.state.block_size
        ∧ (parity_load x w i pl).buffer_parity = some (pl.1.state.diskmax + 1) := by
      unfold parity_load parity_fetch
      simp [h1, hP]
    obtain ⟨l1, l2, l3, l4⟩ := hload
    rw [h1] at hraid hPd
    have hpd : parity_differs (parity_load x w i pl).pl.1 pl.1.state.diskmax
        (parity_load x w i pl).buffer_parity = false := by
      rw [l4]
      unfold parity_differs
      simp only [decide_eq_false_iff_not, not_not]
      rw [l3, fr.state, hraid.writes _ pl.1.state.diskmax _ (pl.1.state.diskmax + 1) (by omega),
        upd_same,
        hraid.reads _ (stripe_data w pl.1.state i) _ _
          (fun j hj => by rw [upd_other _ _ _ _ (by omega)]; exact hbuf j hj)
          pl.1.state.diskmax (le_refl _) (by omega)]
      exact hPd
    rw [hpd, h1] at v1 v3 v4
    simp only [Bool.toNat_false, Nat.add_zero, ge_iff_le, Nat.not_ofNat_le_one, decide_False,
      Bool.false_and, Bool.or_false, Bool.and_false] at v1 v3 v4
    refine ⟨?_, by rw [v1, l2, Nat.mod_eq_of_lt he]⟩
    rw [← l1]
    rcases hq : parity_verdict i (parity_load x w i pl) with ⟨a, b⟩
    rw [hq] at v3 v4 vu
    simp only [] at v3 v4 vu ⊢
    rcases b with ⟨b1, b2, b3⟩
    rcases hl : (parity_load x w i pl).pl.2 with ⟨c1, c2, c3⟩
    rw [hl] at v3 v4 vu
    simp only [] at v3 v4 vu
    rw [v3, v4, vu]
  · -- two parity levels
    obtain ⟨hQr, hQd⟩ := hQ (by omega)
    have hload : (parity_load x w i pl).pl.2 = pl.2
        ∧ (parity_load x w i pl).pl.1.error = pl.1.error
        ∧ (parity_load x w i pl).pl.1.buffer
          = x.raid_gen 2 (upd (upd pl.1.buffer (pl.1.state.diskmax + 2) (w.parity_read i).2)
              (pl.1.state.diskmax + 3) (w.qarity_read i).2)
              pl.1.state.diskmax pl.1.state.block_size
        ∧ (parity_load x w i pl).buffer_parity = some (pl.1.state.diskmax + 2)
        ∧ (parity_load x w i pl).buffer_qarity = some (pl.1.state.diskmax + 3) := by
      unfold parity_load parity_fetch
      simp [h2, hP, hQr]
    obtain ⟨l1, l2, l3, l4, l5⟩ := hload
    rw [h2] at hraid hPd hQd
    have hagree : ∀ j, j < pl.1.state.diskmax →
        upd (upd pl.1.buffer (pl.1.state.diskmax + 2) (w.parity_read i).2)
          (pl.1.state.diskmax + 3) (w.qarity_read i).2 j = stripe_data w pl.1.state i j := by
      intro j hj
      rw [upd_other _ _ _ _ (by omega), upd_other _ _ _ _ (by omega)]
      exact hbuf j hj
    have hpd : parity_differs (parity_load x w i pl).pl.1 pl.1.state.diskmax
        (parity_load x w i pl).buffer_parity = false := by
      rw [l4]
      unfold parity_differs
      simp only [decide_eq_false_iff_not, not_not]
      rw [l3, fr.state, hraid.writes _ pl.1.state.diskmax _ (pl.1.state.diskmax + 2) (by omega),
        upd_other _ _ _ _ (by omega), upd_same,
        hraid.reads _ (stripe_data w pl.1.state i) _ _ hagree pl.1.state.diskmax (le_refl _)
          (by omega)]
      exact hPd
    have hqd : parity_differs (parity_load x w i pl).pl.1 (pl.1.state.diskmax + 1)
        (parity_load x w i pl).buffer_qarity = false := by
      rw [l5]
      unfold parity_differs
      simp only [decide_eq_false_iff_not, not_not]
      rw [l3, fr.state, hraid.writes _ pl.1.state.diskmax _ (pl.1.state.diskmax + 3) (by omega),
        upd_same,
        hraid.reads _ (stripe_data w pl.1.state i) _ _ hagree (pl.1.state.diskmax + 1) (by omega)
          (by omega)]
      exact hQd
    rw [hpd, hqd] at v1 v3 v4
    simp only [Bool.toNat_false, Nat.add_zero, Bool.and_false, Bool.or_false] at v1 v3 v4
    refine ⟨?_, by rw [v1, l2, Nat.mod_eq_of_lt he]⟩
    rw [← l1]
    rcases hq : parity_verdict i (parity_load x w i pl) with ⟨a, b⟩
    rw [hq] at v3 v4 vu
    simp only [] at v3 v4 vu ⊢
    rcases b with ⟨b1, b2, b3⟩
    rcases hl : (parity_load x w i pl).pl.2 with ⟨c1, c2, c3⟩
    rw [hl] at v3 v4 vu
    simp only [] at v3 v4 vu
    rw [v3, v4, vu]


/-- Verification of a stripe in order ends with both flags clear and counts no
error. -/
theorem verify_sound (x : Helpers) (w : World) (i : Nat) (rehash : Bool) (p : Proc)
    (hraid : RaidLaws x p.state.level) (hlevel : p.state.level = 1 ∨ p.state.level = 2)
    (hv : (verify x w i rehash p).1 = .next) (hs : stripe_sound x w p.state i rehash)
    (he : p.error < U32) (hse : p.silent_error < U32) :
    (verify x w i rehash p).2.2.error_on_this_block = false
    ∧ (verify x w i rehash p).2.2.silent_error_on_this_block = false
    ∧ (verify x w i rehash p).2.1.error = p.error := by
  obtain ⟨hd, hP, hPd, hQ⟩ := hs
  have fr := disk_loop_frame x w i rehash p.state.diskmax 0 (p, ⟨false, false, false⟩)
  have hl := disk_loop_sound x w i rehash p.state.diskmax 0 (p, ⟨false, false, false⟩)
  unfold verify at hv ⊢
  simp only [] at hv ⊢
  rcases hD : disk_loop x w i rehash p.state.diskmax 0 (p, ⟨false, false, false⟩) with ⟨f, pl0⟩
  rw [hD] at hv fr hl
  cases f
  · simp only [] at fr hl ⊢
    obtain ⟨a1, a2, a3, -⟩ := hl trivial (fun j _ hj => hd j (by omega))
    have hst : pl0.1.state = p.state := fr.state
    have hpc : parity_check x w i pl0 = parity_verdict i (parity_load x w i pl0) := by
      unfold parity_check
      rw [if_pos (by rw [a1]; rfl)]
    rw [hpc]
    obtain ⟨b1, b2⟩ := parity_check_sound x w i pl0 (by rw [hst]; exact hraid)
      (by rw [hst]; exact hlevel)
      (fun j hj => by rw [hst] at hj ⊢; exact a3 j (Nat.zero_le _) (by omega))
      hP (by rw [hst]; exact hPd) (by rw [hst]; exact hQ) (fr.error_lt he) (fr.silent_lt hse)
    rw [b1, b2, a1, a2]
    exact ⟨rfl, rfl, rfl⟩
  · simp at hv
  · simp at hv

/-- The stored hashes after a visited stripe that verifies clean with `rehash`
set: every block with a file holds the hash of the bytes read under the current
hash function. -/
theorem visit_clean_hash (x : Helpers) (w : World) (now : Int) (i : Nat) (p : Proc)
    (hv : (verify x w i (x.info_get_rehash (p.state.infoarr i)) p.count_visit).1 = .next)
    (he : (verify x w i (x.info_get_rehash (p.state.infoarr i))
      p.count_visit).2.2.error_on_this_block = false)
    (hs : (verify x w i (x.info_get_rehash (p.state.infoarr i))
      p.count_visit).2.2.silent_error_on_this_block = false)
    (hr : x.info_get_rehash (p.state.infoarr i) = true)
    (j : Nat) (hj : j < p.state.diskmax) (hd : p.state.disk j = true) (file : snapraid_file)
    (hf : (p.state.block j i).file = some file) :
    ((visit x w now i (p.state.infoarr i) p).2.state.block j i).hash
      = x.memhash p.state.hash p.state.hashseed
          ((w.handle_read i j).2.take (w.handle_read i j).1.toNat) := by
  have fr := verify_frame x w i (x.info_get_rehash (p.state.infoarr i)) p.count_visit
  have st := verify_staged x w i (x.info_get_rehash (p.state.infoarr i)) p.count_visit
    (verify x w i (x.info_get_rehash (p.state.infoarr i)) p.count_visit).2
    (by rw [← hv])
  have cs := verify_clean_staged x w i (x.info_get_rehash (p.state.infoarr i)) p.count_visit
    hv he hr j hj hd file hf
  rw [visit_eq x w now i _ p hv, (finish_stripe_fields w i _).2.2.2.2.1]
  unfold outcome
  rw [if_neg (by simp [hs]), if_neg (by simp [he]), if_pos hr]
  have hdm : (verify x w i (x.info_get_rehash (p.state.infoarr i)) p.count_visit).2.1.state.diskmax
      = p.state.diskmax := by rw [fr.state]; rfl
  rw [hdm]
  have hb : ((verify x w i (x.info_get_rehash (p.state.infoarr i))
      p.count_visit).2.1.rehandle j).block = some (j, i) := by rw [cs]
  obtain ⟨-, c2⟩ := rehash_commit_spec i p.state.diskmax 0
    (verify x w i (x.info_get_rehash (p.state.infoarr i)) p.count_visit).2.1 st
  show ((rehash_commit p.state.diskmax 0
    (verify x w i (x.info_get_rehash (p.state.infoarr i)) p.count_visit).2.1).state.block j i).hash
      = _
  rw [c2 j i, if_pos ⟨rfl, Nat.zero_le _, by omega, hb⟩, cs]
  rfl

/-- A visited stripe whose info word has the rehash flag clear leaves every block
of the catalog as it was. -/
theorem visit_block_keep (x : Helpers) (w : World) (now : Int) (i : Nat) (info : Nat) (p : Proc)
    (hr : x.info_get_rehash info = false) :
    (visit x w now i info p).2.state.block = p.state.block := by
  have fr := verify_frame x w i (x.info_get_rehash info) p.count_visit
  have hst : (verify x w i (x.info_get_rehash info) p.count_visit).2.1.state = p.state := by
    rw [fr.state]
    rfl
  rcases hV : verify x w i (x.info_get_rehash info) p.count_visit with ⟨f, pl⟩
  rw [hV] at hst
  simp only [] at hst
  cases f
  · rw [visit_eq x w now i info p (by rw [hV]), (finish_stripe_fields w i _).2.2.2.2.1, hV]
    unfold outcome
    simp only [hr, Bool.false_eq_true, if_false]
    repeat' split
    all_goals simp [hst]
  · unfold visit
    simp only [hV]
    rw [hst]
  · unfold visit
    simp only [hV]
    rw [hst]

/-- A visited stripe in order: no error is counted and the info word becomes
`info_make(now, 0, 0)`. -/
theorem visit_sound (x : Helpers) (w : World) (now : Int) (i : Nat) (p : Proc)
    (hraid : RaidLaws x p.state.level) (hlevel : p.state.level = 1 ∨ p.state.level = 2)
    (hv : (verify x w i (x.info_get_rehash (p.state.infoarr i)) p.count_visit).1 = .next)
    (hs : stripe_sound x w p.state i (x.info_get_rehash (p.state.infoarr i)))
    (he : p.error < U32) (hse : p.silent_error < U32) :
    (visit x w now i (p.state.infoarr i) p).2.error = p.error
    ∧ (visit x w now i (p.state.infoarr i) p).2.trace.countP Event.is_error_log
      = p.trace.countP Event.is_error_log
    ∧ (x.info_get_rehash (p.state.infoarr i) = true →
        ∀ j, j < p.state.diskmax → p.state.disk j = true →
        ∀ file, (p.state.block j i).file = some file →
        ((visit x w now i (p.state.infoarr i) p).2.state.block j i).hash
          = x.memhash p.state.hash p.state.hashseed
              ((w.handle_read i j).2.take (w.handle_read i j).1.toNat)) := by
  obtain ⟨a1, a2, a3⟩ := verify_sound x w i (x.info_get_rehash (p.state.infoarr i)) p.count_visit
    hraid hlevel hv hs he hse
  have a4 := verify_quiet x w i (x.info_get_rehash (p.state.infoarr i)) p.count_visit a1 a2
  refine ⟨?_, ?_,
    fun hr j hj hd file hf => visit_clean_hash x w now i p hv a1 a2 hr j hj hd file hf⟩
  · rw [visit_eq x w now i _ p hv, (finish_stripe_fields w i _).2.2.2.2.2.2.1,
      (outcome_fields x now i _ _ _).2.2.2.2.2.2.1, a3]
    rfl
  · rw [(visit_save x w now i _ p hv).1, List.countP_append, a4]
    simp only [Proc.count_visit_trace, List.countP_cons, Event.is_error_log]
    split <;> simp [Event.is_error_log]

theorem stripe_sound_congr (x : Helpers) (w : World) (s1 s2 : snapraid_state) (i : Nat)
    (rehash : Bool) (hg : same_setup s1 s2) (hb : ∀ d, s1.block d i = s2.block d i)
    (h : stripe_sound x w s2 i rehash) : stripe_sound x w s1 i rehash := by
  have hdata := stripe_data_congr w s1 s2 i hg (fun d => by rw [hb d])
  obtain ⟨g1, g2, g3, g4, g5, g6, g7, g8, g9⟩ := hg
  unfold stripe_sound disk_sound at h ⊢
  rw [hdata, g1, g2, g3, g4, g5, g6, g8, g9]
  simp only [hb]
  exact h

/-- The processing loop over stripes that are all in order: no error is counted,
and every stripe visited with the rehash flag set gets the current-function hash
of the bytes read as stored hash of each block with a file. -/
theorem process_loop_sound (x : Helpers) (w : World) (now timelimit : Int) (countlimit : Nat)
    (state0 : snapraid_state) (n i : Nat) (p : Proc)
    (hraid : RaidLaws x state0.level) (hlevel : state0.level = 1 ∨ state0.level = 2)
    (hinfo : ∀ k, i ≤ k → p.state.infoarr k = state0.infoarr k)
    (hblock : ∀ d k, i ≤ k → p.state.block d k = state0.block d k)
    (hg : same_setup p.state state0)
    (hflow : (process_loop x w now timelimit countlimit n i p).1 = .next)
    (hsound : ∀ k, k ∈ select_list x state0 timelimit countlimit n i p.recountmax →
      stripe_sound x w state0 k (x.info_get_rehash (state0.infoarr k)))
    (he : p.error < U32) (hse : p.silent_error < U32) :
    (process_loop x w now timelimit countlimit n i p).2.trace.countP Event.is_error_log
      = p.trace.countP Event.is_error_log
    ∧ ∀ k, k ∈ select_list x state0 timelimit countlimit n i p.recountmax →
        x.info_get_rehash (state0.infoarr k) = true →
        ∀ j, j < state0.diskmax → state0.disk j = true →
        ∀ file, (state0.block j k).file = some file →
        ((process_loop x w now timelimit countlimit n i p).2.state.block j k).hash
          = x.memhash state0.hash state0.hashseed
              ((w.handle_read k j).2.take (w.handle_read k j).1.toNat) := by
  induction n generalizing i p with
  | zero =>
    refine ⟨rfl, fun k hk => ?_⟩
    simp [select_list] at hk
  | succ n ih =>
    have hsel := selects_congr x p.state state0 timelimit countlimit i p.recountmax
      (hinfo i (le_refl _)) hg.2.2.2.2.2.2.1
    have hit := process_iter_eq x w now timelimit countlimit i p
    rw [hsel] at hit
    have hsl : select_list x state0 timelimit countlimit (n + 1) i p.recountmax
        = if selects x state0 timelimit countlimit i p.recountmax = true
          then i :: select_list x state0 timelimit countlimit n (i + 1) (p.recountmax + 1)
          else select_list x state0 timelimit countlimit n (i + 1) p.recountmax := rfl
    rw [hsl] at hsound ⊢
    unfold process_loop at hflow ⊢
    by_cases hs : selects x state0 timelimit countlimit i p.recountmax = true
    · rw [if_pos hs] at hit hsound ⊢
      rw [hit] at hflow ⊢
      obtain ⟨v1, v2, -⟩ := visit_spec x w now i (p.state.infoarr i) p
      have hvn : (visit x w now i (p.state.infoarr i) p).1 = .next := by
        rcases hq : visit x w now i (p.state.infoarr i) p with ⟨f, p1⟩
        rw [hq] at hflow
        cases f
        · rfl
        · simp at hflow
        · simp at hflow
      have hv := visit_flow_next x w now i (p.state.infoarr i) p hvn
      obtain ⟨g1, g2, g3, g4, g5, g6, g7, g8, g9⟩ := hg
      have hsi : stripe_sound x w p.state i (x.info_get_rehash (p.state.infoarr i)) := by
        rw [hinfo i (le_refl _)]
        exact stripe_sound_congr x w p.state state0 i _ ⟨g1, g2, g3, g4, g5, g6, g7, g8, g9⟩
          (fun d => hblock d i (le_refl _)) (hsound i (List.mem_cons_self _ _))
      obtain ⟨s0, s1, s2⟩ := visit_sound x w now i p (by rw [g1]; exact hraid)
        (by rw [g1]; exact hlevel) hv hsi he hse
      rcases hq : visit x w now i (p.state.infoarr i) p with ⟨f, p1⟩
      rw [hq] at v1 v2 hvn hflow s0 s1 s2
      simp only [] at v1 v2 hvn hflow s0 s1 s2 ⊢
      subst hvn
      simp only [] at hflow ⊢
      have hinfo1 : ∀ k, i + 1 ≤ k → p1.state.infoarr k = state0.infoarr k :=
        fun k hk => by rw [v1.infoarr k (by omega)]; exact hinfo k (by omega)
      have hblock1 : ∀ d k, i + 1 ≤ k → p1.state.block d k = state0.block d k :=
        fun d k hk => by rw [v1.block d k (by omega)]; exact hblock d k (by omega)
      have hg1 : same_setup p1.state state0 :=
        ⟨by rw [v1.level, g1], by rw [v1.block_size, g2], by rw [v1.hash, g3],
          by rw [v1.hashseed, g4], by rw [v1.prevhash, g5], by rw [v1.prevhashseed, g6],
          by rw [v1.opt, g7], by rw [v1.diskmax, g8], by rw [v1.disk, g9]⟩
      obtain ⟨i1, i2⟩ := ih (i + 1) p1 hinfo1 hblock1 hg1 hflow
        (fun k hk => hsound k (List.mem_cons_of_mem _ (by rw [v2] at hk; exact hk)))
        (v1.error_lt he) (v1.silent_lt hse)
      obtain ⟨l1, -⟩ := process_loop_visited x w now timelimit countlimit state0 n (i + 1) p1
        hinfo1 (by rw [v1.opt, g7])
      refine ⟨by rw [i1, s1], fun k hk hr j hj hd file hf => ?_⟩
      rcases List.mem_cons.mp hk with hk | hk
      · subst hk
        rw [l1.block j k (by omega)]
        rw [s2 (by rw [hinfo k (le_refl _)]; exact hr) j (by rw [g8]; exact hj)
          (by rw [g9]; exact hd) file (by rw [hblock j k (le_refl _)]; exact hf), g3, g4]
      · exact i2 k (by rw [v2]; exact hk) hr j hj hd file hf
    · rw [if_neg hs] at hit hsound ⊢
      rw [hit] at hflow ⊢
      exact ih (i + 1) p (fun k hk => hinfo k (by omega)) (fun d k hk => hblock d k (by omega))
        hg hflow hsound he hse

/-- When no visited stripe waits for a rehash the processing loop changes no
block of the catalog. -/
theorem process_loop_block_keep (x : Helpers) (w : World) (now timelimit : Int)
    (countlimit : Nat) (n i : Nat) (p : Proc)
    (hr : ∀ k, i ≤ k → k < i + n → p.state.infoarr k ≠ 0 →
      x.info_get_rehash (p.state.infoarr k) = false) :
    (process_loop x w now timelimit countlimit n i p).2.state.block = p.state.block := by
  induction n generalizing i p with
  | zero => rfl
  | succ n ih =>
    have hit := process_iter_eq x w now timelimit countlimit i p
    unfold process_loop
    by_cases hs : selects x p.state timelimit countlimit i p.recountmax = true
    · rw [if_pos hs] at hit
      rw [hit]
      obtain ⟨v1, -, -⟩ := visit_spec x w now i (p.state.infoarr i) p
      have hused : p.state.infoarr i ≠ 0 := by
        unfold selects at hs
        simp only [Bool.and_eq_true, decide_eq_true_eq] at hs
        exact hs.1
      have hb := visit_block_keep x w now i (p.state.infoarr i) p
        (hr i (le_refl _) (by omega) hused)
      rcases hq : visit x w now i (p.state.infoarr i) p with ⟨f, p1⟩
      rw [hq] at v1 hb
      simp only [] at v1 hb ⊢
      cases f
      · simp only []
        rw [ih (i + 1) p1 (fun k h1 h2 => by
          rw [v1.infoarr k (by omega)]; exact hr k (by omega) (by omega)), hb]
      · exact hb
      · exact hb
    · rw [if_neg hs] at hit
      rw [hit]
      exact ih (i + 1) p (fun k h1 h2 => hr k (by omega) (by omega))

theorem error_log_stripe (e : Event) (h : e.is_error_log = true) : ∃ k, e.stripe = some k := by
  cases e <;> first | exact ⟨_, rfl⟩ | simp [Event.is_error_log] at h

theorem error_log_counts (e : Event) (h : e.is_error_log = true) : e.counts_error = true := by
  cases e <;> first | rfl | simp [Event.is_error_log] at h

/-- A complete run of `state_scrub_process` over stripes that are all in order:
every selected stripe ends with `info_make(now, 0, 0)`, every selected stripe that
waited for a rehash has the current-function hashes stored, no error line is
logged, and no block changes when no used stripe waited for a rehash. -/
theorem state_scrub_process_sound {lim : Nat} (x : Helpers) (w : World) (state : snapraid_state)
    (blockstart blockmax : Nat) (timelimit : Int) (countlimit : Nat) (now : Int)
    (hraid : RaidLaws x state.level) (hlevel : state.level = 1 ∨ state.level = 2)
    (hflow : (process_run x w state blockstart blockmax timelimit countlimit now lim).flow
      = .next)
    (hsound : ∀ k, k ∈ select_list x state timelimit countlimit (blockmax - blockstart)
        blockstart 0 → stripe_sound x w state k (x.info_get_rehash (state.infoarr k))) :
    (∀ k, k ∈ select_list x state timelimit countlimit (blockmax - blockstart) blockstart 0 →
      (process_run x w state blockstart blockmax timelimit countlimit
        now lim).final.state.infoarr k = x.info_make now 0 0)
    ∧ (∀ k, k ∈ select_list x state timelimit countlimit (blockmax - blockstart) blockstart 0 →
        x.info_get_rehash (state.infoarr k) = true →
        ∀ j, j < state.diskmax → state.disk j = true →
        ∀ file, (state.block j k).file = some file →
        ((process_run x w state blockstart blockmax timelimit countlimit
          now lim).final.state.block j k).hash
          = x.memhash state.hash state.hashseed
              ((w.handle_read k j).2.take (w.handle_read k j).1.toNat))
    ∧ (∀ e, e ∈ (process_run x w state blockstart blockmax timelimit countlimit
        now lim).final.trace → e.is_error_log = false)
    ∧ ((∀ k, blockstart ≤ k → k < blockmax → state.infoarr k ≠ 0 →
          x.info_get_rehash (state.infoarr k) = false) →
        (process_run x w state blockstart blockmax timelimit countlimit
          now lim).final.state.block = state.block) := by
  have hst : (process_run x w state blockstart blockmax timelimit countlimit
      now lim).final.state
      = (process_loop x w now timelimit countlimit (blockmax - blockstart) blockstart
          (process_init x w state blockstart blockmax timelimit countlimit lim)).2.state := by
    unfold process_run
    simp only []
    rw [(close_loop_fields w _ 0 _).2.2.2.1]
    split
    · rfl
    · rw [(summary_fields _).2.2.2.1]
  have hfl : (process_loop x w now timelimit countlimit (blockmax - blockstart) blockstart
      (process_init x w state blockstart blockmax timelimit countlimit lim)).1 = .next := hflow
  obtain ⟨a1, a2⟩ := process_loop_sound x w now timelimit countlimit state
    (blockmax - blockstart) blockstart
    (process_init x w state blockstart blockmax timelimit countlimit lim) hraid hlevel
    (fun _ _ => rfl) (fun _ _ _ => rfl) ⟨rfl, rfl, rfl, rfl, rfl, rfl, rfl, rfl, rfl⟩ hfl hsound
    (by simp [process_init, U32]) (by simp [process_init, U32])
  obtain ⟨l1, -⟩ := process_loop_visited x w now timelimit countlimit state
    (blockmax - blockstart) blockstart
    (process_init x w state blockstart blockmax timelimit countlimit lim) (fun _ _ => rfl) rfl
  have hstop := process_loop_stop x w now timelimit countlimit (blockmax - blockstart) blockstart
    (process_init x w state blockstart blockmax timelimit countlimit lim) (by rw [hfl]; simp)
  have hcnt : (process_loop x w now timelimit countlimit (blockmax - blockstart) blockstart
      (process_init x w state blockstart blockmax timelimit countlimit lim)).2.trace.countP
        Event.counts_error
      = (process_init x w state blockstart blockmax timelimit countlimit lim).trace.countP
        Event.counts_error := by
    rw [countP_counts_error_eq _ (by rw [hstop]; rfl), a1]
    rfl
  refine ⟨?_, ?_, ?_, ?_⟩
  · rw [hst]
    exact process_loop_clean x w now timelimit countlimit state (blockmax - blockstart)
      blockstart (process_init x w state blockstart blockmax timelimit countlimit lim)
      (fun _ _ => rfl) rfl hfl (by omega)
  · rw [hst]
    exact a2
  · intro e he
    by_contra hlog
    simp only [Bool.not_eq_false] at hlog
    obtain ⟨k, hk⟩ := error_log_stripe e hlog
    have hloop : e ∈ (process_loop x w now timelimit countlimit (blockmax - blockstart) blockstart
        (process_init x w state blockstart blockmax timelimit countlimit lim)).2.trace := by
      unfold process_run at he
      simp only [] at he
      rcases (close_loop_frame (fun _ => False) w _ 0 _).events e he with h | h
      · rw [if_neg (by rw [hfl]; simp)] at h
        rcases (summary_frame (fun _ => False) _).events e h with h | h
        · exact h
        · exact absurd (h k hk) (by simp)
      · exact absurd (h k hk) (by simp)
    have h0 : (process_init x w state blockstart blockmax timelimit countlimit lim).trace.countP
        Event.counts_error = 0 := rfl
    rw [h0, List.countP_eq_zero] at hcnt
    have := hcnt e hloop
    rw [error_log_counts e hlog] at this
    exact this rfl
  · intro hr
    rw [hst]
    exact process_loop_block_keep x w now timelimit countlimit (blockmax - blockstart) blockstart
      (process_init x w state blockstart blockmax timelimit countlimit lim)
      (fun k h1 h2 hk => hr k h1 (by omega) hk)


/-- A forced scrub over the whole array of stripes that are all in order, on an
array whose used words all have a time `<= now`: `state_scrub` returns, and a
complete scan leaves every used word at `info_make(now, 0, 0)`, stores the
current-function hashes in the stripes that waited for a rehash, logs no error
line and changes no block when no stripe waited for a rehash. -/
theorem forced_scrub_sound (x : Helpers) (w : World) (state : snapraid_state) (now : Int)
    (hlaws : InfoLaws x) (hraid : RaidLaws x state.level)
    (hlevel : state.level = 1 ∨ state.level = 2) (hnow : 0 ≤ now) (hbm : w.parity_size < U32)
    (heven : state.opt.force_scrub_even = false)
    (hforce : state.opt.force_scrub = w.parity_size)
    (hne : infomap state w.parity_size ≠ [])
    (hpo : w.parity_open ≠ -1) (hqo : ¬ (state.level ≥ 2 ∧ w.qarity_open = -1))
    (htime : ∀ i, i < w.parity_size → state.infoarr i ≠ 0 →
      x.info_get_time (state.infoarr i) ≤ now)
    (hsound : ∀ i, i < w.parity_size → state.infoarr i ≠ 0 →
      stripe_sound x w state i (x.info_get_rehash (state.infoarr i)))
    (hdiv : (state.diskmax * state.block_size) % U32 ≠ 0) :
    ∃ ret r, state_scrub x w state now = .ok (ret, r)
      ∧ (r.flow = .next →
        visited r.final.trace
          = (List.range w.parity_size).filter (fun i => decide (state.infoarr i ≠ 0))
        ∧ (∀ i, i < w.parity_size → state.infoarr i ≠ 0 →
            r.final.state.infoarr i = x.info_make now 0 0)
        ∧ (∀ i, i < w.parity_size → state.infoarr i ≠ 0 →
            x.info_get_rehash (state.infoarr i) = true →
            ∀ j, j < state.diskmax → state.disk j = true →
            ∀ file, (state.block j i).file = some file →
            (r.final.state.block j i).hash
              = x.memhash state.hash state.hashseed
                  ((w.handle_read i j).2.take (w.handle_read i j).1.toNat))
        ∧ (∀ e, e ∈ r.final.trace → e.is_error_log = false)
        ∧ ((∀ k, k < w.parity_size → state.infoarr k ≠ 0 →
              x.info_get_rehash (state.infoarr k) = false) →
            r.final.state.block = state.block)) := by
  obtain ⟨ret, r, hret, hspec⟩ := forced_full_scrub_spec x w state now w.parity_size hlaws hnow
    hbm heven hforce (infomap_length_le state w.parity_size) hne hpo hqo htime
    (autosave_limit_some state hdiv)
  refine ⟨ret, r, hret, fun hflow => ?_⟩
  obtain ⟨hvis, hall, -⟩ := hspec hflow
  obtain ⟨tl, cl, lim, -, -, hr⟩ := state_scrub_inv x w state now ret r hret
  subst hr
  obtain ⟨v1, -, -⟩ := state_scrub_process_visited x w state 0 w.parity_size tl cl now hflow
  have hmem : ∀ i, i < w.parity_size → state.infoarr i ≠ 0 →
      i ∈ select_list x state tl cl (w.parity_size - 0) 0 0 := by
    intro i hi hu
    rw [← v1]
    exact hall i hi hu
  obtain ⟨s1, s2, s3, s4⟩ := state_scrub_process_sound x w state 0 w.parity_size tl cl now
    hraid hlevel hflow (fun k hk => by
      have hrg := select_list_range x state tl cl _ _ _ k hk
      exact hsound k (by omega) (select_list_used x state tl cl _ _ _ k hk))
  exact ⟨hvis, fun i hi hu => s1 i (hmem i hi hu),
    fun i hi hu hr => s2 i (hmem i hi hu) hr, s3, fun h => s4 (fun k _ hk => h k hk)⟩

/-- After a rehash scrub the stripe is in order under the current hash
function. -/
theorem stripe_sound_after (x : Helpers) (w : World) (s1 s : snapraid_state) (k : Nat)
    (hg : same_setup s1 s)
    (hfile : ∀ d, (s1.block d k).file = (s.block d k).file)
    (hhash : ∀ j, j < s.diskmax → s.disk j = true → ∀ file, (s.block j k).file = some file →
      (s1.block j k).hash = x.memhash s.hash s.hashseed
        ((w.handle_read k j).2.take (w.handle_read k j).1.toNat))
    (h : stripe_sound x w s k true) : stripe_sound x w s1 k false := by
  have hdata := stripe_data_congr w s1 s k hg hfile
  obtain ⟨g1, g2, g3, g4, g5, g6, g7, g8, g9⟩ := hg
  obtain ⟨hd, hP, hPd, hQ⟩ := h
  unfold stripe_sound
  rw [hdata, g1, g2, g8]
  refine ⟨fun j hj => ?_, hP, hPd, hQ⟩
  unfold disk_sound
  intro hdj file hf
  rw [g9] at hdj
  rw [hfile j] at hf
  obtain ⟨a1, a2, a3, -⟩ := hd j hj hdj file hf
  refine ⟨a1, a2, a3, fun _ => ?_⟩
  simp only [Bool.false_eq_true, if_false]
  rw [g3, g4, hhash j hj hdj file hf]


/-- Every used stripe of the example array with a stripe dated in the future is in
order under the previous hash function. -/
theorem future_state_sound (i : Nat) (hi : i < demo_world.parity_size)
    (hu : future_state.infoarr i ≠ 0) :
    stripe_sound demo_helpers demo_world future_state i true := by
  have hi4 : i < 4 := hi
  have key : ∀ k, k < 4 → future_state.infoarr k ≠ 0 →
      (demo_world.parity_read k).1 ≠ -1
      ∧ (demo_helpers.raid_gen future_state.level (stripe_data demo_world future_state k)
            future_state.diskmax future_state.block_size future_state.diskmax).take
              future_state.block_size
          = (demo_world.parity_read k).2.take future_state.block_size
      ∧ ∀ j, j < 2 → demo_world.handle_open k j ≠ -1
          ∧ in_sync (demo_world.handle_st k j) (demo_file j)
          ∧ (demo_world.handle_read k j).1 ≠ -1
          ∧ demo_helpers.memhash future_state.prevhash future_state.prevhashseed
              ((demo_world.handle_read k j).2.take (demo_world.handle_read k j).1.toNat)
            = (future_state.block j k).hash := by
    decide
  obtain ⟨k1, k2, k3⟩ := key i hi4 hu
  refine ⟨fun j hj => ?_, k1, k2, fun h => absurd h (by decide)⟩
  intro _ file hf
  have hfile : file = demo_file j := by
    have : some (demo_file j) = some file := hf
    exact (Option.some.inj this).symm
  subst hfile
  obtain ⟨a1, a2, a3, a4⟩ := k3 j hj
  exact ⟨a1, a2, a3, fun _ => a4⟩

/-- C11, counterexample: the example array waiting for a rehash, every used stripe
in order under the previous hash function, with stripe 3 dated in the future
(time 1000) and `force_scrub = blockmax = 4`.  The scrub at `now = 100` takes the
time limit 100 and line 150 skips stripe 3: the complete scan visits stripes 0 and
1 only, and stripe 3 keeps its word 4002 (rehash set, time 1000, not `now`) and on
disk 1 the previous-function hash 8 where the current-function hash of the data
is 7. -/
theorem C11_counterexample :
    (∀ i, i < demo_world.parity_size → future_state.infoarr i ≠ 0 →
      demo_helpers.info_get_rehash (future_state.infoarr i) = true)
    ∧ (∀ i, i < demo_world.parity_size → future_state.infoarr i ≠ 0 →
      stripe_sound demo_helpers demo_world future_state i true)
    ∧ future_state.opt.force_scrub = demo_world.parity_size
    ∧ future_state.opt.force_scrub_even = false
    ∧ future_state.infoarr 3 ≠ 0
    ∧ state_scrub demo_helpers demo_world future_state 100
      = .ok (0, process_run demo_helpers demo_world future_state 0 4 100 3 100 0)
    ∧ (process_run demo_helpers demo_world future_state 0 4 100 3 100 0).flow = .next
    ∧ visited (process_run demo_helpers demo_world future_state 0 4 100 3 100 0).final.trace
      = [0, 1]
    ∧ (process_run demo_helpers demo_world future_state 0 4 100 3 100 0).final.state.infoarr 3
      = 4002
    ∧ demo_helpers.info_get_rehash ((process_run demo_helpers demo_world future_state 0 4 100 3
        100 0).final.state.infoarr 3) = true
    ∧ demo_helpers.info_get_time ((process_run demo_helpers demo_world future_state 0 4 100 3
        100 0).final.state.infoarr 3) = 1000
    ∧ ((process_run demo_helpers demo_world future_state 0 4 100 3 100 0).final.state.block 1
        3).hash = 8
    ∧ demo_helpers.memhash future_state.hash future_state.hashseed
        ((demo_world.handle_read 3 1).2.take (demo_world.handle_read 3 1).1.toNat) = 7 := by
  refine ⟨by decide, future_state_sound, rfl, rfl, by decide, by rfl, by decide, by decide,
    by decide, by decide, by decide, by decide, by decide⟩

/-- C11, amended: rehash idempotence for an array without a stripe dated in the
future.  Take an array whose used stripes all have the rehash flag set, a time
`<= now`, and are in order under the previous hash function
(`stripe_sound ... true`: files open and in sync, reads succeed, every stored
hash is the previous-function hash of the bytes on disk, the parity on disk is
the parity of the data), with `force_scrub = blockmax`, even mode off and one or
two parity levels.  `state_scrub` at time `now` returns when the array has a
used word, the parity files open and the divisor of line 121 is not zero; after
a complete scan every used stripe
has rehash clear and time `now`, and every block with a file has as stored hash
the current-function hash of the same bytes.  A second `state_scrub` of the
resulting catalog, on the same disks at a time `now2 >= now`, returns; in a
complete scan it visits the same used stripes, each read with rehash clear, logs
no error line, gives every used stripe the clean outcome `info_make(now2, 0, 0)`
and changes no block of the catalog, stored hashes included.  The word
`info_make(now, 0, 0)` is taken to differ from the unused word 0. -/
theorem C11_rehash_idempotence (x : Helpers) (w : World) (state : snapraid_state)
    (now now2 : Int) (hlaws : InfoLaws x) (hraid : RaidLaws x state.level)
    (hlevel : state.level = 1 ∨ state.level = 2) (hnow : 0 ≤ now) (hnow2 : now ≤ now2)
    (hmk : x.info_make now 0 0 ≠ 0) (hbm : w.parity_size < U32)
    (heven : state.opt.force_scrub_even = false)
    (hforce : state.opt.force_scrub = w.parity_size)
    (hrehash : ∀ i, i < w.parity_size → state.infoarr i ≠ 0 →
      x.info_get_rehash (state.infoarr i) = true)
    (htime : ∀ i, i < w.parity_size → state.infoarr i ≠ 0 →
      x.info_get_time (state.infoarr i) ≤ now)
    (hsound : ∀ i, i < w.parity_size → state.infoarr i ≠ 0 → stripe_sound x w state i true) :
    (infomap state w.parity_size ≠ [] → w.parity_open ≠ -1 →
      ¬ (state.level ≥ 2 ∧ w.qarity_open = -1) →
      (state.diskmax * state.block_size) % U32 ≠ 0 →
      ∃ ret r, state_scrub x w state now = .ok (ret, r))
    ∧ ∀ ret r, state_scrub x w state now = .ok (ret, r) → r.flow = .next →
      (∀ i, i < w.parity_size → state.infoarr i ≠ 0 →
        x.info_get_rehash (r.final.state.infoarr i) = false
        ∧ x.info_get_time (r.final.state.infoarr i) = now
        ∧ ∀ j, j < state.diskmax → state.disk j = true →
          ∀ file, (state.block j i).file = some file →
          (r.final.state.block j i).hash
            = x.memhash state.hash state.hashseed
                ((w.handle_read i j).2.take (w.handle_read i j).1.toNat))
      ∧ (∃ ret2 r2, state_scrub x w r.final.state now2 = .ok (ret2, r2))
      ∧ ∀ ret2 r2, state_scrub x w r.final.state now2 = .ok (ret2, r2) → r2.flow = .next →
        visited r2.final.trace
          = (List.range w.parity_size).filter (fun i => decide (state.infoarr i ≠ 0))
        ∧ (∀ e, e ∈ r2.final.trace → e.is_error_log = false)
        ∧ (∀ i, i < w.parity_size → state.infoarr i ≠ 0 →
            r2.final.state.infoarr i = x.info_make now2 0 0)
        ∧ r2.final.state.block = r.final.state.block := by
  have hsound0 : ∀ i, i < w.parity_size → state.infoarr i ≠ 0 →
      stripe_sound x w state i (x.info_get_rehash (state.infoarr i)) := by
    intro i hi hu
    rw [hrehash i hi hu]
    exact hsound i hi hu
  refine ⟨fun hne hpo hqo hdiv => ?_, fun ret r hret hflow => ?_⟩
  · obtain ⟨ret, r, h, -⟩ := forced_scrub_sound x w state now hlaws hraid hlevel hnow hbm heven
      hforce hne hpo hqo htime hsound0 hdiv
    exact ⟨ret, r, h⟩
  · obtain ⟨hne, hpo, hqo, tl, cl, lim, -, hlim, hr⟩ := state_scrub_ok x w state now ret r hret
    have hdiv := (autosave_limit_eq_some state lim hlim).1
    obtain ⟨ret1, r1, h1, hspec⟩ := forced_scrub_sound x w state now hlaws hraid hlevel hnow hbm
      heven hforce hne hpo hqo htime hsound0 hdiv
    rw [hret] at h1
    simp only [Except.ok.injEq, Prod.mk.injEq] at h1
    obtain ⟨-, hr1⟩ := h1
    subst hr1
    obtain ⟨-, hinfo, hhash, -, -⟩ := hspec hflow
    have fr := @state_scrub_process_frame lim x w state 0 w.parity_size tl cl now
    rw [← hr] at fr
    have hg : same_setup r.final.state state :=
      ⟨fr.level, fr.block_size, fr.hash, fr.hashseed, fr.prevhash, fr.prevhashseed, fr.opt,
        fr.diskmax, fr.disk⟩
    have hfile : ∀ d k, (r.final.state.block d k).file = (state.block d k).file := fr.block_file
    have hunused : ∀ i, state.infoarr i = 0 → r.final.state.infoarr i = 0 := by
      intro i h0
      rw [fr.infoarr i (fun hS => hS.2.2 h0)]
      exact h0
    have hused1 : ∀ i, i < w.parity_size → r.final.state.infoarr i ≠ 0 → state.infoarr i ≠ 0 :=
      fun i _ h1 h0 => h1 (hunused i h0)
    have hne1 : infomap r.final.state w.parity_size ≠ [] := by
      obtain ⟨i, hi, hu⟩ : ∃ i, i < w.parity_size ∧ state.infoarr i ≠ 0 := by
        by_contra hcon
        apply hne
        unfold infomap
        rw [List.filter_eq_nil_iff]
        intro a ha
        obtain ⟨i, hi, rfl⟩ := List.mem_map.mp ha
        have : state.infoarr i = 0 := by
          by_contra h
          exact hcon ⟨i, List.mem_range.mp hi, h⟩
        simp [this]
      exact List.ne_nil_of_mem (mem_infomap r.final.state w.parity_size i hi
        (by rw [hinfo i hi hu]; exact hmk))
    have hg1 := hg.1
    have hsound1 : ∀ i, i < w.parity_size → r.final.state.infoarr i ≠ 0 →
        stripe_sound x w r.final.state i (x.info_get_rehash (r.final.state.infoarr i)) := by
      intro i hi h1
      have hu := hused1 i hi h1
      have hr0 : x.info_get_rehash (r.final.state.infoarr i) = false := by
        rw [hinfo i hi hu, hlaws.rehash_make]
        simp
      rw [hr0]
      exact stripe_sound_after x w r.final.state state i hg (fun d => hfile d i)
        (fun j hj hd file hf => hhash i hi hu (hrehash i hi hu) j hj hd file hf)
        (hsound i hi hu)
    have htime1 : ∀ i, i < w.parity_size → r.final.state.infoarr i ≠ 0 →
        x.info_get_time (r.final.state.infoarr i) ≤ now2 := by
      intro i hi h1
      rw [hinfo i hi (hused1 i hi h1), hlaws.time_make now 0 0 hnow]
      exact hnow2
    have hraid1 : RaidLaws x r.final.state.level := by rw [hg1]; exact hraid
    have hlevel1 : r.final.state.level = 1 ∨ r.final.state.level = 2 := by rw [hg1]; exact hlevel
    have heven1 : r.final.state.opt.force_scrub_even = false := by
      rw [hg.2.2.2.2.2.2.1]
      exact heven
    have hforce1 : r.final.state.opt.force_scrub = w.parity_size := by
      rw [hg.2.2.2.2.2.2.1]
      exact hforce
    have hqo1 : ¬ (r.final.state.level ≥ 2 ∧ w.qarity_open = -1) := by rw [hg1]; exact hqo
    have hdiv1 : (r.final.state.diskmax * r.final.state.block_size) % U32 ≠ 0 := by
      rw [fr.diskmax, fr.block_size]
      exact hdiv
    obtain ⟨ret2, r2, h2, hspec2⟩ := forced_scrub_sound x w r.final.state now2 hlaws
      hraid1 hlevel1 (le_trans hnow hnow2) hbm heven1 hforce1 hne1 hpo hqo1 htime1 hsound1 hdiv1
    refine ⟨fun i hi hu => ⟨?_, ?_, hhash i hi hu (hrehash i hi hu)⟩, ⟨ret2, r2, h2⟩,
      fun ret3 r3 h3 hflow3 => ?_⟩
    · rw [hinfo i hi hu, hlaws.rehash_make]
      simp
    · rw [hinfo i hi hu, hlaws.time_make now 0 0 hnow]
    · rw [h3] at h2
      simp only [Except.ok.injEq, Prod.mk.injEq] at h2
      obtain ⟨-, hr3⟩ := h2
      subst hr3
      obtain ⟨b1, b2, -, b4, b5⟩ := hspec2 hflow3
      refine ⟨?_, b4, fun i hi hu => ?_, ?_⟩
      · rw [b1]
        apply List.filter_congr
        intro i hi
        have hi := List.mem_range.mp hi
        by_cases hu : state.infoarr i = 0
        · simp [hu, hunused i hu]
        · have : r.final.state.infoarr i ≠ 0 := by
            rw [hinfo i hi hu]
            exact hmk
          simp [hu, this]
      · exact b2 i hi (by rw [hinfo i hi hu]; exact hmk)
      · refine b5 (fun k hk h1 => ?_)
        rw [hinfo k hk (hused1 k hk h1), hlaws.rehash_make]
        simp

/-- Every used stripe of the example array that waits for a rehash is in order
under the previous hash function. -/
theorem rehash_state_sound (i : Nat) (hi : i < demo_world.parity_size)
    (hu : rehash_state.infoarr i ≠ 0) :
    stripe_sound demo_helpers demo_world rehash_state i true := by
  have hi4 : i < 4 := hi
  have key : ∀ k, k < 4 → rehash_state.infoarr k ≠ 0 →
      (demo_world.parity_read k).1 ≠ -1
      ∧ (demo_helpers.raid_gen rehash_state.level (stripe_data demo_world rehash_state k)
            rehash_state.diskmax rehash_state.block_size rehash_state.diskmax).take
              rehash_state.block_size
          = (demo_world.parity_read k).2.take rehash_state.block_size
      ∧ ∀ j, j < 2 → demo_world.handle_open k j ≠ -1
          ∧ in_sync (demo_world.handle_st k j) (demo_file j)
          ∧ (demo_world.handle_read k j).1 ≠ -1
          ∧ demo_helpers.memhash rehash_state.prevhash rehash_state.prevhashseed
              ((demo_world.handle_read k j).2.take (demo_world.handle_read k j).1.toNat)
            = (rehash_state.block j k).hash := by
    decide
  obtain ⟨k1, k2, k3⟩ := key i hi4 hu
  refine ⟨fun j hj => ?_, k1, k2, fun h => absurd h (by decide)⟩
  intro _ file hf
  have hfile : file = demo_file j := by
    have : some (demo_file j) = some file := hf
    exact (Option.some.inj this).symm
  subst hfile
  obtain ⟨a1, a2, a3, a4⟩ := k3 j hj
  exact ⟨a1, a2, a3, fun _ => a4⟩

/-- Witness of C11 on the example array whose three used stripes wait for a
rehash: the scrub at time 100 returns, clears the rehash flag of stripe 3 and
stores the current-function hash 7 in place of 8; the scrub at time 200 returns. -/
theorem C11_rehash_idempotence_witness :
    (∃ ret r, state_scrub demo_helpers demo_world rehash_state 100 = .ok (ret, r))
    ∧ ∀ ret r, state_scrub demo_helpers demo_world rehash_state 100 = .ok (ret, r) →
        r.flow = .next →
        demo_helpers.info_get_rehash (r.final.state.infoarr 3) = false
        ∧ (r.final.state.block 1 3).hash = 7
        ∧ ∃ ret2 r2, state_scrub demo_helpers demo_world r.final.state 200 = .ok (ret2, r2) := by
  obtain ⟨h1, h2⟩ := C11_rehash_idempotence demo_helpers demo_world rehash_state 100 200
    demo_helpers_laws demo_helpers_raid_laws (Or.inl rfl) (by decide) (by decide) (by decide)
    (by decide) rfl rfl (by decide) (by decide) rehash_state_sound
  refine ⟨h1 (by decide) (by decide) (by decide) (by decide), fun ret r hr hf => ?_⟩
  obtain ⟨a, b, -⟩ := h2 ret r hr hf
  obtain ⟨a1, -, a3⟩ := a 3 (by decide) (by decide)
  exact ⟨a1, (a3 1 (by decide) (by decide) (demo_file 1) rfl).trans (by decide), b⟩

end Scrub
